import Mathlib

/-!
# The bees operator network (aleph)

A shallow embedding of `apps/bees/src/net.c`, `net_protected.h` and
`op_pool.c`, and theorems about the network's mutation protocol and its
serialisation.

Conventions of the embedding.

* C integers are `Int`.  A store into a narrower C type goes through `u8`,
  `u16` or `s16`, which wrap exactly as the C conversion does.
* C arrays are total maps `Int → α`; the cells outside the array's bounds stand
  for the memory around the array.  No theorem below depends on the contents of
  such a cell.
* The global variables (`net`, `presets`, the three operator pools and the
  flags) are the fields of `World`; a C function that mutates them is a function
  `World → World`, paired with its return value when it has one.
* An operator instance is held by value in the slot of `net->ops` that points
  to it, together with the address of its pool block (`op_t.addr`).
* What the network consumes from outside `src/` (capacity constants, the
  operator registry, the preset table layout, the parameter backend) is gathered
  in `Env`.
-/

namespace Bees

/-! ## Machine integers and loops -/

/-- Conversion to `u8`. -/
def u8 (x : Int) : Int := x % 256

/-- Conversion to `u16`. -/
def u16 (x : Int) : Int := x % 65536

/-- Conversion to `s16` (two's complement). -/
def s16 (x : Int) : Int := (x + 32768) % 65536 - 32768

/-- Conversion to `u32`. -/
def u32 (x : Int) : Int := x % 4294967296

/-- Array store: `a[i] = v`. -/
def upd {α : Type} (a : Int → α) (i : Int) (v : α) : Int → α :=
  fun j => if j = i then v else a j

/-- The loop `for (i = lo; i < lo + n; i++) body`. -/
def forUp {σ : Type} (lo : Int) : Nat → (Int → σ → σ) → σ → σ
  | 0, _, s => s
  | n + 1, body, s => forUp (lo + 1) n body (body lo s)

/-- The loop `for (i = hi; i > hi - n; i--) body`. -/
def forDown {σ : Type} (hi : Int) : Nat → (Int → σ → σ) → σ → σ
  | 0, _, s => s
  | n + 1, body, s => forDown (hi - 1) n body (body hi s)

/-! ## Data model (`net_protected.h`) -/

/-- Input node (`inode_t`). -/
structure inode where
  /-- parent op index in net list (`s32`) -/
  opIdx : Int
  /-- input index in parent op list (`u8`) -/
  opInIdx : Int
  /-- play inclusion flag (`u8`) -/
  play : Int

/-- Output node (`onode_t`). -/
structure onode where
  /-- output idx in parent op's output list (`u8`) -/
  opOutIdx : Int
  /-- target input idx in net list (`s16`) -/
  target : Int
  /-- parent op's index in net list (`s32`) -/
  opIdx : Int

/-- Parameter descriptor (`ParamDesc`); the network only copies it. -/
structure ParamDesc where
  raw : List Int

/-- Parameter I/O node (`pnode_t`): descriptor, `data.value`, `data.changed`
and the play flag.  The scaler is derived from the descriptor by the parameter
backend and carries no state of its own here. -/
structure pnode where
  desc : ParamDesc
  value : Int
  changed : Int
  play : Int

/-- The part of an operator instance (`op_t`) that the network reads and
writes: its class id, flags, input and output counts, the routing cache
`op->out[]`, and the class-specific state that the class serialises.  The field
`addr` is the address of the pool block holding the instance, that is the
pointer value stored in `net->ops`. -/
structure op_t where
  addr : Int
  type : Int
  flags : Nat
  numInputs : Int
  numOutputs : Int
  out : Int → Int
  data : List Int

/-- The network (`ctlnet_t`, fixed allocation). -/
structure ctlnet where
  ops : Int → op_t
  numOps : Int
  numIns : Int
  numOuts : Int
  numParams : Int
  ins : Int → inode
  outs : Int → onode
  params : Int → pnode

/-- Preset entry for an input: value and inclusion flag. -/
structure preset_inode where
  value : Int
  enabled : Int

/-- Preset entry for an output: target and inclusion flag. -/
structure preset_onode where
  target : Int
  enabled : Int

/-- One preset: entries over the network's global input and output index
spaces. -/
structure preset_t where
  ins : Int → preset_inode
  outs : Int → preset_onode

/-! ## Operator pools (`op_pool.c`, `op_pool.h`) -/

def SMALL_OP_SIZE : Int := 128
def MAX_SMALL_OPS : Int := 500
def MEDIUM_OP_SIZE : Int := 2048
def MAX_MEDIUM_OPS : Int := 200
def BIG_OP_SIZE : Int := 1024 * 16
def MAX_BIG_OPS : Int := 50

/-- Free-list cell (`smallOpCons` and its two siblings): the address of the
block and the next cell, as an index into the pool's cell array (`none` is
`NULL`). -/
structure OpCons where
  head : Int
  tail : Option Int

/-- One pool: the base address of its region (`smallOpData`), its cell array
(`smallOpPool`) and the head of the free list (`smallOpHead`). -/
structure OpPool where
  data : Int
  pool : Int → OpCons
  head : Option Int

/-- Body shared by `initSmallMemPool` and `initBigMemPool`; `region` is what
`alloc_mem` returned. -/
def initMemPool (size max region : Int) (p : OpPool) : OpPool :=
  let p1 : OpPool := { p with data := region }
  let p2 := forUp 0 (max - 1).toNat
    (fun i q => { q with pool := upd q.pool i { head := q.data + i * size, tail := some (i + 1) } }) p1
  let p3 : OpPool :=
    { p2 with pool := upd p2.pool (max - 1) { head := p2.data + (max - 1) * size, tail := none } }
  { p3 with head := some 0 }

def initSmallMemPool (region : Int) (p : OpPool) : OpPool :=
  initMemPool SMALL_OP_SIZE MAX_SMALL_OPS region p

def initBigMemPool (region : Int) (p : OpPool) : OpPool :=
  initMemPool BIG_OP_SIZE MAX_BIG_OPS region p

/-- The medium pool checks the result of `alloc_mem` (`none` is `NULL`). -/
def initMediumMemPool (region : Option Int) (p : OpPool) : OpPool :=
  match region with
  | none => { p with data := 0 }
  | some r => initMemPool MEDIUM_OP_SIZE MAX_MEDIUM_OPS r p

/-- Body shared by `allocSmallOp`, `allocMediumOp`, `allocBigOp`. -/
def allocOp (p : OpPool) : Option Int × OpPool :=
  match p.head with
  | none => (none, p)
  | some h => (some (p.pool h).head, { p with head := (p.pool h).tail })

/-- Body shared by `freeSmallOp`, `freeMediumOp`, `freeBigOp`; C's `%` and `/`
truncate towards zero. -/
def freeOpIn (size max : Int) (region : Int) (p : OpPool) : Int × OpPool :=
  let idx := region - p.data
  if idx.tmod size ≠ 0 then (-1, p)
  else
    let idx := idx.tdiv size
    if idx ≥ max ∨ idx < 0 then (-1, p)
    else (0, { p with pool := upd p.pool idx { p.pool idx with tail := p.head }, head := some idx })

/-- The three pools. -/
structure Pools where
  small : OpPool
  medium : OpPool
  big : OpPool

def allocSmallOp (ps : Pools) : Option Int × Pools :=
  ((allocOp ps.small).1, { ps with small := (allocOp ps.small).2 })

def allocMediumOp (ps : Pools) : Option Int × Pools :=
  ((allocOp ps.medium).1, { ps with medium := (allocOp ps.medium).2 })

def allocBigOp (ps : Pools) : Option Int × Pools :=
  ((allocOp ps.big).1, { ps with big := (allocOp ps.big).2 })

def freeSmallOp (region : Int) (ps : Pools) : Int × Pools :=
  ((freeOpIn SMALL_OP_SIZE MAX_SMALL_OPS region ps.small).1,
   { ps with small := (freeOpIn SMALL_OP_SIZE MAX_SMALL_OPS region ps.small).2 })

def freeMediumOp (region : Int) (ps : Pools) : Int × Pools :=
  ((freeOpIn MEDIUM_OP_SIZE MAX_MEDIUM_OPS region ps.medium).1,
   { ps with medium := (freeOpIn MEDIUM_OP_SIZE MAX_MEDIUM_OPS region ps.medium).2 })

def freeBigOp (region : Int) (ps : Pools) : Int × Pools :=
  ((freeOpIn BIG_OP_SIZE MAX_BIG_OPS region ps.big).1,
   { ps with big := (freeOpIn BIG_OP_SIZE MAX_BIG_OPS region ps.big).2 })

def freeOp (region : Int) (ps : Pools) : Int × Pools :=
  let r1 := freeSmallOp region ps
  if r1.1 ≠ -1 then r1
  else
    let r2 := freeMediumOp region r1.2
    if r2.1 ≠ -1 then r2
    else
      let r3 := freeBigOp region r2.2
      if r3.1 ≠ -1 then r3
      else (0, r3.2)

/-! ## What the network consumes from outside -/

/-- Entry of the operator registry (`op_registry[]`): instance size in bytes,
input and output counts, flags, the state a fresh instance starts with, and the
class's serialiser and deserialiser (`none` is a `NULL` function pointer).  The
deserialiser receives the `legacyRandomFormat` flag, the instance state and the
source bytes, and returns the new state and the rest of the bytes. -/
structure op_class where
  size : Int
  numInputs : Int
  numOutputs : Int
  flags : Nat
  data : List Int
  pickle : Option (List Int → List Int)
  unpickle : Option (Int → List Int → List Int → List Int × List Int)

/-- The constants and collaborators declared in headers that are not part of
the network sources: the capacities of `net.h` and `preset.h`, the extent of
the operator registry, the bit number of the system flag, the registry itself,
and the parameter backend (initial value of a parameter, parameter
serialisation). -/
structure Env where
  NET_OPS_MAX : Int
  NET_INS_MAX : Int
  NET_OUTS_MAX : Int
  NET_PARAMS_MAX : Int
  NET_PRESETS_MAX : Int
  PRESET_INODES_COUNT : Int
  numOpClasses : Int
  eOpFlagSys : Nat
  op_registry : Int → op_class
  param_init_value : Int → ParamDesc → Int
  param_pickle : pnode → List Int
  param_unpickle : pnode → List Int → pnode × List Int

/-- Class ids used by the network code, as listed in the size table of
`net_detect_legacy_format`. -/
def eOpSwitch : Int := 0
def eOpEnc : Int := 1
def eOpAdc : Int := 7
def eOpPreset : Int := 9
def eOpSplit : Int := 12
def eOpRandom : Int := 16

/-- Modelled from the spec: `op_init` (op.c is not among the sources).  A new
instance is default-initialised from its registry entry: class id, flags and
input/output counts of the class, every entry of the routing cache
unconnected (-1), and the class's default state. -/
def op_init (E : Env) (addr : Int) (opId : Int) : op_t :=
  { addr := addr
    type := opId
    flags := (E.op_registry opId).flags
    numInputs := (E.op_registry opId).numInputs
    numOutputs := (E.op_registry opId).numOutputs
    out := fun _ => -1
    data := (E.op_registry opId).data }

/-- The global state: the network, the preset table, the operator pools, and
the flags `netActive`, `recallingScene`, `legacyRandomFormat`. -/
structure World where
  net : ctlnet
  presets : Int → preset_t
  pools : Pools
  netActive : Int
  recallingScene : Int
  legacyRandomFormat : Int

/-! ### Field stores -/

/-- Store `net->ins[i] = v`. -/
def setIn (w : World) (i : Int) (v : inode) : World :=
  { w with net := { w.net with ins := upd w.net.ins i v } }

/-- Store `net->outs[i] = v`. -/
def setOut (w : World) (i : Int) (v : onode) : World :=
  { w with net := { w.net with outs := upd w.net.outs i v } }

/-- Store through `net->ops[i]`. -/
def setOp (w : World) (i : Int) (v : op_t) : World :=
  { w with net := { w.net with ops := upd w.net.ops i v } }

/-- Store `net->params[i] = v`. -/
def setParam (w : World) (i : Int) (v : pnode) : World :=
  { w with net := { w.net with params := upd w.net.params i v } }

/-- Store `presets[p].ins[j] = v`. -/
def setPresetIn (w : World) (p j : Int) (v : preset_inode) : World :=
  { w with presets := upd w.presets p { w.presets p with ins := upd (w.presets p).ins j v } }

/-- Store `presets[p].outs[j] = v`. -/
def setPresetOut (w : World) (p j : Int) (v : preset_onode) : World :=
  { w with presets := upd w.presets p { w.presets p with outs := upd (w.presets p).outs j v } }

/-- Modelled from the spec: `preset_out_enabled` (preset.c is not among the
sources) reads the inclusion flag of an output in a preset. -/
def preset_out_enabled (w : World) (p j : Int) : Int :=
  ((w.presets p).outs j).enabled

/-! ## The network (`net.c`) -/

/-- Initialise an input node. -/
def net_init_inode (idx : Int) (w : World) : World :=
  setIn w idx { w.net.ins idx with opIdx := -1, play := 0 }

/-- Initialise an output node. -/
def net_init_onode (idx : Int) (w : World) : World :=
  setOut w idx { w.net.outs idx with opIdx := -1, target := -1 }

/-- Create a connection between given idx pairs. -/
def net_connect (oIdx iIdx : Int) (w : World) : World :=
  let srcOpIdx := (w.net.outs oIdx).opIdx
  let dstOpIdx := (w.net.ins iIdx).opIdx
  let w1 := setOut w oIdx { w.net.outs oIdx with target := s16 iIdx }
  if srcOpIdx = dstOpIdx then w1
  else if srcOpIdx ≥ 0 ∧ srcOpIdx < w1.net.numOps then
    setOp w1 srcOpIdx
      { w1.net.ops srcOpIdx with
        out := upd (w1.net.ops srcOpIdx).out (w1.net.outs oIdx).opOutIdx (s16 iIdx) }
  else w1

/-- Disconnect given output. -/
def net_disconnect (outIdx : Int) (w : World) : World :=
  let k := (w.net.outs outIdx).opIdx
  let w1 := setOp w k { w.net.ops k with out := upd (w.net.ops k).out (w.net.outs outIdx).opOutIdx (-1) }
  setOut w1 outIdx { w1.net.outs outIdx with target := -1 }

/-- Get connection index for output. -/
def net_get_target (outIdx : Int) (w : World) : Int :=
  (w.net.outs outIdx).target

/-- Search loop of `net_op_in_idx`: `n` iterations remain, `which` is the
loop counter. -/
def net_op_in_idx_loop (w : World) (opIdx inIdx : Int) : Nat → Int → Int
  | 0, _ => 0
  | n + 1, which =>
    if (w.net.ins which).opIdx = opIdx then u16 (which + inIdx)
    else net_op_in_idx_loop w opIdx inIdx n (which + 1)

/-- Get global index for a given input of given op (both arguments `u16`). -/
def net_op_in_idx (opIdx inIdx : Int) (w : World) : Int :=
  net_op_in_idx_loop w (u16 opIdx) (u16 inIdx) w.net.numIns.toNat 0

/-- Search loop of `net_op_out_idx`. -/
def net_op_out_idx_loop (w : World) (opIdx outIdx : Int) : Nat → Int → Int
  | 0, _ => 0
  | n + 1, which =>
    if (w.net.outs which).opIdx = opIdx then u16 (which + outIdx)
    else net_op_out_idx_loop w opIdx outIdx n (which + 1)

/-- Get global index for a given output of given op (both arguments `u16`). -/
def net_op_out_idx (opIdx outIdx : Int) (w : World) : Int :=
  net_op_out_idx_loop w (u16 opIdx) (u16 outIdx) w.net.numOuts.toNat 0

/-- Test a flag of an operator: `flags & (1 << flag)`, returned as `u8`; the
operator index is a `u16` argument. -/
def net_op_flag (opIdx : Int) (flag : Nat) (w : World) : Nat :=
  ((w.net.ops (u16 opIdx)).flags &&& (1 <<< flag)) % 256

/-- Allocation step of `net_add_op` and `net_add_op_at`: the small pool for
sizes up to `SMALL_OP_SIZE`, the big pool for sizes up to `BIG_OP_SIZE`, and no
instance (`NULL`) for larger sizes. -/
def net_alloc_op (opChunk : Int) (ps : Pools) : Option Int × Pools :=
  if opChunk ≤ SMALL_OP_SIZE then allocSmallOp ps
  else if opChunk ≤ BIG_OP_SIZE then allocBigOp ps
  else (none, ps)

/-! ### `net_add_op` -/

/-- Body of the first node loop of `net_add_op`: append one input node. -/
def net_add_op_in_node (i : Int) (w : World) : World :=
  let w := setIn w w.net.numIns { w.net.ins w.net.numIns with opIdx := w.net.numOps }
  let w := setIn w w.net.numIns { w.net.ins w.net.numIns with opInIdx := u8 i }
  { w with net := { w.net with numIns := u16 (w.net.numIns + 1) } }

/-- Body of the second node loop of `net_add_op`: append one output node. -/
def net_add_op_out_node (i : Int) (w : World) : World :=
  let w := setOut w w.net.numOuts { w.net.outs w.net.numOuts with opIdx := w.net.numOps }
  let w := setOut w w.net.numOuts { w.net.outs w.net.numOuts with opOutIdx := u8 i }
  let w := setOut w w.net.numOuts { w.net.outs w.net.numOuts with target := -1 }
  { w with net := { w.net with numOuts := u16 (w.net.numOuts + 1) } }

/-- Body of the preset loop inside the outs loop of `net_add_op`: output `i` in
preset `j`. -/
def net_add_op_preset_out (ins numInsSave : Int) (i j : Int) (w : World) : World :=
  if preset_out_enabled w j i ≠ 0 then
    let tar := ((w.presets j).outs i).target
    if tar ≥ numInsSave then
      setPresetOut w j i { (w.presets j).outs i with target := s16 (tar + ins) }
    else w
  else w

/-- Body of the outs loop of `net_add_op`: move a connection to a parameter
past the new inputs, in the network and in every preset. -/
def net_add_op_shift (E : Env) (ins numInsSave : Int) (i : Int) (w : World) : World :=
  let w :=
    if (w.net.outs i).target ≥ numInsSave then net_connect i ((w.net.outs i).target + ins) w
    else w
  forUp 0 E.NET_PRESETS_MAX.toNat (net_add_op_preset_out ins numInsSave i) w

/-- Body of the parameter loop of `net_add_op`: move the preset entry of
parameter `j` in preset `i` past the new inputs. -/
def net_add_op_param (E : Env) (ins numInsSave : Int) (i j : Int) (w : World) : World :=
  let idxOld := j + numInsSave
  let idxNew := idxOld + ins
  if idxNew ≥ E.PRESET_INODES_COUNT then w
  else
    let w := setPresetIn w i idxNew
      { (w.presets i).ins idxNew with value := ((w.presets i).ins idxOld).value }
    let w := setPresetIn w i idxNew
      { (w.presets i).ins idxNew with enabled := ((w.presets i).ins idxOld).enabled }
    let w := setPresetIn w i idxOld { (w.presets i).ins idxOld with enabled := 0 }
    setPresetIn w i idxOld { (w.presets i).ins idxOld with value := 0 }

/-- Body of the preset loop of `net_add_op`: the parameter loop for preset
`i`, walking down from the last parameter. -/
def net_add_op_params (E : Env) (ins numInsSave : Int) (i : Int) (w : World) : World :=
  forDown (w.net.numParams - 1) w.net.numParams.toNat (net_add_op_param E ins numInsSave i) w

/-- The part of `net_add_op` that links the new operator in: the store of the
op pointer and the two node loops. -/
def net_add_op_nodes (op : op_t) (ins outs : Int) (w : World) : World :=
  let w := setOp w w.net.numOps op
  let w := forUp 0 ins.toNat net_add_op_in_node w
  forUp 0 outs.toNat net_add_op_out_node w

/-- The block `if (net->numOps > 0)` of `net_add_op`: adjust the connections to
DSP params, in the network and in all presets. -/
def net_add_op_adjust (E : Env) (ins numInsSave numOutsSave : Int) (w : World) : World :=
  if w.net.numOps > 0 then
    let w := forUp 0 numOutsSave.toNat (net_add_op_shift E ins numInsSave) w
    forUp 0 E.NET_PRESETS_MAX.toNat (net_add_op_params E ins numInsSave) w
  else w

/-- Attempt to allocate a new operator from the static memory pool, return
index (fixed-capacity build). -/
def net_add_op (E : Env) (opId : Int) (w : World) : Int × World :=
  let numInsSave := w.net.numIns
  let numOutsSave := w.net.numOuts
  if opId < 0 ∨ opId ≥ E.numOpClasses then (-1, w)
  else if w.net.numOps ≥ E.NET_OPS_MAX then (-1, w)
  else if opId ≥ E.numOpClasses then (-1, w)
  else
    let opChunk := (E.op_registry opId).size
    let a := net_alloc_op opChunk w.pools
    match a.1 with
    | none => (-1, { w with pools := a.2 })
    | some addr =>
      let w : World := { w with pools := a.2 }
      let op := op_init E addr opId
      let ins := u16 op.numInputs
      let outs := u16 op.numOutputs
      if ins > E.NET_INS_MAX - w.net.numIns then
        (-1, { w with pools := (freeOp addr w.pools).2 })
      else if outs > E.NET_OUTS_MAX - w.net.numOuts then
        (-1, { w with pools := (freeOp addr w.pools).2 })
      else
        let w := net_add_op_nodes op ins outs w
        let w := net_add_op_adjust E ins numInsSave numOutsSave w
        let w : World := { w with net := { w.net with numOps := u16 (w.net.numOps + 1) } }
        (s16 (w.net.numOps - 1), w)

/-! ### `net_add_op_at` -/

/-- Body of the operator shift loop of `net_add_op_at`. -/
def net_add_op_at_move_op (i : Int) (w : World) : World :=
  setOp w i (w.net.ops (i - 1))

/-- Body of the output shift loop of `net_add_op_at`. -/
def net_add_op_at_move_out (outs : Int) (i : Int) (w : World) : World :=
  let w := setOut w i (w.net.outs (i - outs))
  setOut w i { w.net.outs i with opIdx := (w.net.outs i).opIdx + 1 }

/-- Body of the input shift loop of `net_add_op_at`. -/
def net_add_op_at_move_in (ins : Int) (i : Int) (w : World) : World :=
  let w := setIn w i (w.net.ins (i - ins))
  setIn w i { w.net.ins i with opIdx := (w.net.ins i).opIdx + 1 }

/-- Body of the input node loop of `net_add_op_at`. -/
def net_add_op_at_in_node (opIdx opFirstIn : Int) (i : Int) (w : World) : World :=
  let w := setIn w (opFirstIn + i) { w.net.ins (opFirstIn + i) with opIdx := opIdx }
  setIn w (opFirstIn + i) { w.net.ins (opFirstIn + i) with opInIdx := u8 i }

/-- Body of the output node loop of `net_add_op_at`. -/
def net_add_op_at_out_node (opIdx opFirstOut : Int) (i : Int) (w : World) : World :=
  let w := setOut w (opFirstOut + i) { w.net.outs (opFirstOut + i) with opIdx := opIdx }
  let w := setOut w (opFirstOut + i) { w.net.outs (opFirstOut + i) with opOutIdx := u8 i }
  setOut w (opFirstOut + i) { w.net.outs (opFirstOut + i) with target := -1 }

/-- Body of the outs loop of `net_add_op_at`: adjust connections to subsequent
inputs (including DSP params). -/
def net_add_op_at_retarget (ins opFirstIn : Int) (i : Int) (w : World) : World :=
  if (w.net.outs i).target ≥ opFirstIn then net_connect i ((w.net.outs i).target + ins) w
  else w

/-- Body of the first preset loop of `net_add_op_at`: shift input entry `j` of
preset `i`. -/
def net_add_op_at_preset_in (ins : Int) (i j : Int) (w : World) : World :=
  let w := setPresetIn w i j { (w.presets i).ins j with value := ((w.presets i).ins (j - ins)).value }
  let w := setPresetIn w i j { (w.presets i).ins j with enabled := ((w.presets i).ins (j - ins)).enabled }
  setPresetIn w i (j - ins) { (w.presets i).ins (j - ins) with enabled := 0 }

/-- Body of the second preset loop of `net_add_op_at`: shift output entry `j`
of preset `i`. -/
def net_add_op_at_preset_out (outs : Int) (i j : Int) (w : World) : World :=
  let w := setPresetOut w i j { (w.presets i).outs j with target := ((w.presets i).outs (j - outs)).target }
  let w := setPresetOut w i j { (w.presets i).outs j with enabled := ((w.presets i).outs (j - outs)).enabled }
  setPresetOut w i (j - outs) { (w.presets i).outs (j - outs) with enabled := 0 }

/-- Body of the third preset loop of `net_add_op_at`: move the target of
output entry `j` of preset `i`. -/
def net_add_op_at_preset_tar (ins opFirstIn : Int) (i j : Int) (w : World) : World :=
  if ((w.presets i).outs j).enabled ≠ 0 then
    let tar := ((w.presets i).outs j).target
    if tar ≥ opFirstIn then
      setPresetOut w i j { (w.presets i).outs j with target := s16 (tar + ins) }
    else w
  else w

/-- Body of the preset loop of `net_add_op_at`: the three loops for preset
`i`. -/
def net_add_op_at_preset (ins outs opFirstIn opFirstOut : Int) (i : Int) (w : World) : World :=
  let w := forDown (w.net.numParams + w.net.numIns - 1)
    (w.net.numParams + w.net.numIns - 1 - (opFirstIn + ins) + 1).toNat
    (net_add_op_at_preset_in ins i) w
  let w := forDown (w.net.numOuts - 1) (w.net.numOuts - 1 - (opFirstOut + outs) + 1).toNat
    (net_add_op_at_preset_out outs i) w
  forUp 0 w.net.numOuts.toNat (net_add_op_at_preset_tar ins opFirstIn i) w

/-- The position at which `net_add_op_at` inserts. -/
def net_add_op_at_pos (opIdx : Int) (w : World) : Int :=
  let opIdx := opIdx + 1
  let opIdx := if opIdx < 12 then 12 else opIdx
  if opIdx > w.net.numOps then w.net.numOps else opIdx

/-- Body of the loop of `net_add_op_at` that sums the input and output counts
of the operators below the insertion point. -/
def net_add_op_at_sum (w : World) (i : Int) (s : Int × Int) : Int × Int :=
  (s.1 + (w.net.ops i).numInputs, s.2 + (w.net.ops i).numOutputs)

/-- The part of `net_add_op_at` that makes room: the counts are advanced, then
the operators, the output nodes and the input nodes above the insertion point
are moved up, each loop walking down from the top. -/
def net_add_op_at_shift (opIdx ins outs opFirstIn opFirstOut : Int) (w : World) : World :=
  let w : World := { w with net := { w.net with numIns := u16 (w.net.numIns + ins) } }
  let w : World := { w with net := { w.net with numOuts := u16 (w.net.numOuts + outs) } }
  let w : World := { w with net := { w.net with numOps := u16 (w.net.numOps + 1) } }
  let w := forDown (w.net.numOps - 1) (w.net.numOps - 1 - opIdx + 1).toNat
    net_add_op_at_move_op w
  let w := forDown (w.net.numOuts - 1) (w.net.numOuts - 1 - opFirstOut + 1).toNat
    (net_add_op_at_move_out outs) w
  forDown (w.net.numIns - 1) (w.net.numIns - 1 - opFirstIn + 1).toNat
    (net_add_op_at_move_in ins) w

/-- The part of `net_add_op_at` that links the new operator in: the store of
the op pointer and the two node loops. -/
def net_add_op_at_nodes (op : op_t) (opIdx ins outs opFirstIn opFirstOut : Int) (w : World) :
    World :=
  let w := setOp w opIdx op
  let w := forUp 0 ins.toNat (net_add_op_at_in_node opIdx opFirstIn) w
  forUp 0 outs.toNat (net_add_op_at_out_node opIdx opFirstOut) w

/-- The block `if (net->numOps > 0)` of `net_add_op_at`: adjust the connections
to subsequent inputs, then the presets. -/
def net_add_op_at_adjust (E : Env) (ins outs opFirstIn opFirstOut : Int) (w : World) : World :=
  if w.net.numOps > 0 then
    let w := forUp 0 w.net.numOuts.toNat (net_add_op_at_retarget ins opFirstIn) w
    forUp 0 E.NET_PRESETS_MAX.toNat (net_add_op_at_preset ins outs opFirstIn opFirstOut) w
  else w

/-- Attempt to allocate a new operator from the static memory pool and insert
it after position `opIdx`, return index. -/
def net_add_op_at (E : Env) (opId : Int) (opIdx : Int) (w : World) : Int × World :=
  let opIdx := net_add_op_at_pos opIdx w
  if w.net.numOps ≥ E.NET_OPS_MAX then (-1, w)
  else
    let opChunk := (E.op_registry opId).size
    let a := net_alloc_op opChunk w.pools
    match a.1 with
    | none => (-1, { w with pools := a.2 })
    | some addr =>
      let w : World := { w with pools := a.2 }
      let op := op_init E addr opId
      let ins := u16 op.numInputs
      let outs := u16 op.numOutputs
      let sums := forUp 0 opIdx.toNat (net_add_op_at_sum w) (0, 0)
      let opFirstIn := sums.1
      let opFirstOut := sums.2
      if ins > E.NET_INS_MAX - w.net.numIns then
        (-1, { w with pools := (freeOp addr w.pools).2 })
      else if outs > E.NET_OUTS_MAX - w.net.numOuts then
        (-1, { w with pools := (freeOp addr w.pools).2 })
      else
        let w := net_add_op_at_shift opIdx ins outs opFirstIn opFirstOut w
        let w := net_add_op_at_nodes op opIdx ins outs opFirstIn opFirstOut w
        let w := net_add_op_at_adjust E ins outs opFirstIn opFirstOut w
        (s16 opIdx, w)

/-! ### `net_pop_op` -/

/-- Body of the outs loop of `net_pop_op`: `x` and `y` bound the inputs of the
last operator, `n` is its input count. -/
def net_pop_op_target (x y n : Int) (i : Int) (w : World) : World :=
  if (w.net.outs i).target ≥ x then
    if (w.net.outs i).target < y then net_disconnect i w
    else net_connect i ((w.net.outs i).target - n) w
  else w

/-- Body of the parameter loop of `net_pop_op`: move the entry of parameter `j`
in preset `i` down by the removed inputs. -/
def net_pop_op_param (ins numInsSave : Int) (i j : Int) (w : World) : World :=
  let idxOld := j + numInsSave
  let idxNew := idxOld - ins
  let w := setPresetIn w i idxNew { (w.presets i).ins idxNew with value := ((w.presets i).ins idxOld).value }
  let w := setPresetIn w i idxNew { (w.presets i).ins idxNew with enabled := ((w.presets i).ins idxOld).enabled }
  let w := setPresetIn w i idxOld { (w.presets i).ins idxOld with enabled := 0 }
  setPresetIn w i idxOld { (w.presets i).ins idxOld with value := 0 }

/-- Body of the preset loop of `net_pop_op`. -/
def net_pop_op_params (ins numInsSave : Int) (i : Int) (w : World) : World :=
  forUp 0 w.net.numParams.toNat (net_pop_op_param ins numInsSave i) w

/-- Destroy last operator created. -/
def net_pop_op (E : Env) (w : World) : Int × World :=
  let opIdx := s16 (w.net.numOps - 1)
  let op := w.net.ops opIdx
  let numInsSave := w.net.numIns
  if net_op_flag opIdx E.eOpFlagSys w ≠ 0 then (1, w)
  else
    let w : World := { w with pools := (freeOp op.addr w.pools).2 }
    let ins := op.numInputs
    let x := net_op_in_idx opIdx 0 w
    let y := x + ins
    let w := forUp 0 w.net.numOuts.toNat (net_pop_op_target x y op.numInputs) w
    let w := forUp x (y - x).toNat (fun x w => net_init_inode (u16 x) w) w
    let x := net_op_out_idx opIdx 0 w
    let y := x + op.numOutputs
    let w := forUp x (y - x).toNat (fun x w => net_init_onode (u16 x) w) w
    let w : World := { w with net := { w.net with numIns := u16 (w.net.numIns - op.numInputs) } }
    let w : World := { w with net := { w.net with numOuts := u16 (w.net.numOuts - op.numOutputs) } }
    let w : World := { w with net := { w.net with numOps := u16 (w.net.numOps - 1) } }
    let w := forUp 0 E.NET_PRESETS_MAX.toNat (net_pop_op_params ins numInsSave) w
    (0, w)

/-! ### `net_remove_op` -/

/-- Body of the first loop of `net_remove_op`: break connections to the
removed operator and move the targets above it down. -/
def net_remove_op_target (opFirstIn opNumInputs : Int) (i : Int) (w : World) : World :=
  if (w.net.outs i).target ≥ opFirstIn ∧ (w.net.outs i).target < opFirstIn + opNumInputs then
    net_disconnect i w
  else if (w.net.outs i).target ≥ opFirstIn + opNumInputs then
    net_connect i ((w.net.outs i).target - opNumInputs) w
  else w

/-- Body of the input reshuffling loop of `net_remove_op`. -/
def net_remove_op_move_in (opNumInputs : Int) (i : Int) (w : World) : World :=
  let w := setIn w i (w.net.ins (i + opNumInputs))
  setIn w i { w.net.ins i with opIdx := (w.net.ins i).opIdx - 1 }

/-- Body of the output reshuffling loop of `net_remove_op`. -/
def net_remove_op_move_out (opIdx opNumOutputs : Int) (i : Int) (w : World) : World :=
  if (w.net.outs i).opIdx ≥ opIdx then
    let w := setOut w i (w.net.outs (i + opNumOutputs))
    setOut w i { w.net.outs i with opIdx := (w.net.outs i).opIdx - 1 }
  else w

/-- Body of the operator shift loop of `net_remove_op`. -/
def net_remove_op_move_op (i : Int) (w : World) : World :=
  setOp w i (w.net.ops (i + 1))

/-- Body of the loop of `net_remove_op` that re-indexes all outputs. -/
def net_remove_op_reindex (i : Int) (w : World) : World :=
  if (w.net.outs i).target ≥ 0 then net_connect i (w.net.outs i).target w else w

/-- Body of the first preset loop of `net_remove_op`: input entry `j` of
preset `i`. -/
def net_remove_op_preset_in (opNumInputs : Int) (i j : Int) (w : World) : World :=
  let w := setPresetIn w i j
    { (w.presets i).ins j with value := ((w.presets i).ins (j + opNumInputs)).value }
  setPresetIn w i j
    { (w.presets i).ins j with enabled := ((w.presets i).ins (j + opNumInputs)).enabled }

/-- Body of the second preset loop of `net_remove_op`: output entry `j` of
preset `i`. -/
def net_remove_op_preset_out (opNumOutputs : Int) (i j : Int) (w : World) : World :=
  let w := setPresetOut w i j
    { (w.presets i).outs j with target := ((w.presets i).outs (j + opNumOutputs)).target }
  setPresetOut w i j
    { (w.presets i).outs j with enabled := ((w.presets i).outs (j + opNumOutputs)).enabled }

/-- Body of the third preset loop of `net_remove_op`: reshuffle or forget the
target of output entry `j` of preset `i`. -/
def net_remove_op_preset_tar (opFirstIn opNumInputs : Int) (i j : Int) (w : World) : World :=
  if ((w.presets i).outs j).enabled ≠ 0 then
    let tar := ((w.presets i).outs j).target
    if tar ≥ opFirstIn + opNumInputs then
      setPresetOut w i j { (w.presets i).outs j with target := s16 (tar - opNumInputs) }
    else if tar ≥ opFirstIn then
      setPresetOut w i j { (w.presets i).outs j with enabled := 0 }
    else w
  else w

/-- Body of the preset loop of `net_remove_op`: the three loops for preset
`i`. -/
def net_remove_op_preset (opFirstIn opFirstOut opNumInputs opNumOutputs : Int) (i : Int)
    (w : World) : World :=
  let w := forUp opFirstIn (w.net.numParams + w.net.numIns - opFirstIn).toNat
    (net_remove_op_preset_in opNumInputs i) w
  let w := forUp opFirstOut (w.net.numOuts - opFirstOut).toNat
    (net_remove_op_preset_out opNumOutputs i) w
  forUp 0 w.net.numOuts.toNat (net_remove_op_preset_tar opFirstIn opNumInputs i) w

/-- The first loop of `net_remove_op`, over all outputs. -/
def net_remove_op_targets (opFirstIn opNumInputs : Int) (w : World) : World :=
  forUp 0 w.net.numOuts.toNat (net_remove_op_target opFirstIn opNumInputs) w

/-- The part of `net_remove_op` that closes the gap: the two reshuffling loops,
the update of the counts and the shift of the operator list. -/
def net_remove_op_shuffle (opIdx opFirstIn opNumInputs opNumOutputs : Int) (w : World) : World :=
  let w := forUp opFirstIn (w.net.numIns - opNumInputs - opFirstIn).toNat
    (net_remove_op_move_in opNumInputs) w
  let w := forUp 0 (w.net.numOuts - opNumOutputs).toNat
    (net_remove_op_move_out opIdx opNumOutputs) w
  let w : World := { w with net := { w.net with numIns := u16 (w.net.numIns - opNumInputs) } }
  let w : World := { w with net := { w.net with numOuts := u16 (w.net.numOuts - opNumOutputs) } }
  let w : World := { w with net := { w.net with numOps := u16 (w.net.numOps - 1) } }
  forUp opIdx (w.net.numOps - opIdx).toNat net_remove_op_move_op w

/-- The loop of `net_remove_op` that re-indexes all outputs. -/
def net_remove_op_reindex_all (w : World) : World :=
  forUp 0 w.net.numOuts.toNat net_remove_op_reindex w

/-- The preset loop of `net_remove_op`. -/
def net_remove_op_presets (E : Env) (opFirstIn opFirstOut opNumInputs opNumOutputs : Int)
    (w : World) : World :=
  forUp 0 E.NET_PRESETS_MAX.toNat
    (net_remove_op_preset opFirstIn opFirstOut opNumInputs opNumOutputs) w

/-- Remove the operator at `opIdx` (a `u32` argument). -/
def net_remove_op (E : Env) (opIdx : Int) (w : World) : Int × World :=
  let op := w.net.ops opIdx
  let opNumInputs := op.numInputs
  let opNumOutputs := op.numOutputs
  if net_op_flag opIdx E.eOpFlagSys w ≠ 0 then (1, w)
  else if opIdx < 0 ∨ opIdx ≥ w.net.numOps then (1, w)
  else
    let w : World := { w with pools := (freeOp op.addr w.pools).2 }
    let opFirstIn := net_op_in_idx opIdx 0 w
    let opFirstOut := net_op_out_idx opIdx 0 w
    let w := net_remove_op_targets opFirstIn opNumInputs w
    let w := net_remove_op_shuffle opIdx opFirstIn opNumInputs opNumOutputs w
    let w := net_remove_op_reindex_all w
    let w := net_remove_op_presets E opFirstIn opFirstOut opNumInputs opNumOutputs w
    (0, w)

/-! ### Parameters, initialisation -/

/-- Add a new parameter: copy the descriptor, set the play flag, advance the
count, then store the initial value obtained from the parameter backend. -/
def net_add_param (E : Env) (idx : Int) (pdesc : ParamDesc) (w : World) : World :=
  let n := w.net.numParams
  let w := setParam w n { w.net.params n with desc := pdesc }
  let w := setParam w n { w.net.params n with play := 1 }
  let w : World := { w with net := { w.net with numParams := u16 (w.net.numParams + 1) } }
  let m := w.net.numParams - 1
  let w := setParam w m { w.net.params m with value := E.param_init_value idx (w.net.params m).desc }
  setParam w m { w.net.params m with changed := 0 }

/-- Create all system operators: 4 encoders, 4 function switches, 2
footswitches, 1 adc, 1 preset receiver. -/
def add_sys_ops (E : Env) (w : World) : World :=
  let w := (net_add_op E eOpEnc w).2
  let w := (net_add_op E eOpEnc w).2
  let w := (net_add_op E eOpEnc w).2
  let w := (net_add_op E eOpEnc w).2
  let w := (net_add_op E eOpSwitch w).2
  let w := (net_add_op E eOpSwitch w).2
  let w := (net_add_op E eOpSwitch w).2
  let w := (net_add_op E eOpSwitch w).2
  let w := (net_add_op E eOpSwitch w).2
  let w := (net_add_op E eOpSwitch w).2
  let w := (net_add_op E eOpAdc w).2
  (net_add_op E eOpPreset w).2

/-- Unassign all I/O nodes (the two loops shared by `net_init` and
`net_deinit`). -/
def net_init_nodes (E : Env) (w : World) : World :=
  let w := forUp 0 E.NET_INS_MAX.toNat (fun i w => net_init_inode (u16 i) w) w
  forUp 0 E.NET_OUTS_MAX.toNat (fun i w => net_init_onode (u16 i) w) w

/-- Initialize network (fixed allocation); `w` holds the memory as `alloc_mem`
returned it. -/
def net_init (E : Env) (w : World) : World :=
  let w : World := { w with net := { w.net with numOps := 0 } }
  let w : World := { w with net := { w.net with numIns := 0 } }
  let w : World := { w with net := { w.net with numOuts := 0 } }
  let w : World := { w with net := { w.net with numParams := 0 } }
  let w := net_init_nodes E w
  let w := add_sys_ops E w
  { w with netActive := 1 }

/-- Body of the loop of `net_deinit`: release operator `i`. -/
def net_deinit_op (i : Int) (w : World) : World :=
  { w with pools := (freeOp (w.net.ops i).addr w.pools).2 }

/-- De-initialize network. -/
def net_deinit (E : Env) (w : World) : World :=
  let w := forUp 0 w.net.numOps.toNat net_deinit_op w
  let w : World := { w with net := { w.net with numOps := 0 } }
  let w : World := { w with net := { w.net with numIns := 0 } }
  let w : World := { w with net := { w.net with numOuts := 0 } }
  let w : World := { w with net := { w.net with numParams := 0 } }
  net_init_nodes E w

/-! ### Serialisation (`net_pickle`, `net_unpickle`)

The destination of a serialiser is the list of the bytes written so far; the
source of a deserialiser is the list of the bytes not yet read. -/

/-- Conversion to `s32` (two's complement). -/
def s32 (x : Int) : Int := (x + 2147483648) % 4294967296 - 2147483648

/-- The byte at offset `i` of a source; an offset past the end of the list
stands for the memory behind the buffer and reads as 0. -/
def byteAt (src : List Int) (i : Nat) : Int := u8 (src.getD i 0)

/-- Modelled from the spec: `pickle_32` (the helper is declared outside the
network sources) writes a 32-bit word as four bytes, least significant byte
first. -/
def pickle_32 (v : Int) (dst : List Int) : List Int :=
  dst ++ [u32 v % 256, u32 v / 256 % 256, u32 v / 65536 % 256, u32 v / 16777216 % 256]

/-- Modelled from the spec: `unpickle_32` (declared outside the network sources)
reads the four bytes back; the result is the advanced source and the word. -/
def unpickle_32 (src : List Int) : List Int × Int :=
  (src.drop 4,
   byteAt src 0 + 256 * byteAt src 1 + 65536 * byteAt src 2 + 16777216 * byteAt src 3)

/-- Pickle an output node: the target, as a 32-bit word. -/
def onode_pickle (out : onode) (dst : List Int) : List Int :=
  pickle_32 (u32 out.target) dst

/-- Unpickle an output node. -/
def onode_unpickle (src : List Int) (out : onode) : List Int × onode :=
  ((unpickle_32 src).1, { out with target := s16 (unpickle_32 src).2 })

/-- Pickle an input node: the play flag and three bytes for alignment. -/
def inode_pickle (i : inode) (dst : List Int) : List Int :=
  dst ++ [i.play, 0, 0, 0]

/-- Unpickle an input node. -/
def inode_unpickle (src : List Int) (i : inode) : List Int × inode :=
  (src.drop 4, { i with play := byteAt src 0 })

/-- Body of the operator loop of `net_pickle`: the class id, then the state
of the operator if its class has a serialiser. -/
def net_pickle_op (E : Env) (w : World) (i : Int) (dst : List Int) : List Int :=
  let op := w.net.ops i
  let dst := pickle_32 op.type dst
  match (E.op_registry op.type).pickle with
  | none => dst
  | some f => dst ++ f op.data

/-- Body of the input node loop of `net_pickle`. -/
def net_pickle_in (w : World) (i : Int) (dst : List Int) : List Int :=
  inode_pickle (w.net.ins i) dst

/-- Body of the output node loop of `net_pickle`. -/
def net_pickle_out (w : World) (i : Int) (dst : List Int) : List Int :=
  onode_pickle (w.net.outs i) dst

/-- Body of the parameter loop of `net_pickle`. -/
def net_pickle_param (E : Env) (w : World) (i : Int) (dst : List Int) : List Int :=
  dst ++ E.param_pickle (w.net.params i)

/-- Pickle the network: operator count, operators, all input nodes, all output
nodes, parameter count, parameters. -/
def net_pickle (E : Env) (w : World) (dst : List Int) : List Int :=
  let dst := pickle_32 (u32 w.net.numOps) dst
  let dst := forUp 0 w.net.numOps.toNat (net_pickle_op E w) dst
  let dst := forUp 0 E.NET_INS_MAX.toNat (net_pickle_in w) dst
  let dst := forUp 0 E.NET_OUTS_MAX.toNat (net_pickle_out w) dst
  let dst := pickle_32 (u32 w.net.numParams) dst
  forUp 0 w.net.numParams.toNat (net_pickle_param E w) dst

/-- The table `pickle_sizes` of `net_detect_legacy_format`: the serialised size
of each class, -1 for a variable size. -/
def pickle_sizes : List Int :=
  [6, 10, 6, 6, 6, 6, 0, 6, 6, 0, 2, 8, 0, 6, 6, 4, 8, 18, 6, 4, 6, 6,
   6, 6, 268, 6, 2, -1, 0, 8, 4, 0, 0, 34, 18, 6, -1, -1, 0, 0, -1, -1, 8, 6,
   4, 4, 2, 8, -1, 0, 4, 2, -1, -1, 10, -1, 4, -1, -1, -1, -1, 0, 0, 4, 8, 8]

/-- The scan of `net_detect_legacy_format` for the next class id after an
operator of variable size: steps of two bytes, `n` steps remain. -/
def net_detect_scan (E : Env) : Nat → List Int → Option (List Int)
  | 0, _ => none
  | n + 1, scan =>
    if (unpickle_32 scan).2 < E.numOpClasses then some scan
    else net_detect_scan E n (scan.drop 2)

/-- The probe loop of `net_detect_legacy_format`: `n` iterations remain, `i` is
the loop counter. -/
def net_detect_loop (E : Env) (count : Int) : Nat → Int → List Int → Int
  | 0, _, _ => 0
  | n + 1, i, probe =>
    let val := (unpickle_32 probe).2
    let probe := (unpickle_32 probe).1
    if val ≥ E.numOpClasses then 0
    else if val = eOpRandom then
      if i + 1 < count ∧ (unpickle_32 (probe.drop 8)).2 ≥ E.numOpClasses ∧
          (unpickle_32 (probe.drop 6)).2 < E.numOpClasses then 1
      else net_detect_loop E count n (i + 1) (probe.drop 8)
    else if pickle_sizes.getD val.toNat 0 ≥ 0 then
      net_detect_loop E count n (i + 1) (probe.drop (pickle_sizes.getD val.toNat 0).toNat)
    else
      match net_detect_scan E 1024 probe with
      | none => 0
      | some p => net_detect_loop E count n (i + 1) p

/-- Probe a scene for the legacy Random format: 1 if detected, 0 otherwise.
At most 64 operators are probed. -/
def net_detect_legacy_format (E : Env) (src : List Int) : Int :=
  net_detect_loop E (unpickle_32 src).2 (min (unpickle_32 src).2 64).toNat 0 (unpickle_32 src).1

/-- The operator loop of `net_unpickle`, `n` iterations remain: read the class
id, add an operator of that class, and let the class read its state.  The result
is `none` where the C function returns `NULL`. -/
def net_unpickle_ops (E : Env) : Nat → List Int → World → Option (List Int) × World
  | 0, src, w => (some src, w)
  | n + 1, src, w =>
    let id := s32 (unpickle_32 src).2
    let src := (unpickle_32 src).1
    let a := net_add_op E id w
    if a.1 < 0 then (none, a.2)
    else
      let w := a.2
      let k := w.net.numOps - 1
      match (E.op_registry (w.net.ops k).type).unpickle with
      | none => net_unpickle_ops E n src w
      | some f =>
        let u := f w.legacyRandomFormat (w.net.ops k).data src
        net_unpickle_ops E n u.2 (setOp w k { w.net.ops k with data := u.1 })

/-- Body of the input node loop of `net_unpickle`. -/
def net_unpickle_in (i : Int) (s : List Int × World) : List Int × World :=
  ((inode_unpickle s.1 (s.2.net.ins i)).1, setIn s.2 i (inode_unpickle s.1 (s.2.net.ins i)).2)

/-- Body of the output node loop of `net_unpickle`: read the node and, for a
live output with a target, reconnect so the parent operator knows what to do. -/
def net_unpickle_out (i : Int) (s : List Int × World) : List Int × World :=
  let src := (onode_unpickle s.1 (s.2.net.outs i)).1
  let w := setOut s.2 i (onode_unpickle s.1 (s.2.net.outs i)).2
  if i < w.net.numOuts then
    if (w.net.outs i).target ≥ 0 then (src, net_connect i (w.net.outs i).target w)
    else (src, w)
  else (src, w)

/-- Body of the parameter loop of `net_unpickle`. -/
def net_unpickle_param (E : Env) (i : Int) (s : List Int × World) : List Int × World :=
  ((E.param_unpickle (s.2.net.params i) s.1).2,
   setParam s.2 i (E.param_unpickle (s.2.net.params i) s.1).1)

/-- Unpickle the network (fixed-capacity build).  The result is the advanced
source, `none` where the C function returns `NULL`.  The scalers and the
pointers to the system operators, which the C function refreshes at its end,
are derived data and carry no state here. -/
def net_unpickle (E : Env) (src : List Int) (w : World) : Option (List Int) × World :=
  let w : World := { w with legacyRandomFormat := net_detect_legacy_format E src }
  let w := net_deinit E w
  let count := (unpickle_32 src).2
  let src := (unpickle_32 src).1
  let w : World := { w with recallingScene := 1 }
  let o := net_unpickle_ops E count.toNat src w
  match o.1 with
  | none => (none, { o.2 with recallingScene := 0 })
  | some src =>
    let w : World := { o.2 with recallingScene := 0 }
    let s := forUp 0 E.NET_INS_MAX.toNat net_unpickle_in (src, w)
    let s := forUp 0 E.NET_OUTS_MAX.toNat net_unpickle_out s
    let val := (unpickle_32 s.1).2
    let w : World := { s.2 with net := { s.2.net with numParams := u16 val } }
    let s := forUp 0 w.net.numParams.toNat (net_unpickle_param E) ((unpickle_32 s.1).1, w)
    (some s.1, s.2)

/-! ## Views of the state used in the statements -/

/-- The part of the state that making and breaking connections leaves alone:
the counts, the input nodes, the parameters, the pools, the owner and local
index of every output node, and every field of an operator other than its
routing cache. -/
structure Shape where
  numOps : Int
  numIns : Int
  numOuts : Int
  numParams : Int
  ins : Int → inode
  params : Int → pnode
  pools : Pools
  outOwner : Int → Int × Int
  opFixed : Int → Int × Int × Nat × Int × Int × List Int

/-- The shape of a state. -/
def World.shape (w : World) : Shape :=
  { numOps := w.net.numOps, numIns := w.net.numIns, numOuts := w.net.numOuts,
    numParams := w.net.numParams, ins := w.net.ins, params := w.net.params, pools := w.pools,
    outOwner := fun j => ((w.net.outs j).opIdx, (w.net.outs j).opOutIdx),
    opFixed := fun k => ((w.net.ops k).addr, (w.net.ops k).type, (w.net.ops k).flags,
      (w.net.ops k).numInputs, (w.net.ops k).numOutputs, (w.net.ops k).data) }

/-- The target of output `j`. -/
def World.target (w : World) (j : Int) : Int := (w.net.outs j).target

/-- The state with the operator array replaced. -/
def World.withOps (w : World) (a : Int → op_t) : World :=
  { w with net := { w.net with ops := a } }

/-- The state with the input node array replaced. -/
def World.withIns (w : World) (a : Int → inode) : World :=
  { w with net := { w.net with ins := a } }

/-- The state with the output node array replaced. -/
def World.withOuts (w : World) (a : Int → onode) : World :=
  { w with net := { w.net with outs := a } }

/-- The state with the preset table replaced. -/
def World.withPresets (w : World) (a : Int → preset_t) : World :=
  { w with presets := a }

/-- The summed input counts of the operators below index `k`. -/
def insBelow (w : World) : Nat → Int
  | 0 => 0
  | k + 1 => insBelow w k + (w.net.ops k).numInputs

/-- The summed output counts of the operators below index `k`. -/
def outsBelow (w : World) : Nat → Int
  | 0 => 0
  | k + 1 => outsBelow w k + (w.net.ops k).numOutputs

/-! ## Reachable states and the bookkeeping behind serialisation

`net_unpickle` rebuilds the network with `net_add_op`, so it succeeds only if the
pools have room again after `net_deinit`.  The definitions below describe the
reachable states and what is true of all of them: the operator slots, the
counts and the free lists of the pools are in step. -/

/-- The states reachable from an initialised network by valid calls of
`net_add_op`, `net_connect`, `net_remove_op` and `net_add_param`.  The memory
handed to `net_init` holds the three pools, freshly initialised over pairwise
disjoint regions. -/
inductive Reachable (E : Env) : World → Prop
  | init (w0 : World) (a b c : Int) (p q r : OpPool)
      (hp : w0.pools = { small := initSmallMemPool a p, medium := initMediumMemPool (some b) q,
                         big := initBigMemPool c r })
      (hab : a + SMALL_OP_SIZE * MAX_SMALL_OPS ≤ b ∨ b + MEDIUM_OP_SIZE * MAX_MEDIUM_OPS ≤ a)
      (hac : a + SMALL_OP_SIZE * MAX_SMALL_OPS ≤ c ∨ c + BIG_OP_SIZE * MAX_BIG_OPS ≤ a)
      (hbc : b + MEDIUM_OP_SIZE * MAX_MEDIUM_OPS ≤ c ∨ c + BIG_OP_SIZE * MAX_BIG_OPS ≤ b) :
      Reachable E (net_init E w0)
  | add_op (w : World) (opId : Int) : Reachable E w → Reachable E (net_add_op E opId w).2
  | connect (w : World) (oIdx iIdx : Int) : Reachable E w →
      0 ≤ oIdx → oIdx < w.net.numOuts → 0 ≤ iIdx → iIdx < w.net.numIns + w.net.numParams →
      Reachable E (net_connect oIdx iIdx w)
  | remove_op (w : World) (opIdx : Int) : Reachable E w → 0 ≤ opIdx →
      Reachable E (net_remove_op E opIdx w).2
  | add_param (w : World) (idx : Int) (pdesc : ParamDesc) : Reachable E w →
      w.net.numParams < E.NET_PARAMS_MAX → Reachable E (net_add_param E idx pdesc w)

/-- The free list of a pool, as the list of the cell indices it runs through. -/
inductive Chain (pool : Int → OpCons) : Option Int → List Int → Prop
  | nil : Chain pool none []
  | cons (h : Int) (l : List Int) : Chain pool (pool h).tail l → Chain pool (some h) (h :: l)

/-- A pool in good order: its free list runs through the cells `l`, which are
pairwise distinct cells of the pool, and every cell holds the address of its
block. -/
structure PoolOK (size max : Int) (p : OpPool) (l : List Int) : Prop where
  chain : Chain p.pool p.head l
  heads : ∀ i, 0 ≤ i → i < max → (p.pool i).head = p.data + i * size

/-- The base addresses of the three pool regions. -/
structure Bases where
  a : Int
  b : Int
  c : Int

/-- The regions of the three pools are pairwise disjoint. -/
structure Bases.Disjoint (B : Bases) : Prop where
  ab : B.a + SMALL_OP_SIZE * MAX_SMALL_OPS ≤ B.b ∨ B.b + MEDIUM_OP_SIZE * MAX_MEDIUM_OPS ≤ B.a
  ac : B.a + SMALL_OP_SIZE * MAX_SMALL_OPS ≤ B.c ∨ B.c + BIG_OP_SIZE * MAX_BIG_OPS ≤ B.a
  bc : B.b + MEDIUM_OP_SIZE * MAX_MEDIUM_OPS ≤ B.c ∨ B.c + BIG_OP_SIZE * MAX_BIG_OPS ≤ B.b

/-- An operator record `(class id, cell index)` lives in the small pool. -/
def isSmall (E : Env) (e : Int × Int) : Bool := decide ((E.op_registry e.1).size ≤ SMALL_OP_SIZE)

/-- The cells of the small pool held by the operators of `g`. -/
def smallIdx (E : Env) (g : List (Int × Int)) : List Int :=
  (g.filter (isSmall E)).map Prod.snd

/-- The cells of the big pool held by the operators of `g`. -/
def bigIdx (E : Env) (g : List (Int × Int)) : List Int :=
  (g.filter (fun e => !isSmall E e)).map Prod.snd

/-- The address of the block of an operator record. -/
def opAddr (E : Env) (B : Bases) (e : Int × Int) : Int :=
  if (E.op_registry e.1).size ≤ SMALL_OP_SIZE then B.a + e.2 * SMALL_OP_SIZE
  else B.c + e.2 * BIG_OP_SIZE

/-- The summed input counts of the classes of `g`. -/
def insSum (E : Env) (g : List (Int × Int)) : Int :=
  (g.map (fun e => (E.op_registry e.1).numInputs)).sum

/-- The summed output counts of the classes of `g`. -/
def outsSum (E : Env) (g : List (Int × Int)) : Int :=
  (g.map (fun e => (E.op_registry e.1).numOutputs)).sum

/-- The pools in good order with respect to the operator records `g` and the
free lists `ls`, `lb`: every cell of the small pool is held by exactly one
operator of `g` or is once on the free list, and likewise for the big pool. -/
structure PoolsInv (E : Env) (B : Bases) (ps : Pools) (g : List (Int × Int)) (ls lb : List Int) :
    Prop where
  dataS : ps.small.data = B.a
  dataM : ps.medium.data = B.b
  dataB : ps.big.data = B.c
  small : PoolOK SMALL_OP_SIZE MAX_SMALL_OPS ps.small ls
  big : PoolOK BIG_OP_SIZE MAX_BIG_OPS ps.big lb
  smallNodup : (smallIdx E g ++ ls).Nodup
  smallRange : ∀ i ∈ smallIdx E g ++ ls, 0 ≤ i ∧ i < MAX_SMALL_OPS
  smallLen : (smallIdx E g ++ ls).length = 500
  bigNodup : (bigIdx E g ++ lb).Nodup
  bigRange : ∀ i ∈ bigIdx E g ++ lb, 0 ≤ i ∧ i < MAX_BIG_OPS
  bigLen : (bigIdx E g ++ lb).length = 50
  disj : B.Disjoint

/-- The operators in the slots `lo, lo + 1, ...` are instances of the records
of `g`, in order: class id, block address and input and output counts. -/
def OpsMatch (E : Env) (B : Bases) (fx : Int → Int × Int × Nat × Int × Int × List Int) :
    List (Int × Int) → Int → Prop
  | [], _ => True
  | e :: t, lo =>
    ((fx lo).1 = opAddr E B e ∧ (fx lo).2.1 = e.1 ∧
      (fx lo).2.2.2.1 = (E.op_registry e.1).numInputs ∧
      (fx lo).2.2.2.2.1 = (E.op_registry e.1).numOutputs) ∧
    OpsMatch E B fx t (lo + 1)

/-- The bookkeeping invariant of the network: the operator slots match the
records `g`, the counts are the sums over `g` and within capacity, the pools are
in good order, and every output node holds a target in the range of its type. -/
structure Inv (E : Env) (B : Bases) (w : World) (g : List (Int × Int)) (ls lb : List Int) :
    Prop where
  numOps : w.shape.numOps = g.length
  ops : OpsMatch E B w.shape.opFixed g 0
  valid : ∀ e ∈ g, 0 ≤ e.1 ∧ e.1 < E.numOpClasses ∧ (E.op_registry e.1).size ≤ BIG_OP_SIZE
  numIns : w.shape.numIns = insSum E g
  numOuts : w.shape.numOuts = outsSum E g
  capOps : (g.length : Int) ≤ E.NET_OPS_MAX
  capIns : w.shape.numIns ≤ E.NET_INS_MAX
  capOuts : w.shape.numOuts ≤ E.NET_OUTS_MAX
  numParams0 : 0 ≤ w.shape.numParams
  numParams1 : w.shape.numParams ≤ E.NET_PARAMS_MAX
  pools : PoolsInv E B w.shape.pools g ls lb
  targets : ∀ j, 0 ≤ j → j < E.NET_OUTS_MAX → -32768 ≤ w.target j ∧ w.target j < 32768

/-- What the theorems about serialisation assume of the constants and of the
registry: the capacities fit the C types of the counters and of the return
value of `net_add_op`, the class ids fit 31 bits, and the input and output
counts of a class fit `u8`. -/
structure EnvOK (E : Env) : Prop where
  opsMax0 : 0 ≤ E.NET_OPS_MAX
  opsMax : E.NET_OPS_MAX ≤ 32767
  insMax0 : 0 ≤ E.NET_INS_MAX
  insMax : E.NET_INS_MAX < 65536
  outsMax0 : 0 ≤ E.NET_OUTS_MAX
  outsMax : E.NET_OUTS_MAX < 65536
  paramsMax0 : 0 ≤ E.NET_PARAMS_MAX
  paramsMax : E.NET_PARAMS_MAX < 65536
  classes : E.numOpClasses ≤ 2147483648
  ins : ∀ id, 0 ≤ id → id < E.numOpClasses →
    0 ≤ (E.op_registry id).numInputs ∧ (E.op_registry id).numInputs < 256
  outs : ∀ id, 0 ≤ id → id < E.numOpClasses →
    0 ≤ (E.op_registry id).numOutputs ∧ (E.op_registry id).numOutputs < 256

/-- The part of the state that the bookkeeping invariant reads, apart from the
targets. -/
def World.core (w : World) : Int × Int × Int × Int × Pools ×
    (Int → Int × Int × Nat × Int × Int × List Int) :=
  (w.shape.numOps, w.shape.numIns, w.shape.numOuts, w.shape.numParams, w.shape.pools,
    w.shape.opFixed)

/-- The cells `lo, lo + 1, ..., lo + n - 1`. -/
def cells (lo : Int) : Nat → List Int
  | 0 => []
  | n + 1 => lo :: cells (lo + 1) n

/-- The bytes the class of an operator writes for its state. -/
def opState (E : Env) (op : op_t) : List Int :=
  match (E.op_registry op.type).pickle with
  | none => []
  | some f => f op.data

/-- The bytes `net_pickle` writes for one operator. -/
def opBytes (E : Env) (op : op_t) : List Int :=
  pickle_32 op.type [] ++ opState E op

/-- The bytes `net_pickle` writes for the operators `lo, ..., lo + n - 1`. -/
def opsBytes (E : Env) (w : World) : Nat → Int → List Int
  | 0, _ => []
  | n + 1, lo => opBytes E (w.net.ops lo) ++ opsBytes E w n (lo + 1)

/-- The bytes `net_pickle` writes for the input nodes `lo, ..., lo + n - 1`. -/
def insBytes (w : World) : Nat → Int → List Int
  | 0, _ => []
  | n + 1, lo => inode_pickle (w.net.ins lo) [] ++ insBytes w n (lo + 1)

/-- The bytes `net_pickle` writes for the output nodes `lo, ..., lo + n - 1`. -/
def outsBytes (w : World) : Nat → Int → List Int
  | 0, _ => []
  | n + 1, lo => onode_pickle (w.net.outs lo) [] ++ outsBytes w n (lo + 1)

/-- The bytes `net_pickle` writes for the parameters `lo, ..., lo + n - 1`. -/
def paramsBytes (E : Env) (w : World) : Nat → Int → List Int
  | 0, _ => []
  | n + 1, lo => E.param_pickle (w.net.params lo) ++ paramsBytes E w n (lo + 1)

/-! ## An example environment

The registry and the capacity constants are not part of the network sources.
The example below fixes them for a small build, which keeps the evaluation of
the example networks short: room for 128 operators, 64 inputs, 32 outputs and
256 parameters, 4 presets over 512 preset input entries, 66 operator classes,
and a registry in
which the four system classes carry the system flag (bit 0), Add (class 2) has
two inputs and one output, Split (class 12) one input and two outputs, Random
(class 16) four inputs and one output, and class 6 has no input.  No class of
the example serialises state, and a parameter is serialised as its value. -/

/-- Registry entry without serialised state. -/
def exClass (size ins outs : Int) (flags : Nat) : op_class :=
  { size := size, numInputs := ins, numOutputs := outs, flags := flags, data := [],
    pickle := none, unpickle := none }

/-- The example registry. -/
def exRegistry (id : Int) : op_class :=
  if id = eOpSwitch then exClass 100 3 1 1
  else if id = eOpEnc then exClass 100 5 2 1
  else if id = 2 then exClass 100 2 1 0
  else if id = 6 then exClass 100 0 1 0
  else if id = eOpAdc then exClass 100 3 4 1
  else if id = eOpPreset then exClass 100 2 2 1
  else if id = eOpSplit then exClass 100 1 2 0
  else if id = eOpRandom then exClass 100 4 1 0
  else exClass 100 1 1 0

/-- The example environment: a build with room for 128 operators, 64 inputs, 32
outputs, 256 parameters and 4 presets of 512 rows. -/
def exEnv : Env :=
  { NET_OPS_MAX := 128, NET_INS_MAX := 64, NET_OUTS_MAX := 32, NET_PARAMS_MAX := 256,
    NET_PRESETS_MAX := 4, PRESET_INODES_COUNT := 512, numOpClasses := 66, eOpFlagSys := 0,
    op_registry := exRegistry, param_init_value := fun _ _ => 0,
    param_pickle := fun p => [p.value],
    param_unpickle := fun q l => ({ q with value := l.headD 0 }, l.tail) }

/-- A pool before its initialisation. -/
def exPool : OpPool :=
  { data := 0, pool := fun _ => { head := 0, tail := none }, head := none }

/-- The memory before `net_init`: zeroed network and presets, and the three
pools initialised over pairwise disjoint regions. -/
def exBlank : World :=
  { net :=
      { ops := fun _ => op_init exEnv 0 0, numOps := 0, numIns := 0, numOuts := 0, numParams := 0,
        ins := fun _ => { opIdx := 0, opInIdx := 0, play := 0 },
        outs := fun _ => { opOutIdx := 0, target := 0, opIdx := 0 },
        params := fun _ => { desc := { raw := [] }, value := 0, changed := 0, play := 0 } },
    presets := fun _ => { ins := fun _ => { value := 0, enabled := 0 },
                          outs := fun _ => { target := 0, enabled := 0 } },
    pools := { small := initSmallMemPool 1000000 exPool,
               medium := initMediumMemPool (some 2000000) exPool,
               big := initBigMemPool 3000000 exPool },
    netActive := 0, recallingScene := 0, legacyRandomFormat := 0 }

/-- The initialised network of the example. -/
def exInit : World := net_init exEnv exBlank

/-- The example network with one operator, a Split. -/
def exOne : World := (net_add_op exEnv eOpSplit exBlank).2

/-- The example network with two operators, a Split and an Add. -/
def exTwo : World := (net_add_op exEnv 2 exOne).2

/-- Example world: `exTwo` with the output of its second operator wired to the
input of its first. -/
def exWired : World := net_connect 2 0 exTwo

/-- Example world: on the initialised network an Add (operator 12, inputs 43 and
44, output 20) and a Split (operator 13, input 45, outputs 21 and 22) are added
and the first output of the Split is wired to the input of the Split. -/
def exFeedback : World :=
  net_connect 21 45 (net_add_op exEnv eOpSplit (net_add_op exEnv 2 exInit).2).2

/-- Example world: on the initialised network one parameter is added, then an Add
(operator 12) and a Split (operator 13), and the Add is removed again. -/
def exParam : World :=
  (net_remove_op exEnv 12
    (net_add_op exEnv eOpSplit (net_add_op exEnv 2 (net_add_param exEnv 0 ⟨[]⟩ exInit)).2).2).2

/-- Example world: on the initialised network a Random (operator 12, inputs
43 to 46), a Split (operator 13, input 47) and an operator of the class without
inputs (operator 14) are added, output 0 is wired to input 46, and operator 14 is
removed again. -/
def exDangling : World :=
  (net_remove_op exEnv 14
    (net_connect 0 46
      (net_add_op exEnv 6 (net_add_op exEnv eOpSplit (net_add_op exEnv eOpRandom exInit).2).2).2)).2

/-- The results of `n` successive calls of `allocOp` and the pool after them. -/
def allocSeq : Nat → OpPool → List (Option Int) × OpPool
  | 0, p => ([], p)
  | n + 1, p => ((allocOp p).1 :: (allocSeq n (allocOp p).2).1, (allocSeq n (allocOp p).2).2)

/-- The results of `n` successive calls of an allocator of `op_pool.c` and the
pools after them. -/
def allocMany (alloc : Pools → Option Int × Pools) : Nat → Pools → List (Option Int) × Pools
  | 0, ps => ([], ps)
  | n + 1, ps => ((alloc ps).1 :: (allocMany alloc n (alloc ps).2).1,
      (allocMany alloc n (alloc ps).2).2)

/-! ### `net_activate` -/

/-- What `net_activate` consumes from the play page (`play.h`, `pages.h` and the
`playOuts` array of the calling operator are declared outside the network
sources): the constant `MAX_PLAY_OUTS`, whether the play page is shown
(`pageIdx == ePagePlay`), the flag `opPlay`, and the play flags `op->playOuts`
of the operator that calls. -/
structure PlayEnv where
  MAX_PLAY_OUTS : Int
  playPage : Bool
  opPlay : Int
  playOuts : Int → Int

/-- A call that `net_activate` makes to a collaborator outside the network
sources, with its arguments: `play_output(op, outIdx, val)`,
`op_set_in_val(net->ops[opIdx], opInIdx, val)`, `set_param_value(pIndex, val)`,
`play_input(inIdx)`. -/
inductive Call where
  | play_output (outIdx val : Int)
  | op_set_in_val (opIdx opInIdx val : Int)
  | set_param_value (pIndex val : Int)
  | play_input (inIdx : Int)
  deriving DecidableEq

/-- Get play inclusion for input (the argument is a `u32`). -/
def net_get_in_play (inIdx : Int) (w : World) : Int :=
  if inIdx < w.net.numIns then (w.net.ins inIdx).play
  else (w.net.params (u32 (inIdx - w.net.numIns))).play

/-- The play-mode tail of `net_activate`. -/
def net_activate_play_in (P : PlayEnv) (visIn inIdx : Int) : List Call :=
  if P.playPage then
    if P.opPlay ≠ 0 then []
    else if visIn ≠ 0 then [Call.play_input inIdx] else []
  else []

/-- Activate an input node with a value.  The result is the list of the calls
made, in order.  The function reads `op->out[outIdx]` first, so `op` is an
instance (the test `op != NULL` holds). -/
def net_activate (P : PlayEnv) (op : op_t) (outIdx val : Int) (w : World) : List Call :=
  let inIdx := op.out outIdx
  if w.netActive = 0 then []
  else
    let visOut := if outIdx < P.MAX_PLAY_OUTS then P.playOuts outIdx else 0
    let c1 :=
      if P.playPage then
        if P.opPlay ≠ 0 then []
        else if visOut ≠ 0 then [Call.play_output outIdx val] else []
      else []
    if inIdx < 0 then c1
    else
      let visIn := net_get_in_play (u32 inIdx) w
      if inIdx < w.net.numIns then
        c1 ++ [Call.op_set_in_val (w.net.ins inIdx).opIdx (w.net.ins inIdx).opInIdx val] ++
          net_activate_play_in P visIn inIdx
      else
        let pIndex := s16 (inIdx - w.net.numIns)
        if pIndex ≥ w.net.numParams then c1
        else c1 ++ [Call.set_param_value pIndex val] ++ net_activate_play_in P visIn inIdx

/-- A call that delivers a value: to an operator input or to a parameter. -/
def Call.delivers : Call → Bool
  | Call.op_set_in_val _ _ _ => true
  | Call.set_param_value _ _ => true
  | _ => false

/-- The deliveries among the calls of `net_activate`. -/
def deliveries (l : List Call) : List Call := l.filter Call.delivers

/-- An example play page: shown, operators without focus, every output
visible. -/
def exPlay : PlayEnv :=
  { MAX_PLAY_OUTS := 4, playPage := true, opPlay := 0, playOuts := fun _ => 1 }

/-- Example world: `exTwo` with an entry in preset 0 for output 2, enabled and
with target 2. -/
def exStored : World := setPresetOut exTwo 0 2 { target := 2, enabled := 1 }

/-! ### `net_split_out` -/

/-- Insert a split after an output node; return the first output of the split
if the original output was unconnected, otherwise connect the first output of
the split to the old target and return the second. -/
def net_split_out (E : Env) (outIdx : Int) (w : World) : Int × World :=
  let target := (w.net.outs outIdx).target
  let opIdx := s16 (w.net.outs outIdx).opIdx
  if target < 0 then
    let a := net_add_op_at E eOpSplit opIdx w
    if a.1 < 0 then (outIdx, a.2)
    else
      let w := net_connect (u32 outIdx) (net_op_in_idx a.1 0 a.2) a.2
      (s16 (net_op_out_idx a.1 0 w), w)
  else
    let a := net_add_op_at E eOpSplit opIdx w
    let target := (a.2.net.outs outIdx).target
    if a.1 < 0 then (outIdx, a.2)
    else
      let w := net_connect (u32 outIdx) (net_op_in_idx a.1 0 a.2) a.2
      let w := net_connect (net_op_out_idx a.1 0 w) (u32 target) w
      (s16 (net_op_out_idx a.1 1 w), w)

/-- Example world: the initialised network with one parameter, and in preset 0
an enabled entry for output 0 that targets the parameter (index 43). -/
def exPresetOut : World :=
  setPresetOut (net_add_param exEnv 0 ⟨[]⟩ exInit) 0 0 { target := 43, enabled := 1 }

/-- Example world: the initialised network with one parameter, and in preset 0
the enabled value 5 for the parameter (row 43). -/
def exPresetIn : World :=
  setPresetIn (net_add_param exEnv 0 ⟨[]⟩ exInit) 0 43 { value := 5, enabled := 1 }

/-- Example world: the initialised network with one parameter and an operator
of the class without inputs (operator 12), and in preset 0 the enabled value 5
for the parameter (row 43). -/
def exPoppable : World :=
  setPresetIn (net_add_op exEnv 6 (net_add_param exEnv 0 ⟨[]⟩ exInit)).2 0 43
    { value := 5, enabled := 1 }

/-- Example world: the initialised network with one parameter and an Add
(operator 12, inputs 43 and 44), and in preset 0 the enabled value 7 for input 43
and the enabled value 5 for the parameter (row 45). -/
def exPresetMid : World :=
  setPresetIn
    (setPresetIn (net_add_op exEnv 2 (net_add_param exEnv 0 ⟨[]⟩ exInit)).2 0 43
      { value := 7, enabled := 1 })
    0 45 { value := 5, enabled := 1 }

/-! ### Freeing a block -/

/-- The pool after block `k` is pushed onto its free list: cell `k` points to
the former head and is the new head. -/
def OpPool.push (p : OpPool) (k : Int) : OpPool :=
  { p with pool := upd p.pool k { p.pool k with tail := p.head }, head := some k }

/-! ### `getPoolStats` -/

/-- The counting loop of `getPoolStats` (`while (current != NULL)`): `acc` is the
`u32` counter, the first argument bounds the number of iterations; the result is
`none` if the loop has not ended within the bound. -/
def getPoolStats_count (pool : Int → OpCons) : Nat → Option Int → Int → Option Int
  | _, none, acc => some acc
  | 0, some _, _ => none
  | n + 1, some h, acc => getPoolStats_count pool n (pool h).tail (u32 (acc + 1))

/-- Pool statistics: the number of used blocks of the small, the medium and the
big pool.  The function reads the pools and writes its three results only, so
the model has no pool state to return; `fuel` bounds each of the three
loops. -/
def getPoolStats (fuel : Nat) (ps : Pools) : Option (Int × Int × Int) :=
  match getPoolStats_count ps.small.pool fuel ps.small.head 0,
      getPoolStats_count ps.medium.pool fuel ps.medium.head 0,
      getPoolStats_count ps.big.pool fuel ps.big.head 0 with
  | some smallFree, some mediumFree, some bigFree =>
    some (u32 (MAX_SMALL_OPS - smallFree), u32 (MAX_MEDIUM_OPS - mediumFree),
      u32 (MAX_BIG_OPS - bigFree))
  | _, _, _ => none

/-- The states of the three pools after their initialisation over pairwise
disjoint regions, successful allocations and frees of blocks that are allocated
at the time, together with the addresses of the blocks allocated and not yet
freed, pool by pool. -/
inductive PoolsReach : Pools → List Int → List Int → List Int → Prop
  | init (a b c : Int) (p q r : OpPool) (hd : Bases.Disjoint ⟨a, b, c⟩) :
      PoolsReach { small := initSmallMemPool a p, medium := initMediumMemPool (some b) q,
                   big := initBigMemPool c r } [] [] []
  | allocSmall (ps : Pools) (S M B : List Int) (x : Int) : PoolsReach ps S M B →
      (allocSmallOp ps).1 = some x → PoolsReach (allocSmallOp ps).2 (x :: S) M B
  | allocMedium (ps : Pools) (S M B : List Int) (x : Int) : PoolsReach ps S M B →
      (allocMediumOp ps).1 = some x → PoolsReach (allocMediumOp ps).2 S (x :: M) B
  | allocBig (ps : Pools) (S M B : List Int) (x : Int) : PoolsReach ps S M B →
      (allocBigOp ps).1 = some x → PoolsReach (allocBigOp ps).2 S M (x :: B)
  | freeSmall (ps : Pools) (S M B : List Int) (x : Int) : PoolsReach ps S M B →
      x ∈ S → PoolsReach (freeSmallOp x ps).2 (S.erase x) M B
  | freeMedium (ps : Pools) (S M B : List Int) (x : Int) : PoolsReach ps S M B →
      x ∈ M → PoolsReach (freeMediumOp x ps).2 S (M.erase x) B
  | freeBig (ps : Pools) (S M B : List Int) (x : Int) : PoolsReach ps S M B →
      x ∈ B → PoolsReach (freeBigOp x ps).2 S M (B.erase x)
  | freeOfSmall (ps : Pools) (S M B : List Int) (x : Int) : PoolsReach ps S M B →
      x ∈ S → PoolsReach (freeOp x ps).2 (S.erase x) M B
  | freeOfMedium (ps : Pools) (S M B : List Int) (x : Int) : PoolsReach ps S M B →
      x ∈ M → PoolsReach (freeOp x ps).2 S (M.erase x) B
  | freeOfBig (ps : Pools) (S M B : List Int) (x : Int) : PoolsReach ps S M B →
      x ∈ B → PoolsReach (freeOp x ps).2 S M (B.erase x)

/-- The accounts of one pool: its free list runs through the cells `l`, the
blocks at the addresses `A` are those of the cells `ca`, and every cell of the
pool is once on the free list or once among `ca`. -/
structure PoolAcc (size : Int) (max : Nat) (p : OpPool) (A : List Int) (ca l : List Int) :
    Prop where
  ok : PoolOK size max p l
  addrs : A = ca.map (fun i => p.data + i * size)
  nodup : (ca ++ l).Nodup
  range : ∀ i ∈ ca ++ l, 0 ≤ i ∧ i < (max : Int)
  length : (ca ++ l).length = max

/-- The example environment with one more class: class 20 has an instance size
of 129 bytes, one input and one output. -/
def exEnvMid : Env :=
  { exEnv with op_registry := fun id => if id = 20 then exClass 129 1 1 0 else exRegistry id }

/-- The sum `f lo + f (lo + 1) + ... + f (lo + n - 1)`. -/
def sumFrom (f : Int → Int) : Nat → Int → Int
  | 0, _ => 0
  | n + 1, lo => f lo + sumFrom f n (lo + 1)

/-! ### The failure path of net_unpickle -/

/-- The state in which the operator loop of `net_unpickle` starts: the format
flag is set, the network held before the call is released and emptied by
`net_deinit`, and `recallingScene` is raised. -/
def net_unpickle_start (E : Env) (src : List Int) (w : World) : World :=
  { net_deinit E { w with legacyRandomFormat := net_detect_legacy_format E src } with
    recallingScene := 1 }

/-- A stream that announces two operators: a Split (class 12, no state bytes)
and then class 99, which the example registry of 66 classes does not hold. -/
def exBadStream : List Int := [2, 0, 0, 0, 12, 0, 0, 0, 99, 0, 0, 0]

/-! ### Streams for the legacy format probe -/

/-- The operator section of a scene, as `net_pickle` lays it out: for every
operator the class id as a 32-bit word and then the bytes of its state; `rest`
is what follows the last of these operators. -/
def opStream : List (Int × List Int) → List Int → List Int
  | [], rest => rest
  | e :: t, rest => pickle_32 e.1 [] ++ (e.2 ++ opStream t rest)

/-- Double size when expanding. -/
def GROWTH_FACTOR : Int := 2

/-- Hard limit of the input node array. -/
def MAX_INS_LIMIT : Int := 512

/-- Hard limit of the output node array. -/
def MAX_OUTS_LIMIT : Int := 512

/-- Hard limit of the parameter node array. -/
def MAX_PARAMS_LIMIT : Int := 512

/-- The network (`ctlnet_t`, dynamic allocation): the array of operator
pointers (0 for `NULL`), the counts, the allocated capacities (`u16`) and the
node arrays.  An array is the map of its elements; what lies behind the capacity
is whatever the memory holds there. -/
structure ctlnet_dyn where
  ops : Int → Int
  numOps : Int
  numIns : Int
  numOuts : Int
  numParams : Int
  opsCapacity : Int
  insCapacity : Int
  outsCapacity : Int
  paramsCapacity : Int
  ins : Int → inode
  outs : Int → onode
  params : Int → pnode

/-- The call `memcpy(dst, src, sizeof(elem) * n)`: the first `n` elements of `src`
are copied over those of `dst`. -/
def memcpy {α : Type} (dst src : Int → α) (n : Int) : Int → α :=
  fun i => if 0 ≤ i ∧ i < n then src i else dst i

/-- The call `memset(dst + lo, 0, sizeof(elem) * n)`: the `n` elements from `lo` on
are zero-filled; `zero` is the element whose bytes are all 0. -/
def memset {α : Type} (zero : α) (dst : Int → α) (lo n : Int) : Int → α :=
  fun i => if lo ≤ i ∧ i < lo + n then zero else dst i

/-- An input node whose bytes are all 0. -/
def inode_zero : inode := { opIdx := 0, opInIdx := 0, play := 0 }

/-- An output node whose bytes are all 0. -/
def onode_zero : onode := { opOutIdx := 0, target := 0, opIdx := 0 }

/-- A parameter node whose bytes are all 0; `zeroDesc` is the all-zero
descriptor, whose size the network sources do not give. -/
def pnode_zero (zeroDesc : ParamDesc) : pnode :=
  { desc := zeroDesc, value := 0, changed := 0, play := 0 }

/-- The growth loop of `dynamic_network_expand_ins` and its two siblings,
`while (new_capacity < needed && new_capacity < limit) new_capacity *= GROWTH_FACTOR;`
on a `u16`; `none` when the fuel runs out. -/
def dynamic_network_grow (limit needed : Int) : Nat → Int → Option Int
  | 0, _ => none
  | n + 1, new_capacity =>
    if new_capacity < needed ∧ new_capacity < limit then
      dynamic_network_grow limit needed n (u16 (new_capacity * GROWTH_FACTOR))
    else some new_capacity

/-- Expand the input node array to hold `needed` nodes.  The result is `none`
when the fuel of the growth loop runs out. -/
def dynamic_network_expand_ins (fuel : Nat) (fresh : Option (Int → inode))
    (net : Option ctlnet_dyn) (needed : Int) : Option (Int × Option ctlnet_dyn) :=
  match net with
  | none => some (-1, none)
  | some n =>
    match dynamic_network_grow MAX_INS_LIMIT needed fuel n.insCapacity with
    | none => none
    | some grown =>
      let new_capacity := if grown > MAX_INS_LIMIT then MAX_INS_LIMIT else grown
      if new_capacity < needed ∨ new_capacity ≤ n.insCapacity then
        some (if new_capacity < needed then -1 else 0, some n)
      else
        match fresh with
        | none => some (-1, some n)
        | some new_ins =>
          let new_ins := memcpy new_ins n.ins n.insCapacity
          let new_ins := memset inode_zero new_ins n.insCapacity (new_capacity - n.insCapacity)
          some (0, some { n with ins := new_ins, insCapacity := new_capacity })

/-- Expand the output node array to hold `needed` nodes. -/
def dynamic_network_expand_outs (fuel : Nat) (fresh : Option (Int → onode))
    (net : Option ctlnet_dyn) (needed : Int) : Option (Int × Option ctlnet_dyn) :=
  match net with
  | none => some (-1, none)
  | some n =>
    match dynamic_network_grow MAX_OUTS_LIMIT needed fuel n.outsCapacity with
    | none => none
    | some grown =>
      let new_capacity := if grown > MAX_OUTS_LIMIT then MAX_OUTS_LIMIT else grown
      if new_capacity < needed ∨ new_capacity ≤ n.outsCapacity then
        some (if new_capacity < needed then -1 else 0, some n)
      else
        match fresh with
        | none => some (-1, some n)
        | some new_outs =>
          let new_outs := memcpy new_outs n.outs n.outsCapacity
          let new_outs :=
            memset onode_zero new_outs n.outsCapacity (new_capacity - n.outsCapacity)
          some (0, some { n with outs := new_outs, outsCapacity := new_capacity })

/-- Expand the parameter node array to hold `needed` nodes. -/
def dynamic_network_expand_params (zeroDesc : ParamDesc) (fuel : Nat)
    (fresh : Option (Int → pnode)) (net : Option ctlnet_dyn) (needed : Int) :
    Option (Int × Option ctlnet_dyn) :=
  match net with
  | none => some (-1, none)
  | some n =>
    match dynamic_network_grow MAX_PARAMS_LIMIT needed fuel n.paramsCapacity with
    | none => none
    | some grown =>
      let new_capacity := if grown > MAX_PARAMS_LIMIT then MAX_PARAMS_LIMIT else grown
      if new_capacity < needed ∨ new_capacity ≤ n.paramsCapacity then
        some (if new_capacity < needed then -1 else 0, some n)
      else
        match fresh with
        | none => some (-1, some n)
        | some new_params =>
          let new_params := memcpy new_params n.params n.paramsCapacity
          let new_params := memset (pnode_zero zeroDesc) new_params n.paramsCapacity
            (new_capacity - n.paramsCapacity)
          some (0, some { n with params := new_params, paramsCapacity := new_capacity })

/-- A network of the dynamic build with the capacity `c` in all four arrays,
three operators at the addresses 1000, 2000, 3000 and numbered nodes. -/
def exDyn (c : Int) : ctlnet_dyn :=
  { ops := fun i => if 0 ≤ i ∧ i < 3 then 1000 * (i + 1) else 7
    numOps := 3, numIns := 5, numOuts := 4, numParams := 2
    opsCapacity := c, insCapacity := c, outsCapacity := c, paramsCapacity := c
    ins := fun i => { opIdx := i, opInIdx := 1, play := 1 }
    outs := fun i => { opOutIdx := 1, target := i, opIdx := 2 }
    params := fun i => { desc := ⟨[1]⟩, value := i, changed := 1, play := 1 } }

/-- Memory as `alloc_mem` may hand it out, seen as input nodes. -/
def exFreshIns : Int → inode := fun _ => { opIdx := 9, opInIdx := 9, play := 9 }

/-- The operators of a stream in the new format with static sizes only: every
class id is valid, the table `pickle_sizes` gives a size for the class, and the
state has exactly that length (8 bytes for a Random operator). -/
def StaticSized (E : Env) : List (Int × List Int) → Prop
  | [] => True
  | e :: t =>
    (0 ≤ e.1 ∧ e.1 < E.numOpClasses ∧ pickle_sizes.getD e.1.toNat 0 ≥ 0 ∧
      (e.2.length : Int) = pickle_sizes.getD e.1.toNat 0) ∧
    StaticSized E t

/-- A scene in the new format: a Split, a Random with its 8 bytes of state, an
Add with its 6 bytes, and the first input node record. -/
def exNewFormat : List Int :=
  pickle_32 3 [] ++
    opStream [(eOpSplit, []), (eOpRandom, [1, 0, 2, 0, 3, 0, 4, 0]), (2, [5, 0, 6, 0, 7, 0])]
      [1, 0, 0, 0]

/-! ### Scaler of the filter cutoff -/

/-- Table size. -/
def tabSize : Int := 1024

/-- Shift from `io_t` size to index. -/
def inRshift : Nat := 5

/-- The DSP value for an input (`io_t`, 16 bits signed): the table entry at
`(u16)((u16)in >> inRshift)`.  The table `tabVal` lives in non-volatile memory
and is a parameter here. -/
def scaler_svf_fc_val (tabVal : Int → Int) (inp : Int) : Int :=
  let inp := if inp < 0 then 0 else inp
  tabVal (u16 (u16 inp / 2 ^ inRshift))

/-- The binary search of `scaler_svf_fc_in`: `jl`, `ju`, `jm` and `iterations` are
the variables of the C loop.  The loop leaves through its first error exit when
`iterations` passes 20, so 21 rounds of fuel are never used up. -/
def scaler_svf_fc_in_loop (tabVal : Int → Int) (x : Int) : Nat → Int → Int → Int → Int → Int
  | 0, _, _, _, _ => 0
  | n + 1, jl, ju, jm, iterations =>
    if ju - jl > 1 then
      if iterations + 1 > 20 then 0
      else if (ju + jl) / 2 ≥ tabSize then 0
      else if x ≥ tabVal ((ju + jl) / 2) then
        scaler_svf_fc_in_loop tabVal x n ((ju + jl) / 2) ju ((ju + jl) / 2) (iterations + 1)
      else
        scaler_svf_fc_in_loop tabVal x n jl ((ju + jl) / 2) ((ju + jl) / 2) (iterations + 1)
    else s16 (u16 jm * 2 ^ inRshift)

/-- Get input given DSP value.  `tabVal` is `none` while the initialiser has not
been called (`NULL`). -/
def scaler_svf_fc_in (tabVal : Option (Int → Int)) (x : Int) : Int :=
  match tabVal with
  | none => 0
  | some t => scaler_svf_fc_in_loop t x 21 0 (tabSize - 1) 0 0

/-- A strictly ascending table: entry `j` is `100 * j + 7`. -/
def exTabVal : Int → Int := fun j => 100 * j + 7

/-! ### Dynamic flash buffer -/

/-- Default size (same as original). -/
def FLASH_BUFFER_DEFAULT_SIZE : Int := 1024

/-- Maximum allowed size. -/
def FLASH_BUFFER_MAX_SIZE : Int := 4096

/-- The record `dynamic_flash_buffer_t`: the data pointer (`none` for `NULL`),
the size in elements (`u32`), the allocated bytes (`u32`) and the flag `in_use`
(`u8`). -/
structure dynamic_flash_buffer_t where
  data : Option Int
  size : Int
  allocated_bytes : Int
  in_use : Int

/-- The static variables of `dynamic_flash_buffer.c`, and the bytes of the heap
blocks: `heap p off` is the byte at offset `off` of the block at address `p`. -/
structure FlashState where
  flash_buffer : dynamic_flash_buffer_t
  flash_buffer_system_initialized : Int
  total_allocations : Int
  total_deallocations : Int
  peak_allocated_bytes : Int
  memory_saved_vs_static : Int
  heap : Int → Int → Int

/-- The state at program start: the statics are zero-initialised. -/
def flash_start (heap : Int → Int → Int) : FlashState :=
  { flash_buffer := { data := none, size := 0, allocated_bytes := 0, in_use := 0 }
    flash_buffer_system_initialized := 0
    total_allocations := 0
    total_deallocations := 0
    peak_allocated_bytes := 0
    memory_saved_vs_static := 0
    heap := heap }

/-- Initialize dynamic flash buffer system (`sizeof(s32)` is 4). -/
def dynamic_flash_buffer_init (s : FlashState) : FlashState :=
  if s.flash_buffer_system_initialized ≠ 0 then s
  else
    { s with
      flash_buffer := { data := none, size := 0, allocated_bytes := 0, in_use := 0 }
      memory_saved_vs_static := u32 (FLASH_BUFFER_DEFAULT_SIZE * 4)
      flash_buffer_system_initialized := 1 }

/-- Free flash buffer after operations complete.  `free_mem` gives the block
back to the heap; its bytes stay as they are. -/
def dynamic_flash_buffer_free (s : FlashState) : FlashState :=
  if s.flash_buffer_system_initialized = 0 then s
  else if s.flash_buffer.in_use = 0 ∨ s.flash_buffer.data = none then s
  else
    { s with
      flash_buffer := { data := none, size := 0, allocated_bytes := 0, in_use := 0 }
      total_deallocations := u32 (s.total_deallocations + 1) }

/-- Cleanup dynamic flash buffer system. -/
def dynamic_flash_buffer_deinit (s : FlashState) : FlashState :=
  if s.flash_buffer_system_initialized = 0 then s
  else
    let s := if s.flash_buffer.in_use ≠ 0 ∧ s.flash_buffer.data ≠ none then
      dynamic_flash_buffer_free s else s
    { s with flash_buffer_system_initialized := 0 }

/-- Allocate flash buffer for temporary operations.  `fresh` is what `alloc_mem`
returns for this call (`none` for `NULL`); the result is the returned pointer. -/
def dynamic_flash_buffer_alloc (fresh : Option Int) (num_elements : Int) (s : FlashState) :
    Option Int × FlashState :=
  if s.flash_buffer_system_initialized = 0 then (none, s)
  else
    let s := if s.flash_buffer.in_use ≠ 0 then dynamic_flash_buffer_free s else s
    let num_elements := if num_elements = 0 then FLASH_BUFFER_DEFAULT_SIZE else num_elements
    if num_elements > FLASH_BUFFER_MAX_SIZE then (none, s)
    else
      let bytes_needed := u32 (num_elements * 4)
      let s : FlashState := { s with flash_buffer := { s.flash_buffer with data := fresh } }
      match fresh with
      | none => (none, s)
      | some p =>
        let s : FlashState := { s with heap := upd s.heap p (memset 0 (s.heap p) 0 bytes_needed) }
        let s : FlashState :=
          { s with flash_buffer := { s.flash_buffer with size := num_elements } }
        let s : FlashState :=
          { s with flash_buffer := { s.flash_buffer with allocated_bytes := bytes_needed } }
        let s : FlashState := { s with flash_buffer := { s.flash_buffer with in_use := 1 } }
        let s : FlashState := { s with total_allocations := u32 (s.total_allocations + 1) }
        let s : FlashState :=
          if bytes_needed > s.peak_allocated_bytes then
            { s with peak_allocated_bytes := bytes_needed }
          else s
        (s.flash_buffer.data, s)

/-- Get current buffer pointer. -/
def dynamic_flash_buffer_get (s : FlashState) : Option Int :=
  if s.flash_buffer_system_initialized = 0 ∨ s.flash_buffer.in_use = 0 then none
  else s.flash_buffer.data

/-- Check if buffer is currently allocated
(`flash_buffer_system_initialized && flash_buffer.in_use`, as `u8`). -/
def dynamic_flash_buffer_is_allocated (s : FlashState) : Int :=
  if s.flash_buffer_system_initialized ≠ 0 ∧ s.flash_buffer.in_use ≠ 0 then 1 else 0

/-- The size in elements of the current buffer. -/
def dynamic_flash_buffer_get_size (s : FlashState) : Int :=
  if s.flash_buffer_system_initialized = 0 ∨ s.flash_buffer.in_use = 0 then 0
  else s.flash_buffer.size

/-- The bytes of the current buffer. -/
def dynamic_flash_buffer_get_allocated_bytes (s : FlashState) : Int :=
  if s.flash_buffer_system_initialized = 0 ∨ s.flash_buffer.in_use = 0 then 0
  else s.flash_buffer.allocated_bytes

/-- The bytes behind a data pointer; reading through `NULL` is undefined in C and
reads zeros here. -/
def blockAt (heap : Int → Int → Int) (data : Option Int) : Int → Int :=
  match data with
  | none => fun _ => 0
  | some p => heap p

/-- Resize buffer if needed (preserving data). -/
def dynamic_flash_buffer_resize (fresh : Option Int) (new_num_elements : Int) (s : FlashState) :
    Option Int × FlashState :=
  if s.flash_buffer_system_initialized = 0 ∨ s.flash_buffer.in_use = 0 then (none, s)
  else if new_num_elements ≤ s.flash_buffer.size then (s.flash_buffer.data, s)
  else if new_num_elements > FLASH_BUFFER_MAX_SIZE then (none, s)
  else
    let new_bytes := u32 (new_num_elements * 4)
    match fresh with
    | none => (none, s)
    | some new_data =>
      let block := memcpy (s.heap new_data) (blockAt s.heap s.flash_buffer.data)
        s.flash_buffer.allocated_bytes
      let block := memset 0 block s.flash_buffer.allocated_bytes
        (new_bytes - s.flash_buffer.allocated_bytes)
      let s : FlashState := { s with heap := upd s.heap new_data block }
      let s : FlashState :=
        { s with flash_buffer := { s.flash_buffer with data := some new_data } }
      let s : FlashState :=
        { s with flash_buffer := { s.flash_buffer with size := new_num_elements } }
      let s : FlashState :=
        { s with flash_buffer := { s.flash_buffer with allocated_bytes := new_bytes } }
      let s : FlashState :=
        if new_bytes > s.peak_allocated_bytes then { s with peak_allocated_bytes := new_bytes }
        else s
      (s.flash_buffer.data, s)

/-- The states reached from program start through the functions of the module
and through writes of the caller into the heap, together with the buffer the
module holds: `some (p, n)` after a call that returned the block `p` for `n`
elements, `none` when there is no such block, in particular after
initialisation, after `dynamic_flash_buffer_free` and after an allocation that
returned `NULL`. -/
inductive FlashReach : FlashState → Option (Int × Int) → Prop
  | start (heap : Int → Int → Int) : FlashReach (flash_start heap) none
  | init_first (s : FlashState) (b : Option (Int × Int)) : FlashReach s b →
      s.flash_buffer_system_initialized = 0 → FlashReach (dynamic_flash_buffer_init s) none
  | init_again (s : FlashState) (b : Option (Int × Int)) : FlashReach s b →
      s.flash_buffer_system_initialized ≠ 0 → FlashReach (dynamic_flash_buffer_init s) b
  | deinit (s : FlashState) (b : Option (Int × Int)) : FlashReach s b →
      FlashReach (dynamic_flash_buffer_deinit s) none
  | free (s : FlashState) (b : Option (Int × Int)) : FlashReach s b →
      FlashReach (dynamic_flash_buffer_free s) none
  | alloc_ok (s : FlashState) (b : Option (Int × Int)) (fresh : Option Int) (n p : Int) :
      FlashReach s b → 0 ≤ n → n < 4294967296 →
      (dynamic_flash_buffer_alloc fresh n s).1 = some p →
      FlashReach (dynamic_flash_buffer_alloc fresh n s).2
        (some (p, if n = 0 then FLASH_BUFFER_DEFAULT_SIZE else n))
  | alloc_null (s : FlashState) (b : Option (Int × Int)) (fresh : Option Int) (n : Int) :
      FlashReach s b → 0 ≤ n → n < 4294967296 →
      (dynamic_flash_buffer_alloc fresh n s).1 = none →
      FlashReach (dynamic_flash_buffer_alloc fresh n s).2 none
  | resize_ok (s : FlashState) (q m : Int) (fresh : Option Int) (n p : Int) :
      FlashReach s (some (q, m)) → 0 ≤ n → n < 4294967296 →
      (dynamic_flash_buffer_resize fresh n s).1 = some p →
      FlashReach (dynamic_flash_buffer_resize fresh n s).2 (some (p, max n m))
  | resize_null (s : FlashState) (b : Option (Int × Int)) (fresh : Option Int) (n : Int) :
      FlashReach s b → 0 ≤ n → n < 4294967296 →
      (dynamic_flash_buffer_resize fresh n s).1 = none →
      FlashReach (dynamic_flash_buffer_resize fresh n s).2 b
  | write (s : FlashState) (b : Option (Int × Int)) (heap : Int → Int → Int) :
      FlashReach s b → FlashReach { s with heap := heap } b

/-- What the module's variables say of the buffer it holds. -/
def FlashOK (s : FlashState) : Option (Int × Int) → Prop
  | none => s.flash_buffer.in_use = 0
  | some (p, n) =>
    s.flash_buffer_system_initialized ≠ 0 ∧ s.flash_buffer.in_use ≠ 0 ∧
    s.flash_buffer.data = some p ∧ s.flash_buffer.size = n ∧ 1 ≤ n ∧
    n ≤ FLASH_BUFFER_MAX_SIZE ∧ s.flash_buffer.allocated_bytes = 4 * n

/-- The example run: initialisation, then an allocation of the default size
that `alloc_mem` serves with the block at 5000. -/
def exFlash : FlashState :=
  (dynamic_flash_buffer_alloc (some 5000) 0
    (dynamic_flash_buffer_init (flash_start (fun _ _ => 7)))).2

/-- The state in which `dynamic_flash_buffer_alloc` looks at the size asked
for: a buffer in use has been released. -/
def dynamic_flash_buffer_alloc_cleared (s : FlashState) : FlashState :=
  if s.flash_buffer.in_use ≠ 0 then dynamic_flash_buffer_free s else s

/-! ### Dynamic network of the allocation study -/

/-- The static variables of the module: the table `op_first_input_idx` (`int16_t`
entries, -1 for an operator without inputs) and its flag. -/
structure NetOpt where
  op_first_input_idx : Int → Int
  lookup_table_initialized : Int

/-- Body of the first loop of `net_optimize_init_lookup_table`. -/
def net_optimize_init_clear (op_idx : Int) (t : Int → Int) : Int → Int :=
  upd t op_idx (-1)

/-- Body of the second loop of `net_optimize_init_lookup_table`; `op_idx` is a
`uint16_t`, the table entry an `int16_t`. -/
def net_optimize_init_scan (w : World) (in_idx : Int) (t : Int → Int) : Int → Int :=
  let op_idx := u16 (w.net.ins in_idx).opIdx
  if t op_idx = -1 then upd t op_idx (s16 in_idx) else t

/-- Initialize the lookup table by scanning existing network. -/
def net_optimize_init_lookup_table (E : Env) (w : World) (o : NetOpt) : NetOpt :=
  let t := forUp 0 E.NET_OPS_MAX.toNat net_optimize_init_clear o.op_first_input_idx
  let t := forUp 0 w.net.numIns.toNat (net_optimize_init_scan w) t
  { op_first_input_idx := t, lookup_table_initialized := 1 }

/-- Optimized version of `net_op_in_idx` using lookup table (arguments and result
`uint16_t`). -/
def net_op_in_idx_optimized (E : Env) (w : World) (op_idx in_idx : Int) (o : NetOpt) :
    Int × NetOpt :=
  let o := if o.lookup_table_initialized = 0 then net_optimize_init_lookup_table E w o else o
  if u16 op_idx ≥ E.NET_OPS_MAX then (0, o)
  else
    let first_input := o.op_first_input_idx (u16 op_idx)
    if first_input = -1 then (0, o)
    else (u16 (first_input + u16 in_idx), o)

/-- Reference implementation (original linear search): the loop of
`net_op_in_idx`. -/
def net_op_in_idx_reference (w : World) (op_idx in_idx : Int) : Int :=
  net_op_in_idx_loop w (u16 op_idx) (u16 in_idx) w.net.numIns.toNat 0

/-! ### Nodes grouped in operator order -/

/-- The input nodes are grouped in operator order: the operators have
non-negative input counts, the live inputs are those of the operators, and the
inputs of operator `k` follow those of the operators below `k` and carry the
label `k`. -/
def InsGrouped (w : World) : Prop :=
  (∀ k, 0 ≤ k → k < w.net.numOps → 0 ≤ (w.net.ops k).numInputs) ∧
  w.net.numIns = sumFrom (fun k => (w.net.ops k).numInputs) w.net.numOps.toNat 0 ∧
  ∀ k j, 0 ≤ k → k < w.net.numOps → 0 ≤ j → j < (w.net.ops k).numInputs →
    (w.net.ins (sumFrom (fun i => (w.net.ops i).numInputs) k.toNat 0 + j)).opIdx = k

/-- The output nodes are grouped in operator order. -/
def OutsGrouped (w : World) : Prop :=
  (∀ k, 0 ≤ k → k < w.net.numOps → 0 ≤ (w.net.ops k).numOutputs) ∧
  w.net.numOuts = sumFrom (fun k => (w.net.ops k).numOutputs) w.net.numOps.toNat 0 ∧
  ∀ k j, 0 ≤ k → k < w.net.numOps → 0 ≤ j → j < (w.net.ops k).numOutputs →
    (w.net.outs (sumFrom (fun i => (w.net.ops i).numOutputs) k.toNat 0 + j)).opIdx = k

/-! ### Connections into an input -/

/-- Search loop of `net_in_connected`: `n` iterations remain, `i` is the loop
counter; the result is the flag `f`. -/
def net_in_connected_loop (w : World) (iIdx : Int) : Nat → Int → Int
  | 0, _ => 0
  | n + 1, i =>
    if (w.net.outs i).target = iIdx then 1
    else net_in_connected_loop w iIdx n (i + 1)

/-- Is this input connected to anything? -/
def net_in_connected (iIdx : Int) (w : World) : Int :=
  net_in_connected_loop w iIdx w.net.numOuts.toNat 0

/-- Body of the loop of `net_gather`: test output `iTest`; the state is the
count `iOut` and the caller's array. -/
def net_gather_step (w : World) (iIdx : Int) (iTest : Int) (s : Int × (Int → Int)) :
    Int × (Int → Int) :=
  if (w.net.outs iTest).target = iIdx then (u32 (s.1 + 1), upd s.2 s.1 iTest) else s

/-- Populate an array with indices of all connected outputs for a given index,
return the count of connections. -/
def net_gather (E : Env) (iIdx : Int) (outs : Int → Int) (w : World) : Int × (Int → Int) :=
  forUp 0 E.NET_OUTS_MAX.toNat (net_gather_step w iIdx) (0, outs)

/-- Example world: on the initialised network (12 system operators, 43 inputs,
20 outputs) an Add (operator 12, inputs 43 and 44, output 20) and a Split
(operator 13, input 45, outputs 21 and 22) are added and the second output of the
Split is wired to input 0. -/
def exLastWired : World :=
  net_connect 22 0 (net_add_op exEnv eOpSplit (net_add_op exEnv 2 exInit).2).2

/-- Example world: `exLastWired` with the Add removed again. -/
def exStale : World := (net_remove_op exEnv 12 exLastWired).2

/-! # Properties -/

/-! ### Conversions -/

theorem u16_of_range {x : Int} (h0 : 0 ≤ x) (h1 : x < 65536) : u16 x = x := by
  unfold u16; omega

theorem u8_of_range {x : Int} (h0 : 0 ≤ x) (h1 : x < 256) : u8 x = x := by
  unfold u8; omega

theorem s16_of_range {x : Int} (h0 : -32768 ≤ x) (h1 : x < 32768) : s16 x = x := by
  unfold s16; omega

/-! ### Loop principles -/

theorem forUp_succ_last {σ : Type} (body : Int → σ → σ) :
    ∀ (n : Nat) (lo : Int) (s : σ),
      forUp lo (n + 1) body s = body (lo + n) (forUp lo n body s) := by
  intro n
  induction n with
  | zero => intro lo s; simp [forUp]
  | succ n ih =>
    intro lo s
    rw [forUp, ih (lo + 1) (body lo s), forUp]
    congr 1
    push_cast
    ring

theorem forDown_succ_last {σ : Type} (body : Int → σ → σ) :
    ∀ (n : Nat) (hi : Int) (s : σ),
      forDown hi (n + 1) body s = body (hi - n) (forDown hi n body s) := by
  intro n
  induction n with
  | zero => intro hi s; simp [forDown]
  | succ n ih =>
    intro hi s
    rw [forDown, ih (hi - 1) (body hi s), forDown]
    congr 1
    push_cast
    ring

/-- A projection that no iteration changes is unchanged by the loop. -/
theorem forUp_proj {σ β : Type} (π : σ → β) (body : Int → σ → σ)
    (h : ∀ i s, π (body i s) = π s) :
    ∀ (n : Nat) (lo : Int) (s : σ), π (forUp lo n body s) = π s := by
  intro n
  induction n with
  | zero => intro lo s; rfl
  | succ n ih => intro lo s; rw [forUp, ih, h]

theorem forDown_proj {σ β : Type} (π : σ → β) (body : Int → σ → σ)
    (h : ∀ i s, π (body i s) = π s) :
    ∀ (n : Nat) (hi : Int) (s : σ), π (forDown hi n body s) = π s := by
  intro n
  induction n with
  | zero => intro hi s; rfl
  | succ n ih => intro hi s; rw [forDown, ih, h]

/-- A relation to the initial state that is reflexive and that every iteration
extends holds between the initial and the final state. -/
theorem forUp_rel {σ : Type} (R : σ → σ → Prop) (body : Int → σ → σ)
    (hrefl : ∀ s, R s s) (hstep : ∀ i s0 s, R s0 s → R s0 (body i s)) :
    ∀ (n : Nat) (lo : Int) (s : σ), R s (forUp lo n body s) := by
  intro n
  induction n with
  | zero => intro lo s; exact hrefl s
  | succ n ih =>
    intro lo s
    rw [forUp_succ_last]
    exact hstep _ _ _ (ih lo s)

theorem forDown_rel {σ : Type} (R : σ → σ → Prop) (body : Int → σ → σ)
    (hrefl : ∀ s, R s s) (hstep : ∀ i s0 s, R s0 s → R s0 (body i s)) :
    ∀ (n : Nat) (hi : Int) (s : σ), R s (forDown hi n body s) := by
  intro n
  induction n with
  | zero => intro hi s; exact hrefl s
  | succ n ih =>
    intro hi s
    rw [forDown_succ_last]
    exact hstep _ _ _ (ih hi s)

/-- Ascending loop over an array view `t`: iteration `i` writes cell `i` with a
value `V i` computed from cells at or above `i`.  Then every cell of the range
ends up with `V` of the initial array. -/
theorem forUp_gather {σ α : Type} (t : σ → Int → α) (V : Int → (Int → α) → α)
    (body : Int → σ → σ)
    (hV : ∀ i a b, (∀ j, i ≤ j → a j = b j) → V i a = V i b)
    (hbody : ∀ i s j, t (body i s) j = if j = i then V i (t s) else t s j) :
    ∀ (n : Nat) (lo : Int) (s : σ) (j : Int),
      t (forUp lo n body s) j = if lo ≤ j ∧ j < lo + n then V j (t s) else t s j := by
  intro n
  induction n with
  | zero =>
    intro lo s j
    have : ¬ (lo ≤ j ∧ j < lo + ((0 : Nat) : Int)) := by simp
    rw [if_neg this]; rfl
  | succ n ih =>
    intro lo s j
    rw [forUp_succ_last, hbody, ih]
    by_cases hj : j = lo + n
    · subst hj
      simp only [if_true]
      have : (lo ≤ lo + (n:Int) ∧ lo + (n:Int) < lo + ((n + 1 : Nat) : Int)) := by
        constructor <;> push_cast <;> omega
      rw [if_pos this]
      apply hV
      intro j hj
      rw [ih]
      have : ¬ (lo ≤ j ∧ j < lo + n) := by omega
      rw [if_neg this]
    · rw [if_neg hj]
      by_cases h1 : lo ≤ j ∧ j < lo + n
      · rw [if_pos h1, if_pos]
        constructor
        · exact h1.1
        · push_cast; omega
      · rw [if_neg h1, if_neg]
        push_cast
        omega

/-- Descending loop over an array view `t`: iteration `i` writes cell `i` with
a value `V i` computed from cells at or below `i`. -/
theorem forDown_gather {σ α : Type} (t : σ → Int → α) (V : Int → (Int → α) → α)
    (body : Int → σ → σ)
    (hV : ∀ i a b, (∀ j, j ≤ i → a j = b j) → V i a = V i b)
    (hbody : ∀ i s j, t (body i s) j = if j = i then V i (t s) else t s j) :
    ∀ (n : Nat) (hi : Int) (s : σ) (j : Int),
      t (forDown hi n body s) j = if hi - n < j ∧ j ≤ hi then V j (t s) else t s j := by
  intro n
  induction n with
  | zero =>
    intro hi s j
    have : ¬ (hi - ((0 : Nat) : Int) < j ∧ j ≤ hi) := by simp
    rw [if_neg this]; rfl
  | succ n ih =>
    intro hi s j
    rw [forDown_succ_last, hbody, ih]
    by_cases hj : j = hi - n
    · subst hj
      simp only [if_true]
      have : (hi - ((n + 1 : Nat) : Int) < hi - (n:Int) ∧ hi - (n:Int) ≤ hi) := by
        constructor <;> push_cast <;> omega
      rw [if_pos this]
      apply hV
      intro j hj
      rw [ih]
      have : ¬ (hi - n < j ∧ j ≤ hi) := by omega
      rw [if_neg this]
    · rw [if_neg hj]
      by_cases h1 : hi - n < j ∧ j ≤ hi
      · rw [if_pos h1, if_pos]
        constructor
        · push_cast; omega
        · exact h1.2
      · rw [if_neg h1, if_neg]
        push_cast
        omega


/-! ### Connections -/

/-- C6: `net_connect(o, i)`, for a target index `i` that fits the `s16` target
field and an output `o` whose owner index is a live operator, sets
`outs[o].target` to `i`, so that `net_get_target(o)` returns `i`; it sets the
owner's cache entry `out[opOutIdx]` to `i` when input `i` belongs to a different
operator and leaves that entry unchanged when input `i` belongs to the owner of
`o`; no other output node, no other operator and no other entry of the owner's
cache changes. -/
theorem net_connect_sets_target_and_cache (w : World) (o i : Int)
    (hi0 : 0 ≤ i) (hi1 : i < 32768)
    (hs0 : 0 ≤ (w.net.outs o).opIdx) (hs1 : (w.net.outs o).opIdx < w.net.numOps) :
    net_get_target o (net_connect o i w) = i ∧
    ((w.net.ins i).opIdx ≠ (w.net.outs o).opIdx →
      ((net_connect o i w).net.ops (w.net.outs o).opIdx).out (w.net.outs o).opOutIdx = i) ∧
    ((w.net.ins i).opIdx = (w.net.outs o).opIdx →
      ((net_connect o i w).net.ops (w.net.outs o).opIdx).out (w.net.outs o).opOutIdx
        = ((w.net.ops (w.net.outs o).opIdx).out (w.net.outs o).opOutIdx)) ∧
    (∀ o2, o2 ≠ o → (net_connect o i w).net.outs o2 = w.net.outs o2) ∧
    (∀ k, k ≠ (w.net.outs o).opIdx → (net_connect o i w).net.ops k = w.net.ops k) ∧
    (∀ j, j ≠ (w.net.outs o).opOutIdx →
      ((net_connect o i w).net.ops (w.net.outs o).opIdx).out j
        = (w.net.ops (w.net.outs o).opIdx).out j) := by
  have hs : s16 i = i := s16_of_range (by omega) hi1
  by_cases hself : (w.net.outs o).opIdx = (w.net.ins i).opIdx
  · simp [net_connect, net_get_target, setOut, setOp, upd, hself, hs]
    intro o2 ho2
    simp [ho2]
  · have hself2 : ¬ (w.net.ins i).opIdx = (w.net.outs o).opIdx := fun h => hself h.symm
    simp [net_connect, net_get_target, setOut, setOp, upd, hself, hself2, hs, hs0, hs1]
    refine ⟨?_, ?_, ?_⟩
    · intro o2 ho2; simp [ho2]
    · intro k hk; simp [hk]
    · intro j hj; simp [hj]

/-- Witness of C6: connecting the first Split output to the first Add input in
the two-operator example network. -/
theorem net_connect_sets_target_and_cache_witness :
    net_get_target 0 (net_connect 0 1 exTwo) = 1 ∧
    ((net_connect 0 1 exTwo).net.ops 0).out 0 = 1 := by
  have h := net_connect_sets_target_and_cache exTwo 0 1 (by decide) (by decide) (by decide!)
    (by decide!)
  have e1 : (exTwo.net.outs 0).opIdx = 0 := by decide!
  have e2 : (exTwo.net.outs 0).opOutIdx = 0 := by decide!
  have e3 : (exTwo.net.ins 1).opIdx ≠ (exTwo.net.outs 0).opIdx := by decide!
  have h2 := h.2.1 e3
  rw [e1, e2] at h2
  exact ⟨h.1, h2⟩

theorem net_connect_shape (o i : Int) (w : World) : (net_connect o i w).shape = w.shape := by
  unfold net_connect
  dsimp only
  split_ifs with h1 h2
  all_goals
    simp only [World.shape, setOut, setOp, upd]
    congr 1 <;> funext x <;> split_ifs with hx <;> simp [hx]

theorem net_connect_target (o i : Int) (w : World) (j : Int) :
    (net_connect o i w).target j = if j = o then s16 i else w.target j := by
  unfold net_connect World.target
  dsimp only
  split_ifs with h1 h2 h3 h4 h5 <;> simp_all [setOut, setOp, upd]

theorem net_connect_presets (o i : Int) (w : World) : (net_connect o i w).presets = w.presets := by
  unfold net_connect
  dsimp only
  split_ifs <;> rfl

theorem net_disconnect_shape (o : Int) (w : World) : (net_disconnect o w).shape = w.shape := by
  simp only [net_disconnect, World.shape, setOut, setOp, upd]
  congr 1 <;> funext x <;> split_ifs with hx <;> simp [hx]

theorem net_disconnect_target (o : Int) (w : World) (j : Int) :
    (net_disconnect o w).target j = if j = o then -1 else w.target j := by
  unfold net_disconnect World.target
  by_cases hj : j = o <;> simp [setOut, setOp, upd, hj]

theorem net_disconnect_presets (o : Int) (w : World) : (net_disconnect o w).presets = w.presets := rfl


theorem upd_upd_same {α : Type} (a : Int → α) (i : Int) (u v : α) :
    upd (upd a i u) i v = upd a i v := by
  funext j; unfold upd; split_ifs <;> rfl

theorem upd_same {α : Type} (a : Int → α) (i : Int) (v : α) : upd a i v i = v := by
  simp [upd]

theorem net_add_op_in_node_eq (i : Int) (w : World) :
    net_add_op_in_node i w =
      { w with net := { w.net with
          ins := upd w.net.ins w.net.numIns
            { opIdx := w.net.numOps, opInIdx := u8 i, play := (w.net.ins w.net.numIns).play },
          numIns := u16 (w.net.numIns + 1) } } := by
  simp [net_add_op_in_node, setIn, upd_upd_same, upd_same]

theorem net_add_op_ins_eq (ins : Int) (w : World) (hi : 0 ≤ ins) (h0 : 0 ≤ w.net.numIns)
    (h1 : w.net.numIns + ins < 65536) :
    forUp 0 ins.toNat net_add_op_in_node w =
      { w with net := { w.net with
          numIns := w.net.numIns + ins,
          ins := fun j =>
            if w.net.numIns ≤ j ∧ j < w.net.numIns + ins then
              { opIdx := w.net.numOps, opInIdx := u8 (j - w.net.numIns), play := (w.net.ins j).play }
            else w.net.ins j } } := by
  obtain ⟨n, rfl⟩ : ∃ n : Nat, ins = n := ⟨ins.toNat, by omega⟩
  simp only [Int.toNat_ofNat]
  induction n with
  | zero =>
    have : (fun j => if w.net.numIns ≤ j ∧ j < w.net.numIns + ((0:Nat):Int) then
              ({ opIdx := w.net.numOps, opInIdx := u8 (j - w.net.numIns), play := (w.net.ins j).play } : inode)
            else w.net.ins j) = w.net.ins := by
      funext j
      rw [if_neg]
      simp
    simp only [forUp, this]
    simp
  | succ n ih =>
    rw [forUp_succ_last, ih (by omega) (by push_cast at h1; omega), net_add_op_in_node_eq]
    dsimp only
    have hu : u16 (w.net.numIns + (n:Int) + 1) = w.net.numIns + (n:Int) + 1 :=
      u16_of_range (by omega) (by push_cast at h1; omega)
    rw [hu]
    congr 2
    · push_cast; ring
    · funext j
      unfold upd
      by_cases hj : j = w.net.numIns + (n:Int)
      · subst hj
        have h2 : ¬ (w.net.numIns ≤ w.net.numIns + (n:Int) ∧ w.net.numIns + (n:Int) < w.net.numIns + (n:Int)) := by omega
        have h3 : (w.net.numIns ≤ w.net.numIns + (n:Int) ∧ w.net.numIns + (n:Int) < w.net.numIns + ((n+1:Nat):Int)) := by
          push_cast; omega
        simp only [if_true, if_neg h2, if_pos h3]
        congr 2
        omega
      · simp only [if_neg hj]
        by_cases hj2 : w.net.numIns ≤ j ∧ j < w.net.numIns + (n:Int)
        · have : w.net.numIns ≤ j ∧ j < w.net.numIns + ((n + 1 : Nat) : Int) := by
            push_cast; omega
          rw [if_pos hj2, if_pos this]
        · have : ¬ (w.net.numIns ≤ j ∧ j < w.net.numIns + ((n + 1 : Nat) : Int)) := by
            push_cast; omega
          rw [if_neg hj2, if_neg this]

theorem net_add_op_out_node_eq (i : Int) (w : World) :
    net_add_op_out_node i w =
      { w with net := { w.net with
          outs := upd w.net.outs w.net.numOuts
            { opOutIdx := u8 i, target := -1, opIdx := w.net.numOps },
          numOuts := u16 (w.net.numOuts + 1) } } := by
  simp [net_add_op_out_node, setOut, upd_upd_same, upd_same]

theorem net_add_op_outs_eq (outs : Int) (w : World) (hi : 0 ≤ outs) (h0 : 0 ≤ w.net.numOuts)
    (h1 : w.net.numOuts + outs < 65536) :
    forUp 0 outs.toNat net_add_op_out_node w =
      { w with net := { w.net with
          numOuts := w.net.numOuts + outs,
          outs := fun j =>
            if w.net.numOuts ≤ j ∧ j < w.net.numOuts + outs then
              { opOutIdx := u8 (j - w.net.numOuts), target := -1, opIdx := w.net.numOps }
            else w.net.outs j } } := by
  obtain ⟨n, rfl⟩ : ∃ n : Nat, outs = n := ⟨outs.toNat, by omega⟩
  simp only [Int.toNat_ofNat]
  induction n with
  | zero =>
    have : (fun j => if w.net.numOuts ≤ j ∧ j < w.net.numOuts + ((0:Nat):Int) then
              ({ opOutIdx := u8 (j - w.net.numOuts), target := -1, opIdx := w.net.numOps } : onode)
            else w.net.outs j) = w.net.outs := by
      funext j
      rw [if_neg]
      simp
    simp only [forUp, this]
    simp
  | succ n ih =>
    rw [forUp_succ_last, ih (by omega) (by push_cast at h1; omega), net_add_op_out_node_eq]
    dsimp only
    have hu : u16 (w.net.numOuts + (n:Int) + 1) = w.net.numOuts + (n:Int) + 1 :=
      u16_of_range (by omega) (by push_cast at h1; omega)
    rw [hu]
    congr 2
    · push_cast; ring
    · funext j
      unfold upd
      by_cases hj : j = w.net.numOuts + (n:Int)
      · subst hj
        have h2 : ¬ (w.net.numOuts ≤ w.net.numOuts + (n:Int) ∧ w.net.numOuts + (n:Int) < w.net.numOuts + (n:Int)) := by omega
        have h3 : (w.net.numOuts ≤ w.net.numOuts + (n:Int) ∧ w.net.numOuts + (n:Int) < w.net.numOuts + ((n+1:Nat):Int)) := by
          push_cast; omega
        simp only [if_true, if_neg h2, if_pos h3]
        congr 2
        omega
      · simp only [if_neg hj]
        by_cases hj2 : w.net.numOuts ≤ j ∧ j < w.net.numOuts + (n:Int)
        · have : w.net.numOuts ≤ j ∧ j < w.net.numOuts + ((n + 1 : Nat) : Int) := by
            push_cast; omega
          rw [if_pos hj2, if_pos this]
        · have : ¬ (w.net.numOuts ≤ j ∧ j < w.net.numOuts + ((n + 1 : Nat) : Int)) := by
            push_cast; omega
          rw [if_neg hj2, if_neg this]


theorem net_add_op_preset_out_net (ins nis i j : Int) (w : World) :
    (net_add_op_preset_out ins nis i j w).net = w.net := by
  unfold net_add_op_preset_out
  dsimp only
  split_ifs <;> rfl

theorem net_add_op_param_net (E : Env) (ins nis i j : Int) (w : World) :
    (net_add_op_param E ins nis i j w).net = w.net := by
  unfold net_add_op_param
  dsimp only
  split_ifs <;> rfl

theorem net_add_op_params_net (E : Env) (ins nis i : Int) (w : World) :
    (net_add_op_params E ins nis i w).net = w.net := by
  unfold net_add_op_params
  exact forDown_proj World.net _ (fun j s => net_add_op_param_net E ins nis i j s) _ _ _

theorem net_add_op_shift_shape (E : Env) (ins nis i : Int) (w : World) :
    (net_add_op_shift E ins nis i w).shape = w.shape := by
  unfold net_add_op_shift
  dsimp only
  rw [forUp_proj World.shape _ (fun j s => by
    show (net_add_op_preset_out ins nis i j s).shape = s.shape
    unfold World.shape
    rw [net_add_op_preset_out_net]
    unfold net_add_op_preset_out
    dsimp only
    split_ifs <;> rfl)]
  split_ifs
  · exact net_connect_shape _ _ _
  · rfl

theorem net_add_op_shift_target (E : Env) (ins nis i : Int) (w : World) (j : Int) :
    (net_add_op_shift E ins nis i w).target j =
      if j = i then (if w.target i ≥ nis then s16 (w.target i + ins) else w.target i)
      else w.target j := by
  unfold net_add_op_shift
  dsimp only
  have h := forUp_proj World.net _ (fun j s => net_add_op_preset_out_net ins nis i j s)
    E.NET_PRESETS_MAX.toNat 0
    (if (w.net.outs i).target ≥ nis then net_connect i ((w.net.outs i).target + ins) w else w)
  unfold World.target
  rw [h]
  by_cases hc : (w.net.outs i).target ≥ nis
  · rw [if_pos hc, if_pos hc]
    exact net_connect_target _ _ _ _
  · rw [if_neg hc, if_neg hc]
    split_ifs with hj
    · rw [hj]
    · rfl


theorem net_add_op_nodes_eq (op : op_t) (ins outs : Int) (w : World)
    (hn0 : 0 ≤ ins) (hm0 : 0 ≤ outs) (h1 : 0 ≤ w.net.numIns) (h2 : 0 ≤ w.net.numOuts)
    (h3 : w.net.numIns + ins < 65536) (h4 : w.net.numOuts + outs < 65536) :
    net_add_op_nodes op ins outs w =
      { w with net := { w.net with
        ops := upd w.net.ops w.net.numOps op,
        numIns := w.net.numIns + ins,
        numOuts := w.net.numOuts + outs,
        ins := fun j =>
          if w.net.numIns ≤ j ∧ j < w.net.numIns + ins then
            { opIdx := w.net.numOps, opInIdx := u8 (j - w.net.numIns), play := (w.net.ins j).play }
          else w.net.ins j,
        outs := fun j =>
          if w.net.numOuts ≤ j ∧ j < w.net.numOuts + outs then
            { opOutIdx := u8 (j - w.net.numOuts), target := -1, opIdx := w.net.numOps }
          else w.net.outs j } } := by
  unfold net_add_op_nodes
  dsimp only
  rw [net_add_op_ins_eq _ _ hn0 (by simpa [setOp] using h1) (by simp only [setOp]; omega)]
  rw [net_add_op_outs_eq _ _ hm0 (by simpa [setOp] using h2) (by simp only [setOp]; omega)]
  simp only [setOp]

theorem net_add_op_adjust_shape (E : Env) (ins nis nos : Int) (w : World) :
    (net_add_op_adjust E ins nis nos w).shape = w.shape := by
  unfold net_add_op_adjust
  split_ifs
  · dsimp only
    rw [forUp_proj World.shape _ (fun i s => by
      show (net_add_op_params E ins nis i s).shape = s.shape
      have h := net_add_op_params_net E ins nis i s
      unfold World.shape
      rw [h]
      have hp : (net_add_op_params E ins nis i s).pools = s.pools := by
        unfold net_add_op_params
        exact forDown_proj World.pools _ (fun j s => by
          unfold net_add_op_param; dsimp only; split_ifs <;> rfl) _ _ _
      rw [hp])]
    exact forUp_proj World.shape _ (fun i s => net_add_op_shift_shape E ins nis i s) _ _ _
  · rfl

theorem net_add_op_adjust_target (E : Env) (ins nis nos : Int) (w : World) (j : Int) :
    (net_add_op_adjust E ins nis nos w).target j =
      if 0 < w.net.numOps ∧ 0 ≤ j ∧ j < nos ∧ w.target j ≥ nis then s16 (w.target j + ins)
      else w.target j := by
  unfold net_add_op_adjust
  split_ifs with h0 h1 h2
  · dsimp only
    have hA := forUp_proj World.net _ (fun i s => net_add_op_params_net E ins nis i s)
      E.NET_PRESETS_MAX.toNat 0 (forUp 0 nos.toNat (net_add_op_shift E ins nis) w)
    unfold World.target at *
    rw [hA]
    have hB := forUp_gather World.target
      (fun i a => if a i ≥ nis then s16 (a i + ins) else a i)
      (net_add_op_shift E ins nis)
      (fun i a b hab => by dsimp only; rw [hab i (le_refl _)])
      (fun i s j => net_add_op_shift_target E ins nis i s j) nos.toNat 0 w j
    unfold World.target at hB
    rw [hB]
    have : (0 ≤ j ∧ j < 0 + (nos.toNat : Int)) := by omega
    rw [if_pos this, if_pos h1.2.2.2]
  · dsimp only
    have hA := forUp_proj World.net _ (fun i s => net_add_op_params_net E ins nis i s)
      E.NET_PRESETS_MAX.toNat 0 (forUp 0 nos.toNat (net_add_op_shift E ins nis) w)
    unfold World.target at *
    rw [hA]
    have hB := forUp_gather World.target
      (fun i a => if a i ≥ nis then s16 (a i + ins) else a i)
      (net_add_op_shift E ins nis)
      (fun i a b hab => by dsimp only; rw [hab i (le_refl _)])
      (fun i s j => net_add_op_shift_target E ins nis i s j) nos.toNat 0 w j
    unfold World.target at hB
    rw [hB]
    by_cases hr : (0 ≤ j ∧ j < 0 + (nos.toNat : Int))
    · rw [if_pos hr]
      have : ¬ ((w.net.outs j).target ≥ nis) := by
        intro hc; apply h1; exact ⟨h0, hr.1, by omega, hc⟩
      rw [if_neg this]
    · rw [if_neg hr]
  · exfalso; omega
  · rfl


theorem op_init_numInputs (E : Env) (addr opId : Int) :
    (op_init E addr opId).numInputs = (E.op_registry opId).numInputs := rfl

theorem op_init_numOutputs (E : Env) (addr opId : Int) :
    (op_init E addr opId).numOutputs = (E.op_registry opId).numOutputs := rfl

theorem net_add_op_success (E : Env) (opId : Int) (w : World) (addr : Int)
    (hid0 : 0 ≤ opId) (hid1 : opId < E.numOpClasses)
    (hcap : w.net.numOps < E.NET_OPS_MAX)
    (hmem : (net_alloc_op (E.op_registry opId).size w.pools).1 = some addr)
    (hn0 : 0 ≤ (E.op_registry opId).numInputs) (hn1 : (E.op_registry opId).numInputs < 256)
    (hm0 : 0 ≤ (E.op_registry opId).numOutputs) (hm1 : (E.op_registry opId).numOutputs < 256)
    (hfitI : (E.op_registry opId).numInputs ≤ E.NET_INS_MAX - w.net.numIns)
    (hfitO : (E.op_registry opId).numOutputs ≤ E.NET_OUTS_MAX - w.net.numOuts)
    (hlimO : E.NET_OPS_MAX ≤ 32767) (hlimI : E.NET_INS_MAX < 65536)
    (hlimU : E.NET_OUTS_MAX < 65536)
    (h0 : 0 ≤ w.net.numOps) (h1 : 0 ≤ w.net.numIns) (h2 : 0 ≤ w.net.numOuts) :
    net_add_op E opId w =
      (w.net.numOps,
       { net := { (net_add_op_adjust E (E.op_registry opId).numInputs w.net.numIns w.net.numOuts
          (net_add_op_nodes (op_init E addr opId) (E.op_registry opId).numInputs
            (E.op_registry opId).numOutputs
            { w with pools := (net_alloc_op (E.op_registry opId).size w.pools).2 })).net with
                    numOps := w.net.numOps + 1 },
         presets := (net_add_op_adjust E (E.op_registry opId).numInputs w.net.numIns w.net.numOuts
          (net_add_op_nodes (op_init E addr opId) (E.op_registry opId).numInputs
            (E.op_registry opId).numOutputs
            { w with pools := (net_alloc_op (E.op_registry opId).size w.pools).2 })).presets,
         pools := (net_add_op_adjust E (E.op_registry opId).numInputs w.net.numIns w.net.numOuts
          (net_add_op_nodes (op_init E addr opId) (E.op_registry opId).numInputs
            (E.op_registry opId).numOutputs
            { w with pools := (net_alloc_op (E.op_registry opId).size w.pools).2 })).pools,
         netActive := (net_add_op_adjust E (E.op_registry opId).numInputs w.net.numIns w.net.numOuts
          (net_add_op_nodes (op_init E addr opId) (E.op_registry opId).numInputs
            (E.op_registry opId).numOutputs
            { w with pools := (net_alloc_op (E.op_registry opId).size w.pools).2 })).netActive,
         recallingScene := (net_add_op_adjust E (E.op_registry opId).numInputs w.net.numIns w.net.numOuts
          (net_add_op_nodes (op_init E addr opId) (E.op_registry opId).numInputs
            (E.op_registry opId).numOutputs
            { w with pools := (net_alloc_op (E.op_registry opId).size w.pools).2 })).recallingScene,
         legacyRandomFormat := (net_add_op_adjust E (E.op_registry opId).numInputs w.net.numIns w.net.numOuts
          (net_add_op_nodes (op_init E addr opId) (E.op_registry opId).numInputs
            (E.op_registry opId).numOutputs
            { w with pools := (net_alloc_op (E.op_registry opId).size w.pools).2 })).legacyRandomFormat }) := by
  have hun : u16 (E.op_registry opId).numInputs = (E.op_registry opId).numInputs :=
    u16_of_range hn0 (by omega)
  have hum : u16 (E.op_registry opId).numOutputs = (E.op_registry opId).numOutputs :=
    u16_of_range hm0 (by omega)
  have hc1 : ¬ (opId < 0 ∨ opId ≥ E.numOpClasses) := by omega
  have hc2 : ¬ (w.net.numOps ≥ E.NET_OPS_MAX) := by omega
  have hc3 : ¬ (opId ≥ E.numOpClasses) := by omega
  have hc4 : ¬ ((E.op_registry opId).numInputs > E.NET_INS_MAX - w.net.numIns) := by omega
  have hc5 : ¬ ((E.op_registry opId).numOutputs > E.NET_OUTS_MAX - w.net.numOuts) := by omega
  have hN : (net_add_op_adjust E (E.op_registry opId).numInputs w.net.numIns w.net.numOuts
      (net_add_op_nodes (op_init E addr opId) (E.op_registry opId).numInputs
        (E.op_registry opId).numOutputs
        { w with pools := (net_alloc_op (E.op_registry opId).size w.pools).2 })).net.numOps
      = w.net.numOps := by
    refine (congrArg Shape.numOps (net_add_op_adjust_shape E _ _ _ _)).trans ?_
    rw [net_add_op_nodes_eq (op_init E addr opId) _ _
      { w with pools := (net_alloc_op (E.op_registry opId).size w.pools).2 }
      hn0 hm0 h1 h2 (by dsimp only; omega) (by dsimp only; omega)]
    rfl
  have hu : u16 (w.net.numOps + 1) = w.net.numOps + 1 := u16_of_range (by omega) (by omega)
  have hsx : s16 (w.net.numOps + 1 - 1) = w.net.numOps := by
    rw [s16_of_range (by omega) (by omega)]; omega
  unfold net_add_op
  have hc0 : ¬ (opId < 0) := by omega
  simp only [hc0, hc2, hc3, or_self, if_false, hmem, op_init_numInputs, op_init_numOutputs,
    hun, hum, hc4, hc5, hN, hu, hsx]


/-- A successful `net_add_op`, stage by stage: `w3` is the state after the node
loops, `w4` the state after the adjustment of connections and presets. -/
theorem net_add_op_stages (E : Env) (opId : Int) (w : World) (addr : Int)
    (hid0 : 0 ≤ opId) (hid1 : opId < E.numOpClasses)
    (hcap : w.net.numOps < E.NET_OPS_MAX)
    (hmem : (net_alloc_op (E.op_registry opId).size w.pools).1 = some addr)
    (hn0 : 0 ≤ (E.op_registry opId).numInputs) (hn1 : (E.op_registry opId).numInputs < 256)
    (hm0 : 0 ≤ (E.op_registry opId).numOutputs) (hm1 : (E.op_registry opId).numOutputs < 256)
    (hfitI : (E.op_registry opId).numInputs ≤ E.NET_INS_MAX - w.net.numIns)
    (hfitO : (E.op_registry opId).numOutputs ≤ E.NET_OUTS_MAX - w.net.numOuts)
    (hlimO : E.NET_OPS_MAX ≤ 32767) (hlimI : E.NET_INS_MAX < 65536)
    (hlimU : E.NET_OUTS_MAX < 65536)
    (h0 : 0 ≤ w.net.numOps) (h1 : 0 ≤ w.net.numIns) (h2 : 0 ≤ w.net.numOuts) :
    ∃ w3 w4 : World,
      net_add_op E opId w =
        (w.net.numOps,
         { net := { w4.net with numOps := w.net.numOps + 1 }, presets := w4.presets,
           pools := w4.pools, netActive := w4.netActive, recallingScene := w4.recallingScene,
           legacyRandomFormat := w4.legacyRandomFormat }) ∧
      w4.shape = w3.shape ∧
      (∀ j, w4.target j =
        if 0 < w3.net.numOps ∧ 0 ≤ j ∧ j < w.net.numOuts ∧ w3.target j ≥ w.net.numIns then
          s16 (w3.target j + (E.op_registry opId).numInputs)
        else w3.target j) ∧
      w3.net.numOps = w.net.numOps ∧
      w3.net.numIns = w.net.numIns + (E.op_registry opId).numInputs ∧
      w3.net.numOuts = w.net.numOuts + (E.op_registry opId).numOutputs ∧
      w3.net.numParams = w.net.numParams ∧
      w3.net.ops = upd w.net.ops w.net.numOps (op_init E addr opId) ∧
      (∀ j, w3.net.ins j =
        if w.net.numIns ≤ j ∧ j < w.net.numIns + (E.op_registry opId).numInputs then
          { opIdx := w.net.numOps, opInIdx := u8 (j - w.net.numIns), play := (w.net.ins j).play }
        else w.net.ins j) ∧
      (∀ j, w3.net.outs j =
        if w.net.numOuts ≤ j ∧ j < w.net.numOuts + (E.op_registry opId).numOutputs then
          { opOutIdx := u8 (j - w.net.numOuts), target := -1, opIdx := w.net.numOps }
        else w.net.outs j) := by
  have hnodes := net_add_op_nodes_eq (op_init E addr opId) (E.op_registry opId).numInputs
    (E.op_registry opId).numOutputs
    { w with pools := (net_alloc_op (E.op_registry opId).size w.pools).2 }
    hn0 hm0 h1 h2 (by dsimp only; omega) (by dsimp only; omega)
  refine ⟨_, _, net_add_op_success E opId w addr hid0 hid1 hcap hmem hn0 hn1 hm0 hm1 hfitI hfitO
    hlimO hlimI hlimU h0 h1 h2, net_add_op_adjust_shape _ _ _ _ _,
    net_add_op_adjust_target _ _ _ _ _, ?_, ?_, ?_, ?_, ?_, ?_, ?_⟩
  all_goals rw [hnodes]
  all_goals first | rfl | (intro j; rfl)

/-- C2: for a valid class id whose input and output counts fit the `u8` node
indices, when the operator capacity, the node capacities and the pool allow it,
`net_add_op` returns the old `numOps`, increases `numOps` by 1, `numIns` by the
class's input count and `numOuts` by its output count, stores the new operator
at the old `numOps`, appends the input nodes (`opIdx` the new index, `opInIdx`
0..ins-1) and the output nodes (`opIdx` the new index, `opOutIdx` 0..outs-1,
target -1) as contiguous blocks at the old ends of the arrays, leaves the nodes
below the old ends in place, and leaves every existing target below the old
`numIns` unchanged. -/
theorem net_add_op_appends (E : Env) (opId : Int) (w : World) (addr : Int)
    (hid0 : 0 ≤ opId) (hid1 : opId < E.numOpClasses)
    (hcap : w.net.numOps < E.NET_OPS_MAX)
    (hmem : (net_alloc_op (E.op_registry opId).size w.pools).1 = some addr)
    (hn0 : 0 ≤ (E.op_registry opId).numInputs) (hn1 : (E.op_registry opId).numInputs < 256)
    (hm0 : 0 ≤ (E.op_registry opId).numOutputs) (hm1 : (E.op_registry opId).numOutputs < 256)
    (hfitI : (E.op_registry opId).numInputs ≤ E.NET_INS_MAX - w.net.numIns)
    (hfitO : (E.op_registry opId).numOutputs ≤ E.NET_OUTS_MAX - w.net.numOuts)
    (hlimO : E.NET_OPS_MAX ≤ 32767) (hlimI : E.NET_INS_MAX < 65536)
    (hlimU : E.NET_OUTS_MAX < 65536)
    (h0 : 0 ≤ w.net.numOps) (h1 : 0 ≤ w.net.numIns) (h2 : 0 ≤ w.net.numOuts) :
    (net_add_op E opId w).1 = w.net.numOps ∧
    (net_add_op E opId w).2.net.numOps = w.net.numOps + 1 ∧
    (net_add_op E opId w).2.net.numIns = w.net.numIns + (E.op_registry opId).numInputs ∧
    (net_add_op E opId w).2.net.numOuts = w.net.numOuts + (E.op_registry opId).numOutputs ∧
    ((net_add_op E opId w).2.net.ops w.net.numOps).type = opId ∧
    (∀ j, 0 ≤ j → j < (E.op_registry opId).numInputs →
      ((net_add_op E opId w).2.net.ins (w.net.numIns + j)).opIdx = w.net.numOps ∧
      ((net_add_op E opId w).2.net.ins (w.net.numIns + j)).opInIdx = j) ∧
    (∀ j, 0 ≤ j → j < (E.op_registry opId).numOutputs →
      ((net_add_op E opId w).2.net.outs (w.net.numOuts + j)).opIdx = w.net.numOps ∧
      ((net_add_op E opId w).2.net.outs (w.net.numOuts + j)).opOutIdx = j ∧
      ((net_add_op E opId w).2.net.outs (w.net.numOuts + j)).target = -1) ∧
    (∀ i, i < w.net.numIns → (net_add_op E opId w).2.net.ins i = w.net.ins i) ∧
    (∀ i, i < w.net.numOuts →
      ((net_add_op E opId w).2.net.outs i).opIdx = (w.net.outs i).opIdx ∧
      ((net_add_op E opId w).2.net.outs i).opOutIdx = (w.net.outs i).opOutIdx) ∧
    (∀ i, 0 ≤ i → i < w.net.numOuts → (w.net.outs i).target < w.net.numIns →
      ((net_add_op E opId w).2.net.outs i).target = (w.net.outs i).target) := by
  obtain ⟨w3, w4, heq, hshape, htar, e1, e2, e3, -, e5, e6, e7⟩ :=
    net_add_op_stages E opId w addr hid0 hid1 hcap hmem hn0 hn1 hm0 hm1 hfitI hfitO hlimO
      hlimI hlimU h0 h1 h2
  rw [heq]
  have hI := congrFun (congrArg Shape.ins hshape)
  have hO := congrFun (congrArg Shape.outOwner hshape)
  have hF := congrFun (congrArg Shape.opFixed hshape)
  have hnI := congrArg Shape.numIns hshape
  have hnO := congrArg Shape.numOuts hshape
  simp only [World.shape, Prod.mk.injEq] at hI hO hF hnI hnO
  simp only [World.target] at htar
  dsimp only
  refine ⟨rfl, rfl, hnI.trans e2, hnO.trans e3, ?_, ?_, ?_, ?_, ?_, ?_⟩
  · rw [(hF w.net.numOps).2.1, e5, upd_same]
    rfl
  · intro j hj0 hj1
    rw [hI, e6, if_pos (by omega)]
    refine ⟨rfl, ?_⟩
    show u8 (w.net.numIns + j - w.net.numIns) = j
    rw [u8_of_range (by omega) (by omega)]
    omega
  · intro j hj0 hj1
    have hc : w.net.numOuts ≤ w.net.numOuts + j ∧
        w.net.numOuts + j < w.net.numOuts + (E.op_registry opId).numOutputs := by omega
    rw [(hO _).1, (hO _).2, htar, e7, if_pos hc]
    refine ⟨rfl, ?_, ?_⟩
    · show u8 (w.net.numOuts + j - w.net.numOuts) = j
      rw [u8_of_range (by omega) (by omega)]
      omega
    · rw [if_neg (by omega)]
  · intro i hi
    rw [hI, e6, if_neg (by omega)]
  · intro i hi
    rw [(hO _).1, (hO _).2, e7, if_neg (by omega)]
    exact ⟨rfl, rfl⟩
  · intro i hi0 hi1 ht
    have hr : ¬ (w.net.numOuts ≤ i ∧ i < w.net.numOuts + (E.op_registry opId).numOutputs) := by
      omega
    rw [htar, e7, if_neg hr, if_neg (by omega)]

/-- Witness of C2: adding an Add to the one-operator example network. -/
theorem net_add_op_appends_witness :
    (net_add_op exEnv 2 exOne).1 = 1 ∧ (net_add_op exEnv 2 exOne).2.net.numOps = 2 ∧
    (net_add_op exEnv 2 exOne).2.net.numIns = 3 ∧ (net_add_op exEnv 2 exOne).2.net.numOuts = 3 ∧
    ((net_add_op exEnv 2 exOne).2.net.outs 2).target = -1 := by
  have h := net_add_op_appends exEnv 2 exOne 1000128 (by decide) (by decide) (by decide!)
    (by decide!) (by decide) (by decide) (by decide) (by decide) (by decide!) (by decide!)
    (by decide) (by decide) (by decide) (by decide!) (by decide!) (by decide!)
  have e0 : exOne.net.numOuts + 0 = 2 := by decide!
  have h5 := (h.2.2.2.2.2.2.1 0 (by decide) (by decide)).2.2
  rw [e0] at h5
  exact ⟨h.1.trans (by decide!), h.2.1.trans (by decide!), h.2.2.1.trans (by decide!),
    h.2.2.2.1.trans (by decide!), h5⟩

/-! ### Inserting an operator -/

/-! ### Frames -/

theorem eq_withOps_of {W w : World} {a : Int → op_t} (h : W.withOps a = w.withOps a) :
    W = w.withOps W.net.ops := by
  have : W = (W.withOps a).withOps W.net.ops := rfl
  rw [this, h]; rfl

theorem eq_withIns_of {W w : World} {a : Int → inode} (h : W.withIns a = w.withIns a) :
    W = w.withIns W.net.ins := by
  have : W = (W.withIns a).withIns W.net.ins := rfl
  rw [this, h]; rfl

theorem eq_withOuts_of {W w : World} {a : Int → onode} (h : W.withOuts a = w.withOuts a) :
    W = w.withOuts W.net.outs := by
  have : W = (W.withOuts a).withOuts W.net.outs := rfl
  rw [this, h]; rfl

theorem eq_withPresets_of {W w : World} {a : Int → preset_t}
    (h : W.withPresets a = w.withPresets a) : W = w.withPresets W.presets := by
  have : W = (W.withPresets a).withPresets W.presets := rfl
  rw [this, h]; rfl

/-- An ascending loop whose body only stores into the operator array. -/
theorem forUp_withOps (body : Int → World → World)
    (h : ∀ i s (a : Int → op_t), (body i s).withOps a = s.withOps a) (n : Nat) (lo : Int)
    (w : World) : forUp lo n body w = w.withOps (forUp lo n body w).net.ops :=
  eq_withOps_of (a := w.net.ops)
    (forUp_proj (fun s => s.withOps w.net.ops) body (fun i s => h i s _) n lo w)

theorem forDown_withOps (body : Int → World → World)
    (h : ∀ i s (a : Int → op_t), (body i s).withOps a = s.withOps a) (n : Nat) (hi : Int)
    (w : World) : forDown hi n body w = w.withOps (forDown hi n body w).net.ops :=
  eq_withOps_of (a := w.net.ops)
    (forDown_proj (fun s => s.withOps w.net.ops) body (fun i s => h i s _) n hi w)

theorem forUp_withIns (body : Int → World → World)
    (h : ∀ i s (a : Int → inode), (body i s).withIns a = s.withIns a) (n : Nat) (lo : Int)
    (w : World) : forUp lo n body w = w.withIns (forUp lo n body w).net.ins :=
  eq_withIns_of (a := w.net.ins)
    (forUp_proj (fun s => s.withIns w.net.ins) body (fun i s => h i s _) n lo w)

theorem forDown_withIns (body : Int → World → World)
    (h : ∀ i s (a : Int → inode), (body i s).withIns a = s.withIns a) (n : Nat) (hi : Int)
    (w : World) : forDown hi n body w = w.withIns (forDown hi n body w).net.ins :=
  eq_withIns_of (a := w.net.ins)
    (forDown_proj (fun s => s.withIns w.net.ins) body (fun i s => h i s _) n hi w)

theorem forUp_withOuts (body : Int → World → World)
    (h : ∀ i s (a : Int → onode), (body i s).withOuts a = s.withOuts a) (n : Nat) (lo : Int)
    (w : World) : forUp lo n body w = w.withOuts (forUp lo n body w).net.outs :=
  eq_withOuts_of (a := w.net.outs)
    (forUp_proj (fun s => s.withOuts w.net.outs) body (fun i s => h i s _) n lo w)

theorem forDown_withOuts (body : Int → World → World)
    (h : ∀ i s (a : Int → onode), (body i s).withOuts a = s.withOuts a) (n : Nat) (hi : Int)
    (w : World) : forDown hi n body w = w.withOuts (forDown hi n body w).net.outs :=
  eq_withOuts_of (a := w.net.outs)
    (forDown_proj (fun s => s.withOuts w.net.outs) body (fun i s => h i s _) n hi w)

theorem forUp_withPresets (body : Int → World → World)
    (h : ∀ i s (a : Int → preset_t), (body i s).withPresets a = s.withPresets a) (n : Nat)
    (lo : Int) (w : World) : forUp lo n body w = w.withPresets (forUp lo n body w).presets :=
  eq_withPresets_of (a := w.presets)
    (forUp_proj (fun s => s.withPresets w.presets) body (fun i s => h i s _) n lo w)

theorem forDown_withPresets (body : Int → World → World)
    (h : ∀ i s (a : Int → preset_t), (body i s).withPresets a = s.withPresets a) (n : Nat)
    (hi : Int) (w : World) : forDown hi n body w = w.withPresets (forDown hi n body w).presets :=
  eq_withPresets_of (a := w.presets)
    (forDown_proj (fun s => s.withPresets w.presets) body (fun i s => h i s _) n hi w)

/-! ### `net_add_op_at`: making room -/

theorem net_add_op_at_move_op_loop (hi : Int) (n : Nat) (w : World) :
    forDown hi n net_add_op_at_move_op w =
      w.withOps (fun j => if hi - n < j ∧ j ≤ hi then w.net.ops (j - 1) else w.net.ops j) := by
  rw [forDown_withOps net_add_op_at_move_op (fun i s a => rfl)]
  congr 1
  funext j
  exact forDown_gather (fun s => s.net.ops) (fun i a => a (i - 1)) net_add_op_at_move_op
    (fun i a b hab => hab _ (by omega))
    (fun i s j => by simp only [net_add_op_at_move_op, setOp, upd]) n hi w j

theorem net_add_op_at_move_out_loop (m : Int) (hm : 0 ≤ m) (hi : Int) (n : Nat) (w : World) :
    forDown hi n (net_add_op_at_move_out m) w =
      w.withOuts (fun j =>
        if hi - n < j ∧ j ≤ hi then
          { w.net.outs (j - m) with opIdx := (w.net.outs (j - m)).opIdx + 1 }
        else w.net.outs j) := by
  rw [forDown_withOuts (net_add_op_at_move_out m) (fun i s a => rfl)]
  congr 1
  funext j
  exact forDown_gather (fun s => s.net.outs)
    (fun i a => { a (i - m) with opIdx := (a (i - m)).opIdx + 1 }) (net_add_op_at_move_out m)
    (fun i a b hab => by dsimp only; rw [hab _ (by omega)])
    (fun i s j => by
      simp only [net_add_op_at_move_out, setOut, upd]
      split_ifs <;> simp) n hi w j

theorem net_add_op_at_move_in_loop (m : Int) (hm : 0 ≤ m) (hi : Int) (n : Nat) (w : World) :
    forDown hi n (net_add_op_at_move_in m) w =
      w.withIns (fun j =>
        if hi - n < j ∧ j ≤ hi then
          { w.net.ins (j - m) with opIdx := (w.net.ins (j - m)).opIdx + 1 }
        else w.net.ins j) := by
  rw [forDown_withIns (net_add_op_at_move_in m) (fun i s a => rfl)]
  congr 1
  funext j
  exact forDown_gather (fun s => s.net.ins)
    (fun i a => { a (i - m) with opIdx := (a (i - m)).opIdx + 1 }) (net_add_op_at_move_in m)
    (fun i a b hab => by dsimp only; rw [hab _ (by omega)])
    (fun i s j => by
      simp only [net_add_op_at_move_in, setIn, upd]
      split_ifs <;> simp) n hi w j


theorem range_down_iff (hi lo j : Int) :
    (hi - ((hi - lo + 1).toNat : Int) < j ∧ j ≤ hi) ↔ (lo ≤ j ∧ j ≤ hi) := by
  omega

theorem net_add_op_at_shift_eq (p n m f g : Int) (w : World) (hn : 0 ≤ n) (hm : 0 ≤ m)
    (h0 : 0 ≤ w.net.numOps) (h1 : 0 ≤ w.net.numIns) (h2 : 0 ≤ w.net.numOuts)
    (h3 : w.net.numOps + 1 < 65536) (h4 : w.net.numIns + n < 65536)
    (h5 : w.net.numOuts + m < 65536) :
    net_add_op_at_shift p n m f g w =
      { w with net := { w.net with
          numIns := w.net.numIns + n,
          numOuts := w.net.numOuts + m,
          numOps := w.net.numOps + 1,
          ops := fun j => if p ≤ j ∧ j ≤ w.net.numOps then w.net.ops (j - 1) else w.net.ops j,
          outs := fun j =>
            if g ≤ j ∧ j ≤ w.net.numOuts + m - 1 then
              { w.net.outs (j - m) with opIdx := (w.net.outs (j - m)).opIdx + 1 }
            else w.net.outs j,
          ins := fun j =>
            if f ≤ j ∧ j ≤ w.net.numIns + n - 1 then
              { w.net.ins (j - n) with opIdx := (w.net.ins (j - n)).opIdx + 1 }
            else w.net.ins j } } := by
  unfold net_add_op_at_shift
  dsimp only
  rw [net_add_op_at_move_op_loop, net_add_op_at_move_out_loop m hm,
    net_add_op_at_move_in_loop n hn]
  simp only [World.withOps, World.withOuts, World.withIns,
    u16_of_range (show 0 ≤ w.net.numOps + 1 by omega) h3,
    u16_of_range (show 0 ≤ w.net.numIns + n by omega) h4,
    u16_of_range (show 0 ≤ w.net.numOuts + m by omega) h5, range_down_iff]
  congr 2
  funext j
  have : (p ≤ j ∧ j ≤ w.net.numOps + 1 - 1) ↔ (p ≤ j ∧ j ≤ w.net.numOps) := by omega
  simp only [this]


/-- Ascending loop whose iteration `i` writes cell `c + i`. -/
theorem forUp_gather_off {σ α : Type} (t : σ → Int → α) (V : Int → (Int → α) → α) (c : Int)
    (body : Int → σ → σ)
    (hV : ∀ i a b, (∀ j, c + i ≤ j → a j = b j) → V i a = V i b)
    (hbody : ∀ i s j, t (body i s) j = if j = c + i then V i (t s) else t s j)
    (n : Nat) (lo : Int) (s : σ) (j : Int) :
    t (forUp lo n body s) j =
      if c + lo ≤ j ∧ j < c + lo + n then V (j - c) (t s) else t s j := by
  have h := forUp_gather (fun s j => t s (c + j)) (fun i a => V i (fun j => a (j - c))) body
    (fun i a b hab => hV i _ _ (fun j hj => hab (j - c) (by omega)))
    (fun i s j => by
      dsimp only
      rw [hbody]
      have e : (fun j => t s (c + (j - c))) = t s := by
        funext j; congr 1; omega
      rw [e]
      by_cases hj : j = i
      · subst hj; simp
      · have : ¬ (c + j = c + i) := by omega
        rw [if_neg this, if_neg hj]) n lo s (j - c)
  dsimp only at h
  have e : (fun j => t s (c + (j - c))) = t s := by
    funext j; congr 1; omega
  have e2 : c + (j - c) = j := by omega
  rw [e, e2] at h
  rw [h]
  by_cases hc : lo ≤ j - c ∧ j - c < lo + n
  · rw [if_pos hc, if_pos (by omega)]
  · rw [if_neg hc, if_neg (by omega)]

theorem net_add_op_at_nodes_eq (op : op_t) (p n m f g : Int) (w : World)
    (hn : 0 ≤ n) (hm : 0 ≤ m) :
    net_add_op_at_nodes op p n m f g w =
      { w with net := { w.net with
          ops := upd w.net.ops p op,
          ins := fun j =>
            if f ≤ j ∧ j < f + n then
              { opIdx := p, opInIdx := u8 (j - f), play := (w.net.ins j).play }
            else w.net.ins j,
          outs := fun j =>
            if g ≤ j ∧ j < g + m then { opOutIdx := u8 (j - g), target := -1, opIdx := p }
            else w.net.outs j } } := by
  unfold net_add_op_at_nodes
  dsimp only
  rw [forUp_withOuts (net_add_op_at_out_node p g) (fun i s a => rfl)]
  rw [forUp_withIns (net_add_op_at_in_node p f) (fun i s a => rfl)]
  have hI : ∀ w1 : World, ∀ j, (forUp 0 n.toNat (net_add_op_at_in_node p f) w1).net.ins j =
      if f ≤ j ∧ j < f + n then
        { opIdx := p, opInIdx := u8 (j - f), play := (w1.net.ins j).play }
      else w1.net.ins j := by
    intro w1 j
    have h := forUp_gather_off (fun s => s.net.ins)
      (fun i a => ({ opIdx := p, opInIdx := u8 i, play := (a (f + i)).play } : inode)) f
      (net_add_op_at_in_node p f)
      (fun i a b hab => by dsimp only; rw [hab _ (le_refl _)])
      (fun i s j => by
        simp only [net_add_op_at_in_node, setIn, upd]
        split_ifs <;> simp) n.toNat 0 w1 j
    rw [h]
    by_cases hc : f ≤ j ∧ j < f + n
    · rw [if_pos hc, if_pos (by omega)]
      have e : f + (j - f) = j := by omega
      simp only [e]
    · rw [if_neg hc, if_neg (by omega)]
  have hO : ∀ w1 : World, ∀ j, (forUp 0 m.toNat (net_add_op_at_out_node p g) w1).net.outs j =
      if g ≤ j ∧ j < g + m then { opOutIdx := u8 (j - g), target := -1, opIdx := p }
      else w1.net.outs j := by
    intro w1 j
    have h := forUp_gather_off (fun s => s.net.outs)
      (fun i _ => ({ opOutIdx := u8 i, target := -1, opIdx := p } : onode)) g
      (net_add_op_at_out_node p g)
      (fun i a b _ => rfl)
      (fun i s j => by
        simp only [net_add_op_at_out_node, setOut, upd]
        split_ifs <;> simp) m.toNat 0 w1 j
    rw [h]
    by_cases hc : g ≤ j ∧ j < g + m
    · rw [if_pos hc, if_pos (by omega)]
    · rw [if_neg hc, if_neg (by omega)]
  simp only [World.withOuts, World.withIns, setOp]
  congr 2
  · funext j
    rw [hI]
  · funext j
    rw [hO]


theorem net_add_op_at_preset_frame (n m f g i : Int) (w : World) (a : Int → preset_t) :
    (net_add_op_at_preset n m f g i w).withPresets a = w.withPresets a := by
  unfold net_add_op_at_preset
  dsimp only
  refine (forUp_proj (fun s => s.withPresets a) (net_add_op_at_preset_tar n f i) ?_ _ _ _).trans ?_
  · intro j s
    unfold net_add_op_at_preset_tar
    dsimp only
    split_ifs <;> rfl
  refine (forDown_proj (fun s => s.withPresets a) (net_add_op_at_preset_out m i)
    (fun j s => by rfl) _ _ _).trans ?_
  exact forDown_proj (fun s => s.withPresets a) (net_add_op_at_preset_in n i)
    (fun j s => by rfl) _ _ _

theorem net_add_op_at_retarget_shape (n f i : Int) (w : World) :
    (net_add_op_at_retarget n f i w).shape = w.shape := by
  unfold net_add_op_at_retarget
  split_ifs
  · exact net_connect_shape _ _ _
  · rfl

theorem net_add_op_at_retarget_target (n f i : Int) (w : World) (j : Int) :
    (net_add_op_at_retarget n f i w).target j =
      if j = i then (if w.target i ≥ f then s16 (w.target i + n) else w.target i)
      else w.target j := by
  unfold net_add_op_at_retarget
  by_cases hc : (w.net.outs i).target ≥ f
  · rw [if_pos hc]
    have hc2 : w.target i ≥ f := hc
    rw [if_pos hc2]
    exact net_connect_target _ _ _ _
  · rw [if_neg hc]
    have hc2 : ¬ w.target i ≥ f := hc
    rw [if_neg hc2]
    split_ifs with hj
    · rw [hj]
    · rfl

theorem net_add_op_at_adjust_shape (E : Env) (n m f g : Int) (w : World) :
    (net_add_op_at_adjust E n m f g w).shape = w.shape := by
  unfold net_add_op_at_adjust
  split_ifs
  · dsimp only
    have h := forUp_proj (fun s => s.withPresets w.presets) _
      (fun i s => net_add_op_at_preset_frame n m f g i s w.presets)
      E.NET_PRESETS_MAX.toNat 0
      (forUp 0 w.net.numOuts.toNat (net_add_op_at_retarget n f) w)
    have h2 := congrArg World.shape h
    refine Eq.trans h2 ?_
    exact forUp_proj World.shape _ (fun i s => net_add_op_at_retarget_shape n f i s) _ _ _
  · rfl

theorem net_add_op_at_adjust_target (E : Env) (n m f g : Int) (w : World) (j : Int) :
    (net_add_op_at_adjust E n m f g w).target j =
      if 0 < w.net.numOps ∧ 0 ≤ j ∧ j < w.net.numOuts ∧ w.target j ≥ f then s16 (w.target j + n)
      else w.target j := by
  unfold net_add_op_at_adjust
  by_cases h0 : w.net.numOps > 0
  · rw [if_pos h0]
    dsimp only
    have h := forUp_proj (fun s => s.withPresets w.presets) _
      (fun i s => net_add_op_at_preset_frame n m f g i s w.presets)
      E.NET_PRESETS_MAX.toNat 0
      (forUp 0 w.net.numOuts.toNat (net_add_op_at_retarget n f) w)
    have h2 := congrFun (congrArg World.target h) j
    refine Eq.trans h2 ?_
    have hB := forUp_gather World.target
      (fun i a => if a i ≥ f then s16 (a i + n) else a i)
      (net_add_op_at_retarget n f)
      (fun i a b hab => by dsimp only; rw [hab i (le_refl _)])
      (fun i s j => net_add_op_at_retarget_target n f i s j) w.net.numOuts.toNat 0 w j
    refine Eq.trans hB ?_
    by_cases hr : (0 ≤ j ∧ j < 0 + (w.net.numOuts.toNat : Int))
    · rw [if_pos hr]
      by_cases ht : w.target j ≥ f
      · rw [if_pos ht, if_pos ⟨h0, hr.1, by omega, ht⟩]
      · rw [if_neg ht, if_neg (fun hh => ht hh.2.2.2)]
    · rw [if_neg hr, if_neg (fun hh => hr ⟨hh.2.1, by omega⟩)]
  · rw [if_neg h0, if_neg (fun hh => h0 hh.1)]


theorem net_add_op_at_sum_eq (w : World) (k : Nat) :
    forUp 0 k (net_add_op_at_sum w) (0, 0) = (insBelow w k, outsBelow w k) := by
  induction k with
  | zero => rfl
  | succ k ih =>
    rw [forUp_succ_last, ih]
    simp [net_add_op_at_sum, insBelow, outsBelow]

theorem insBelow_pools (w : World) (ps : Pools) (k : Nat) :
    insBelow { w with pools := ps } k = insBelow w k := by
  induction k with
  | zero => rfl
  | succ k ih => simp only [insBelow, ih]

theorem outsBelow_pools (w : World) (ps : Pools) (k : Nat) :
    outsBelow { w with pools := ps } k = outsBelow w k := by
  induction k with
  | zero => rfl
  | succ k ih => simp only [outsBelow, ih]

theorem net_add_op_at_sum_pools (w : World) (ps : Pools) (k : Nat) :
    forUp 0 k (net_add_op_at_sum { w with pools := ps }) (0, 0) =
      forUp 0 k (net_add_op_at_sum w) (0, 0) := rfl

/-- A successful `net_add_op_at`, stage by stage: `w3` is the state after the
shifts and the node loops, `w4` the final state. -/
theorem net_add_op_at_stages (E : Env) (opId k : Int) (w : World) (addr : Int)
    (hcap : w.net.numOps < E.NET_OPS_MAX)
    (hmem : (net_alloc_op (E.op_registry opId).size w.pools).1 = some addr)
    (hn0 : 0 ≤ (E.op_registry opId).numInputs) (hn1 : (E.op_registry opId).numInputs < 256)
    (hm0 : 0 ≤ (E.op_registry opId).numOutputs) (hm1 : (E.op_registry opId).numOutputs < 256)
    (hfitI : (E.op_registry opId).numInputs ≤ E.NET_INS_MAX - w.net.numIns)
    (hfitO : (E.op_registry opId).numOutputs ≤ E.NET_OUTS_MAX - w.net.numOuts)
    (hlimO : E.NET_OPS_MAX ≤ 32767) (hlimI : E.NET_INS_MAX < 65536)
    (hlimU : E.NET_OUTS_MAX < 65536)
    (h0 : 0 ≤ w.net.numOps) (h1 : 0 ≤ w.net.numIns) (h2 : 0 ≤ w.net.numOuts) :
    ∃ w3 w4 : World,
      net_add_op_at E opId k w = (net_add_op_at_pos k w, w4) ∧
      w4.shape = w3.shape ∧
      (∀ j, w4.target j =
        if 0 ≤ j ∧ j < w3.net.numOuts ∧
            w3.target j ≥ insBelow w (net_add_op_at_pos k w).toNat then
          s16 (w3.target j + (E.op_registry opId).numInputs)
        else w3.target j) ∧
      w3.net.numOps = w.net.numOps + 1 ∧
      w3.net.numIns = w.net.numIns + (E.op_registry opId).numInputs ∧
      w3.net.numOuts = w.net.numOuts + (E.op_registry opId).numOutputs ∧
      w3.net.numParams = w.net.numParams ∧
      (∀ j, w3.net.ops j =
        if j = net_add_op_at_pos k w then op_init E addr opId
        else if net_add_op_at_pos k w ≤ j ∧ j ≤ w.net.numOps then w.net.ops (j - 1)
        else w.net.ops j) ∧
      (∀ j, w3.net.ins j =
        if insBelow w (net_add_op_at_pos k w).toNat ≤ j ∧
            j < insBelow w (net_add_op_at_pos k w).toNat + (E.op_registry opId).numInputs then
          { opIdx := net_add_op_at_pos k w,
            opInIdx := u8 (j - insBelow w (net_add_op_at_pos k w).toNat),
            play := (if insBelow w (net_add_op_at_pos k w).toNat ≤ j ∧
                j ≤ w.net.numIns + (E.op_registry opId).numInputs - 1 then
              (w.net.ins (j - (E.op_registry opId).numInputs)).play else (w.net.ins j).play) }
        else if insBelow w (net_add_op_at_pos k w).toNat ≤ j ∧
            j ≤ w.net.numIns + (E.op_registry opId).numInputs - 1 then
          { w.net.ins (j - (E.op_registry opId).numInputs) with
            opIdx := (w.net.ins (j - (E.op_registry opId).numInputs)).opIdx + 1 }
        else w.net.ins j) ∧
      (∀ j, w3.net.outs j =
        if outsBelow w (net_add_op_at_pos k w).toNat ≤ j ∧
            j < outsBelow w (net_add_op_at_pos k w).toNat + (E.op_registry opId).numOutputs then
          { opOutIdx := u8 (j - outsBelow w (net_add_op_at_pos k w).toNat), target := -1,
            opIdx := net_add_op_at_pos k w }
        else if outsBelow w (net_add_op_at_pos k w).toNat ≤ j ∧
            j ≤ w.net.numOuts + (E.op_registry opId).numOutputs - 1 then
          { w.net.outs (j - (E.op_registry opId).numOutputs) with
            opIdx := (w.net.outs (j - (E.op_registry opId).numOutputs)).opIdx + 1 }
        else w.net.outs j) := by
  have hun : u16 (E.op_registry opId).numInputs = (E.op_registry opId).numInputs :=
    u16_of_range hn0 (by omega)
  have hum : u16 (E.op_registry opId).numOutputs = (E.op_registry opId).numOutputs :=
    u16_of_range hm0 (by omega)
  have hc2 : ¬ (w.net.numOps ≥ E.NET_OPS_MAX) := by omega
  have hc4 : ¬ ((E.op_registry opId).numInputs > E.NET_INS_MAX - w.net.numIns) := by omega
  have hc5 : ¬ ((E.op_registry opId).numOutputs > E.NET_OUTS_MAX - w.net.numOuts) := by omega
  have hp0 : 0 ≤ net_add_op_at_pos k w := by
    unfold net_add_op_at_pos; dsimp only; split_ifs <;> omega
  have hp1 : net_add_op_at_pos k w ≤ w.net.numOps := by
    unfold net_add_op_at_pos; dsimp only; split_ifs <;> omega
  have hsp : s16 (net_add_op_at_pos k w) = net_add_op_at_pos k w :=
    s16_of_range (by omega) (by omega)
  have hshift := net_add_op_at_shift_eq (net_add_op_at_pos k w) (E.op_registry opId).numInputs
    (E.op_registry opId).numOutputs (insBelow w (net_add_op_at_pos k w).toNat)
    (outsBelow w (net_add_op_at_pos k w).toNat)
    { w with pools := (net_alloc_op (E.op_registry opId).size w.pools).2 }
    hn0 hm0 h0 h1 h2 (by dsimp only; omega) (by dsimp only; omega) (by dsimp only; omega)
  obtain ⟨W3, hW3⟩ : ∃ W3, W3 = net_add_op_at_nodes (op_init E addr opId) (net_add_op_at_pos k w)
      (E.op_registry opId).numInputs (E.op_registry opId).numOutputs
      (insBelow w (net_add_op_at_pos k w).toNat) (outsBelow w (net_add_op_at_pos k w).toNat)
      (net_add_op_at_shift (net_add_op_at_pos k w) (E.op_registry opId).numInputs
        (E.op_registry opId).numOutputs (insBelow w (net_add_op_at_pos k w).toNat)
        (outsBelow w (net_add_op_at_pos k w).toNat)
        { w with pools := (net_alloc_op (E.op_registry opId).size w.pools).2 }) := ⟨_, rfl⟩
  have hW3c := hW3
  rw [net_add_op_at_nodes_eq _ _ _ _ _ _ _ hn0 hm0, hshift] at hW3c
  refine ⟨W3, net_add_op_at_adjust E (E.op_registry opId).numInputs
      (E.op_registry opId).numOutputs (insBelow w (net_add_op_at_pos k w).toNat)
      (outsBelow w (net_add_op_at_pos k w).toNat) W3, ?_,
    net_add_op_at_adjust_shape E _ _ _ _ _, ?_, ?_, ?_, ?_, ?_, ?_, ?_, ?_⟩
  · rw [hW3]
    unfold net_add_op_at
    simp only [hc2, if_false, hmem, op_init_numInputs, op_init_numOutputs, hun, hum, hc4, hc5,
      hsp, net_add_op_at_sum_pools, net_add_op_at_sum_eq, insBelow_pools, outsBelow_pools]
  · intro j
    rw [net_add_op_at_adjust_target]
    have hN : W3.net.numOps = w.net.numOps + 1 := by rw [hW3c]
    by_cases hc : 0 ≤ j ∧ j < W3.net.numOuts ∧
        W3.target j ≥ insBelow w (net_add_op_at_pos k w).toNat
    · rw [if_pos hc, if_pos ⟨by omega, hc⟩]
    · rw [if_neg hc, if_neg (fun hh => hc hh.2)]
  all_goals rw [hW3c]
  · intro j
    simp only [upd]
  · intro j
    dsimp only
    split_ifs <;> rfl
  · intro j
    rfl


theorem insBelow_nonneg (w : World) (k : Nat)
    (h : ∀ i : Nat, i < k → 0 ≤ (w.net.ops i).numInputs) : 0 ≤ insBelow w k := by
  induction k with
  | zero => exact le_refl _
  | succ k ih =>
    have h1 := ih (fun i hi => h i (by omega))
    have h2 := h k (by omega)
    simp only [insBelow]
    omega

theorem net_add_op_at_pos_eq (k : Int) (w : World) :
    net_add_op_at_pos k w = min (max (k + 1) 12) w.net.numOps := by
  unfold net_add_op_at_pos
  dsimp only
  split_ifs <;> omega

/-- C10: when capacity and pool memory allow, `net_add_op_at(id, k)` inserts the
new operator at index `p = min (max (k+1) 12) numOps` and returns `p`.  The
operators below `p` stay, those formerly at `p` or above move up one slot in
order; the new operator's input nodes occupy the block of its input count
starting at the summed input counts of the operators below `p`, its output nodes
the block starting at their summed output counts, every new output unconnected;
every node formerly at or above those start indices is moved up by the size of
the new block with its `opIdx` increased by 1; and the target of every existing
output is increased by the new operator's input count when it was at or above the
new block's first input index, and unchanged otherwise.  Assumed: class counts
that fit `u8`, input counts of the live operators that are not negative, and
targets that stay within `s16` after the shift. -/
theorem net_add_op_at_inserts (E : Env) (opId k : Int) (w : World) (addr : Int)
    (hcap : w.net.numOps < E.NET_OPS_MAX)
    (hmem : (net_alloc_op (E.op_registry opId).size w.pools).1 = some addr)
    (hn0 : 0 ≤ (E.op_registry opId).numInputs) (hn1 : (E.op_registry opId).numInputs < 256)
    (hm0 : 0 ≤ (E.op_registry opId).numOutputs) (hm1 : (E.op_registry opId).numOutputs < 256)
    (hfitI : (E.op_registry opId).numInputs ≤ E.NET_INS_MAX - w.net.numIns)
    (hfitO : (E.op_registry opId).numOutputs ≤ E.NET_OUTS_MAX - w.net.numOuts)
    (hlimO : E.NET_OPS_MAX ≤ 32767) (hlimI : E.NET_INS_MAX < 65536)
    (hlimU : E.NET_OUTS_MAX < 65536)
    (h0 : 0 ≤ w.net.numOps) (h1 : 0 ≤ w.net.numIns) (h2 : 0 ≤ w.net.numOuts)
    (hcnt : ∀ i : Nat, (i : Int) < w.net.numOps → 0 ≤ (w.net.ops i).numInputs)
    (htar : ∀ j, 0 ≤ j → j < w.net.numOuts → -32768 ≤ (w.net.outs j).target ∧
      (w.net.outs j).target + (E.op_registry opId).numInputs < 32768) :
    net_add_op_at_pos k w = min (max (k + 1) 12) w.net.numOps ∧
    (net_add_op_at E opId k w).1 = net_add_op_at_pos k w ∧
    (net_add_op_at E opId k w).2.net.numOps = w.net.numOps + 1 ∧
    (net_add_op_at E opId k w).2.net.numIns = w.net.numIns + (E.op_registry opId).numInputs ∧
    (net_add_op_at E opId k w).2.net.numOuts = w.net.numOuts + (E.op_registry opId).numOutputs ∧
    (∀ i, i < net_add_op_at_pos k w →
      (net_add_op_at E opId k w).2.shape.opFixed i = w.shape.opFixed i) ∧
    (∀ i, net_add_op_at_pos k w ≤ i → i < w.net.numOps →
      (net_add_op_at E opId k w).2.shape.opFixed (i + 1) = w.shape.opFixed i) ∧
    ((net_add_op_at E opId k w).2.net.ops (net_add_op_at_pos k w)).type = opId ∧
    ((net_add_op_at E opId k w).2.net.ops (net_add_op_at_pos k w)).numInputs
      = (E.op_registry opId).numInputs ∧
    ((net_add_op_at E opId k w).2.net.ops (net_add_op_at_pos k w)).numOutputs
      = (E.op_registry opId).numOutputs ∧
    (∀ j, 0 ≤ j → j < (E.op_registry opId).numInputs →
      ((net_add_op_at E opId k w).2.net.ins (insBelow w (net_add_op_at_pos k w).toNat + j)).opIdx
        = net_add_op_at_pos k w ∧
      ((net_add_op_at E opId k w).2.net.ins (insBelow w (net_add_op_at_pos k w).toNat + j)).opInIdx
        = j) ∧
    (∀ j, 0 ≤ j → j < (E.op_registry opId).numOutputs →
      ((net_add_op_at E opId k w).2.net.outs (outsBelow w (net_add_op_at_pos k w).toNat + j)).opIdx
        = net_add_op_at_pos k w ∧
      ((net_add_op_at E opId k w).2.net.outs (outsBelow w (net_add_op_at_pos k w).toNat + j)).opOutIdx
        = j ∧
      ((net_add_op_at E opId k w).2.net.outs (outsBelow w (net_add_op_at_pos k w).toNat + j)).target
        = -1) ∧
    (∀ j, j < insBelow w (net_add_op_at_pos k w).toNat →
      (net_add_op_at E opId k w).2.net.ins j = w.net.ins j) ∧
    (∀ j, insBelow w (net_add_op_at_pos k w).toNat ≤ j → j < w.net.numIns →
      (net_add_op_at E opId k w).2.net.ins (j + (E.op_registry opId).numInputs)
        = { w.net.ins j with opIdx := (w.net.ins j).opIdx + 1 }) ∧
    (∀ j, 0 ≤ j → j < outsBelow w (net_add_op_at_pos k w).toNat → j < w.net.numOuts →
      ((net_add_op_at E opId k w).2.net.outs j).opIdx = (w.net.outs j).opIdx ∧
      ((net_add_op_at E opId k w).2.net.outs j).opOutIdx = (w.net.outs j).opOutIdx ∧
      ((net_add_op_at E opId k w).2.net.outs j).target =
        if (w.net.outs j).target ≥ insBelow w (net_add_op_at_pos k w).toNat then
          (w.net.outs j).target + (E.op_registry opId).numInputs
        else (w.net.outs j).target) ∧
    (∀ j, 0 ≤ j → outsBelow w (net_add_op_at_pos k w).toNat ≤ j → j < w.net.numOuts →
      ((net_add_op_at E opId k w).2.net.outs (j + (E.op_registry opId).numOutputs)).opIdx
        = (w.net.outs j).opIdx + 1 ∧
      ((net_add_op_at E opId k w).2.net.outs (j + (E.op_registry opId).numOutputs)).opOutIdx
        = (w.net.outs j).opOutIdx ∧
      ((net_add_op_at E opId k w).2.net.outs (j + (E.op_registry opId).numOutputs)).target =
        if (w.net.outs j).target ≥ insBelow w (net_add_op_at_pos k w).toNat then
          (w.net.outs j).target + (E.op_registry opId).numInputs
        else (w.net.outs j).target) := by
  obtain ⟨w3, w4, heq, hshape, htg, e1, e2, e3, -, e5, e6, e7⟩ :=
    net_add_op_at_stages E opId k w addr hcap hmem hn0 hn1 hm0 hm1 hfitI hfitO hlimO hlimI hlimU
      h0 h1 h2
  have hp0 : 0 ≤ net_add_op_at_pos k w := by
    unfold net_add_op_at_pos; dsimp only; split_ifs <;> omega
  have hp1 : net_add_op_at_pos k w ≤ w.net.numOps := by
    unfold net_add_op_at_pos; dsimp only; split_ifs <;> omega
  have hf0 : 0 ≤ insBelow w (net_add_op_at_pos k w).toNat :=
    insBelow_nonneg w _ (fun i hi => hcnt i (by omega))
  have hopn : (op_init E addr opId).numInputs = (E.op_registry opId).numInputs := rfl
  have hopm : (op_init E addr opId).numOutputs = (E.op_registry opId).numOutputs := rfl
  rw [heq]
  generalize insBelow w (net_add_op_at_pos k w).toNat = f at *
  generalize outsBelow w (net_add_op_at_pos k w).toNat = g at *
  have hpe := net_add_op_at_pos_eq k w
  generalize net_add_op_at_pos k w = p at *
  generalize (E.op_registry opId).numInputs = n at *
  generalize (E.op_registry opId).numOutputs = m at *
  have hI := congrFun (congrArg Shape.ins hshape)
  have hO := congrFun (congrArg Shape.outOwner hshape)
  have hF := congrFun (congrArg Shape.opFixed hshape)
  have hnP := congrArg Shape.numOps hshape
  have hnI := congrArg Shape.numIns hshape
  have hnO := congrArg Shape.numOuts hshape
  simp only [World.shape, Prod.mk.injEq] at hI hO hnP hnI hnO
  simp only [World.target] at htg
  dsimp only
  refine ⟨hpe, rfl, hnP.trans e1, hnI.trans e2, hnO.trans e3, ?_, ?_, ?_, ?_, ?_, ?_, ?_, ?_, ?_,
    ?_, ?_⟩
  · intro i hi
    rw [hF i]
    simp only [World.shape]
    rw [e5, if_neg (by omega), if_neg (by omega)]
  · intro i hi1 hi2
    rw [hF (i + 1)]
    simp only [World.shape]
    rw [e5, if_neg (by omega), if_pos (by omega)]
    have : i + 1 - 1 = i := by omega
    rw [this]
  · have := hF p
    simp only [World.shape, Prod.mk.injEq] at this
    rw [this.2.1, e5, if_pos rfl]; rfl
  · have := hF p
    simp only [World.shape, Prod.mk.injEq] at this
    rw [this.2.2.2.1, e5, if_pos rfl]; exact hopn
  · have := hF p
    simp only [World.shape, Prod.mk.injEq] at this
    rw [this.2.2.2.2.1, e5, if_pos rfl]; exact hopm
  · intro j hj0 hj1
    rw [hI, e6, if_pos (by omega)]
    refine ⟨rfl, ?_⟩
    show u8 (f + j - f) = j
    rw [u8_of_range (by omega) (by omega)]
    omega
  · intro j hj0 hj1
    have hc : g ≤ g + j ∧ g + j < g + m := by omega
    rw [(hO _).1, (hO _).2, htg, e7, if_pos hc]
    refine ⟨rfl, ?_, ?_⟩
    · show u8 (g + j - g) = j
      rw [u8_of_range (by omega) (by omega)]
      omega
    · dsimp only
      rw [if_neg (by omega)]
  · intro j hj
    rw [hI, e6, if_neg (by omega), if_neg (by omega)]
  · intro j hj1 hj2
    rw [hI, e6, if_neg (by omega), if_pos (by omega)]
    have : j + n - n = j := by omega
    rw [this]
  · intro j hj0 hj1 hj2
    have hr1 : ¬ (g ≤ j ∧ j < g + m) := by omega
    have hr2 : ¬ (g ≤ j ∧ j ≤ w.net.numOuts + m - 1) := by omega
    rw [(hO _).1, (hO _).2, htg, e7, if_neg hr1, if_neg hr2]
    refine ⟨rfl, rfl, ?_⟩
    have ht := htar j hj0 hj2
    by_cases hc : (w.net.outs j).target ≥ f
    · rw [if_pos ⟨hj0, by omega, hc⟩, if_pos hc, s16_of_range (by omega) (by omega)]
    · rw [if_neg (fun hh => hc hh.2.2), if_neg hc]
  · intro j hj0 hj1 hj2
    have hr1 : ¬ (g ≤ j + m ∧ j + m < g + m) := by omega
    have hr2 : (g ≤ j + m ∧ j + m ≤ w.net.numOuts + m - 1) := by omega
    have hjm : j + m - m = j := by omega
    rw [(hO _).1, (hO _).2, htg, e7, if_neg hr1, if_pos hr2, hjm]
    refine ⟨rfl, rfl, ?_⟩
    have ht := htar j hj0 hj2
    dsimp only
    by_cases hc : (w.net.outs j).target ≥ f
    · rw [if_pos ⟨by omega, by omega, hc⟩, if_pos hc, s16_of_range (by omega) (by omega)]
    · rw [if_neg (fun hh => hc hh.2.2), if_neg hc]

theorem exTwo_numOps : exTwo.net.numOps = 2 := by decide!
theorem exTwo_numOuts : exTwo.net.numOuts = 3 := by decide!

theorem exTwo_counts (i : Nat) (hi : (i : Int) < exTwo.net.numOps) :
    0 ≤ (exTwo.net.ops i).numInputs := by
  rw [exTwo_numOps] at hi
  have : i < 2 := by omega
  interval_cases i <;> decide!

theorem exTwo_targets (j : Int) (h0 : 0 ≤ j) (h1 : j < exTwo.net.numOuts) :
    -32768 ≤ (exTwo.net.outs j).target ∧ (exTwo.net.outs j).target + 4 < 32768 := by
  rw [exTwo_numOuts] at h1
  have : j = 0 ∨ j = 1 ∨ j = 2 := by omega
  rcases this with rfl | rfl | rfl <;> decide!

/-- Witness of C10: inserting a Random into the two-operator example
network. -/
theorem net_add_op_at_inserts_witness :
    (net_add_op_at exEnv eOpRandom 0 exTwo).1 = 2 ∧
    (net_add_op_at exEnv eOpRandom 0 exTwo).2.net.numOps = 3 := by
  have h := net_add_op_at_inserts exEnv eOpRandom 0 exTwo 1000256 (by decide!) (by decide!)
    (by decide) (by decide) (by decide) (by decide) (by decide!) (by decide!)
    (by decide) (by decide) (by decide) (by decide!) (by decide!) (by decide!)
    exTwo_counts exTwo_targets
  exact ⟨h.2.1.trans (by decide!), h.2.2.1.trans (by decide!)⟩

/-! ### Positions below 12 -/

theorem net_add_op_at_pos_low (k : Int) (w : World) (hk : k < 12) :
    net_add_op_at_pos k w = net_add_op_at_pos 11 w := by
  unfold net_add_op_at_pos
  dsimp only
  split_ifs <;> omega

/-- C8, as amended: `net_add_op_at` called with a position below 12 is not
rejected.  The position is clamped, so the call is the call with position 11:
when capacity and pool memory allow, the operator is inserted at index
`min 12 numOps`, that index (which is not negative) is returned, `numOps` grows by
1 and `numIns`, `numOuts` by the counts of the new operator, and the operators
below that index stay in their slots. -/
theorem net_add_op_at_low_position_clamped (E : Env) (opId k : Int) (w : World) (addr : Int)
    (hk : k < 12)
    (hcap : w.net.numOps < E.NET_OPS_MAX)
    (hmem : (net_alloc_op (E.op_registry opId).size w.pools).1 = some addr)
    (hn0 : 0 ≤ (E.op_registry opId).numInputs) (hn1 : (E.op_registry opId).numInputs < 256)
    (hm0 : 0 ≤ (E.op_registry opId).numOutputs) (hm1 : (E.op_registry opId).numOutputs < 256)
    (hfitI : (E.op_registry opId).numInputs ≤ E.NET_INS_MAX - w.net.numIns)
    (hfitO : (E.op_registry opId).numOutputs ≤ E.NET_OUTS_MAX - w.net.numOuts)
    (hlimO : E.NET_OPS_MAX ≤ 32767) (hlimI : E.NET_INS_MAX < 65536)
    (hlimU : E.NET_OUTS_MAX < 65536)
    (h0 : 0 ≤ w.net.numOps) (h1 : 0 ≤ w.net.numIns) (h2 : 0 ≤ w.net.numOuts) :
    net_add_op_at E opId k w = net_add_op_at E opId 11 w ∧
    (net_add_op_at E opId k w).1 = min 12 w.net.numOps ∧
    0 ≤ (net_add_op_at E opId k w).1 ∧
    (net_add_op_at E opId k w).2.net.numOps = w.net.numOps + 1 ∧
    (net_add_op_at E opId k w).2.net.numIns = w.net.numIns + (E.op_registry opId).numInputs ∧
    (net_add_op_at E opId k w).2.net.numOuts = w.net.numOuts + (E.op_registry opId).numOutputs ∧
    (∀ i, i < min 12 w.net.numOps →
      (net_add_op_at E opId k w).2.shape.opFixed i = w.shape.opFixed i) ∧
    ((net_add_op_at E opId k w).2.net.ops (min 12 w.net.numOps)).type = opId := by
  obtain ⟨w3, w4, heq, hshape, -, e1, e2, e3, -, e5, -, -⟩ :=
    net_add_op_at_stages E opId k w addr hcap hmem hn0 hn1 hm0 hm1 hfitI hfitO hlimO hlimI hlimU
      h0 h1 h2
  have hpos : net_add_op_at_pos k w = min 12 w.net.numOps := by
    unfold net_add_op_at_pos; dsimp only; split_ifs <;> omega
  have hsame : net_add_op_at E opId k w = net_add_op_at E opId 11 w := by
    unfold net_add_op_at
    rw [net_add_op_at_pos_low k w hk]
  refine ⟨hsame, ?_⟩
  rw [heq]
  dsimp only
  rw [hpos]
  rw [hpos] at e5
  have hmin0 : 0 ≤ min 12 w.net.numOps := by omega
  have hF := congrFun (congrArg Shape.opFixed hshape)
  have hnP := congrArg Shape.numOps hshape
  have hnI := congrArg Shape.numIns hshape
  have hnO := congrArg Shape.numOuts hshape
  simp only [World.shape, Prod.mk.injEq] at hnP hnI hnO
  refine ⟨rfl, hmin0, hnP.trans e1, hnI.trans e2, hnO.trans e3, ?_, ?_⟩
  · intro i hi
    rw [hF i]
    simp only [World.shape]
    rw [e5, if_neg (by omega), if_neg (by omega)]
  · have := hF (min 12 w.net.numOps)
    simp only [World.shape, Prod.mk.injEq] at this
    rw [this.2.1, e5, if_pos rfl]; rfl

/-- C8, counterexample: on the initialised example network (12 system
operators), `net_add_op_at` with position 3 returns 12 and `numOps` becomes 13. -/
theorem net_add_op_at_low_position_not_rejected :
    exInit.net.numOps = 12 ∧ (net_add_op_at exEnv 2 3 exInit).1 = 12 ∧
    (net_add_op_at exEnv 2 3 exInit).2.net.numOps = 13 := by
  decide!

/-- Witness of C8 as amended: position 3 on the two-operator example
network. -/
theorem net_add_op_at_low_position_clamped_witness :
    (net_add_op_at exEnv eOpRandom 3 exTwo).1 = 2 ∧
    (net_add_op_at exEnv eOpRandom 3 exTwo).2.net.numOps = 3 := by
  have h := net_add_op_at_low_position_clamped exEnv eOpRandom 3 exTwo 1000256 (by decide)
    (by decide!) (by decide!) (by decide) (by decide) (by decide) (by decide) (by decide!)
    (by decide!) (by decide) (by decide) (by decide) (by decide!) (by decide!) (by decide!)
  exact ⟨h.2.1.trans (by decide!), h.2.2.2.1.trans (by decide!)⟩

/-! ### Removing an operator -/

theorem range_up_iff (lo hi j : Int) :
    (lo ≤ j ∧ j < lo + ((hi - lo).toNat : Int)) ↔ (lo ≤ j ∧ j < hi) := by
  omega

theorem net_op_in_idx_loop_found (w : World) (opIdx inIdx : Int) (f : Int) :
    ∀ (n : Nat) (start : Int), start ≤ f → f < start + n →
      (∀ j, start ≤ j → j < f → (w.net.ins j).opIdx ≠ opIdx) →
      (w.net.ins f).opIdx = opIdx →
      net_op_in_idx_loop w opIdx inIdx n start = u16 (f + inIdx) := by
  intro n
  induction n with
  | zero => intro start h1 h2; exfalso; simp at h2; omega
  | succ n ih =>
    intro start h1 h2 h3 h4
    unfold net_op_in_idx_loop
    by_cases hs : start = f
    · subst hs
      rw [if_pos h4]
    · rw [if_neg (h3 start (le_refl _) (by omega))]
      exact ih (start + 1) (by omega) (by push_cast at h2; omega)
        (fun j hj1 hj2 => h3 j (by omega) hj2) h4

theorem net_op_in_idx_loop_none (w : World) (opIdx inIdx : Int) :
    ∀ (n : Nat) (start : Int),
      (∀ j, start ≤ j → j < start + n → (w.net.ins j).opIdx ≠ opIdx) →
      net_op_in_idx_loop w opIdx inIdx n start = 0 := by
  intro n
  induction n with
  | zero => intro start _; rfl
  | succ n ih =>
    intro start h
    unfold net_op_in_idx_loop
    rw [if_neg (h start (le_refl _) (by push_cast; omega))]
    exact ih (start + 1) (fun j hj1 hj2 => h j (by omega) (by push_cast; omega))

theorem net_op_out_idx_loop_found (w : World) (opIdx outIdx : Int) (f : Int) :
    ∀ (n : Nat) (start : Int), start ≤ f → f < start + n →
      (∀ j, start ≤ j → j < f → (w.net.outs j).opIdx ≠ opIdx) →
      (w.net.outs f).opIdx = opIdx →
      net_op_out_idx_loop w opIdx outIdx n start = u16 (f + outIdx) := by
  intro n
  induction n with
  | zero => intro start h1 h2; exfalso; simp at h2; omega
  | succ n ih =>
    intro start h1 h2 h3 h4
    unfold net_op_out_idx_loop
    by_cases hs : start = f
    · subst hs
      rw [if_pos h4]
    · rw [if_neg (h3 start (le_refl _) (by omega))]
      exact ih (start + 1) (by omega) (by push_cast at h2; omega)
        (fun j hj1 hj2 => h3 j (by omega) hj2) h4

theorem net_op_out_idx_loop_none (w : World) (opIdx outIdx : Int) :
    ∀ (n : Nat) (start : Int),
      (∀ j, start ≤ j → j < start + n → (w.net.outs j).opIdx ≠ opIdx) →
      net_op_out_idx_loop w opIdx outIdx n start = 0 := by
  intro n
  induction n with
  | zero => intro start _; rfl
  | succ n ih =>
    intro start h
    unfold net_op_out_idx_loop
    rw [if_neg (h start (le_refl _) (by push_cast; omega))]
    exact ih (start + 1) (fun j hj1 hj2 => h j (by omega) (by push_cast; omega))

theorem net_remove_op_target_shape (f n i : Int) (w : World) :
    (net_remove_op_target f n i w).shape = w.shape := by
  unfold net_remove_op_target
  split_ifs
  · exact net_disconnect_shape _ _
  · exact net_connect_shape _ _ _
  · rfl

theorem net_remove_op_target_target (f n i : Int) (w : World) (j : Int) :
    (net_remove_op_target f n i w).target j =
      if j = i then
        (if w.target i ≥ f ∧ w.target i < f + n then -1
         else if w.target i ≥ f + n then s16 (w.target i - n) else w.target i)
      else w.target j := by
  unfold net_remove_op_target
  by_cases h1 : (w.net.outs i).target ≥ f ∧ (w.net.outs i).target < f + n
  · have h1b : w.target i ≥ f ∧ w.target i < f + n := h1
    rw [if_pos h1, if_pos h1b]
    exact net_disconnect_target _ _ _
  · have h1b : ¬ (w.target i ≥ f ∧ w.target i < f + n) := h1
    rw [if_neg h1, if_neg h1b]
    by_cases h2 : (w.net.outs i).target ≥ f + n
    · have h2b : w.target i ≥ f + n := h2
      rw [if_pos h2, if_pos h2b]
      exact net_connect_target _ _ _ _
    · have h2b : ¬ w.target i ≥ f + n := h2
      rw [if_neg h2, if_neg h2b]
      split_ifs with hj
      · rw [hj]
      · rfl

theorem net_remove_op_targets_shape (f n : Int) (w : World) :
    (net_remove_op_targets f n w).shape = w.shape :=
  forUp_proj World.shape _ (fun i s => net_remove_op_target_shape f n i s) _ _ _

theorem net_remove_op_targets_presets (f n : Int) (w : World) :
    (net_remove_op_targets f n w).presets = w.presets :=
  forUp_proj World.presets _ (fun i s => by
    unfold net_remove_op_target
    split_ifs
    · rfl
    · exact net_connect_presets _ _ _
    · rfl) _ _ _

theorem net_remove_op_targets_target (f n : Int) (w : World) (j : Int) :
    (net_remove_op_targets f n w).target j =
      if 0 ≤ j ∧ j < w.net.numOuts then
        (if w.target j ≥ f ∧ w.target j < f + n then -1
         else if w.target j ≥ f + n then s16 (w.target j - n) else w.target j)
      else w.target j := by
  have hB := forUp_gather World.target
    (fun i a => if a i ≥ f ∧ a i < f + n then -1
         else if a i ≥ f + n then s16 (a i - n) else a i)
    (net_remove_op_target f n)
    (fun i a b hab => by dsimp only; rw [hab i (le_refl _)])
    (fun i s j => net_remove_op_target_target f n i s j) w.net.numOuts.toNat 0 w j
  unfold net_remove_op_targets
  rw [hB]
  by_cases hr : 0 ≤ j ∧ j < w.net.numOuts
  · rw [if_pos hr, if_pos (by omega)]
  · rw [if_neg hr, if_neg (by omega)]

theorem net_remove_op_reindex_shape (i : Int) (w : World) :
    (net_remove_op_reindex i w).shape = w.shape := by
  unfold net_remove_op_reindex
  split_ifs
  · exact net_connect_shape _ _ _
  · rfl

theorem net_remove_op_reindex_all_shape (w : World) :
    (net_remove_op_reindex_all w).shape = w.shape :=
  forUp_proj World.shape _ (fun i s => net_remove_op_reindex_shape i s) _ _ _

theorem net_remove_op_reindex_all_target (w : World) (j : Int) :
    (net_remove_op_reindex_all w).target j =
      if 0 ≤ j ∧ j < w.net.numOuts ∧ w.target j ≥ 0 then s16 (w.target j) else w.target j := by
  have hB := forUp_gather World.target
    (fun i a => if a i ≥ 0 then s16 (a i) else a i)
    net_remove_op_reindex
    (fun i a b hab => by dsimp only; rw [hab i (le_refl _)])
    (fun i s j => by
      show _ = if j = i then (if s.target i ≥ 0 then s16 (s.target i) else s.target i)
        else s.target j
      unfold net_remove_op_reindex
      by_cases hc : (s.net.outs i).target ≥ 0
      · have hc2 : s.target i ≥ 0 := hc
        rw [if_pos hc, if_pos hc2]
        exact net_connect_target _ _ _ _
      · have hc2 : ¬ s.target i ≥ 0 := hc
        rw [if_neg hc, if_neg hc2]
        split_ifs with hj
        · rw [hj]
        · rfl) w.net.numOuts.toNat 0 w j
  unfold net_remove_op_reindex_all
  rw [hB]
  by_cases hr : 0 ≤ j ∧ j < w.net.numOuts
  · rw [if_pos (by omega)]
    by_cases ht : w.target j ≥ 0
    · rw [if_pos ht, if_pos ⟨hr.1, hr.2, ht⟩]
    · rw [if_neg ht, if_neg (fun hh => ht hh.2.2)]
  · rw [if_neg (by omega), if_neg (fun hh => hr ⟨hh.1, hh.2.1⟩)]

theorem net_remove_op_preset_frame (f g n m i : Int) (w : World) (a : Int → preset_t) :
    (net_remove_op_preset f g n m i w).withPresets a = w.withPresets a := by
  unfold net_remove_op_preset
  dsimp only
  refine (forUp_proj (fun s => s.withPresets a) (net_remove_op_preset_tar f n i) ?_ _ _ _).trans ?_
  · intro j s
    unfold net_remove_op_preset_tar
    dsimp only
    split_ifs <;> rfl
  refine (forUp_proj (fun s => s.withPresets a) (net_remove_op_preset_out m i)
    (fun j s => by rfl) _ _ _).trans ?_
  exact forUp_proj (fun s => s.withPresets a) (net_remove_op_preset_in n i)
    (fun j s => by rfl) _ _ _

theorem net_remove_op_presets_frame (E : Env) (f g n m : Int) (w : World) (a : Int → preset_t) :
    (net_remove_op_presets E f g n m w).withPresets a = w.withPresets a :=
  forUp_proj (fun s => s.withPresets a) _
    (fun i s => net_remove_op_preset_frame f g n m i s a) _ _ _

theorem net_remove_op_shuffle_eq (k f n m : Int) (w : World) (hn : 0 ≤ n) (hm : 0 ≤ m)
    (h0 : 1 ≤ w.net.numOps) (h1 : n ≤ w.net.numIns) (h2 : m ≤ w.net.numOuts)
    (h3 : w.net.numOps < 65536) (h4 : w.net.numIns < 65536) (h5 : w.net.numOuts < 65536) :
    net_remove_op_shuffle k f n m w =
      { w with net := { w.net with
          numIns := w.net.numIns - n,
          numOuts := w.net.numOuts - m,
          numOps := w.net.numOps - 1,
          ops := fun j => if k ≤ j ∧ j < w.net.numOps - 1 then w.net.ops (j + 1) else w.net.ops j,
          outs := fun j =>
            if (0 ≤ j ∧ j < w.net.numOuts - m) ∧ (w.net.outs j).opIdx ≥ k then
              { w.net.outs (j + m) with opIdx := (w.net.outs (j + m)).opIdx - 1 }
            else w.net.outs j,
          ins := fun j =>
            if f ≤ j ∧ j < w.net.numIns - n then
              { w.net.ins (j + n) with opIdx := (w.net.ins (j + n)).opIdx - 1 }
            else w.net.ins j } } := by
  have hI : ∀ (cnt : Nat) (lo : Int) (w1 : World),
      forUp lo cnt (net_remove_op_move_in n) w1 =
        w1.withIns (fun j => if lo ≤ j ∧ j < lo + cnt then
          { w1.net.ins (j + n) with opIdx := (w1.net.ins (j + n)).opIdx - 1 } else w1.net.ins j) := by
    intro cnt lo w1
    rw [forUp_withIns (net_remove_op_move_in n) (fun i s a => rfl)]
    congr 1
    funext j
    exact forUp_gather (fun s => s.net.ins)
      (fun i a => { a (i + n) with opIdx := (a (i + n)).opIdx - 1 }) (net_remove_op_move_in n)
      (fun i a b hab => by dsimp only; rw [hab _ (by omega)])
      (fun i s j => by
        simp only [net_remove_op_move_in, setIn, upd]
        split_ifs <;> simp) cnt lo w1 j
  have hO : ∀ (cnt : Nat) (lo : Int) (w1 : World),
      forUp lo cnt (net_remove_op_move_out k m) w1 =
        w1.withOuts (fun j => if lo ≤ j ∧ j < lo + cnt then
          (if (w1.net.outs j).opIdx ≥ k then
            { w1.net.outs (j + m) with opIdx := (w1.net.outs (j + m)).opIdx - 1 }
           else w1.net.outs j) else w1.net.outs j) := by
    intro cnt lo w1
    rw [forUp_withOuts (net_remove_op_move_out k m) (fun i s a => by
      unfold net_remove_op_move_out; split_ifs <;> rfl)]
    congr 1
    funext j
    exact forUp_gather (fun s => s.net.outs)
      (fun i a => if (a i).opIdx ≥ k then
          { a (i + m) with opIdx := (a (i + m)).opIdx - 1 } else a i)
      (net_remove_op_move_out k m)
      (fun i a b hab => by dsimp only; rw [hab i (le_refl _), hab (i + m) (by omega)])
      (fun i s j => by
        unfold net_remove_op_move_out
        by_cases hc : (s.net.outs i).opIdx ≥ k
        · simp only [if_pos hc, setOut, upd]
          split_ifs <;> simp
        · simp only [if_neg hc]
          split_ifs with hj
          · rw [hj]
          · rfl) cnt lo w1 j
  have hP : ∀ (cnt : Nat) (lo : Int) (w1 : World),
      forUp lo cnt net_remove_op_move_op w1 =
        w1.withOps (fun j => if lo ≤ j ∧ j < lo + cnt then w1.net.ops (j + 1) else w1.net.ops j) := by
    intro cnt lo w1
    rw [forUp_withOps net_remove_op_move_op (fun i s a => rfl)]
    congr 1
    funext j
    exact forUp_gather (fun s => s.net.ops) (fun i a => a (i + 1)) net_remove_op_move_op
      (fun i a b hab => hab _ (by omega))
      (fun i s j => by simp only [net_remove_op_move_op, setOp, upd]) cnt lo w1 j
  unfold net_remove_op_shuffle
  dsimp only
  rw [hI, hO, hP]
  simp only [World.withOps, World.withOuts, World.withIns,
    u16_of_range (show 0 ≤ w.net.numOps - 1 by omega) (show w.net.numOps - 1 < 65536 by omega),
    u16_of_range (show 0 ≤ w.net.numIns - n by omega) (show w.net.numIns - n < 65536 by omega),
    u16_of_range (show 0 ≤ w.net.numOuts - m by omega) (show w.net.numOuts - m < 65536 by omega),
    range_up_iff]
  congr 2
  funext j
  by_cases hc : (0 ≤ j ∧ j < w.net.numOuts - m)
  · have hc2 : 0 ≤ j ∧ j < 0 + (((w.net.numOuts - m).toNat : Nat) : Int) := by omega
    rw [if_pos hc2]
    by_cases hk : (w.net.outs j).opIdx ≥ k
    · rw [if_pos hk, if_pos ⟨hc, hk⟩]
    · rw [if_neg hk, if_neg (fun hh => hk hh.2)]
  · have hc2 : ¬ (0 ≤ j ∧ j < 0 + (((w.net.numOuts - m).toNat : Nat) : Int)) := by omega
    rw [if_neg hc2, if_neg (fun hh => hc hh.1)]


theorem flag_test_of_not_testBit (n f : Nat) (h : n.testBit f = false) :
    (n &&& (1 <<< f)) % 256 = 0 := by
  rw [Nat.one_shiftLeft, Nat.and_two_pow, h]
  simp

theorem net_op_in_idx_pools (k i : Int) (w : World) (ps : Pools) :
    net_op_in_idx k i { w with pools := ps } = net_op_in_idx k i w := by
  unfold net_op_in_idx
  dsimp only
  generalize w.net.numIns.toNat = n
  generalize (0 : Int) = start
  induction n generalizing start with
  | zero => rfl
  | succ n ih =>
    unfold net_op_in_idx_loop
    dsimp only
    rw [ih]

theorem net_op_out_idx_pools (k i : Int) (w : World) (ps : Pools) :
    net_op_out_idx k i { w with pools := ps } = net_op_out_idx k i w := by
  unfold net_op_out_idx
  dsimp only
  generalize w.net.numOuts.toNat = n
  generalize (0 : Int) = start
  induction n generalizing start with
  | zero => rfl
  | succ n ih =>
    unfold net_op_out_idx_loop
    dsimp only
    rw [ih]

theorem net_remove_op_success (E : Env) (k : Int) (w : World)
    (hk0 : 0 ≤ k) (hk1 : k < w.net.numOps) (hops : w.net.numOps < 65536)
    (hflag : (w.net.ops k).flags.testBit E.eOpFlagSys = false) :
    net_remove_op E k w =
      (0, net_remove_op_presets E
            (net_op_in_idx k 0 w) (net_op_out_idx k 0 w)
            (w.net.ops k).numInputs (w.net.ops k).numOutputs
            (net_remove_op_reindex_all
              (net_remove_op_shuffle k (net_op_in_idx k 0 w) (w.net.ops k).numInputs
                (w.net.ops k).numOutputs
                (net_remove_op_targets (net_op_in_idx k 0 w) (w.net.ops k).numInputs
                  { w with pools := (freeOp (w.net.ops k).addr w.pools).2 })))) := by
  have hfl : net_op_flag k E.eOpFlagSys w = 0 := by
    unfold net_op_flag
    rw [u16_of_range hk0 (by omega)]
    exact flag_test_of_not_testBit _ _ hflag
  have hc : ¬ (k < 0 ∨ k ≥ w.net.numOps) := by omega
  unfold net_remove_op
  simp only [hfl, ne_eq, not_true_eq_false, if_false, hc, net_op_in_idx_pools,
    net_op_out_idx_pools]


theorem net_op_in_idx_first (k f : Int) (w : World)
    (hk0 : 0 ≤ k) (hk1 : k < 65536) (hf0 : 0 ≤ f) (hf1 : f < w.net.numIns)
    (hI : w.net.numIns < 65536)
    (hbelow : ∀ j, 0 ≤ j → j < f → (w.net.ins j).opIdx ≠ k)
    (hat : (w.net.ins f).opIdx = k) :
    net_op_in_idx k 0 w = f := by
  unfold net_op_in_idx
  rw [u16_of_range hk0 hk1]
  rw [net_op_in_idx_loop_found w k (u16 0) f w.net.numIns.toNat 0 hf0 (by omega) hbelow hat]
  have : u16 0 = 0 := by decide
  rw [this, u16_of_range (by omega) (by omega)]
  omega

theorem net_op_in_idx_none (k : Int) (w : World)
    (hk0 : 0 ≤ k) (hk1 : k < 65536)
    (hnone : ∀ j, 0 ≤ j → j < w.net.numIns → (w.net.ins j).opIdx ≠ k) :
    net_op_in_idx k 0 w = 0 := by
  unfold net_op_in_idx
  rw [u16_of_range hk0 hk1]
  exact net_op_in_idx_loop_none w k (u16 0) w.net.numIns.toNat 0
    (fun j hj1 hj2 => hnone j hj1 (by omega))

/-- C9: `net_remove_op` on a valid index `k` of an operator without the system
flag returns 0, lowers `numOps` by 1 and `numIns`, `numOuts` by the operator's
counts `n`, `m`, leaves the operators below `k` in their slots and moves each
operator above `k` one slot down; every output that survives (below the removed
block `g .. g + m - 1`, or above it and moved down by `m`) has its target sent to
-1 when it pointed into the removed inputs `f .. f + n - 1`, lowered by `n` when it
pointed above them, and kept otherwise. -/
theorem net_remove_op_removes (E : Env) (k f g : Int) (w : World)
    (hk0 : 0 ≤ k) (hk1 : k < w.net.numOps) (hops : w.net.numOps < 65536)
    (hflag : (w.net.ops k).flags.testBit E.eOpFlagSys = false)
    (hn : 0 ≤ (w.net.ops k).numInputs) (hm : 0 ≤ (w.net.ops k).numOutputs)
    (hf0 : 0 ≤ f) (hf1 : f + (w.net.ops k).numInputs ≤ w.net.numIns)
    (hI : w.net.numIns < 65536)
    (hg0 : 0 ≤ g) (hg1 : g + (w.net.ops k).numOutputs ≤ w.net.numOuts)
    (hO : w.net.numOuts < 65536)
    (hin : ∀ j, 0 ≤ j → j < w.net.numIns →
      ((w.net.ins j).opIdx = k ↔ (f ≤ j ∧ j < f + (w.net.ops k).numInputs)))
    (hout : ∀ j, 0 ≤ j → j < w.net.numOuts → ((w.net.outs j).opIdx ≥ k ↔ g ≤ j))
    (htar : ∀ j, 0 ≤ j → j < w.net.numOuts →
      -32768 ≤ (w.net.outs j).target ∧ (w.net.outs j).target < 32768) :
    (net_remove_op E k w).1 = 0 ∧
    (net_remove_op E k w).2.net.numOps = w.net.numOps - 1 ∧
    (net_remove_op E k w).2.net.numIns = w.net.numIns - (w.net.ops k).numInputs ∧
    (net_remove_op E k w).2.net.numOuts = w.net.numOuts - (w.net.ops k).numOutputs ∧
    (∀ i, i < k → (net_remove_op E k w).2.shape.opFixed i = w.shape.opFixed i) ∧
    (∀ i, k ≤ i → i < w.net.numOps - 1 →
      (net_remove_op E k w).2.shape.opFixed i = w.shape.opFixed (i + 1)) ∧
    (∀ j, 0 ≤ j → j < g →
      ((net_remove_op E k w).2.net.outs j).target =
        if f ≤ (w.net.outs j).target ∧ (w.net.outs j).target < f + (w.net.ops k).numInputs then -1
        else if (w.net.outs j).target ≥ f + (w.net.ops k).numInputs then
          (w.net.outs j).target - (w.net.ops k).numInputs
        else (w.net.outs j).target) ∧
    (∀ j, g + (w.net.ops k).numOutputs ≤ j → j < w.net.numOuts →
      ((net_remove_op E k w).2.net.outs (j - (w.net.ops k).numOutputs)).target =
        if f ≤ (w.net.outs j).target ∧ (w.net.outs j).target < f + (w.net.ops k).numInputs then -1
        else if (w.net.outs j).target ≥ f + (w.net.ops k).numInputs then
          (w.net.outs j).target - (w.net.ops k).numInputs
        else (w.net.outs j).target) := by
  rw [net_remove_op_success E k w hk0 hk1 hops hflag]
  generalize hnd : (w.net.ops k).numInputs = n at *
  generalize hmd : (w.net.ops k).numOutputs = m at *
  -- the first input index as the code computes it
  have hT : ∀ t, -32768 ≤ t → t < 32768 →
      (if t ≥ net_op_in_idx k 0 w ∧ t < net_op_in_idx k 0 w + n then -1
       else if t ≥ net_op_in_idx k 0 w + n then s16 (t - n) else t) =
      (if f ≤ t ∧ t < f + n then -1 else if t ≥ f + n then t - n else t) := by
    intro t ht0 ht1
    by_cases hn1 : 1 ≤ n
    · have hfe : net_op_in_idx k 0 w = f :=
        net_op_in_idx_first k f w hk0 (by omega) hf0 (by omega) hI
          (fun j hj0 hj1 hc => by
            have := (hin j hj0 (by omega)).1 hc
            omega)
          ((hin f hf0 (by omega)).2 ⟨le_refl _, by omega⟩)
      rw [hfe]
      by_cases h1 : f ≤ t ∧ t < f + n
      · rw [if_pos ⟨h1.1, h1.2⟩, if_pos h1]
      · rw [if_neg (fun hh => h1 ⟨hh.1, hh.2⟩), if_neg h1]
        by_cases h2 : t ≥ f + n
        · rw [if_pos h2, if_pos h2, s16_of_range (by omega) (by omega)]
        · rw [if_neg h2, if_neg h2]
    · have hn0 : n = 0 := by omega
      have hfe : net_op_in_idx k 0 w = 0 :=
        net_op_in_idx_none k w hk0 (by omega) (fun j hj0 hj1 hc => by
          have := (hin j hj0 hj1).1 hc
          omega)
      rw [hfe, hn0]
      have h1 : ¬ (t ≥ 0 ∧ t < 0 + 0) := by omega
      have h2 : ¬ (f ≤ t ∧ t < f + 0) := by omega
      rw [if_neg h1, if_neg h2]
      by_cases h3 : t ≥ 0 + 0
      · rw [if_pos h3, s16_of_range (by omega) (by omega)]
        split_ifs <;> omega
      · rw [if_neg h3]
        split_ifs <;> omega
  generalize net_op_in_idx k 0 w = f' at *
  generalize net_op_out_idx k 0 w = g' at *
  -- stage 1: the targets
  obtain ⟨W1, hW1⟩ : ∃ W1, W1 = net_remove_op_targets f' n
    { w with pools := (freeOp (w.net.ops k).addr w.pools).2 } := ⟨_, rfl⟩
  have hs1 : W1.shape = ({ w with pools := (freeOp (w.net.ops k).addr w.pools).2 } : World).shape := by
    rw [hW1]; exact net_remove_op_targets_shape _ _ _
  have ht1 : ∀ j, W1.target j = if 0 ≤ j ∧ j < w.net.numOuts then
      (if w.target j ≥ f' ∧ w.target j < f' + n then -1
         else if w.target j ≥ f' + n then s16 (w.target j - n) else w.target j)
      else w.target j := by
    intro j; rw [hW1]; exact net_remove_op_targets_target _ _ _ _
  have hnP1 : W1.net.numOps = w.net.numOps := congrArg Shape.numOps hs1
  have hnI1 : W1.net.numIns = w.net.numIns := congrArg Shape.numIns hs1
  have hnO1 : W1.net.numOuts = w.net.numOuts := congrArg Shape.numOuts hs1
  have hO1 := congrFun (congrArg Shape.outOwner hs1)
  have hF1 := congrFun (congrArg Shape.opFixed hs1)
  simp only [World.shape, Prod.mk.injEq] at hO1
  -- stage 2: the reshuffling
  obtain ⟨W2, hW2⟩ : ∃ W2, W2 = net_remove_op_shuffle k f' n m W1 := ⟨_, rfl⟩
  have hW2c := hW2
  rw [net_remove_op_shuffle_eq k f' n m W1 hn hm (by omega) (by omega) (by omega) (by omega)
    (by omega) (by omega)] at hW2c
  -- stage 3: the re-indexing
  obtain ⟨W3, hW3⟩ : ∃ W3, W3 = net_remove_op_reindex_all W2 := ⟨_, rfl⟩
  have hs3 : W3.shape = W2.shape := by rw [hW3]; exact net_remove_op_reindex_all_shape _
  have ht3 : ∀ j, W3.target j =
      if 0 ≤ j ∧ j < W2.net.numOuts ∧ W2.target j ≥ 0 then s16 (W2.target j) else W2.target j := by
    intro j; rw [hW3]; exact net_remove_op_reindex_all_target _ _
  -- stage 4: the presets
  obtain ⟨W4, hW4⟩ : ∃ W4, W4 = net_remove_op_presets E f' g' n m W3 := ⟨_, rfl⟩
  have hs4 : W4.net = W3.net := by
    rw [hW4]
    have h := congrArg World.net (net_remove_op_presets_frame E f' g' n m W3 W3.presets)
    exact h
  rw [← hW1, ← hW2, ← hW3, ← hW4]
  have hnP2 : W2.net.numOps = w.net.numOps - 1 := by rw [hW2c]; exact congrArg (· - 1) hnP1
  have hnI2 : W2.net.numIns = w.net.numIns - n := by rw [hW2c]; exact congrArg (· - n) hnI1
  have hnO2 : W2.net.numOuts = w.net.numOuts - m := by rw [hW2c]; exact congrArg (· - m) hnO1
  have hops2 : ∀ j, W2.net.ops j =
      if k ≤ j ∧ j < W1.net.numOps - 1 then W1.net.ops (j + 1) else W1.net.ops j := by
    intro j; rw [hW2c]
  have houts2 : ∀ j, W2.net.outs j =
      if (0 ≤ j ∧ j < W1.net.numOuts - m) ∧ (W1.net.outs j).opIdx ≥ k then
        { W1.net.outs (j + m) with opIdx := (W1.net.outs (j + m)).opIdx - 1 }
      else W1.net.outs j := by
    intro j; rw [hW2c]
  have hF3 := congrFun (congrArg Shape.opFixed hs3)
  -- the transformed target stays in range
  have hTr : ∀ j, 0 ≤ j → j < w.net.numOuts →
      W1.target j = (if f ≤ w.target j ∧ w.target j < f + n then -1
        else if w.target j ≥ f + n then w.target j - n else w.target j) ∧
      -32768 ≤ W1.target j ∧ W1.target j < 32768 := by
    intro j hj0 hj1
    have h := htar j hj0 hj1
    have e : W1.target j = (if f ≤ w.target j ∧ w.target j < f + n then -1
        else if w.target j ≥ f + n then w.target j - n else w.target j) := by
      rw [ht1, if_pos ⟨hj0, hj1⟩]
      exact hT _ h.1 h.2
    refine ⟨e, ?_⟩
    rw [e]
    have h' : -32768 ≤ w.target j ∧ w.target j < 32768 := h
    split_ifs <;> omega
  -- the final target of a surviving output
  have hfin : ∀ j, 0 ≤ j → j < w.net.numOuts - m → ∀ j0, 0 ≤ j0 → j0 < w.net.numOuts →
      W2.target j = W1.target j0 → (W4.net.outs j).target = W1.target j0 := by
    intro j hj0 hj1 j0 hj00 hj01 he
    rw [hs4]
    show W3.target j = _
    rw [ht3, he]
    have hr := (hTr j0 hj00 hj01).2
    by_cases hc : 0 ≤ j ∧ j < W2.net.numOuts ∧ W1.target j0 ≥ 0
    · rw [if_pos hc, s16_of_range hr.1 hr.2]
    · rw [if_neg hc]
  refine ⟨rfl, ?_, ?_, ?_, ?_, ?_, ?_, ?_⟩
  · show W4.net.numOps = _
    rw [hs4]; exact (congrArg Shape.numOps hs3).trans hnP2
  · show W4.net.numIns = _
    rw [hs4]; exact (congrArg Shape.numIns hs3).trans hnI2
  · show W4.net.numOuts = _
    rw [hs4]; exact (congrArg Shape.numOuts hs3).trans hnO2
  · intro i hi
    show W4.shape.opFixed i = _
    have : W4.shape.opFixed i = W3.shape.opFixed i := by
      simp only [World.shape]; rw [hs4]
    rw [this, hF3 i]
    simp only [World.shape]
    rw [hops2, if_neg (by omega)]
    exact hF1 i
  · intro i hi1 hi2
    show W4.shape.opFixed i = _
    have : W4.shape.opFixed i = W3.shape.opFixed i := by
      simp only [World.shape]; rw [hs4]
    rw [this, hF3 i]
    simp only [World.shape]
    rw [hops2, if_pos (by omega)]
    exact hF1 (i + 1)
  · intro j hj0 hj1
    have hlab : ¬ (W1.net.outs j).opIdx ≥ k := by
      rw [(hO1 j).1]
      intro hc
      have := (hout j hj0 (by omega)).1 hc
      omega
    have he : W2.target j = W1.target j := by
      show (W2.net.outs j).target = _
      rw [houts2, if_neg (fun hh => hlab hh.2)]
      rfl
    rw [hfin j hj0 (by omega) j hj0 (by omega) he]
    exact (hTr j hj0 (by omega)).1
  · intro j hj0 hj1
    have hlab : (W1.net.outs (j - m)).opIdx ≥ k := by
      rw [(hO1 (j - m)).1]
      exact (hout (j - m) (by omega) (by omega)).2 (by omega)
    have he : W2.target (j - m) = W1.target j := by
      show (W2.net.outs (j - m)).target = _
      rw [houts2, if_pos ⟨⟨by omega, by omega⟩, hlab⟩]
      have : j - m + m = j := by omega
      rw [this]
      rfl
    rw [hfin (j - m) (by omega) (by omega) j (by omega) hj1 he]
    exact (hTr j (by omega) hj1).1

theorem exWired_numIns : exWired.net.numIns = 3 := by decide!
theorem exWired_numOuts : exWired.net.numOuts = 3 := by decide!

theorem exWired_ins (j : Int) (h0 : 0 ≤ j) (h1 : j < exWired.net.numIns) :
    ((exWired.net.ins j).opIdx = 0 ↔ (0 ≤ j ∧ j < 0 + (exWired.net.ops 0).numInputs)) := by
  rw [exWired_numIns] at h1
  have hn : (exWired.net.ops 0).numInputs = 1 := by decide!
  rw [hn]
  have h : j = 0 ∨ j = 1 ∨ j = 2 := by omega
  rcases h with h | h | h <;> subst h
  · exact ⟨fun _ => by omega, fun _ => by decide!⟩
  · exact ⟨fun hc => absurd hc (by decide!), fun hc => by omega⟩
  · exact ⟨fun hc => absurd hc (by decide!), fun hc => by omega⟩

theorem exWired_outs (j : Int) (h0 : 0 ≤ j) (h1 : j < exWired.net.numOuts) :
    ((exWired.net.outs j).opIdx ≥ 0 ↔ 0 ≤ j) := by
  rw [exWired_numOuts] at h1
  have h : j = 0 ∨ j = 1 ∨ j = 2 := by omega
  rcases h with h | h | h <;> subst h <;> exact ⟨fun _ => by omega, fun _ => by decide!⟩

theorem exWired_targets (j : Int) (h0 : 0 ≤ j) (h1 : j < exWired.net.numOuts) :
    -32768 ≤ (exWired.net.outs j).target ∧ (exWired.net.outs j).target < 32768 := by
  rw [exWired_numOuts] at h1
  have h : j = 0 ∨ j = 1 ∨ j = 2 := by omega
  rcases h with h | h | h <;> subst h <;> decide!

/-- Witness of C9: in `exWired` the output of the Add targets the input of the
Split; removing the Split (operator 0) leaves one operator, whose output has
moved to index 0 and is unconnected. -/
theorem net_remove_op_removes_witness :
    (net_remove_op exEnv 0 exWired).1 = 0 ∧
    (net_remove_op exEnv 0 exWired).2.net.numOps = 1 ∧
    ((net_remove_op exEnv 0 exWired).2.net.outs 0).target = -1 := by
  have h := net_remove_op_removes exEnv 0 0 0 exWired (by decide) (by decide!) (by decide!)
    (by decide!) (by decide!) (by decide!) (by decide) (by decide!) (by decide!)
    (by decide) (by decide!) (by decide!) exWired_ins exWired_outs exWired_targets
  refine ⟨h.1, h.2.1.trans (by decide!), ?_⟩
  have h8 := h.2.2.2.2.2.2.2 2 (by decide!) (by decide!)
  have e : (2 : Int) - (exWired.net.ops 0).numOutputs = 0 := by decide!
  rw [e] at h8
  exact h8.trans (by decide!)

/-! ### Removal and the bookkeeping of connections

Three evaluations of `net_remove_op` on the initialised example network. -/

/-- C3: the target bound does not survive `net_remove_op`.  In `exDangling` the
removal of the operator without inputs has lowered the owner label of every input
node, so input 47 (the Split) is labelled 12.  Removing operator 12 (the Random,
inputs 43 to 46) then takes 47 for its first input: the call succeeds and `numIns`
drops to 44 with no parameters, but output 0 keeps its target 46, which is neither
-1 nor below `numIns + numParams`. -/
theorem net_remove_op_leaves_dangling_target :
    exDangling.net.numOps = 14 ∧ exDangling.net.numIns = 48 ∧
    (exDangling.net.outs 0).target = 46 ∧ (exDangling.net.ins 47).opIdx = 12 ∧
    (exDangling.net.ops 12).numInputs = 4 ∧
    (net_remove_op exEnv 12 exDangling).1 = 0 ∧
    (net_remove_op exEnv 12 exDangling).2.net.numOps = 13 ∧
    (net_remove_op exEnv 12 exDangling).2.net.numIns = 44 ∧
    (net_remove_op exEnv 12 exDangling).2.net.numParams = 0 ∧
    (net_remove_op exEnv 12 exDangling).2.net.numOuts = 22 ∧
    ((net_remove_op exEnv 12 exDangling).2.net.outs 0).target = 46 := by
  decide!

/-- C4: the two copies of a connection disagree after `net_remove_op`.  In
`exParam` the removal has left the input node 44, now above `numIns = 44`, with
its old owner label 12.  Index 44 is parameter 0, a valid target; `net_connect 20
44` sets the target of output 20 (operator 12, local output 0) to 44 but compares
that stale label with the owner of the output and leaves the cache entry at -1. -/
theorem net_connect_after_remove_skips_cache :
    exParam.net.numOps = 13 ∧ exParam.net.numIns = 44 ∧ exParam.net.numParams = 1 ∧
    (exParam.net.outs 20).opIdx = 12 ∧ (exParam.net.outs 20).opOutIdx = 0 ∧
    (exParam.net.ins 44).opIdx = 12 ∧
    ((net_connect 20 44 exParam).net.outs 20).target = 44 ∧
    ((net_connect 20 44 exParam).net.ops 12).out 0 = -1 := by
  decide!

/-- C5: a cache entry holds an input of its own operator after `net_remove_op`.
In `exFeedback` the first output of the Split (operator 13) targets the input 45
of the Split and the cache entry is -1.  Removing operator 12 re-connects that
output to 43 while input 43 still carries the label of the removed operator, so
the cache entry is written: afterwards the Split is operator 12, its input is
input 43, and its cache entry 0 holds 43. -/
theorem net_remove_op_self_feedback :
    (exFeedback.net.outs 21).opIdx = 13 ∧ (exFeedback.net.ins 45).opIdx = 13 ∧
    (exFeedback.net.ops 13).out 0 = -1 ∧
    (net_remove_op exEnv 12 exFeedback).1 = 0 ∧
    ((net_remove_op exEnv 12 exFeedback).2.net.outs 20).opIdx = 12 ∧
    ((net_remove_op exEnv 12 exFeedback).2.net.outs 20).opOutIdx = 0 ∧
    ((net_remove_op exEnv 12 exFeedback).2.net.ins 43).opIdx = 12 ∧
    ((net_remove_op exEnv 12 exFeedback).2.net.ops 12).out 0 = 43 := by
  decide!

/-! ### Serialisation: `net_unpickle` after `net_pickle` -/

theorem Chain.upd_of_not_mem {pool : Int → OpCons} {h : Option Int} {l : List Int}
    (hc : Chain pool h l) (i : Int) (v : OpCons) (hi : i ∉ l) : Chain (upd pool i v) h l := by
  induction hc with
  | nil => exact Chain.nil
  | cons h l _ ih =>
    have h1 : h ≠ i := fun e => hi (by rw [e]; exact List.mem_cons_self _ _)
    have h2 : i ∉ l := fun e => hi (List.mem_cons_of_mem _ e)
    refine Chain.cons h l ?_
    have : (upd pool i v h).tail = (pool h).tail := by
      unfold upd; rw [if_neg h1]
    rw [this]
    exact ih h2

theorem Chain.cons_inv {pool : Int → OpCons} {o : Option Int} {h : Int} {l : List Int}
    (hc : Chain pool o (h :: l)) : o = some h ∧ Chain pool (pool h).tail l := by
  generalize e : h :: l = l2 at hc
  cases hc with
  | nil => cases e
  | cons h2 l3 ht =>
    injection e with e1 e2
    subst e1 e2
    exact ⟨rfl, ht⟩

theorem Chain.nil_inv {pool : Int → OpCons} {o : Option Int}
    (hc : Chain pool o []) : o = none := by
  generalize e : ([] : List Int) = l2 at hc
  cases hc with
  | nil => rfl
  | cons h2 l3 ht => cases e

theorem allocOp_cons (size max : Int) (p : OpPool) (h : Int) (l : List Int)
    (hp : PoolOK size max p (h :: l)) (hr : 0 ≤ h ∧ h < max) :
    (allocOp p).1 = some (p.data + h * size) ∧ (allocOp p).2.data = p.data ∧
    PoolOK size max (allocOp p).2 l := by
  obtain ⟨hh, ht⟩ := hp.chain.cons_inv
  unfold allocOp
  rw [hh]
  dsimp only
  exact ⟨by rw [hp.heads h hr.1 hr.2], rfl, ⟨ht, hp.heads⟩⟩

theorem allocOp_nil (size max : Int) (p : OpPool) (hp : PoolOK size max p []) :
    allocOp p = (none, p) := by
  have hh := hp.chain.nil_inv
  unfold allocOp
  rw [hh]

theorem freeOpIn_accept (size max : Int) (p : OpPool) (i : Int) (l : List Int)
    (hs : 0 < size) (hp : PoolOK size max p l) (hi0 : 0 ≤ i) (hi1 : i < max) (hil : i ∉ l) :
    (freeOpIn size max (p.data + i * size) p).1 = 0 ∧
    (freeOpIn size max (p.data + i * size) p).2.data = p.data ∧
    PoolOK size max (freeOpIn size max (p.data + i * size) p).2 (i :: l) := by
  unfold freeOpIn
  have e1 : p.data + i * size - p.data = i * size := by ring
  have e2 : (i * size).tmod size = 0 := Int.mul_tmod_left _ _
  have e3 : (i * size).tdiv size = i := Int.mul_tdiv_cancel _ (by omega)
  dsimp only
  rw [e1, if_neg (by rw [e2]; exact fun h => h rfl), e3, if_neg (by omega)]
  refine ⟨rfl, rfl, ⟨?_, ?_⟩⟩
  · refine Chain.cons i l ?_
    have : (upd p.pool i { head := (p.pool i).head, tail := p.head } i).tail = p.head := by
      unfold upd; rw [if_pos rfl]
    rw [this]
    exact hp.chain.upd_of_not_mem i _ hil
  · intro j hj0 hj1
    show (upd p.pool i _ j).head = _
    unfold upd
    split_ifs with hji
    · rw [hji]; exact hp.heads i hi0 hi1
    · exact hp.heads j hj0 hj1

theorem freeOpIn_reject (size max : Int) (p : OpPool) (x : Int)
    (hx : ∀ j, 0 ≤ j → j < max → x ≠ p.data + j * size) :
    freeOpIn size max x p = (-1, p) := by
  unfold freeOpIn
  dsimp only
  split_ifs with h1 h2
  · rfl
  · rfl
  · exfalso
    have h3 : (x - p.data).tmod size = 0 := by
      by_contra hc; exact h1 hc
    have h4 := Int.tmod_add_tdiv (x - p.data) size
    rw [h3] at h4
    refine hx ((x - p.data).tdiv size) (by omega) (by omega) ?_
    have : (x - p.data).tdiv size * size = x - p.data := by rw [mul_comm]; omega
    omega

theorem Inv.of_core {E : Env} {B : Bases} {w w2 : World} {g : List (Int × Int)}
    {ls lb : List Int} (h : Inv E B w g ls lb) (hs : w2.core = w.core)
    (ht : ∀ j, 0 ≤ j → j < E.NET_OUTS_MAX → -32768 ≤ w2.target j ∧ w2.target j < 32768) :
    Inv E B w2 g ls lb := by
  simp only [World.core, Prod.mk.injEq] at hs
  obtain ⟨h1, h2, h3, h4, h5, h6⟩ := hs
  constructor
  · rw [h1]; exact h.numOps
  · rw [h6]; exact h.ops
  · exact h.valid
  · rw [h2]; exact h.numIns
  · rw [h3]; exact h.numOuts
  · exact h.capOps
  · rw [h2]; exact h.capIns
  · rw [h3]; exact h.capOuts
  · rw [h4]; exact h.numParams0
  · rw [h4]; exact h.numParams1
  · rw [h5]; exact h.pools
  · exact ht

theorem Inv.of_shape {E : Env} {B : Bases} {w w2 : World} {g : List (Int × Int)}
    {ls lb : List Int} (h : Inv E B w g ls lb) (hs : w2.shape = w.shape)
    (ht : ∀ j, 0 ≤ j → j < E.NET_OUTS_MAX → -32768 ≤ w2.target j ∧ w2.target j < 32768) :
    Inv E B w2 g ls lb :=
  h.of_core (by unfold World.core; rw [hs]) ht

theorem OpsMatch.append {E : Env} {B : Bases} {fx : Int → Int × Int × Nat × Int × Int × List Int} :
    ∀ (l1 l2 : List (Int × Int)) (lo : Int),
      OpsMatch E B fx (l1 ++ l2) lo ↔
        (OpsMatch E B fx l1 lo ∧ OpsMatch E B fx l2 (lo + l1.length))
  | [], l2, lo => by simp [OpsMatch]
  | e :: t, l2, lo => by
    have ih := @OpsMatch.append E B fx t l2 (lo + 1)
    have e1 : lo + (((e :: t).length : Nat) : Int) = lo + 1 + (t.length : Int) := by
      simp only [List.length_cons, Nat.cast_add, Nat.cast_one]; ring
    show (_ ∧ OpsMatch E B fx (t ++ l2) (lo + 1)) ↔
      ((_ ∧ OpsMatch E B fx t (lo + 1)) ∧ OpsMatch E B fx l2 (lo + (((e :: t).length : Nat) : Int)))
    rw [e1, ih]
    tauto

theorem OpsMatch.congr4 {E : Env} {B : Bases}
    {fx fy : Int → Int × Int × Nat × Int × Int × List Int} :
    ∀ (l : List (Int × Int)) (lo d : Int),
      (∀ j, lo ≤ j → j < lo + l.length →
        (fy (j + d)).1 = (fx j).1 ∧ (fy (j + d)).2.1 = (fx j).2.1 ∧
        (fy (j + d)).2.2.2.1 = (fx j).2.2.2.1 ∧ (fy (j + d)).2.2.2.2.1 = (fx j).2.2.2.2.1) →
      OpsMatch E B fx l lo → OpsMatch E B fy l (lo + d)
  | [], _, _, _, _ => trivial
  | e :: t, lo, d, hxy, h => by
    obtain ⟨h1, h2, h3, h4⟩ :=
      hxy lo (le_refl _) (by simp only [List.length_cons, Nat.cast_add, Nat.cast_one]; omega)
    refine ⟨by rw [h1, h2, h3, h4]; exact h.1, ?_⟩
    have := @OpsMatch.congr4 E B fx fy t (lo + 1) d
      (fun j hj0 hj1 => hxy j (by omega)
        (by simp only [List.length_cons, Nat.cast_add, Nat.cast_one]; omega)) h.2
    have e2 : lo + d + 1 = lo + 1 + d := by ring
    rw [e2]
    exact this

theorem OpsMatch.congr {E : Env} {B : Bases}
    {fx fy : Int → Int × Int × Nat × Int × Int × List Int}
    (l : List (Int × Int)) (lo d : Int)
    (hxy : ∀ j, lo ≤ j → j < lo + l.length → fy (j + d) = fx j)
    (h : OpsMatch E B fx l lo) : OpsMatch E B fy l (lo + d) :=
  OpsMatch.congr4 l lo d (fun j hj0 hj1 => by rw [hxy j hj0 hj1]; exact ⟨rfl, rfl, rfl, rfl⟩) h

theorem smallIdx_append (E : Env) (l1 l2 : List (Int × Int)) :
    smallIdx E (l1 ++ l2) = smallIdx E l1 ++ smallIdx E l2 := by
  unfold smallIdx; rw [List.filter_append, List.map_append]

theorem bigIdx_append (E : Env) (l1 l2 : List (Int × Int)) :
    bigIdx E (l1 ++ l2) = bigIdx E l1 ++ bigIdx E l2 := by
  unfold bigIdx; rw [List.filter_append, List.map_append]

theorem smallIdx_cons_small (E : Env) (e : Int × Int) (l : List (Int × Int))
    (h : (E.op_registry e.1).size ≤ SMALL_OP_SIZE) :
    smallIdx E (e :: l) = e.2 :: smallIdx E l := by
  unfold smallIdx
  have : isSmall E e = true := by unfold isSmall; exact decide_eq_true h
  rw [List.filter_cons_of_pos this, List.map_cons]

theorem smallIdx_cons_big (E : Env) (e : Int × Int) (l : List (Int × Int))
    (h : ¬ (E.op_registry e.1).size ≤ SMALL_OP_SIZE) :
    smallIdx E (e :: l) = smallIdx E l := by
  unfold smallIdx
  have : ¬ isSmall E e = true := by unfold isSmall; simpa using h
  rw [List.filter_cons_of_neg this]

theorem bigIdx_cons_small (E : Env) (e : Int × Int) (l : List (Int × Int))
    (h : (E.op_registry e.1).size ≤ SMALL_OP_SIZE) :
    bigIdx E (e :: l) = bigIdx E l := by
  unfold bigIdx
  have : isSmall E e = true := by unfold isSmall; exact decide_eq_true h
  rw [List.filter_cons]
  simp only [this, Bool.not_true, Bool.false_eq_true, if_false]

theorem bigIdx_cons_big (E : Env) (e : Int × Int) (l : List (Int × Int))
    (h : ¬ (E.op_registry e.1).size ≤ SMALL_OP_SIZE) :
    bigIdx E (e :: l) = e.2 :: bigIdx E l := by
  unfold bigIdx
  have : isSmall E e = false := by unfold isSmall; exact decide_eq_false h
  rw [List.filter_cons]
  simp only [this, Bool.not_false, if_true, List.map_cons]

theorem smallIdx_nil (E : Env) : smallIdx E [] = [] := rfl

theorem bigIdx_nil (E : Env) : bigIdx E [] = [] := rfl

/-- Allocation for a class of the small pool. -/
theorem PoolsInv.alloc_small {E : Env} {B : Bases} {ps : Pools} {g : List (Int × Int)}
    {h : Int} {t lb : List Int} (hp : PoolsInv E B ps g (h :: t) lb) (id : Int)
    (hs : (E.op_registry id).size ≤ SMALL_OP_SIZE) :
    (net_alloc_op (E.op_registry id).size ps).1 = some (opAddr E B (id, h)) ∧
    PoolsInv E B (net_alloc_op (E.op_registry id).size ps).2 (g ++ [(id, h)]) t lb := by
  have hr : 0 ≤ h ∧ h < MAX_SMALL_OPS :=
    hp.smallRange h (List.mem_append_right _ (List.mem_cons_self _ _))
  obtain ⟨e1, e2, e3⟩ := allocOp_cons SMALL_OP_SIZE MAX_SMALL_OPS ps.small h t hp.small hr
  have es : smallIdx E (g ++ [(id, h)]) ++ t = smallIdx E g ++ h :: t := by
    rw [smallIdx_append, smallIdx_cons_small E (id, h) [] hs, smallIdx_nil, List.append_assoc]
    rfl
  have eb : bigIdx E (g ++ [(id, h)]) = bigIdx E g := by
    rw [bigIdx_append, bigIdx_cons_small E (id, h) [] hs, bigIdx_nil, List.append_nil]
  unfold net_alloc_op allocSmallOp
  rw [if_pos hs]
  dsimp only
  refine ⟨?_, ?_⟩
  · rw [e1, hp.dataS]; unfold opAddr; rw [if_pos hs]
  · exact
      { dataS := e2.trans hp.dataS, dataM := hp.dataM, dataB := hp.dataB, small := e3,
        big := hp.big, smallNodup := by rw [es]; exact hp.smallNodup,
        smallRange := by rw [es]; exact hp.smallRange,
        smallLen := by rw [es]; exact hp.smallLen,
        bigNodup := by rw [eb]; exact hp.bigNodup,
        bigRange := by rw [eb]; exact hp.bigRange,
        bigLen := by rw [eb]; exact hp.bigLen, disj := hp.disj }

/-- Allocation for a class of the big pool. -/
theorem PoolsInv.alloc_big {E : Env} {B : Bases} {ps : Pools} {g : List (Int × Int)}
    {h : Int} {ls t : List Int} (hp : PoolsInv E B ps g ls (h :: t)) (id : Int)
    (hs : ¬ (E.op_registry id).size ≤ SMALL_OP_SIZE)
    (hb : (E.op_registry id).size ≤ BIG_OP_SIZE) :
    (net_alloc_op (E.op_registry id).size ps).1 = some (opAddr E B (id, h)) ∧
    PoolsInv E B (net_alloc_op (E.op_registry id).size ps).2 (g ++ [(id, h)]) ls t := by
  have hr : 0 ≤ h ∧ h < MAX_BIG_OPS :=
    hp.bigRange h (List.mem_append_right _ (List.mem_cons_self _ _))
  obtain ⟨e1, e2, e3⟩ := allocOp_cons BIG_OP_SIZE MAX_BIG_OPS ps.big h t hp.big hr
  have es : bigIdx E (g ++ [(id, h)]) ++ t = bigIdx E g ++ h :: t := by
    rw [bigIdx_append, bigIdx_cons_big E (id, h) [] hs, bigIdx_nil, List.append_assoc]
    rfl
  have eb : smallIdx E (g ++ [(id, h)]) = smallIdx E g := by
    rw [smallIdx_append, smallIdx_cons_big E (id, h) [] hs, smallIdx_nil, List.append_nil]
  unfold net_alloc_op allocBigOp
  rw [if_neg hs, if_pos hb]
  dsimp only
  refine ⟨?_, ?_⟩
  · rw [e1, hp.dataB]; unfold opAddr; rw [if_neg hs]
  · exact
      { dataS := hp.dataS, dataM := hp.dataM, dataB := e2.trans hp.dataB, small := hp.small,
        big := e3, smallNodup := by rw [eb]; exact hp.smallNodup,
        smallRange := by rw [eb]; exact hp.smallRange,
        smallLen := by rw [eb]; exact hp.smallLen,
        bigNodup := by rw [es]; exact hp.bigNodup,
        bigRange := by rw [es]; exact hp.bigRange,
        bigLen := by rw [es]; exact hp.bigLen, disj := hp.disj }

/-- Allocation fails without a change when the free list of the class is empty
or the class is too large for the big pool. -/
theorem PoolsInv.alloc_none {E : Env} {B : Bases} {ps : Pools} {g : List (Int × Int)}
    {ls lb : List Int} (hp : PoolsInv E B ps g ls lb) (id : Int)
    (h : ((E.op_registry id).size ≤ SMALL_OP_SIZE ∧ ls = []) ∨
         (¬ (E.op_registry id).size ≤ SMALL_OP_SIZE ∧
            ((E.op_registry id).size ≤ BIG_OP_SIZE → lb = []))) :
    net_alloc_op (E.op_registry id).size ps = (none, ps) := by
  unfold net_alloc_op allocSmallOp allocBigOp
  rcases h with ⟨hs, hl⟩ | ⟨hs, hl⟩
  · rw [if_pos hs]
    have := hp.small
    rw [hl] at this
    rw [allocOp_nil _ _ _ this]
  · rw [if_neg hs]
    split_ifs with hb
    · have := hp.big
      rw [hl hb] at this
      rw [allocOp_nil _ _ _ this]
    · rfl

theorem perm_release (A Bq ls : List Int) (x : Int) :
    ((A ++ Bq) ++ x :: ls).Perm ((A ++ x :: Bq) ++ ls) := by
  have h1 : ((A ++ Bq) ++ x :: ls).Perm (x :: ((A ++ Bq) ++ ls)) := List.perm_middle
  have h2 : (A ++ x :: (Bq ++ ls)).Perm (x :: (A ++ (Bq ++ ls))) := List.perm_middle
  have e1 : (A ++ x :: Bq) ++ ls = A ++ x :: (Bq ++ ls) := by simp
  have e2 : (A ++ Bq) ++ ls = A ++ (Bq ++ ls) := by simp
  rw [e1]
  rw [e2] at h1
  exact h1.trans h2.symm

/-- Releasing the block of an operator of the small pool. -/
theorem PoolsInv.free_small {E : Env} {B : Bases} {ps : Pools} {g1 g2 : List (Int × Int)}
    {e : Int × Int} {ls lb : List Int} (hp : PoolsInv E B ps (g1 ++ e :: g2) ls lb)
    (hs : (E.op_registry e.1).size ≤ SMALL_OP_SIZE) :
    PoolsInv E B (freeOp (opAddr E B e) ps).2 (g1 ++ g2) (e.2 :: ls) lb := by
  have eS : smallIdx E (g1 ++ e :: g2) = smallIdx E g1 ++ e.2 :: smallIdx E g2 := by
    rw [smallIdx_append, smallIdx_cons_small E e g2 hs]
  have eB : bigIdx E (g1 ++ e :: g2) = bigIdx E g1 ++ bigIdx E g2 := by
    rw [bigIdx_append, bigIdx_cons_small E e g2 hs]
  have hN := hp.smallNodup
  have hR := hp.smallRange
  have hL := hp.smallLen
  rw [eS] at hN hR hL
  have hmem : e.2 ∈ smallIdx E g1 ++ e.2 :: smallIdx E g2 :=
    List.mem_append_right _ (List.mem_cons_self _ _)
  have hr := hR e.2 (List.mem_append_left _ hmem)
  have hnl : e.2 ∉ ls := fun hc => (List.nodup_append.1 hN).2.2 hmem hc
  have hadr : opAddr E B e = ps.small.data + e.2 * SMALL_OP_SIZE := by
    unfold opAddr; rw [if_pos hs, hp.dataS]
  obtain ⟨f1, f2, f3⟩ := freeOpIn_accept SMALL_OP_SIZE MAX_SMALL_OPS ps.small e.2 ls
    (by decide) hp.small hr.1 hr.2 hnl
  have hP := perm_release (smallIdx E g1) (smallIdx E g2) ls e.2
  have hfree : (freeOp (opAddr E B e) ps).2 =
      { ps with small := (freeOpIn SMALL_OP_SIZE MAX_SMALL_OPS (opAddr E B e) ps.small).2 } := by
    unfold freeOp freeSmallOp
    dsimp only
    rw [hadr, f1, if_pos (by decide)]
  rw [hfree, hadr]
  exact
    { dataS := f2.trans hp.dataS, dataM := hp.dataM, dataB := hp.dataB, small := f3,
      big := hp.big,
      smallNodup := by rw [smallIdx_append]; exact hP.nodup_iff.2 hN,
      smallRange := by
        rw [smallIdx_append]
        intro i hi
        exact hR i (hP.mem_iff.1 hi)
      smallLen := by rw [smallIdx_append, hP.length_eq]; exact hL,
      bigNodup := by rw [bigIdx_append, ← eB]; exact hp.bigNodup,
      bigRange := by rw [bigIdx_append, ← eB]; exact hp.bigRange,
      bigLen := by rw [bigIdx_append, ← eB]; exact hp.bigLen, disj := hp.disj }

/-- Releasing the block of an operator of the big pool: the small and the
medium pool turn the address down, the big pool takes it. -/
theorem PoolsInv.free_big {E : Env} {B : Bases} {ps : Pools} {g1 g2 : List (Int × Int)}
    {e : Int × Int} {ls lb : List Int} (hp : PoolsInv E B ps (g1 ++ e :: g2) ls lb)
    (hs : ¬ (E.op_registry e.1).size ≤ SMALL_OP_SIZE) :
    PoolsInv E B (freeOp (opAddr E B e) ps).2 (g1 ++ g2) ls (e.2 :: lb) := by
  have eS : bigIdx E (g1 ++ e :: g2) = bigIdx E g1 ++ e.2 :: bigIdx E g2 := by
    rw [bigIdx_append, bigIdx_cons_big E e g2 hs]
  have eB : smallIdx E (g1 ++ e :: g2) = smallIdx E g1 ++ smallIdx E g2 := by
    rw [smallIdx_append, smallIdx_cons_big E e g2 hs]
  have hN := hp.bigNodup
  have hR := hp.bigRange
  have hL := hp.bigLen
  rw [eS] at hN hR hL
  have hmem : e.2 ∈ bigIdx E g1 ++ e.2 :: bigIdx E g2 :=
    List.mem_append_right _ (List.mem_cons_self _ _)
  have hr := hR e.2 (List.mem_append_left _ hmem)
  have hnl : e.2 ∉ lb := fun hc => (List.nodup_append.1 hN).2.2 hmem hc
  have hadr : opAddr E B e = ps.big.data + e.2 * BIG_OP_SIZE := by
    unfold opAddr; rw [if_neg hs, hp.dataB]
  obtain ⟨f1, f2, f3⟩ := freeOpIn_accept BIG_OP_SIZE MAX_BIG_OPS ps.big e.2 lb
    (by decide) hp.big hr.1 hr.2 hnl
  have hP := perm_release (bigIdx E g1) (bigIdx E g2) lb e.2
  have hd := hp.disj
  have hrs : freeOpIn SMALL_OP_SIZE MAX_SMALL_OPS (opAddr E B e) ps.small = (-1, ps.small) := by
    apply freeOpIn_reject
    intro j hj0 hj1
    rw [hadr, hp.dataB, hp.dataS]
    have hac := hd.ac
    simp only [SMALL_OP_SIZE, MAX_SMALL_OPS, BIG_OP_SIZE, MAX_BIG_OPS] at hac hr hj1 ⊢
    omega
  have hrm : freeOpIn MEDIUM_OP_SIZE MAX_MEDIUM_OPS (opAddr E B e) ps.medium = (-1, ps.medium) := by
    apply freeOpIn_reject
    intro j hj0 hj1
    rw [hadr, hp.dataB, hp.dataM]
    have hbc := hd.bc
    simp only [MEDIUM_OP_SIZE, MAX_MEDIUM_OPS, BIG_OP_SIZE, MAX_BIG_OPS] at hbc hr hj1 ⊢
    omega
  have hfree : (freeOp (opAddr E B e) ps).2 =
      { ps with big := (freeOpIn BIG_OP_SIZE MAX_BIG_OPS (opAddr E B e) ps.big).2 } := by
    unfold freeOp freeSmallOp freeMediumOp freeBigOp
    dsimp only
    rw [hrs]
    dsimp only
    rw [if_neg (by decide), hrm]
    dsimp only
    rw [if_neg (by decide), hadr, f1, if_pos (by decide)]
  rw [hfree, hadr]
  exact
    { dataS := hp.dataS, dataM := hp.dataM, dataB := f2.trans hp.dataB, small := hp.small,
      big := f3,
      smallNodup := by rw [smallIdx_append, ← eB]; exact hp.smallNodup,
      smallRange := by rw [smallIdx_append, ← eB]; exact hp.smallRange,
      smallLen := by rw [smallIdx_append, ← eB]; exact hp.smallLen,
      bigNodup := by rw [bigIdx_append]; exact hP.nodup_iff.2 hN,
      bigRange := by
        rw [bigIdx_append]
        intro i hi
        exact hR i (hP.mem_iff.1 hi)
      bigLen := by rw [bigIdx_append, hP.length_eq]; exact hL, disj := hp.disj }

/-- Releasing the block of any operator of `g`. -/
theorem PoolsInv.free {E : Env} {B : Bases} {ps : Pools} {g1 g2 : List (Int × Int)}
    {e : Int × Int} {ls lb : List Int} (hp : PoolsInv E B ps (g1 ++ e :: g2) ls lb) :
    ∃ ls2 lb2, PoolsInv E B (freeOp (opAddr E B e) ps).2 (g1 ++ g2) ls2 lb2 ∧
      ls2.length + lb2.length = ls.length + lb.length + 1 := by
  by_cases hs : (E.op_registry e.1).size ≤ SMALL_OP_SIZE
  · exact ⟨_, _, hp.free_small hs, by simp only [List.length_cons]; omega⟩
  · exact ⟨_, _, hp.free_big hs, by simp only [List.length_cons]; omega⟩

theorem s16_range (x : Int) : -32768 ≤ s16 x ∧ s16 x < 32768 := by
  unfold s16; omega

/-- What a successful `net_add_op` does to the bookkeeping. -/
theorem net_add_op_summary (E : Env) (opId : Int) (w : World) (addr : Int)
    (hid0 : 0 ≤ opId) (hid1 : opId < E.numOpClasses)
    (hcap : w.net.numOps < E.NET_OPS_MAX)
    (hmem : (net_alloc_op (E.op_registry opId).size w.pools).1 = some addr)
    (hn0 : 0 ≤ (E.op_registry opId).numInputs) (hn1 : (E.op_registry opId).numInputs < 256)
    (hm0 : 0 ≤ (E.op_registry opId).numOutputs) (hm1 : (E.op_registry opId).numOutputs < 256)
    (hfitI : (E.op_registry opId).numInputs ≤ E.NET_INS_MAX - w.net.numIns)
    (hfitO : (E.op_registry opId).numOutputs ≤ E.NET_OUTS_MAX - w.net.numOuts)
    (hlimO : E.NET_OPS_MAX ≤ 32767) (hlimI : E.NET_INS_MAX < 65536)
    (hlimU : E.NET_OUTS_MAX < 65536)
    (h0 : 0 ≤ w.net.numOps) (h1 : 0 ≤ w.net.numIns) (h2 : 0 ≤ w.net.numOuts) :
    (net_add_op E opId w).1 = w.net.numOps ∧
    (net_add_op E opId w).2.shape.numOps = w.net.numOps + 1 ∧
    (net_add_op E opId w).2.shape.numIns = w.net.numIns + (E.op_registry opId).numInputs ∧
    (net_add_op E opId w).2.shape.numOuts = w.net.numOuts + (E.op_registry opId).numOutputs ∧
    (net_add_op E opId w).2.shape.numParams = w.net.numParams ∧
    (net_add_op E opId w).2.shape.params = w.net.params ∧
    (net_add_op E opId w).2.shape.pools = (net_alloc_op (E.op_registry opId).size w.pools).2 ∧
    (∀ j, (net_add_op E opId w).2.shape.opFixed j =
      if j = w.net.numOps then ((op_init E addr opId).addr, (op_init E addr opId).type,
        (op_init E addr opId).flags, (op_init E addr opId).numInputs,
        (op_init E addr opId).numOutputs, (op_init E addr opId).data)
      else w.shape.opFixed j) ∧
    (∀ j, (-32768 ≤ w.target j ∧ w.target j < 32768) →
      (-32768 ≤ (net_add_op E opId w).2.target j ∧ (net_add_op E opId w).2.target j < 32768)) := by
  have hnodes := net_add_op_nodes_eq (op_init E addr opId) (E.op_registry opId).numInputs
    (E.op_registry opId).numOutputs
    { w with pools := (net_alloc_op (E.op_registry opId).size w.pools).2 }
    hn0 hm0 h1 h2 (by dsimp only; omega) (by dsimp only; omega)
  have hsucc := net_add_op_success E opId w addr hid0 hid1 hcap hmem hn0 hn1 hm0 hm1 hfitI hfitO
    hlimO hlimI hlimU h0 h1 h2
  obtain ⟨W3, hW3⟩ : ∃ W3, W3 = net_add_op_nodes (op_init E addr opId)
    (E.op_registry opId).numInputs (E.op_registry opId).numOutputs
    { w with pools := (net_alloc_op (E.op_registry opId).size w.pools).2 } := ⟨_, rfl⟩
  obtain ⟨W4, hW4⟩ : ∃ W4, W4 = net_add_op_adjust E (E.op_registry opId).numInputs w.net.numIns
    w.net.numOuts W3 := ⟨_, rfl⟩
  have hsh : W4.shape = W3.shape := by rw [hW4]; exact net_add_op_adjust_shape _ _ _ _ _
  have htg : ∀ j, W4.target j =
      if 0 < W3.net.numOps ∧ 0 ≤ j ∧ j < w.net.numOuts ∧ W3.target j ≥ w.net.numIns then
        s16 (W3.target j + (E.op_registry opId).numInputs)
      else W3.target j := by
    intro j; rw [hW4]; exact net_add_op_adjust_target _ _ _ _ _ _
  rw [← hW3] at hsucc hnodes
  rw [← hW4] at hsucc
  rw [hsucc]
  dsimp only
  have e3 : ∀ j, W3.target j =
      if w.net.numOuts ≤ j ∧ j < w.net.numOuts + (E.op_registry opId).numOutputs then -1
      else w.target j := by
    intro j
    unfold World.target
    rw [hnodes]
    dsimp only
    split_ifs <;> rfl
  refine ⟨rfl, rfl, ?_, ?_, ?_, ?_, ?_, ?_, ?_⟩
  · show W4.shape.numIns = _
    rw [hsh, hnodes]; rfl
  · show W4.shape.numOuts = _
    rw [hsh, hnodes]; rfl
  · show W4.shape.numParams = _
    rw [hsh, hnodes]; rfl
  · show W4.shape.params = _
    rw [hsh, hnodes]; rfl
  · show W4.shape.pools = _
    rw [hsh, hnodes]; rfl
  · intro j
    show W4.shape.opFixed j = _
    rw [hsh, hnodes]
    simp only [World.shape, upd]
    split_ifs <;> rfl
  · intro j hj
    show -32768 ≤ W4.target j ∧ W4.target j < 32768
    rw [htg]
    split_ifs
    · exact s16_range _
    · rw [e3]
      split_ifs
      · decide
      · exact hj

theorem insSum_append (E : Env) (l1 l2 : List (Int × Int)) :
    insSum E (l1 ++ l2) = insSum E l1 + insSum E l2 := by
  unfold insSum; rw [List.map_append, List.sum_append]

theorem outsSum_append (E : Env) (l1 l2 : List (Int × Int)) :
    outsSum E (l1 ++ l2) = outsSum E l1 + outsSum E l2 := by
  unfold outsSum; rw [List.map_append, List.sum_append]

theorem insSum_cons (E : Env) (e : Int × Int) (l : List (Int × Int)) :
    insSum E (e :: l) = (E.op_registry e.1).numInputs + insSum E l := by
  unfold insSum; rw [List.map_cons, List.sum_cons]

theorem outsSum_cons (E : Env) (e : Int × Int) (l : List (Int × Int)) :
    outsSum E (e :: l) = (E.op_registry e.1).numOutputs + outsSum E l := by
  unfold outsSum; rw [List.map_cons, List.sum_cons]

theorem insSum_nil (E : Env) : insSum E [] = 0 := rfl

theorem outsSum_nil (E : Env) : outsSum E [] = 0 := rfl

theorem insSum_nonneg {E : Env} (hE : EnvOK E) :
    ∀ g : List (Int × Int), (∀ e ∈ g, 0 ≤ e.1 ∧ e.1 < E.numOpClasses) → 0 ≤ insSum E g
  | [], _ => le_refl _
  | e :: t, h => by
    rw [insSum_cons]
    have h1 := h e (List.mem_cons_self _ _)
    have h2 := (hE.ins e.1 h1.1 h1.2).1
    have h3 := insSum_nonneg hE t (fun x hx => h x (List.mem_cons_of_mem _ hx))
    omega

theorem outsSum_nonneg {E : Env} (hE : EnvOK E) :
    ∀ g : List (Int × Int), (∀ e ∈ g, 0 ≤ e.1 ∧ e.1 < E.numOpClasses) → 0 ≤ outsSum E g
  | [], _ => le_refl _
  | e :: t, h => by
    rw [outsSum_cons]
    have h1 := h e (List.mem_cons_self _ _)
    have h2 := (hE.outs e.1 h1.1 h1.2).1
    have h3 := outsSum_nonneg hE t (fun x hx => h x (List.mem_cons_of_mem _ hx))
    omega

theorem Inv.valid2 {E : Env} {B : Bases} {w : World} {g : List (Int × Int)} {ls lb : List Int}
    (h : Inv E B w g ls lb) : ∀ e ∈ g, 0 ≤ e.1 ∧ e.1 < E.numOpClasses :=
  fun e he => ⟨(h.valid e he).1, (h.valid e he).2.1⟩

/-- A successful `net_add_op` keeps the bookkeeping invariant, with the record
of the new operator appended. -/
theorem Inv.add_op_ok {E : Env} {B : Bases} {w : World} {g : List (Int × Int)}
    {ls lb : List Int} (hE : EnvOK E) (hI : Inv E B w g ls lb) (id idx : Int)
    (ls2 lb2 : List Int) (hid0 : 0 ≤ id) (hid1 : id < E.numOpClasses)
    (hcap : (g.length : Int) < E.NET_OPS_MAX)
    (hfitI : insSum E g + (E.op_registry id).numInputs ≤ E.NET_INS_MAX)
    (hfitO : outsSum E g + (E.op_registry id).numOutputs ≤ E.NET_OUTS_MAX)
    (hmem : ((E.op_registry id).size ≤ SMALL_OP_SIZE ∧ ls = idx :: ls2 ∧ lb2 = lb) ∨
            (¬ (E.op_registry id).size ≤ SMALL_OP_SIZE ∧ (E.op_registry id).size ≤ BIG_OP_SIZE ∧
              lb = idx :: lb2 ∧ ls2 = ls)) :
    (net_add_op E id w).1 = g.length ∧
    Inv E B (net_add_op E id w).2 (g ++ [(id, idx)]) ls2 lb2 ∧
    ((net_add_op E id w).2.net.ops g.length).type = id ∧
    ((net_add_op E id w).2.net.ops g.length).data = (E.op_registry id).data ∧
    (∀ j, j ≠ (g.length : Int) → (net_add_op E id w).2.shape.opFixed j = w.shape.opFixed j) ∧
    (net_add_op E id w).2.net.params = w.net.params ∧
    (net_add_op E id w).2.net.numParams = w.net.numParams := by
  have hnP : w.net.numOps = g.length := hI.numOps
  have hnI : w.net.numIns = insSum E g := hI.numIns
  have hnO : w.net.numOuts = outsSum E g := hI.numOuts
  have hpool : PoolsInv E B w.pools g ls lb := hI.pools
  have hal : (net_alloc_op (E.op_registry id).size w.pools).1 = some (opAddr E B (id, idx)) ∧
      PoolsInv E B (net_alloc_op (E.op_registry id).size w.pools).2 (g ++ [(id, idx)]) ls2 lb2 := by
    rcases hmem with ⟨hs, h1, h2⟩ | ⟨hs, hb, h1, h2⟩
    · subst h1 h2
      exact hpool.alloc_small id hs
    · subst h1 h2
      exact hpool.alloc_big id hs hb
  have hbig : (E.op_registry id).size ≤ BIG_OP_SIZE := by
    rcases hmem with ⟨hs, -, -⟩ | ⟨-, hb, -, -⟩
    · simp only [SMALL_OP_SIZE, BIG_OP_SIZE] at hs ⊢; omega
    · exact hb
  have hn := hE.ins id hid0 hid1
  have hm := hE.outs id hid0 hid1
  have hI0 := insSum_nonneg hE g hI.valid2
  have hO0 := outsSum_nonneg hE g hI.valid2
  obtain ⟨s1, s2, s3, s4, s5, s6, s7, s8, s9⟩ :=
    net_add_op_summary E id w (opAddr E B (id, idx)) hid0 hid1 (by omega) hal.1 hn.1 hn.2
      hm.1 hm.2 (by omega) (by omega) hE.opsMax hE.insMax hE.outsMax (by omega) (by omega)
      (by omega)
  have hfx : ∀ j, j ≠ (g.length : Int) →
      (net_add_op E id w).2.shape.opFixed j = w.shape.opFixed j := by
    intro j hj
    rw [s8, if_neg (by omega)]
  have hnew := s8 (g.length : Int)
  rw [if_pos (by omega)] at hnew
  refine ⟨by omega, ?_, ?_, ?_, hfx, s6, s5⟩
  · constructor
    · rw [s2, List.length_append]; simp; omega
    · rw [OpsMatch.append]
      refine ⟨?_, ?_, trivial⟩
      · have := @OpsMatch.congr E B w.shape.opFixed
          (net_add_op E id w).2.shape.opFixed g 0 0
          (fun j hj0 hj1 => by rw [add_zero]; exact hfx j (by omega)) hI.ops
        simpa using this
      · rw [zero_add, hnew]
        exact ⟨rfl, rfl, rfl, rfl⟩
    · intro e he
      rcases List.mem_append.1 he with h | h
      · exact hI.valid e h
      · rw [List.mem_singleton] at h
        rw [h]
        exact ⟨hid0, hid1, hbig⟩
    · rw [s3, insSum_append, insSum_cons, insSum_nil]; dsimp only; omega
    · rw [s4, outsSum_append, outsSum_cons, outsSum_nil]; dsimp only; omega
    · rw [List.length_append]; simp; omega
    · rw [s3]; omega
    · rw [s4]; omega
    · rw [s5]; exact hI.numParams0
    · rw [s5]; exact hI.numParams1
    · rw [s7]; exact hal.2
    · intro j hj0 hj1
      exact s9 j (hI.targets j hj0 hj1)
  · have := congrArg (fun t => t.2.1) hnew
    exact this
  · have := congrArg (fun t => t.2.2.2.2.2) hnew
    exact this

theorem net_add_op_rejects_id (E : Env) (id : Int) (w : World)
    (h : id < 0 ∨ id ≥ E.numOpClasses) : net_add_op E id w = (-1, w) := by
  unfold net_add_op
  simp only [h, if_true]

theorem net_add_op_rejects_cap (E : Env) (id : Int) (w : World)
    (h : w.net.numOps ≥ E.NET_OPS_MAX) : (net_add_op E id w).2 = w := by
  unfold net_add_op
  dsimp only
  split_ifs <;> rfl

theorem net_add_op_no_mem (E : Env) (id : Int) (w : World) (ps : Pools)
    (hal : net_alloc_op (E.op_registry id).size w.pools = (none, ps)) :
    (net_add_op E id w).2 = w ∨ (net_add_op E id w).2 = { w with pools := ps } := by
  unfold net_add_op
  dsimp only
  split_ifs
  · exact Or.inl rfl
  · exact Or.inl rfl
  · exact Or.inl rfl
  · right
    simp only [hal]

theorem net_add_op_no_room (E : Env) (id : Int) (w : World) (addr : Int)
    (hid0 : 0 ≤ id) (hid1 : id < E.numOpClasses) (hcap : w.net.numOps < E.NET_OPS_MAX)
    (hal : (net_alloc_op (E.op_registry id).size w.pools).1 = some addr)
    (hn0 : 0 ≤ (E.op_registry id).numInputs) (hn1 : (E.op_registry id).numInputs < 256)
    (hm0 : 0 ≤ (E.op_registry id).numOutputs) (hm1 : (E.op_registry id).numOutputs < 256)
    (hfit : (E.op_registry id).numInputs > E.NET_INS_MAX - w.net.numIns ∨
      (E.op_registry id).numOutputs > E.NET_OUTS_MAX - w.net.numOuts) :
    (net_add_op E id w).2 =
      { w with pools := (freeOp addr (net_alloc_op (E.op_registry id).size w.pools).2).2 } := by
  have hun : u16 (E.op_registry id).numInputs = (E.op_registry id).numInputs :=
    u16_of_range hn0 (by omega)
  have hum : u16 (E.op_registry id).numOutputs = (E.op_registry id).numOutputs :=
    u16_of_range hm0 (by omega)
  have hc0 : ¬ (id < 0) := by omega
  have hc2 : ¬ (w.net.numOps ≥ E.NET_OPS_MAX) := by omega
  have hc3 : ¬ (id ≥ E.numOpClasses) := by omega
  unfold net_add_op
  simp only [hc0, hc2, hc3, or_self, if_false, hal, op_init_numInputs, op_init_numOutputs,
    hun, hum]
  split_ifs with h1 h2
  · rfl
  · rfl
  · exfalso; omega

theorem Inv.with_pools {E : Env} {B : Bases} {w : World} {g : List (Int × Int)}
    {ls lb ls2 lb2 : List Int} (h : Inv E B w g ls lb) (ps : Pools)
    (hp : PoolsInv E B ps g ls2 lb2) : Inv E B { w with pools := ps } g ls2 lb2 :=
  { numOps := h.numOps, ops := h.ops, valid := h.valid, numIns := h.numIns, numOuts := h.numOuts,
    capOps := h.capOps, capIns := h.capIns, capOuts := h.capOuts, numParams0 := h.numParams0,
    numParams1 := h.numParams1, pools := hp, targets := h.targets }

/-- Every call of `net_add_op`, successful or not, keeps the bookkeeping
invariant. -/
theorem Inv.add_op_any {E : Env} {B : Bases} {w : World} {g : List (Int × Int)}
    {ls lb : List Int} (hE : EnvOK E) (hI : Inv E B w g ls lb) (id : Int) :
    ∃ g2 ls2 lb2, Inv E B (net_add_op E id w).2 g2 ls2 lb2 := by
  have hnP : w.net.numOps = g.length := hI.numOps
  have hnI : w.net.numIns = insSum E g := hI.numIns
  have hnO : w.net.numOuts = outsSum E g := hI.numOuts
  have hpool : PoolsInv E B w.pools g ls lb := hI.pools
  by_cases hid : id < 0 ∨ id ≥ E.numOpClasses
  · rw [net_add_op_rejects_id E id w hid]
    exact ⟨g, ls, lb, hI⟩
  by_cases hcap : w.net.numOps ≥ E.NET_OPS_MAX
  · rw [net_add_op_rejects_cap E id w hcap]
    exact ⟨g, ls, lb, hI⟩
  have hid0 : 0 ≤ id := by omega
  have hid1 : id < E.numOpClasses := by omega
  have hn := hE.ins id hid0 hid1
  have hm := hE.outs id hid0 hid1
  have hnone : net_alloc_op (E.op_registry id).size w.pools = (none, w.pools) →
      ∃ g2 ls2 lb2, Inv E B (net_add_op E id w).2 g2 ls2 lb2 := by
    intro hal
    rcases net_add_op_no_mem E id w w.pools hal with h | h
    · rw [h]; exact ⟨g, ls, lb, hI⟩
    · rw [h]; exact ⟨g, ls, lb, hI⟩
  by_cases hfit : (E.op_registry id).numInputs > E.NET_INS_MAX - w.net.numIns ∨
      (E.op_registry id).numOutputs > E.NET_OUTS_MAX - w.net.numOuts
  · -- the operator does not fit: the block is released again
    by_cases hs : (E.op_registry id).size ≤ SMALL_OP_SIZE
    · cases hls : ls with
      | nil => exact hnone (hpool.alloc_none id (Or.inl ⟨hs, hls⟩))
      | cons idx t =>
        rw [hls] at hpool
        obtain ⟨a1, a2⟩ := hpool.alloc_small id hs
        rw [net_add_op_no_room E id w _ hid0 hid1 (by omega) a1 hn.1 hn.2 hm.1 hm.2 hfit]
        have a3 := @PoolsInv.free_small E B _ g [] (id, idx) _ _ a2 hs
        rw [List.append_nil] at a3
        exact ⟨g, _, _, hI.with_pools _ a3⟩
    · by_cases hb : (E.op_registry id).size ≤ BIG_OP_SIZE
      · cases hlb : lb with
        | nil => exact hnone (hpool.alloc_none id (Or.inr ⟨hs, fun _ => hlb⟩))
        | cons idx t =>
          rw [hlb] at hpool
          obtain ⟨a1, a2⟩ := hpool.alloc_big id hs hb
          rw [net_add_op_no_room E id w _ hid0 hid1 (by omega) a1 hn.1 hn.2 hm.1 hm.2 hfit]
          have a3 := @PoolsInv.free_big E B _ g [] (id, idx) _ _ a2 hs
          rw [List.append_nil] at a3
          exact ⟨g, _, _, hI.with_pools _ a3⟩
      · exact hnone (hpool.alloc_none id (Or.inr ⟨hs, fun h => absurd h hb⟩))
  · by_cases hs : (E.op_registry id).size ≤ SMALL_OP_SIZE
    · cases hls : ls with
      | nil => exact hnone (hpool.alloc_none id (Or.inl ⟨hs, hls⟩))
      | cons idx t =>
        exact ⟨_, _, _, (hI.add_op_ok hE id idx t lb hid0 hid1 (by omega) (by omega) (by omega)
          (Or.inl ⟨hs, hls, rfl⟩)).2.1⟩
    · by_cases hb : (E.op_registry id).size ≤ BIG_OP_SIZE
      · cases hlb : lb with
        | nil => exact hnone (hpool.alloc_none id (Or.inr ⟨hs, fun _ => hlb⟩))
        | cons idx t =>
          exact ⟨_, _, _, (hI.add_op_ok hE id idx ls t hid0 hid1 (by omega) (by omega) (by omega)
            (Or.inr ⟨hs, hb, hlb, rfl⟩)).2.1⟩
      · exact hnone (hpool.alloc_none id (Or.inr ⟨hs, fun h => absurd h hb⟩))

/-- The two outcomes of `net_remove_op`: the call is turned down and nothing
changes, or the index is in range and the four stages run. -/
theorem net_remove_op_cases (E : Env) (k : Int) (w : World) :
    net_remove_op E k w = (1, w) ∨
    ((0 ≤ k ∧ k < w.net.numOps) ∧ ∃ f gg : Int,
      net_remove_op E k w =
        (0, net_remove_op_presets E f gg (w.net.ops k).numInputs (w.net.ops k).numOutputs
              (net_remove_op_reindex_all
                (net_remove_op_shuffle k f (w.net.ops k).numInputs (w.net.ops k).numOutputs
                  (net_remove_op_targets f (w.net.ops k).numInputs
                    { w with pools := (freeOp (w.net.ops k).addr w.pools).2 }))))) := by
  unfold net_remove_op
  dsimp only
  split_ifs with h1 h2
  · exact Or.inl rfl
  · exact Or.inl rfl
  · exact Or.inr ⟨by omega, _, _, rfl⟩

theorem list_split_at {α : Type} : ∀ (g : List α) (k : Nat), k < g.length →
    ∃ g1 e g2, g = g1 ++ e :: g2 ∧ g1.length = k
  | [], k, h => by simp at h
  | e :: t, 0, _ => ⟨[], e, t, rfl, rfl⟩
  | e :: t, k + 1, h => by
    obtain ⟨g1, x, g2, h1, h2⟩ := list_split_at t k (by simpa using h)
    exact ⟨e :: g1, x, g2, by rw [h1]; rfl, by simp [h2]⟩

/-- The stages of `net_remove_op` keep the bookkeeping invariant, with the
record of the removed operator dropped; `f` and `gg` may be any indices. -/
theorem Inv.remove_stages {E : Env} {B : Bases} {w : World} {g1 g2 : List (Int × Int)}
    {e : Int × Int} {ls lb : List Int} (hE : EnvOK E) (hI : Inv E B w (g1 ++ e :: g2) ls lb)
    (f gg : Int) :
    ∃ ls2 lb2, Inv E B
      (net_remove_op_presets E f gg (w.net.ops g1.length).numInputs
        (w.net.ops g1.length).numOutputs
        (net_remove_op_reindex_all
          (net_remove_op_shuffle g1.length f (w.net.ops g1.length).numInputs
            (w.net.ops g1.length).numOutputs
            (net_remove_op_targets f (w.net.ops g1.length).numInputs
              { w with pools := (freeOp (w.net.ops g1.length).addr w.pools).2 }))))
      (g1 ++ g2) ls2 lb2 := by
  have hnP : w.net.numOps = ((g1 ++ e :: g2).length : Nat) := hI.numOps
  have hnI : w.net.numIns = insSum E (g1 ++ e :: g2) := hI.numIns
  have hnO : w.net.numOuts = outsSum E (g1 ++ e :: g2) := hI.numOuts
  have hlen : ((g1 ++ e :: g2).length : Int) = g1.length + 1 + g2.length := by
    simp only [List.length_append, List.length_cons]; push_cast; ring
  have hlen2 : ((g1 ++ g2).length : Int) = g1.length + g2.length := by
    simp only [List.length_append]; push_cast; ring
  have hcapO : ((g1 ++ e :: g2).length : Int) ≤ E.NET_OPS_MAX := hI.capOps
  have hcapI : w.net.numIns ≤ E.NET_INS_MAX := hI.capIns
  have hcapU : w.net.numOuts ≤ E.NET_OUTS_MAX := hI.capOuts
  have hops := (@OpsMatch.append E B w.shape.opFixed g1 (e :: g2) 0).1 hI.ops
  obtain ⟨hm1, ⟨hea, het, hen, hem⟩, hm2⟩ := hops
  rw [zero_add] at hea het hen hem hm2
  have hea2 : (w.net.ops g1.length).addr = opAddr E B e := hea
  have hen2 : (w.net.ops g1.length).numInputs = (E.op_registry e.1).numInputs := hen
  have hem2 : (w.net.ops g1.length).numOutputs = (E.op_registry e.1).numOutputs := hem
  have hve := hI.valid e (List.mem_append_right _ (List.mem_cons_self _ _))
  have hv1 : ∀ x ∈ g1, 0 ≤ x.1 ∧ x.1 < E.numOpClasses :=
    fun x hx => hI.valid2 x (List.mem_append_left _ hx)
  have hv2 : ∀ x ∈ g2, 0 ≤ x.1 ∧ x.1 < E.numOpClasses :=
    fun x hx => hI.valid2 x (List.mem_append_right _ (List.mem_cons_of_mem _ hx))
  have hn := hE.ins e.1 hve.1 hve.2.1
  have hm := hE.outs e.1 hve.1 hve.2.1
  have hi1 := insSum_nonneg hE g1 hv1
  have hi2 := insSum_nonneg hE g2 hv2
  have ho1 := outsSum_nonneg hE g1 hv1
  have ho2 := outsSum_nonneg hE g2 hv2
  rw [insSum_append, insSum_cons] at hnI
  rw [outsSum_append, outsSum_cons] at hnO
  rw [hea2, hen2, hem2]
  generalize hnd : (E.op_registry e.1).numInputs = n at *
  generalize hmd : (E.op_registry e.1).numOutputs = m at *
  have hEo := hE.opsMax
  have hEi := hE.insMax
  have hEu := hE.outsMax
  -- the pools
  obtain ⟨ls2, lb2, hpf, -⟩ := PoolsInv.free (show PoolsInv E B w.pools (g1 ++ e :: g2) ls lb from hI.pools)
  refine ⟨ls2, lb2, ?_⟩
  -- stage 1
  obtain ⟨W1, hW1⟩ : ∃ W1, W1 = net_remove_op_targets f n
    { w with pools := (freeOp (opAddr E B e) w.pools).2 } := ⟨_, rfl⟩
  have hs1 : W1.shape = ({ w with pools := (freeOp (opAddr E B e) w.pools).2 } : World).shape := by
    rw [hW1]; exact net_remove_op_targets_shape _ _ _
  have ht1 : ∀ j, W1.target j = if 0 ≤ j ∧ j < w.net.numOuts then
      (if w.target j ≥ f ∧ w.target j < f + n then -1
         else if w.target j ≥ f + n then s16 (w.target j - n) else w.target j)
      else w.target j := by
    intro j; rw [hW1]; exact net_remove_op_targets_target _ _ _ _
  have hr1 : ∀ j, 0 ≤ j → j < E.NET_OUTS_MAX → -32768 ≤ W1.target j ∧ W1.target j < 32768 := by
    intro j hj0 hj1
    rw [ht1]
    have := hI.targets j hj0 hj1
    have := s16_range (w.target j - n)
    split_ifs <;> omega
  have hnP1 : W1.net.numOps = w.net.numOps := congrArg Shape.numOps hs1
  have hnI1 : W1.net.numIns = w.net.numIns := congrArg Shape.numIns hs1
  have hnO1 : W1.net.numOuts = w.net.numOuts := congrArg Shape.numOuts hs1
  have hF1 := congrFun (congrArg Shape.opFixed hs1)
  -- stage 2
  obtain ⟨W2, hW2⟩ : ∃ W2, W2 = net_remove_op_shuffle g1.length f n m W1 := ⟨_, rfl⟩
  have hW2c := hW2
  rw [net_remove_op_shuffle_eq g1.length f n m W1 hn.1 hm.1 (by omega) (by omega) (by omega)
    (by omega) (by omega) (by omega)] at hW2c
  -- stage 3
  obtain ⟨W3, hW3⟩ : ∃ W3, W3 = net_remove_op_reindex_all W2 := ⟨_, rfl⟩
  have hs3 : W3.shape = W2.shape := by rw [hW3]; exact net_remove_op_reindex_all_shape _
  have ht3 : ∀ j, W3.target j =
      if 0 ≤ j ∧ j < W2.net.numOuts ∧ W2.target j ≥ 0 then s16 (W2.target j) else W2.target j := by
    intro j; rw [hW3]; exact net_remove_op_reindex_all_target _ _
  -- stage 4
  obtain ⟨W4, hW4⟩ : ∃ W4, W4 = net_remove_op_presets E f gg n m W3 := ⟨_, rfl⟩
  have hfr := net_remove_op_presets_frame E f gg n m W3 W3.presets
  rw [← hW4] at hfr
  have hnet4 : W4.net = W3.net := by
    have h := congrArg World.net hfr
    exact h
  have hpl4 : W4.pools = W3.pools := by
    have h := congrArg World.pools hfr
    exact h
  have hs4 : W4.shape = W3.shape := by
    simp only [World.shape, hnet4, hpl4]
  have ht4 : ∀ j, W4.target j = W3.target j := by
    intro j
    unfold World.target; rw [hnet4]
  rw [← hW1, ← hW2, ← hW3, ← hW4]
  -- the shape after the reshuffling
  have hnP2 : W2.shape.numOps = w.net.numOps - 1 := by rw [hW2c]; exact congrArg (· - 1) hnP1
  have hnI2 : W2.shape.numIns = w.net.numIns - n := by rw [hW2c]; exact congrArg (· - n) hnI1
  have hnO2 : W2.shape.numOuts = w.net.numOuts - m := by rw [hW2c]; exact congrArg (· - m) hnO1
  have hnQ2 : W2.shape.numParams = w.net.numParams := by
    rw [hW2c]; exact congrArg Shape.numParams hs1
  have hpl2 : W2.shape.pools = (freeOp (opAddr E B e) w.pools).2 := by
    rw [hW2c]; exact congrArg Shape.pools hs1
  have hfx2 : ∀ j, W2.shape.opFixed j =
      if (g1.length : Int) ≤ j ∧ j < w.net.numOps - 1 then w.shape.opFixed (j + 1)
      else w.shape.opFixed j := by
    intro j
    rw [hW2c]
    simp only [World.shape]
    rw [hnP1]
    split_ifs
    · exact hF1 (j + 1)
    · exact hF1 j
  have ht2 : ∀ j, 0 ≤ j → j < E.NET_OUTS_MAX → -32768 ≤ W2.target j ∧ W2.target j < 32768 := by
    intro j hj0 hj1
    unfold World.target
    rw [hW2c]
    dsimp only
    split_ifs with hc
    · exact hr1 (j + m) (by omega) (by omega)
    · exact hr1 j hj0 hj1
  rw [← hs3] at hnP2 hnI2 hnO2 hnQ2 hpl2 hfx2
  rw [← hs4] at hnP2 hnI2 hnO2 hnQ2 hpl2 hfx2
  constructor
  · rw [hnP2, hnP]; omega
  · rw [OpsMatch.append]
    refine ⟨?_, ?_⟩
    · have := @OpsMatch.congr E B w.shape.opFixed W4.shape.opFixed
        g1 0 0 (fun j hj0 hj1 => by rw [add_zero, hfx2, if_neg (by omega)]) hm1
      simpa using this
    · have := @OpsMatch.congr E B w.shape.opFixed W4.shape.opFixed
        g2 ((g1.length : Int) + 1) (-1)
        (fun j hj0 hj1 => by
          rw [hfx2, if_pos (by omega)]
          congr 1; omega) hm2
      have e2 : (g1.length : Int) + 1 + -1 = 0 + (g1.length : Int) := by ring
      rw [e2] at this
      exact this
  · intro x hx
    rcases List.mem_append.1 hx with h | h
    · exact hI.valid x (List.mem_append_left _ h)
    · exact hI.valid x (List.mem_append_right _ (List.mem_cons_of_mem _ h))
  · rw [hnI2, insSum_append]; omega
  · rw [hnO2, outsSum_append]; omega
  · omega
  · rw [hnI2]; omega
  · rw [hnO2]; omega
  · rw [hnQ2]; exact hI.numParams0
  · rw [hnQ2]; exact hI.numParams1
  · rw [hpl2]; exact hpf
  · intro j hj0 hj1
    rw [ht4, ht3]
    have := s16_range (W2.target j)
    split_ifs
    · exact this
    · exact ht2 j hj0 hj1

/-- Every call of `net_remove_op` keeps the bookkeeping invariant. -/
theorem Inv.remove_op_any {E : Env} {B : Bases} {w : World} {g : List (Int × Int)}
    {ls lb : List Int} (hE : EnvOK E) (hI : Inv E B w g ls lb) (k : Int) :
    ∃ g2 ls2 lb2, Inv E B (net_remove_op E k w).2 g2 ls2 lb2 := by
  rcases net_remove_op_cases E k w with h | ⟨⟨hk0, hk1⟩, f, gg, h⟩
  · rw [h]; exact ⟨g, ls, lb, hI⟩
  · have hnP : w.net.numOps = g.length := hI.numOps
    obtain ⟨g1, e, g2, hg, hl⟩ := list_split_at g k.toNat (by omega)
    have hk : k = (g1.length : Int) := by omega
    rw [h]
    subst hg
    rw [hk]
    obtain ⟨ls2, lb2, h2⟩ := hI.remove_stages hE f gg
    exact ⟨_, _, _, h2⟩

theorem Inv.connect {E : Env} {B : Bases} {w : World} {g : List (Int × Int)}
    {ls lb : List Int} (hI : Inv E B w g ls lb) (o i : Int) :
    Inv E B (net_connect o i w) g ls lb := by
  refine hI.of_shape (net_connect_shape o i w) ?_
  intro j hj0 hj1
  rw [net_connect_target]
  split_ifs
  · exact s16_range _
  · exact hI.targets j hj0 hj1

theorem Inv.add_param {E : Env} {B : Bases} {w : World} {g : List (Int × Int)}
    {ls lb : List Int} (hE : EnvOK E) (hI : Inv E B w g ls lb) (idx : Int) (pdesc : ParamDesc)
    (h : w.net.numParams < E.NET_PARAMS_MAX) :
    Inv E B (net_add_param E idx pdesc w) g ls lb := by
  have h0 : 0 ≤ w.net.numParams := hI.numParams0
  have hP := hE.paramsMax
  have hnp : (net_add_param E idx pdesc w).shape.numParams = w.net.numParams + 1 := by
    show u16 (w.net.numParams + 1) = _
    exact u16_of_range (by omega) (by omega)
  exact
    { numOps := hI.numOps, ops := hI.ops, valid := hI.valid, numIns := hI.numIns,
      numOuts := hI.numOuts, capOps := hI.capOps, capIns := hI.capIns, capOuts := hI.capOuts,
      numParams0 := by rw [hnp]; omega, numParams1 := by rw [hnp]; omega, pools := hI.pools,
      targets := hI.targets }

/-- The node loops of `net_init` and `net_deinit` touch the nodes only. -/
theorem net_init_nodes_core (E : Env) (w : World) : (net_init_nodes E w).core = w.core := by
  unfold net_init_nodes
  dsimp only
  rw [forUp_proj World.core _ (fun i s => by rfl), forUp_proj World.core _ (fun i s => by rfl)]

theorem net_init_outs_target (w : World) :
    ∀ (n : Nat) (lo : Int), 0 ≤ lo → lo + n ≤ 65536 → ∀ j,
      (forUp lo n (fun i w => net_init_onode (u16 i) w) w).target j =
        if lo ≤ j ∧ j < lo + n then -1 else w.target j := by
  intro n
  induction n with
  | zero =>
    intro lo _ _ j
    have : ¬ (lo ≤ j ∧ j < lo + ((0 : Nat) : Int)) := by simp
    rw [if_neg this]; rfl
  | succ n ih =>
    intro lo h0 h1 j
    rw [forUp_succ_last]
    have hu : u16 (lo + n) = lo + n := u16_of_range (by omega) (by push_cast at h1; omega)
    show (net_init_onode (u16 (lo + (n : Int)))
      (forUp lo n (fun i w => net_init_onode (u16 i) w) w)).target j = _
    rw [hu]
    have hb : ∀ (s : World) (i : Int), (net_init_onode i s).target j =
        if j = i then -1 else s.target j := by
      intro s i
      unfold net_init_onode World.target setOut upd
      dsimp only
      split_ifs <;> rfl
    rw [hb, ih lo h0 (by push_cast at h1 ⊢; omega)]
    push_cast
    split_ifs <;> first | rfl | omega

theorem net_init_nodes_target (E : Env) (hE : EnvOK E) (w : World) (j : Int)
    (hj0 : 0 ≤ j) (hj1 : j < E.NET_OUTS_MAX) : (net_init_nodes E w).target j = -1 := by
  unfold net_init_nodes
  dsimp only
  have h0 := hE.outsMax0
  have h1 := hE.outsMax
  rw [net_init_outs_target _ E.NET_OUTS_MAX.toNat 0 (le_refl _) (by omega)]
  rw [if_pos (by omega)]

theorem cells_mem : ∀ (n : Nat) (lo i : Int), i ∈ cells lo n ↔ (lo ≤ i ∧ i < lo + n)
  | 0, lo, i => by simp [cells]
  | n + 1, lo, i => by
    rw [cells, List.mem_cons, cells_mem n (lo + 1) i]
    push_cast
    omega

theorem cells_nodup : ∀ (n : Nat) (lo : Int), (cells lo n).Nodup
  | 0, _ => List.nodup_nil
  | n + 1, lo => by
    rw [cells, List.nodup_cons]
    refine ⟨?_, cells_nodup n (lo + 1)⟩
    rw [cells_mem]
    omega

theorem cells_length : ∀ (n : Nat) (lo : Int), (cells lo n).length = n
  | 0, _ => rfl
  | n + 1, lo => by rw [cells, List.length_cons, cells_length n (lo + 1)]

theorem initMemPool_loop (size : Int) (p : OpPool) (body : Int → OpPool → OpPool)
    (hb : ∀ i q, body i q = { q with pool := upd q.pool i ⟨q.data + i * size, some (i + 1)⟩ }) :
    ∀ (n : Nat) (lo : Int),
      (forUp lo n body p).data = p.data ∧ (forUp lo n body p).head = p.head ∧
      ∀ j, (forUp lo n body p).pool j =
        if lo ≤ j ∧ j < lo + n then ⟨p.data + j * size, some (j + 1)⟩ else p.pool j := by
  intro n
  induction n with
  | zero =>
    intro lo
    refine ⟨rfl, rfl, fun j => ?_⟩
    have : ¬ (lo ≤ j ∧ j < lo + ((0 : Nat) : Int)) := by simp
    rw [if_neg this]; rfl
  | succ n ih =>
    intro lo
    rw [forUp_succ_last, hb]
    obtain ⟨h1, h2, h3⟩ := ih lo
    refine ⟨h1, h2, fun j => ?_⟩
    dsimp only
    unfold upd
    rw [h1, h3]
    push_cast
    split_ifs with ha hb hc <;> first | rfl | (exfalso; omega) | (rw [ha])

theorem initMemPool_ok (size : Int) (max : Nat) (region : Int) (p : OpPool) (hm : 1 ≤ max) :
    (initMemPool size max region p).data = region ∧
    PoolOK size max (initMemPool size max region p) (cells 0 max) := by
  obtain ⟨h1, h2, h3⟩ := initMemPool_loop size { p with data := region } _ (fun i q => rfl)
    ((max : Int) - 1).toNat 0
  obtain ⟨P, hP⟩ : ∃ P, P = forUp 0 ((max : Int) - 1).toNat
    (fun i q => { q with pool := upd q.pool i ⟨q.data + i * size, some (i + 1)⟩ })
    { p with data := region } := ⟨_, rfl⟩
  rw [← hP] at h1 h2 h3
  have hdef : initMemPool size max region p =
      { data := P.data, pool := upd P.pool ((max : Int) - 1) ⟨P.data + ((max : Int) - 1) * size, none⟩,
        head := some 0 } := by
    rw [hP]; rfl
  have h1b : P.data = region := h1
  have hpool : ∀ j, (initMemPool size max region p).pool j =
      if 0 ≤ j ∧ j < (max : Int) - 1 then ⟨region + j * size, some (j + 1)⟩
      else if j = (max : Int) - 1 then ⟨region + ((max : Int) - 1) * size, none⟩
      else p.pool j := by
    intro j
    rw [hdef]
    dsimp only
    unfold upd
    rw [h3, h1b]
    have e : (0 : Int) + (((max : Int) - 1).toNat : Int) = (max : Int) - 1 := by omega
    rw [e]
    split_ifs <;> first | rfl | (exfalso; omega)
  have hdata : (initMemPool size max region p).data = region := by
    rw [hdef]; exact h1b
  have hhead : (initMemPool size max region p).head = some 0 := rfl
  refine ⟨hdata, ⟨?_, ?_⟩⟩
  · rw [hhead]
    have key : ∀ (n : Nat) (j : Int), 0 ≤ j → j + n = (max : Int) → 1 ≤ n →
        Chain (initMemPool size max region p).pool (some j) (cells j n) := by
      intro n
      induction n with
      | zero => intro j _ _ h; omega
      | succ n ih =>
        intro j hj0 hj1 _
        rw [cells]
        refine Chain.cons j _ ?_
        rw [hpool]
        by_cases hn : n = 0
        · subst hn
          rw [if_neg (by push_cast at hj1; omega), if_pos (by push_cast at hj1; omega)]
          exact Chain.nil
        · rw [if_pos (by push_cast at hj1; omega)]
          exact ih (j + 1) (by omega) (by push_cast at hj1; omega) (by omega)
    exact key max 0 (le_refl _) (by omega) hm
  · intro i hi0 hi1
    rw [hpool, hdata]
    split_ifs with ha hb
    · rfl
    · rw [hb]
    · exfalso; omega

theorem PoolsInv.fresh (E : Env) (a b c : Int) (p q r : OpPool)
    (hd : Bases.Disjoint ⟨a, b, c⟩) :
    PoolsInv E ⟨a, b, c⟩
      { small := initSmallMemPool a p, medium := initMediumMemPool (some b) q,
        big := initBigMemPool c r } [] (cells 0 500) (cells 0 50) := by
  obtain ⟨s1, s2⟩ := initMemPool_ok SMALL_OP_SIZE 500 a p (by decide)
  obtain ⟨m1, -⟩ := initMemPool_ok MEDIUM_OP_SIZE 200 b q (by decide)
  obtain ⟨b1, b2⟩ := initMemPool_ok BIG_OP_SIZE 50 c r (by decide)
  exact
    { dataS := s1, dataM := m1, dataB := b1, small := s2, big := b2,
      smallNodup := cells_nodup _ _,
      smallRange := fun i hi => by
        have h : i ∈ cells 0 500 := hi
        rw [cells_mem] at h
        simp only [MAX_SMALL_OPS]; omega
      smallLen := cells_length _ _,
      bigNodup := cells_nodup _ _,
      bigRange := fun i hi => by
        have h : i ∈ cells 0 50 := hi
        rw [cells_mem] at h
        simp only [MAX_BIG_OPS]; omega
      bigLen := cells_length _ _, disj := hd }

theorem Inv.after_sys_ops {E : Env} {B : Bases} {w : World} {g : List (Int × Int)}
    {ls lb : List Int} (hE : EnvOK E) (hI : Inv E B w g ls lb) :
    ∃ g2 ls2 lb2, Inv E B (add_sys_ops E w) g2 ls2 lb2 := by
  unfold add_sys_ops
  dsimp only
  obtain ⟨_, _, _, h1⟩ := hI.add_op_any hE eOpEnc
  obtain ⟨_, _, _, h2⟩ := h1.add_op_any hE eOpEnc
  obtain ⟨_, _, _, h3⟩ := h2.add_op_any hE eOpEnc
  obtain ⟨_, _, _, h4⟩ := h3.add_op_any hE eOpEnc
  obtain ⟨_, _, _, h5⟩ := h4.add_op_any hE eOpSwitch
  obtain ⟨_, _, _, h6⟩ := h5.add_op_any hE eOpSwitch
  obtain ⟨_, _, _, h7⟩ := h6.add_op_any hE eOpSwitch
  obtain ⟨_, _, _, h8⟩ := h7.add_op_any hE eOpSwitch
  obtain ⟨_, _, _, h9⟩ := h8.add_op_any hE eOpSwitch
  obtain ⟨_, _, _, h10⟩ := h9.add_op_any hE eOpSwitch
  obtain ⟨_, _, _, h11⟩ := h10.add_op_any hE eOpAdc
  exact h11.add_op_any hE eOpPreset

/-- The state in which the network is empty, the nodes are unassigned and the
pools hold `ls` and `lb` satisfies the bookkeeping invariant. -/
theorem Inv.empty {E : Env} {B : Bases} (hE : EnvOK E) (w : World) (ls lb : List Int)
    (hp : PoolsInv E B w.pools [] ls lb)
    (h1 : w.net.numOps = 0) (h2 : w.net.numIns = 0) (h3 : w.net.numOuts = 0)
    (h4 : w.net.numParams = 0) :
    Inv E B (net_init_nodes E w) [] ls lb := by
  have hc := net_init_nodes_core E w
  simp only [World.core, Prod.mk.injEq] at hc
  obtain ⟨c1, c2, c3, c4, c5, c6⟩ := hc
  have e1 : w.shape.numOps = 0 := h1
  have e2 : w.shape.numIns = 0 := h2
  have e3 : w.shape.numOuts = 0 := h3
  have e4 : w.shape.numParams = 0 := h4
  exact
    { numOps := by rw [c1, e1]; rfl
      ops := trivial
      valid := fun e he => by cases he
      numIns := by rw [c2, e2]; rfl
      numOuts := by rw [c3, e3]; rfl
      capOps := hE.opsMax0
      capIns := by rw [c2, e2]; exact hE.insMax0
      capOuts := by rw [c3, e3]; exact hE.outsMax0
      numParams0 := by rw [c4, e4]
      numParams1 := by rw [c4, e4]; exact hE.paramsMax0
      pools := by rw [c5]; exact hp
      targets := fun j hj0 hj1 => by
        rw [net_init_nodes_target E hE w j hj0 hj1]; decide }

theorem Inv.after_init {E : Env} (hE : EnvOK E) (w0 : World) (a b c : Int) (p q r : OpPool)
    (hp : w0.pools = { small := initSmallMemPool a p, medium := initMediumMemPool (some b) q,
                       big := initBigMemPool c r })
    (hd : Bases.Disjoint ⟨a, b, c⟩) :
    ∃ g ls lb, Inv E ⟨a, b, c⟩ (net_init E w0) g ls lb := by
  unfold net_init
  dsimp only
  have h0 := Inv.empty (B := ⟨a, b, c⟩) hE
    { w0 with net := { w0.net with numOps := 0, numIns := 0, numOuts := 0, numParams := 0 } }
    (cells 0 500) (cells 0 50)
    (by show PoolsInv E _ w0.pools _ _ _; rw [hp]; exact PoolsInv.fresh E a b c p q r hd)
    rfl rfl rfl rfl
  obtain ⟨g, ls, lb, h1⟩ := h0.after_sys_ops hE
  exact ⟨g, ls, lb, h1.of_shape rfl h1.targets⟩

/-- Every reachable state satisfies the bookkeeping invariant. -/
theorem Reachable.inv {E : Env} (hE : EnvOK E) {w : World} (h : Reachable E w) :
    ∃ B g ls lb, Inv E B w g ls lb := by
  induction h with
  | init w0 a b c p q r hp hab hac hbc =>
    obtain ⟨g, ls, lb, h⟩ := Inv.after_init hE w0 a b c p q r hp ⟨hab, hac, hbc⟩
    exact ⟨_, g, ls, lb, h⟩
  | add_op w id _ ih =>
    obtain ⟨B, g, ls, lb, h⟩ := ih
    obtain ⟨g2, ls2, lb2, h2⟩ := h.add_op_any hE id
    exact ⟨B, g2, ls2, lb2, h2⟩
  | connect w o i _ _ _ _ _ ih =>
    obtain ⟨B, g, ls, lb, h⟩ := ih
    exact ⟨B, g, ls, lb, h.connect o i⟩
  | remove_op w k _ _ ih =>
    obtain ⟨B, g, ls, lb, h⟩ := ih
    obtain ⟨g2, ls2, lb2, h2⟩ := h.remove_op_any hE k
    exact ⟨B, g2, ls2, lb2, h2⟩
  | add_param w idx pdesc _ hn ih =>
    obtain ⟨B, g, ls, lb, h⟩ := ih
    exact ⟨B, g, ls, lb, h.add_param hE idx pdesc hn⟩

/-- The release loop of `net_deinit` returns every block to its pool and
touches nothing else. -/
theorem net_deinit_loop {E : Env} {B : Bases} :
    ∀ (t : List (Int × Int)) (lo : Int) (s : World) (ls lb : List Int),
      PoolsInv E B s.pools t ls lb → OpsMatch E B s.shape.opFixed t lo →
      ∃ ls2 lb2, PoolsInv E B (forUp lo t.length net_deinit_op s).pools [] ls2 lb2 ∧
        (forUp lo t.length net_deinit_op s).net = s.net
  | [], _, s, ls, lb, hp, _ => ⟨ls, lb, hp, rfl⟩
  | e :: t, lo, s, ls, lb, hp, hm => by
    rw [List.length_cons, forUp]
    obtain ⟨⟨ha, -, -, -⟩, hm2⟩ := hm
    have ha2 : (s.net.ops lo).addr = opAddr E B e := ha
    obtain ⟨ls1, lb1, hp1, -⟩ := @PoolsInv.free E B _ [] t e _ _ hp
    have hb : net_deinit_op lo s = { s with pools := (freeOp (opAddr E B e) s.pools).2 } := by
      unfold net_deinit_op; rw [ha2]
    rw [hb]
    obtain ⟨ls2, lb2, h1, h2⟩ := net_deinit_loop t (lo + 1)
      { s with pools := (freeOp (opAddr E B e) s.pools).2 } ls1 lb1 hp1 hm2
    exact ⟨ls2, lb2, h1, h2⟩

/-- After `net_deinit` the network is empty and every cell of the pools is
free. -/
theorem Inv.deinit {E : Env} {B : Bases} {w : World} {g : List (Int × Int)}
    {ls lb : List Int} (hE : EnvOK E) (hI : Inv E B w g ls lb) :
    ∃ ls2 lb2, Inv E B (net_deinit E w) [] ls2 lb2 ∧ ls2.length = 500 ∧ lb2.length = 50 ∧
      (net_deinit E w).net.params = w.net.params := by
  have hnP : w.net.numOps = g.length := hI.numOps
  obtain ⟨ls2, lb2, h1, h2⟩ := net_deinit_loop g 0 w ls lb hI.pools hI.ops
  have e : w.net.numOps.toNat = g.length := by omega
  unfold net_deinit
  dsimp only
  rw [e]
  obtain ⟨W, hW⟩ : ∃ W, W = forUp 0 g.length net_deinit_op w := ⟨_, rfl⟩
  rw [← hW] at h1 h2 ⊢
  have h3 := Inv.empty (B := B) hE
    { W with net := { W.net with numOps := 0, numIns := 0, numOuts := 0, numParams := 0 } }
    ls2 lb2 h1 rfl rfl rfl rfl
  refine ⟨ls2, lb2, h3, ?_, ?_, ?_⟩
  · have := h1.smallLen
    simpa [smallIdx_nil] using this
  · have := h1.bigLen
    simpa [bigIdx_nil] using this
  · have hc : ∀ v : World, (net_init_nodes E v).net.params = v.net.params := by
      intro v
      unfold net_init_nodes
      dsimp only
      refine (forUp_proj (fun s : World => s.net.params) _ (fun i s => by rfl) _ _ _).trans ?_
      exact forUp_proj (fun s : World => s.net.params) _ (fun i s => by rfl) _ _ _
    rw [hc]
    show W.net.params = _
    rw [h2]

theorem pickle_32_append (v : Int) (dst : List Int) : pickle_32 v dst = dst ++ pickle_32 v [] := by
  unfold pickle_32; rw [List.nil_append]

theorem unpickle_32_pickle_32 (v : Int) (rest : List Int) :
    unpickle_32 (pickle_32 v [] ++ rest) = (rest, u32 v) := by
  unfold unpickle_32 pickle_32 byteAt
  simp only [List.nil_append, List.cons_append, List.drop_succ_cons, List.drop_zero,
    List.getD_cons_zero, List.getD_cons_succ, Prod.mk.injEq, true_and]
  unfold u8 u32
  omega

theorem net_pickle_ops_eq (E : Env) (w : World) :
    ∀ (n : Nat) (lo : Int) (dst : List Int),
      forUp lo n (net_pickle_op E w) dst = dst ++ opsBytes E w n lo
  | 0, _, dst => by rw [forUp, opsBytes, List.append_nil]
  | n + 1, lo, dst => by
    rw [forUp, net_pickle_ops_eq E w n (lo + 1), opsBytes, ← List.append_assoc]
    congr 1
    unfold net_pickle_op opBytes opState
    dsimp only
    rw [pickle_32_append]
    cases (E.op_registry (w.net.ops lo).type).pickle with
    | none => simp
    | some f => simp

theorem net_pickle_ins_eq (w : World) :
    ∀ (n : Nat) (lo : Int) (dst : List Int),
      forUp lo n (net_pickle_in w) dst = dst ++ insBytes w n lo
  | 0, _, dst => by rw [forUp, insBytes, List.append_nil]
  | n + 1, lo, dst => by
    rw [forUp, net_pickle_ins_eq w n (lo + 1), insBytes, ← List.append_assoc]
    rfl

theorem net_pickle_outs_eq (w : World) :
    ∀ (n : Nat) (lo : Int) (dst : List Int),
      forUp lo n (net_pickle_out w) dst = dst ++ outsBytes w n lo
  | 0, _, dst => by rw [forUp, outsBytes, List.append_nil]
  | n + 1, lo, dst => by
    rw [forUp, net_pickle_outs_eq w n (lo + 1), outsBytes, ← List.append_assoc]
    congr 1

theorem net_pickle_params_eq (E : Env) (w : World) :
    ∀ (n : Nat) (lo : Int) (dst : List Int),
      forUp lo n (net_pickle_param E w) dst = dst ++ paramsBytes E w n lo
  | 0, _, dst => by rw [forUp, paramsBytes, List.append_nil]
  | n + 1, lo, dst => by
    rw [forUp, net_pickle_params_eq E w n (lo + 1), paramsBytes, ← List.append_assoc]
    rfl

theorem u32_of_range {x : Int} (h0 : 0 ≤ x) (h1 : x < 4294967296) : u32 x = x := by
  unfold u32; omega

theorem Inv.set_data {E : Env} {B : Bases} {w : World} {g : List (Int × Int)}
    {ls lb : List Int} (hI : Inv E B w g ls lb) (k : Int) (d : List Int) :
    Inv E B (setOp w k { w.net.ops k with data := d }) g ls lb := by
  have hfx : ∀ j, ((setOp w k { w.net.ops k with data := d }).shape.opFixed j).1 =
        (w.shape.opFixed j).1 ∧
      ((setOp w k { w.net.ops k with data := d }).shape.opFixed j).2.1 =
        (w.shape.opFixed j).2.1 ∧
      ((setOp w k { w.net.ops k with data := d }).shape.opFixed j).2.2.2.1 =
        (w.shape.opFixed j).2.2.2.1 ∧
      ((setOp w k { w.net.ops k with data := d }).shape.opFixed j).2.2.2.2.1 =
        (w.shape.opFixed j).2.2.2.2.1 := by
    intro j
    simp only [World.shape, setOp, upd]
    split_ifs with h
    · rw [h]; exact ⟨rfl, rfl, rfl, rfl⟩
    · exact ⟨rfl, rfl, rfl, rfl⟩
  have hops := @OpsMatch.congr4 E B w.shape.opFixed
    (setOp w k { w.net.ops k with data := d }).shape.opFixed g 0 0
    (fun j _ _ => by rw [add_zero]; exact hfx j) hI.ops
  rw [add_zero] at hops
  exact
    { numOps := hI.numOps, ops := hops, valid := hI.valid, numIns := hI.numIns,
      numOuts := hI.numOuts, capOps := hI.capOps, capIns := hI.capIns, capOuts := hI.capOuts,
      numParams0 := hI.numParams0, numParams1 := hI.numParams1, pools := hI.pools,
      targets := hI.targets }

theorem exEnv_ok : EnvOK exEnv :=
  { opsMax0 := by decide, opsMax := by decide, insMax0 := by decide, insMax := by decide,
    outsMax0 := by decide, outsMax := by decide, paramsMax0 := by decide,
    paramsMax := by decide, classes := by decide,
    ins := fun id _ _ => by
      show 0 ≤ (exRegistry id).numInputs ∧ (exRegistry id).numInputs < 256
      unfold exRegistry
      split_ifs <;> decide
    outs := fun id _ _ => by
      show 0 ≤ (exRegistry id).numOutputs ∧ (exRegistry id).numOutputs < 256
      unfold exRegistry
      split_ifs <;> decide }

theorem exInit_reachable : Reachable exEnv exInit :=
  Reachable.init exBlank 1000000 2000000 3000000 exPool exPool exPool rfl (by decide) (by decide)
    (by decide)

theorem allocSeq_cells (size max : Int) :
    ∀ (n : Nat) (lo : Int) (p : OpPool), PoolOK size max p (cells lo n) → 0 ≤ lo →
      lo + n ≤ max →
      (allocSeq n p).1 = (cells lo n).map (fun i => some (p.data + i * size)) ∧
      PoolOK size max (allocSeq n p).2 [] ∧ (allocSeq n p).2.data = p.data
  | 0, _, p, hp, _, _ => ⟨rfl, hp, rfl⟩
  | n + 1, lo, p, hp, h0, h1 => by
    rw [cells] at hp
    obtain ⟨a1, a2, a3⟩ := allocOp_cons size max p lo (cells (lo + 1) n) hp
      ⟨h0, by push_cast at h1; omega⟩
    obtain ⟨b1, b2, b3⟩ := allocSeq_cells size max n (lo + 1) (allocOp p).2 a3 (by omega)
      (by push_cast at h1; omega)
    rw [allocSeq, cells, List.map_cons]
    dsimp only
    rw [a1, b1, a2]
    exact ⟨rfl, b2, b3.trans a2⟩

theorem allocMany_small : ∀ (n : Nat) (ps : Pools),
    allocMany allocSmallOp n ps =
      ((allocSeq n ps.small).1, { ps with small := (allocSeq n ps.small).2 })
  | 0, _ => rfl
  | n + 1, ps => by
    rw [allocMany, allocMany_small n, allocSeq]
    rfl

theorem allocMany_medium : ∀ (n : Nat) (ps : Pools),
    allocMany allocMediumOp n ps =
      ((allocSeq n ps.medium).1, { ps with medium := (allocSeq n ps.medium).2 })
  | 0, _ => rfl
  | n + 1, ps => by
    rw [allocMany, allocMany_medium n, allocSeq]
    rfl

theorem allocMany_big : ∀ (n : Nat) (ps : Pools),
    allocMany allocBigOp n ps =
      ((allocSeq n ps.big).1, { ps with big := (allocSeq n ps.big).2 })
  | 0, _ => rfl
  | n + 1, ps => by
    rw [allocMany, allocMany_big n, allocSeq]
    rfl

theorem blocks_nodup (base size : Int) (hs : 0 < size) (n : Nat) :
    ((cells 0 n).map (fun i => some (base + i * size))).Nodup := by
  refine (cells_nodup n 0).map ?_
  intro i j hij
  have h : base + i * size = base + j * size := Option.some.inj hij
  have h2 : i * size = j * size := by omega
  exact Int.eq_of_mul_eq_mul_right (by omega) h2

/-- What `max` allocations from a freshly initialised pool return, and what the
next allocation does. -/
theorem fresh_pool_allocs (size : Int) (max : Nat) (region : Int) (p : OpPool) (hm : 1 ≤ max) :
    (allocSeq max (initMemPool size max region p)).1 =
      (cells 0 max).map (fun i => some (region + i * size)) ∧
    allocOp (allocSeq max (initMemPool size max region p)).2 =
      (none, (allocSeq max (initMemPool size max region p)).2) := by
  obtain ⟨h1, h2⟩ := initMemPool_ok size max region p hm
  obtain ⟨b1, b2, -⟩ := allocSeq_cells size max max 0 _ h2 (le_refl _) (by omega)
  rw [h1] at b1
  exact ⟨b1, allocOp_nil _ _ _ b2⟩

theorem initSmallMemPool_eq (a : Int) (p : OpPool) :
    initSmallMemPool a p = initMemPool SMALL_OP_SIZE ((500 : Nat) : Int) a p := rfl

theorem initMediumMemPool_eq (b : Int) (q : OpPool) :
    initMediumMemPool (some b) q = initMemPool MEDIUM_OP_SIZE ((200 : Nat) : Int) b q := rfl

theorem initBigMemPool_eq (c : Int) (r : OpPool) :
    initBigMemPool c r = initMemPool BIG_OP_SIZE ((50 : Nat) : Int) c r := rfl

theorem allocSmallOp_none (s m b : OpPool) (h : allocOp s = (none, s)) :
    allocSmallOp { small := s, medium := m, big := b } =
      (none, { small := s, medium := m, big := b }) := by
  unfold allocSmallOp
  dsimp only
  rw [h]

theorem allocMediumOp_none (s m b : OpPool) (h : allocOp m = (none, m)) :
    allocMediumOp { small := s, medium := m, big := b } =
      (none, { small := s, medium := m, big := b }) := by
  unfold allocMediumOp
  dsimp only
  rw [h]

theorem allocBigOp_none (s m b : OpPool) (h : allocOp b = (none, b)) :
    allocBigOp { small := s, medium := m, big := b } =
      (none, { small := s, medium := m, big := b }) := by
  unfold allocBigOp
  dsimp only
  rw [h]

/-- C20: each of the three pools, freshly initialised over its region, hands out
on its first `MAX` allocation calls the `MAX` block addresses `base + i * SIZE`,
`i = 0 .. MAX - 1`, in that order; these are pairwise distinct; and a further
allocation call on the exhausted pool returns `NULL` (`none`) and leaves the
pools as they are. -/
theorem pools_exhaust_cleanly (a b c : Int) (p q r : OpPool) :
    ((allocMany allocSmallOp 500
        { small := initSmallMemPool a p, medium := initMediumMemPool (some b) q,
          big := initBigMemPool c r }).1 =
        (cells 0 500).map (fun i => some (a + i * SMALL_OP_SIZE)) ∧
      ((cells 0 500).map (fun i => some (a + i * SMALL_OP_SIZE))).Nodup ∧
      allocSmallOp (allocMany allocSmallOp 500
        { small := initSmallMemPool a p, medium := initMediumMemPool (some b) q,
          big := initBigMemPool c r }).2 =
        (none, (allocMany allocSmallOp 500
          { small := initSmallMemPool a p, medium := initMediumMemPool (some b) q,
            big := initBigMemPool c r }).2)) ∧
    ((allocMany allocMediumOp 200
        { small := initSmallMemPool a p, medium := initMediumMemPool (some b) q,
          big := initBigMemPool c r }).1 =
        (cells 0 200).map (fun i => some (b + i * MEDIUM_OP_SIZE)) ∧
      ((cells 0 200).map (fun i => some (b + i * MEDIUM_OP_SIZE))).Nodup ∧
      allocMediumOp (allocMany allocMediumOp 200
        { small := initSmallMemPool a p, medium := initMediumMemPool (some b) q,
          big := initBigMemPool c r }).2 =
        (none, (allocMany allocMediumOp 200
          { small := initSmallMemPool a p, medium := initMediumMemPool (some b) q,
            big := initBigMemPool c r }).2)) ∧
    ((allocMany allocBigOp 50
        { small := initSmallMemPool a p, medium := initMediumMemPool (some b) q,
          big := initBigMemPool c r }).1 =
        (cells 0 50).map (fun i => some (c + i * BIG_OP_SIZE)) ∧
      ((cells 0 50).map (fun i => some (c + i * BIG_OP_SIZE))).Nodup ∧
      allocBigOp (allocMany allocBigOp 50
        { small := initSmallMemPool a p, medium := initMediumMemPool (some b) q,
          big := initBigMemPool c r }).2 =
        (none, (allocMany allocBigOp 50
          { small := initSmallMemPool a p, medium := initMediumMemPool (some b) q,
            big := initBigMemPool c r }).2)) := by
  obtain ⟨s1, s2⟩ := fresh_pool_allocs SMALL_OP_SIZE 500 a p (by decide)
  obtain ⟨m1, m2⟩ := fresh_pool_allocs MEDIUM_OP_SIZE 200 b q (by decide)
  obtain ⟨b1, b2⟩ := fresh_pool_allocs BIG_OP_SIZE 50 c r (by decide)
  refine ⟨⟨?_, blocks_nodup a SMALL_OP_SIZE (by decide) 500, ?_⟩,
    ⟨?_, blocks_nodup b MEDIUM_OP_SIZE (by decide) 200, ?_⟩,
    ⟨?_, blocks_nodup c BIG_OP_SIZE (by decide) 50, ?_⟩⟩
  · rw [allocMany_small]
    dsimp only
    rw [initSmallMemPool_eq]
    exact s1
  · rw [allocMany_small]
    dsimp only
    rw [initSmallMemPool_eq]
    exact allocSmallOp_none _ _ _ s2
  · rw [allocMany_medium]
    dsimp only
    rw [initMediumMemPool_eq]
    exact m1
  · rw [allocMany_medium]
    dsimp only
    rw [initMediumMemPool_eq]
    exact allocMediumOp_none _ _ _ m2
  · rw [allocMany_big]
    dsimp only
    rw [initBigMemPool_eq]
    exact b1
  · rw [allocMany_big]
    dsimp only
    rw [initBigMemPool_eq]
    exact allocBigOp_none _ _ _ b2

/-! ### A failing `net_add_op` is atomic -/

/-- Releasing the block that was just allocated puts the pool back as it
was. -/
theorem freeOpIn_allocOp (size max : Int) (p : OpPool) (h : Int) (l : List Int)
    (hs : 0 < size) (hp : PoolOK size max p (h :: l)) (hr : 0 ≤ h ∧ h < max) :
    freeOpIn size max (p.data + h * size) (allocOp p).2 = (0, p) := by
  obtain ⟨hh, -⟩ := hp.chain.cons_inv
  have ha : (allocOp p).2 = { p with head := (p.pool h).tail } := by
    unfold allocOp; rw [hh]
  rw [ha]
  unfold freeOpIn
  have e1 : p.data + h * size - p.data = h * size := by ring
  have e2 : (h * size).tmod size = 0 := Int.mul_tmod_left _ _
  have e3 : (h * size).tdiv size = h := Int.mul_tdiv_cancel _ (by omega)
  dsimp only
  rw [e1, if_neg (by rw [e2]; exact fun h => h rfl), e3, if_neg (by omega)]
  have e4 : upd p.pool h { head := (p.pool h).head, tail := (p.pool h).tail } = p.pool := by
    funext j
    unfold upd
    split_ifs with hj
    · rw [hj]
    · rfl
  rw [e4, ← hh]

/-- An allocation from the small pool followed by `freeOp` of the block. -/
theorem freeOp_allocSmallOp {E : Env} {B : Bases} {ps : Pools} {g : List (Int × Int)}
    {ls lb : List Int} (hp : PoolsInv E B ps g ls lb) (addr : Int)
    (ha : (allocSmallOp ps).1 = some addr) : (freeOp addr (allocSmallOp ps).2).2 = ps := by
  cases ls with
  | nil =>
    have h0 := allocOp_nil _ _ _ hp.small
    unfold allocSmallOp at ha
    rw [h0] at ha
    cases ha
  | cons h l =>
    have hr := hp.smallRange h (List.mem_append_right _ (List.mem_cons_self _ _))
    obtain ⟨a1, -, -⟩ := allocOp_cons _ _ _ h l hp.small hr
    have hf := freeOpIn_allocOp SMALL_OP_SIZE MAX_SMALL_OPS ps.small h l (by decide) hp.small hr
    have had : addr = ps.small.data + h * SMALL_OP_SIZE := by
      unfold allocSmallOp at ha
      rw [a1] at ha
      exact (Option.some.inj ha).symm
    unfold freeOp freeSmallOp allocSmallOp
    dsimp only
    rw [had, hf]
    rw [if_pos (by show (0 : Int) ≠ -1; decide)]

/-- An allocation from the big pool followed by `freeOp` of the block. -/
theorem freeOp_allocBigOp {E : Env} {B : Bases} {ps : Pools} {g : List (Int × Int)}
    {ls lb : List Int} (hp : PoolsInv E B ps g ls lb) (addr : Int)
    (ha : (allocBigOp ps).1 = some addr) : (freeOp addr (allocBigOp ps).2).2 = ps := by
  cases lb with
  | nil =>
    have h0 := allocOp_nil _ _ _ hp.big
    unfold allocBigOp at ha
    rw [h0] at ha
    cases ha
  | cons h l =>
    have hr := hp.bigRange h (List.mem_append_right _ (List.mem_cons_self _ _))
    obtain ⟨a1, -, -⟩ := allocOp_cons _ _ _ h l hp.big hr
    have hf := freeOpIn_allocOp BIG_OP_SIZE MAX_BIG_OPS ps.big h l (by decide) hp.big hr
    have had : addr = ps.big.data + h * BIG_OP_SIZE := by
      unfold allocBigOp at ha
      rw [a1] at ha
      exact (Option.some.inj ha).symm
    have hd := hp.disj
    have hrs : freeOpIn SMALL_OP_SIZE MAX_SMALL_OPS addr ps.small = (-1, ps.small) := by
      apply freeOpIn_reject
      intro j hj0 hj1
      rw [had, hp.dataB, hp.dataS]
      have hac := hd.ac
      simp only [SMALL_OP_SIZE, MAX_SMALL_OPS, BIG_OP_SIZE, MAX_BIG_OPS] at hac hr hj1 ⊢
      omega
    have hrm : freeOpIn MEDIUM_OP_SIZE MAX_MEDIUM_OPS addr ps.medium = (-1, ps.medium) := by
      apply freeOpIn_reject
      intro j hj0 hj1
      rw [had, hp.dataB, hp.dataM]
      have hbc := hd.bc
      simp only [MEDIUM_OP_SIZE, MAX_MEDIUM_OPS, BIG_OP_SIZE, MAX_BIG_OPS] at hbc hr hj1 ⊢
      omega
    unfold freeOp freeSmallOp freeMediumOp freeBigOp allocBigOp
    dsimp only
    rw [hrs]
    dsimp only
    rw [if_neg (by decide), hrm]
    dsimp only
    rw [if_neg (by decide), had, hf, if_pos (by show (0 : Int) ≠ -1; decide)]

/-- The allocation step of `net_add_op` followed by `freeOp` of the block. -/
theorem freeOp_net_alloc_op {E : Env} {B : Bases} {ps : Pools} {g : List (Int × Int)}
    {ls lb : List Int} (hp : PoolsInv E B ps g ls lb) (size addr : Int)
    (ha : (net_alloc_op size ps).1 = some addr) :
    (freeOp addr (net_alloc_op size ps).2).2 = ps := by
  unfold net_alloc_op at ha ⊢
  split_ifs at ha ⊢ with h1 h2
  · exact freeOp_allocSmallOp hp addr ha
  · exact freeOp_allocBigOp hp addr ha

/-- An allocation that yields no block leaves the pools as they are. -/
theorem net_alloc_op_none (size : Int) (ps : Pools) (ha : (net_alloc_op size ps).1 = none) :
    (net_alloc_op size ps).2 = ps := by
  unfold net_alloc_op at ha ⊢
  unfold allocSmallOp allocBigOp allocOp at ha ⊢
  split_ifs at ha ⊢ with h1 h2
  · dsimp only at ha ⊢
    cases hh : ps.small.head with
    | none => rfl
    | some x => rw [hh] at ha; cases ha
  · dsimp only at ha ⊢
    cases hh : ps.big.head with
    | none => rfl
    | some x => rw [hh] at ha; cases ha
  · rfl

/-- A failing `net_add_op` returns -1 and leaves the state as it was. -/
theorem net_add_op_fails (E : Env) (B : Bases) (w : World) (g : List (Int × Int))
    (ls lb : List Int) (id : Int) (hE : EnvOK E) (hP : PoolsInv E B w.pools g ls lb)
    (hfail : id < 0 ∨ id ≥ E.numOpClasses ∨ w.net.numOps ≥ E.NET_OPS_MAX ∨
      ((E.op_registry id).size ≤ SMALL_OP_SIZE ∧ w.pools.small.head = none) ∨
      (SMALL_OP_SIZE < (E.op_registry id).size ∧ (E.op_registry id).size ≤ BIG_OP_SIZE ∧
        w.pools.big.head = none) ∨
      BIG_OP_SIZE < (E.op_registry id).size ∨
      (E.op_registry id).numInputs > E.NET_INS_MAX - w.net.numIns ∨
      (E.op_registry id).numOutputs > E.NET_OUTS_MAX - w.net.numOuts) :
    net_add_op E id w = (-1, w) := by
  by_cases hid : id < 0 ∨ id ≥ E.numOpClasses
  · exact net_add_op_rejects_id E id w hid
  have hid0 : 0 ≤ id := by omega
  have hid1 : id < E.numOpClasses := by omega
  obtain ⟨hn0, hn1⟩ := hE.ins id hid0 hid1
  obtain ⟨hm0, hm1⟩ := hE.outs id hid0 hid1
  have hun : u16 (E.op_registry id).numInputs = (E.op_registry id).numInputs :=
    u16_of_range hn0 (by omega)
  have hum : u16 (E.op_registry id).numOutputs = (E.op_registry id).numOutputs :=
    u16_of_range hm0 (by omega)
  by_cases hcap : w.net.numOps ≥ E.NET_OPS_MAX
  · unfold net_add_op
    dsimp only
    rw [if_neg hid, if_pos hcap]
  have hw : ∀ ps, ps = w.pools → ({ w with pools := ps } : World) = w := by
    intro ps h; rw [h]
  unfold net_add_op
  dsimp only
  rw [if_neg hid, if_neg hcap, if_neg (by omega)]
  cases hal : (net_alloc_op (E.op_registry id).size w.pools).1 with
  | none =>
    dsimp only
    rw [hw _ (net_alloc_op_none _ _ hal)]
  | some addr =>
    dsimp only
    have hfree := freeOp_net_alloc_op hP (E.op_registry id).size addr hal
    have hfit : (E.op_registry id).numInputs > E.NET_INS_MAX - w.net.numIns ∨
        (E.op_registry id).numOutputs > E.NET_OUTS_MAX - w.net.numOuts := by
      rcases hfail with h | h | h | h | h | h | h | h
      · omega
      · omega
      · omega
      · exfalso
        unfold net_alloc_op allocSmallOp allocOp at hal
        rw [if_pos h.1, h.2] at hal
        cases hal
      · exfalso
        unfold net_alloc_op allocBigOp allocOp at hal
        rw [if_neg (by omega), if_pos h.2.1, h.2.2] at hal
        cases hal
      · exfalso
        unfold net_alloc_op at hal
        have hb : (128 : Int) < 1024 * 16 := by decide
        simp only [SMALL_OP_SIZE, BIG_OP_SIZE] at h hal
        rw [if_neg (by omega), if_neg (by omega)] at hal
        cases hal
      · exact Or.inl h
      · exact Or.inr h
    simp only [op_init, hun, hum]
    rcases hfit with h | h
    · rw [if_pos h, hw _ hfree]
    · by_cases h2 : (E.op_registry id).numInputs > E.NET_INS_MAX - w.net.numIns
      · rw [if_pos h2, hw _ hfree]
      · rw [if_neg h2, if_pos h, hw _ hfree]

/-- C17: in the fixed-capacity build a failing `net_add_op` is atomic.  On a
network whose pools are in good order, if the class id is outside
`[0, numOpClasses)`, or `numOps` has reached `NET_OPS_MAX`, or the pool that
serves the size of the class is exhausted, or the size exceeds the largest
block, or the inputs or the outputs of the class do not fit, the call returns
-1 and the whole state is as before: counts, nodes, targets and the pools with
their free lists (a block allocated during the call is back at the head of its
free list). -/
theorem net_add_op_failure_atomic (E : Env) (B : Bases) (w : World) (g : List (Int × Int))
    (ls lb : List Int) (id : Int) (hE : EnvOK E) (hP : PoolsInv E B w.pools g ls lb)
    (hfail : id < 0 ∨ id ≥ E.numOpClasses ∨ w.net.numOps ≥ E.NET_OPS_MAX ∨
      ((E.op_registry id).size ≤ SMALL_OP_SIZE ∧ w.pools.small.head = none) ∨
      (SMALL_OP_SIZE < (E.op_registry id).size ∧ (E.op_registry id).size ≤ BIG_OP_SIZE ∧
        w.pools.big.head = none) ∨
      BIG_OP_SIZE < (E.op_registry id).size ∨
      (E.op_registry id).numInputs > E.NET_INS_MAX - w.net.numIns ∨
      (E.op_registry id).numOutputs > E.NET_OUTS_MAX - w.net.numOuts) :
    net_add_op E id w = (-1, w) :=
  net_add_op_fails E B w g ls lb id hE hP hfail

/-- Witness of C17: on the example memory with 255 input nodes in use, an Add
(two inputs) does not fit. -/
theorem net_add_op_failure_atomic_witness :
    net_add_op exEnv 2 { exBlank with net := { exBlank.net with numIns := 255 } } =
      (-1, { exBlank with net := { exBlank.net with numIns := 255 } }) :=
  net_add_op_failure_atomic exEnv ⟨1000000, 2000000, 3000000⟩
    { exBlank with net := { exBlank.net with numIns := 255 } } [] (cells 0 500) (cells 0 50) 2
    exEnv_ok
    (PoolsInv.fresh exEnv 1000000 2000000 3000000 exPool exPool exPool
      ⟨by decide, by decide, by decide⟩)
    (Or.inr (Or.inr (Or.inr (Or.inr (Or.inr (Or.inr (Or.inl (by decide))))))))

/-! ### Activation -/

theorem deliveries_play_in (P : PlayEnv) (visIn inIdx : Int) :
    deliveries (net_activate_play_in P visIn inIdx) = [] := by
  unfold net_activate_play_in deliveries
  split_ifs <;> rfl

theorem deliveries_append (a b : List Call) :
    deliveries (a ++ b) = deliveries a ++ deliveries b := by
  unfold deliveries
  exact List.filter_append _ _

/-- C19: `net_activate(op, outIdx, val)` delivers `val` according to the routed
index `r = op->out[outIdx]`.  While the network is inactive no call at all is
made.  When it is active: `r < 0` delivers nothing; `0 <= r < numIns` delivers
`val` to input `ins[r].opInIdx` of operator `ins[r].opIdx`;
`numIns <= r < numIns + numParams` delivers `val` to parameter `r - numIns`;
`r >= numIns + numParams` delivers nothing.  A delivery is the one call of
`op_set_in_val` or `set_param_value`; `r` is an `s16` and `numIns` is not
negative. -/
theorem net_activate_delivers (P : PlayEnv) (op : op_t) (outIdx val : Int) (w : World)
    (hr : -32768 ≤ op.out outIdx ∧ op.out outIdx < 32768) (hn : 0 ≤ w.net.numIns) :
    (w.netActive = 0 → net_activate P op outIdx val w = []) ∧
    (w.netActive ≠ 0 →
      deliveries (net_activate P op outIdx val w) =
        if op.out outIdx < 0 then []
        else if op.out outIdx < w.net.numIns then
          [Call.op_set_in_val (w.net.ins (op.out outIdx)).opIdx
            (w.net.ins (op.out outIdx)).opInIdx val]
        else if op.out outIdx < w.net.numIns + w.net.numParams then
          [Call.set_param_value (op.out outIdx - w.net.numIns) val]
        else []) := by
  have hc1 : ∀ c1 : List Call, (∀ c ∈ c1, ∃ a b, c = Call.play_output a b) →
      deliveries c1 = [] := by
    intro c1 h
    unfold deliveries
    rw [List.filter_eq_nil_iff]
    intro c hc
    obtain ⟨a, b, e⟩ := h c hc
    rw [e]
    simp [Call.delivers]
  constructor
  · intro h0
    unfold net_activate
    dsimp only
    rw [if_pos h0]
  · intro h0
    unfold net_activate
    dsimp only
    rw [if_neg h0]
    have hd1 : deliveries
        (if P.playPage then
          if P.opPlay ≠ 0 then []
          else if (if outIdx < P.MAX_PLAY_OUTS then P.playOuts outIdx else 0) ≠ 0 then
            [Call.play_output outIdx val] else []
        else []) = [] := by
      apply hc1
      intro c hc
      split_ifs at hc <;> simp at hc
      all_goals exact ⟨_, _, hc⟩
    by_cases h1 : op.out outIdx < 0
    · rw [if_pos h1, if_pos h1]
      exact hd1
    rw [if_neg h1, if_neg h1]
    by_cases h2 : op.out outIdx < w.net.numIns
    · rw [if_pos h2, if_pos h2, deliveries_append, deliveries_append, hd1, deliveries_play_in]
      rfl
    rw [if_neg h2, if_neg h2]
    have hs : s16 (op.out outIdx - w.net.numIns) = op.out outIdx - w.net.numIns := by
      unfold s16; omega
    rw [hs]
    by_cases h3 : op.out outIdx < w.net.numIns + w.net.numParams
    · rw [if_neg (by omega), if_pos h3, deliveries_append, deliveries_append, hd1,
        deliveries_play_in]
      rfl
    · rw [if_pos (by omega), if_neg h3]
      exact hd1

/-- Witness of C19: in the active example network the Add (operator 1) fires its
output, which is wired to the input of the Split (operator 0). -/
theorem net_activate_delivers_witness :
    deliveries (net_activate exPlay (exWired.net.ops 1) 0 7 { exWired with netActive := 1 }) =
      [Call.op_set_in_val 0 0 7] :=
  ((net_activate_delivers exPlay (exWired.net.ops 1) 0 7 { exWired with netActive := 1 }
    (by decide!) (by decide!)).2 (by decide)).trans (by decide!)

/-! ### Removal and the presets -/

theorem net_remove_op_preset_in_ins (n i j : Int) (s : World) (p j2 : Int) :
    ((net_remove_op_preset_in n i j s).presets p).ins j2 =
      if p = i ∧ j2 = j then (s.presets i).ins (j + n) else (s.presets p).ins j2 := by
  unfold net_remove_op_preset_in setPresetIn
  dsimp only
  by_cases hp : p = i
  · subst hp
    by_cases hj : j2 = j
    · subst hj
      rw [if_pos ⟨rfl, rfl⟩]
      simp only [upd, if_true]
      by_cases hn : j2 + n = j2
      · rw [hn]; simp
      · simp [hn]
    · rw [if_neg (fun h => hj h.2)]
      simp [upd, hj]
  · rw [if_neg (fun h => hp h.1)]
    simp [upd, hp]

theorem net_remove_op_preset_in_outs (n i j : Int) (s : World) (p : Int) :
    ((net_remove_op_preset_in n i j s).presets p).outs = (s.presets p).outs := by
  unfold net_remove_op_preset_in setPresetIn
  dsimp only
  by_cases hp : p = i
  · subst hp
    simp [upd]
  · simp [upd, hp]

theorem net_remove_op_preset_out_outs (m i j : Int) (s : World) (p j2 : Int) :
    ((net_remove_op_preset_out m i j s).presets p).outs j2 =
      if p = i ∧ j2 = j then (s.presets i).outs (j + m) else (s.presets p).outs j2 := by
  unfold net_remove_op_preset_out setPresetOut
  dsimp only
  by_cases hp : p = i
  · subst hp
    by_cases hj : j2 = j
    · subst hj
      rw [if_pos ⟨rfl, rfl⟩]
      simp only [upd, if_true]
      by_cases hn : j2 + m = j2
      · rw [hn]; simp
      · simp [hn]
    · rw [if_neg (fun h => hj h.2)]
      simp [upd, hj]
  · rw [if_neg (fun h => hp h.1)]
    simp [upd, hp]

theorem net_remove_op_preset_out_ins (m i j : Int) (s : World) (p : Int) :
    ((net_remove_op_preset_out m i j s).presets p).ins = (s.presets p).ins := by
  unfold net_remove_op_preset_out setPresetOut
  dsimp only
  by_cases hp : p = i
  · subst hp
    simp [upd]
  · simp [upd, hp]

theorem net_remove_op_preset_tar_outs (f n i j : Int) (s : World) (p j2 : Int) :
    ((net_remove_op_preset_tar f n i j s).presets p).outs j2 =
      if p = i ∧ j2 = j then
        (if ((s.presets i).outs j).enabled ≠ 0 then
          if ((s.presets i).outs j).target ≥ f + n then
            { (s.presets i).outs j with target := s16 (((s.presets i).outs j).target - n) }
          else if ((s.presets i).outs j).target ≥ f then
            { (s.presets i).outs j with enabled := 0 }
          else (s.presets i).outs j
        else (s.presets i).outs j)
      else (s.presets p).outs j2 := by
  unfold net_remove_op_preset_tar setPresetOut
  dsimp only
  by_cases he : ((s.presets i).outs j).enabled ≠ 0
  · rw [if_pos he, if_pos he]
    by_cases h1 : ((s.presets i).outs j).target ≥ f + n
    · rw [if_pos h1, if_pos h1]
      by_cases hp : p = i
      · subst hp
        by_cases hj : j2 = j
        · subst hj; simp [upd]
        · simp [upd, hj]
      · simp [upd, hp]
    · rw [if_neg h1, if_neg h1]
      by_cases h2 : ((s.presets i).outs j).target ≥ f
      · rw [if_pos h2, if_pos h2]
        by_cases hp : p = i
        · subst hp
          by_cases hj : j2 = j
          · subst hj; simp [upd]
          · simp [upd, hj]
        · simp [upd, hp]
      · rw [if_neg h2, if_neg h2]
        by_cases hc : p = i ∧ j2 = j
        · rw [if_pos hc, hc.1, hc.2]
        · rw [if_neg hc]
  · rw [if_neg he, if_neg he]
    by_cases hc : p = i ∧ j2 = j
    · rw [if_pos hc, hc.1, hc.2]
    · rw [if_neg hc]

theorem net_remove_op_preset_tar_ins (f n i j : Int) (s : World) (p : Int) :
    ((net_remove_op_preset_tar f n i j s).presets p).ins = (s.presets p).ins := by
  unfold net_remove_op_preset_tar setPresetOut
  dsimp only
  by_cases he : ((s.presets i).outs j).enabled ≠ 0
  · rw [if_pos he]
    by_cases h1 : ((s.presets i).outs j).target ≥ f + n
    · rw [if_pos h1]
      by_cases hp : p = i
      · subst hp; simp [upd]
      · simp [upd, hp]
    · rw [if_neg h1]
      by_cases h2 : ((s.presets i).outs j).target ≥ f
      · rw [if_pos h2]
        by_cases hp : p = i
        · subst hp; simp [upd]
        · simp [upd, hp]
      · rw [if_neg h2]
  · rw [if_neg he]

/-- The first preset loop of `net_remove_op`, for preset `i`. -/
theorem net_remove_op_preset_in_loop (n i : Int) (hn : 0 ≤ n) (cnt : Nat) (lo : Int) (s : World)
    (p j : Int) :
    ((forUp lo cnt (net_remove_op_preset_in n i) s).presets p).ins j =
      if p = i ∧ lo ≤ j ∧ j < lo + cnt then (s.presets i).ins (j + n)
      else (s.presets p).ins j := by
  by_cases hp : p = i
  · subst hp
    have h := forUp_gather (fun (s : World) j => (s.presets p).ins j) (fun j a => a (j + n))
      (net_remove_op_preset_in n p)
      (fun j a b hab => hab (j + n) (by omega))
      (fun j s j2 => by
        have := net_remove_op_preset_in_ins n p j s p j2
        simp only [true_and] at this
        exact this) cnt lo s j
    simp only [true_and]
    exact h
  · rw [if_neg (fun h => hp h.1)]
    exact congrFun (forUp_proj (fun s : World => (s.presets p).ins) _ (fun j s => by
      funext j2
      have := net_remove_op_preset_in_ins n i j s p j2
      rw [if_neg (fun h => hp h.1)] at this
      exact this) cnt lo s) j

theorem net_remove_op_preset_in_loop_outs (n i : Int) (cnt : Nat) (lo : Int) (s : World)
    (p : Int) :
    ((forUp lo cnt (net_remove_op_preset_in n i) s).presets p).outs = (s.presets p).outs :=
  forUp_proj (fun s : World => (s.presets p).outs) _
    (fun j s => net_remove_op_preset_in_outs n i j s p) cnt lo s

/-- The second preset loop of `net_remove_op`, for preset `i`. -/
theorem net_remove_op_preset_out_loop (m i : Int) (hm : 0 ≤ m) (cnt : Nat) (lo : Int) (s : World)
    (p j : Int) :
    ((forUp lo cnt (net_remove_op_preset_out m i) s).presets p).outs j =
      if p = i ∧ lo ≤ j ∧ j < lo + cnt then (s.presets i).outs (j + m)
      else (s.presets p).outs j := by
  by_cases hp : p = i
  · subst hp
    have h := forUp_gather (fun (s : World) j => (s.presets p).outs j) (fun j a => a (j + m))
      (net_remove_op_preset_out m p)
      (fun j a b hab => hab (j + m) (by omega))
      (fun j s j2 => by
        have := net_remove_op_preset_out_outs m p j s p j2
        simp only [true_and] at this
        exact this) cnt lo s j
    simp only [true_and]
    exact h
  · rw [if_neg (fun h => hp h.1)]
    exact congrFun (forUp_proj (fun s : World => (s.presets p).outs) _ (fun j s => by
      funext j2
      have := net_remove_op_preset_out_outs m i j s p j2
      rw [if_neg (fun h => hp h.1)] at this
      exact this) cnt lo s) j

theorem net_remove_op_preset_out_loop_ins (m i : Int) (cnt : Nat) (lo : Int) (s : World)
    (p : Int) :
    ((forUp lo cnt (net_remove_op_preset_out m i) s).presets p).ins = (s.presets p).ins :=
  forUp_proj (fun s : World => (s.presets p).ins) _
    (fun j s => net_remove_op_preset_out_ins m i j s p) cnt lo s

/-- The third preset loop of `net_remove_op`, for preset `i`. -/
theorem net_remove_op_preset_tar_loop (f n i : Int) (cnt : Nat) (lo : Int) (s : World)
    (p j : Int) :
    ((forUp lo cnt (net_remove_op_preset_tar f n i) s).presets p).outs j =
      if p = i ∧ lo ≤ j ∧ j < lo + cnt then
        (if ((s.presets i).outs j).enabled ≠ 0 then
          if ((s.presets i).outs j).target ≥ f + n then
            { (s.presets i).outs j with target := s16 (((s.presets i).outs j).target - n) }
          else if ((s.presets i).outs j).target ≥ f then
            { (s.presets i).outs j with enabled := 0 }
          else (s.presets i).outs j
        else (s.presets i).outs j)
      else (s.presets p).outs j := by
  by_cases hp : p = i
  · subst hp
    have h := forUp_gather (fun (s : World) j => (s.presets p).outs j)
      (fun j a =>
        if (a j).enabled ≠ 0 then
          if (a j).target ≥ f + n then { a j with target := s16 ((a j).target - n) }
          else if (a j).target ≥ f then { a j with enabled := 0 }
          else a j
        else a j)
      (net_remove_op_preset_tar f n p)
      (fun j a b hab => by dsimp only; rw [hab j (le_refl _)])
      (fun j s j2 => by
        have := net_remove_op_preset_tar_outs f n p j s p j2
        simp only [true_and] at this
        exact this) cnt lo s j
    simp only [true_and]
    exact h
  · rw [if_neg (fun h => hp h.1)]
    exact congrFun (forUp_proj (fun s : World => (s.presets p).outs) _ (fun j s => by
      funext j2
      have := net_remove_op_preset_tar_outs f n i j s p j2
      rw [if_neg (fun h => hp h.1)] at this
      exact this) cnt lo s) j

theorem net_remove_op_preset_tar_loop_ins (f n i : Int) (cnt : Nat) (lo : Int) (s : World)
    (p : Int) :
    ((forUp lo cnt (net_remove_op_preset_tar f n i) s).presets p).ins = (s.presets p).ins :=
  forUp_proj (fun s : World => (s.presets p).ins) _
    (fun j s => net_remove_op_preset_tar_ins f n i j s p) cnt lo s

theorem net_remove_op_preset_net (f g n m i : Int) (s : World) :
    (net_remove_op_preset f g n m i s).net = s.net := by
  have h := congrArg World.net (net_remove_op_preset_frame f g n m i s s.presets)
  exact h

/-- The three preset loops of `net_remove_op` for preset `i`: the input
entries. -/
theorem net_remove_op_preset_ins (f g n m i : Int) (hn : 0 ≤ n) (s : World) (p j : Int) :
    ((net_remove_op_preset f g n m i s).presets p).ins j =
      if p = i ∧ f ≤ j ∧ j < s.net.numParams + s.net.numIns then (s.presets i).ins (j + n)
      else (s.presets p).ins j := by
  unfold net_remove_op_preset
  dsimp only
  rw [net_remove_op_preset_tar_loop_ins, net_remove_op_preset_out_loop_ins,
    net_remove_op_preset_in_loop n i hn]
  by_cases hc : p = i ∧ f ≤ j ∧ j < s.net.numParams + s.net.numIns
  · rw [if_pos hc, if_pos ⟨hc.1, hc.2.1, by omega⟩]
  · rw [if_neg hc, if_neg (fun h => hc ⟨h.1, h.2.1, by omega⟩)]

theorem net_remove_op_preset_in_loop_net (n i : Int) (cnt : Nat) (lo : Int) (s : World) :
    (forUp lo cnt (net_remove_op_preset_in n i) s).net = s.net :=
  forUp_proj World.net _ (fun j s => by rfl) cnt lo s

theorem net_remove_op_preset_out_loop_net (m i : Int) (cnt : Nat) (lo : Int) (s : World) :
    (forUp lo cnt (net_remove_op_preset_out m i) s).net = s.net :=
  forUp_proj World.net _ (fun j s => by rfl) cnt lo s

/-- The three preset loops of `net_remove_op` for preset `i`: the output
entries. -/
theorem net_remove_op_preset_outs (f g n m i : Int) (hm : 0 ≤ m) (s : World) (p j : Int) :
    ((net_remove_op_preset f g n m i s).presets p).outs j =
      if p = i ∧ 0 ≤ j ∧ j < s.net.numOuts then
        (if ((s.presets i).outs (if g ≤ j then j + m else j)).enabled ≠ 0 then
          if ((s.presets i).outs (if g ≤ j then j + m else j)).target ≥ f + n then
            { (s.presets i).outs (if g ≤ j then j + m else j) with
              target := s16 (((s.presets i).outs (if g ≤ j then j + m else j)).target - n) }
          else if ((s.presets i).outs (if g ≤ j then j + m else j)).target ≥ f then
            { (s.presets i).outs (if g ≤ j then j + m else j) with enabled := 0 }
          else (s.presets i).outs (if g ≤ j then j + m else j)
        else (s.presets i).outs (if g ≤ j then j + m else j))
      else if p = i ∧ g ≤ j ∧ j < s.net.numOuts then (s.presets i).outs (j + m)
      else (s.presets p).outs j := by
  unfold net_remove_op_preset
  dsimp only
  rw [net_remove_op_preset_tar_loop]
  simp only [net_remove_op_preset_out_loop_net, net_remove_op_preset_in_loop_net]
  have hmid : ∀ q j2, ((forUp g (s.net.numOuts - g).toNat (net_remove_op_preset_out m i)
      (forUp f (s.net.numParams + s.net.numIns - f).toNat (net_remove_op_preset_in n i)
        s)).presets q).outs j2 =
      if q = i ∧ g ≤ j2 ∧ j2 < s.net.numOuts then (s.presets i).outs (j2 + m)
      else (s.presets q).outs j2 := by
    intro q j2
    rw [net_remove_op_preset_out_loop m i hm, net_remove_op_preset_in_loop_outs,
      net_remove_op_preset_in_loop_outs]
    by_cases hc : q = i ∧ g ≤ j2 ∧ j2 < s.net.numOuts
    · rw [if_pos hc, if_pos ⟨hc.1, hc.2.1, by omega⟩]
    · rw [if_neg hc, if_neg (fun h => hc ⟨h.1, h.2.1, by omega⟩)]
  rw [hmid i j, hmid p j]
  by_cases hp : p = i
  · subst hp
    by_cases hj : 0 ≤ j ∧ j < s.net.numOuts
    · have e1 : (if p = p ∧ g ≤ j ∧ j < s.net.numOuts then (s.presets p).outs (j + m)
          else (s.presets p).outs j) = (s.presets p).outs (if g ≤ j then j + m else j) := by
        by_cases hg : g ≤ j
        · rw [if_pos ⟨rfl, hg, hj.2⟩, if_pos hg]
        · rw [if_neg (fun h => hg h.2.1), if_neg hg]
      have c1 : p = p ∧ 0 ≤ j ∧ j < 0 + (s.net.numOuts.toNat : Int) := ⟨rfl, by omega, by omega⟩
      have c2 : p = p ∧ 0 ≤ j ∧ j < s.net.numOuts := ⟨rfl, hj⟩
      rw [e1, if_pos c1, if_pos c2]
    · have c1 : ¬ (p = p ∧ 0 ≤ j ∧ j < 0 + (s.net.numOuts.toNat : Int)) :=
        fun h => hj ⟨by omega, by omega⟩
      have c2 : ¬ (p = p ∧ 0 ≤ j ∧ j < s.net.numOuts) := fun h => hj h.2
      rw [if_neg c1, if_neg c2]
  · have c1 : ¬ (p = i ∧ 0 ≤ j ∧ j < 0 + (s.net.numOuts.toNat : Int)) := fun h => hp h.1
    have c2 : ¬ (p = i ∧ 0 ≤ j ∧ j < s.net.numOuts) := fun h => hp h.1
    have c3 : ¬ (p = i ∧ g ≤ j ∧ j < s.net.numOuts) := fun h => hp h.1
    rw [if_neg c1, if_neg c2, if_neg c3]

/-- The preset loop of `net_remove_op`, after `N` presets. -/
theorem net_remove_op_presets_loop (f g n m : Int) (hn : 0 ≤ n) (hm : 0 ≤ m) (W : World) :
    ∀ N : Nat,
      (forUp 0 N (net_remove_op_preset f g n m) W).net = W.net ∧
      ∀ p j,
        ((forUp 0 N (net_remove_op_preset f g n m) W).presets p).ins j =
          ((if 0 ≤ p ∧ p < N then net_remove_op_preset f g n m p W else W).presets p).ins j ∧
        ((forUp 0 N (net_remove_op_preset f g n m) W).presets p).outs j =
          ((if 0 ≤ p ∧ p < N then net_remove_op_preset f g n m p W else W).presets p).outs j := by
  intro N
  induction N with
  | zero =>
    refine ⟨rfl, fun p j => ?_⟩
    have : ¬ (0 ≤ p ∧ p < ((0 : Nat) : Int)) := by simp
    rw [if_neg this]
    exact ⟨rfl, rfl⟩
  | succ N ih =>
    obtain ⟨ih1, ih2⟩ := ih
    rw [forUp_succ_last]
    obtain ⟨S, hS⟩ : ∃ S, S = forUp 0 N (net_remove_op_preset f g n m) W := ⟨_, rfl⟩
    rw [← hS] at ih1 ih2 ⊢
    refine ⟨(net_remove_op_preset_net f g n m _ S).trans ih1, fun p j => ?_⟩
    have e0 : (0 : Int) + (N : Int) = N := by omega
    rw [e0]
    have hSN : ∀ j2, ((S.presets N).ins j2 = (W.presets N).ins j2) ∧
        ((S.presets N).outs j2 = (W.presets N).outs j2) := by
      intro j2
      have := ih2 N j2
      rw [if_neg (show ¬ (0 ≤ (N : Int) ∧ (N : Int) < (N : Int)) by omega)] at this
      exact this
    rw [net_remove_op_preset_ins f g n m N hn S, net_remove_op_preset_outs f g n m N hm S, ih1]
    by_cases hp : p = N
    · subst hp
      have c : 0 ≤ (N : Int) ∧ (N : Int) < ((N + 1 : Nat) : Int) :=
        ⟨by omega, by push_cast; omega⟩
      rw [if_pos c, net_remove_op_preset_ins f g n m _ hn W,
        net_remove_op_preset_outs f g n m _ hm W]
      simp only [(hSN _).1, (hSN _).2, and_self]
    · have hpn : ¬ (p = (N : Int) ∧ f ≤ j ∧ j < W.net.numParams + W.net.numIns) :=
        fun h => hp h.1
      have hpo : ¬ (p = (N : Int) ∧ 0 ≤ j ∧ j < W.net.numOuts) := fun h => hp h.1
      have hpg : ¬ (p = (N : Int) ∧ g ≤ j ∧ j < W.net.numOuts) := fun h => hp h.1
      rw [if_neg hpn, if_neg hpo, if_neg hpg]
      have := ih2 p j
      by_cases hr : 0 ≤ p ∧ p < (N : Int)
      · have c : 0 ≤ p ∧ p < ((N + 1 : Nat) : Int) := ⟨hr.1, by push_cast; omega⟩
        rw [if_pos hr] at this
        rw [if_pos c]
        exact this
      · have c : ¬ (0 ≤ p ∧ p < ((N + 1 : Nat) : Int)) := by push_cast; omega
        rw [if_neg hr] at this
        rw [if_neg c]
        exact this

theorem net_op_out_idx_first (k g : Int) (w : World)
    (hk0 : 0 ≤ k) (hk1 : k < 65536) (hg0 : 0 ≤ g) (hg1 : g < w.net.numOuts)
    (hO : w.net.numOuts < 65536)
    (hbelow : ∀ j, 0 ≤ j → j < g → (w.net.outs j).opIdx ≠ k)
    (hat : (w.net.outs g).opIdx = k) :
    net_op_out_idx k 0 w = g := by
  unfold net_op_out_idx
  rw [u16_of_range hk0 hk1]
  rw [net_op_out_idx_loop_found w k (u16 0) g w.net.numOuts.toNat 0 hg0 (by omega) hbelow hat]
  have : u16 0 = 0 := by decide
  rw [this, u16_of_range (by omega) (by omega)]
  omega

theorem net_op_out_idx_none (k : Int) (w : World)
    (hk0 : 0 ≤ k) (hk1 : k < 65536)
    (hnone : ∀ j, 0 ≤ j → j < w.net.numOuts → (w.net.outs j).opIdx ≠ k) :
    net_op_out_idx k 0 w = 0 := by
  unfold net_op_out_idx
  rw [u16_of_range hk0 hk1]
  exact net_op_out_idx_loop_none w k (u16 0) w.net.numOuts.toNat 0
    (fun j hj1 hj2 => hnone j hj1 (by omega))

theorem net_remove_op_reindex_all_presets (w : World) :
    (net_remove_op_reindex_all w).presets = w.presets :=
  forUp_proj World.presets _ (fun i s => by
    unfold net_remove_op_reindex
    split_ifs
    · exact net_connect_presets _ _ _
    · rfl) _ _ _

/-- The state of `net_remove_op` on entry to its preset loop: the counts are
lowered and the presets are still those of the call. -/
theorem net_remove_op_before_presets (k f n m : Int) (w : World) (hn : 0 ≤ n) (hm : 0 ≤ m)
    (h0 : 1 ≤ w.net.numOps) (h1 : n ≤ w.net.numIns) (h2 : m ≤ w.net.numOuts)
    (h3 : w.net.numOps < 65536) (h4 : w.net.numIns < 65536) (h5 : w.net.numOuts < 65536) :
    (net_remove_op_reindex_all
      (net_remove_op_shuffle k f n m (net_remove_op_targets f n w))).presets = w.presets ∧
    (net_remove_op_reindex_all
      (net_remove_op_shuffle k f n m (net_remove_op_targets f n w))).net.numIns =
        w.net.numIns - n ∧
    (net_remove_op_reindex_all
      (net_remove_op_shuffle k f n m (net_remove_op_targets f n w))).net.numOuts =
        w.net.numOuts - m ∧
    (net_remove_op_reindex_all
      (net_remove_op_shuffle k f n m (net_remove_op_targets f n w))).net.numParams =
        w.net.numParams := by
  obtain ⟨W1, hW1⟩ : ∃ W1, W1 = net_remove_op_targets f n w := ⟨_, rfl⟩
  have hs1 : W1.shape = w.shape := by rw [hW1]; exact net_remove_op_targets_shape _ _ _
  have hp1 : W1.presets = w.presets := by rw [hW1]; exact net_remove_op_targets_presets _ _ _
  have hnP1 : W1.net.numOps = w.net.numOps := congrArg Shape.numOps hs1
  have hnI1 : W1.net.numIns = w.net.numIns := congrArg Shape.numIns hs1
  have hnO1 : W1.net.numOuts = w.net.numOuts := congrArg Shape.numOuts hs1
  have hnQ1 : W1.net.numParams = w.net.numParams := congrArg Shape.numParams hs1
  rw [← hW1]
  obtain ⟨W2, hW2⟩ : ∃ W2, W2 = net_remove_op_shuffle k f n m W1 := ⟨_, rfl⟩
  have hW2c := hW2
  rw [net_remove_op_shuffle_eq k f n m W1 hn hm (by omega) (by omega) (by omega) (by omega)
    (by omega) (by omega)] at hW2c
  rw [← hW2]
  have hs3 := net_remove_op_reindex_all_shape W2
  refine ⟨?_, ?_, ?_, ?_⟩
  · rw [net_remove_op_reindex_all_presets, hW2c]; exact hp1
  · refine (congrArg Shape.numIns hs3).trans ?_
    rw [hW2c]; exact congrArg (· - n) hnI1
  · refine (congrArg Shape.numOuts hs3).trans ?_
    rw [hW2c]; exact congrArg (· - m) hnO1
  · refine (congrArg Shape.numParams hs3).trans ?_
    rw [hW2c]; exact hnQ1

/-- The preset loop of `net_remove_op`: the entries of preset `p` afterwards. -/
theorem net_remove_op_presets_eq (E : Env) (f g n m : Int) (hn : 0 ≤ n) (hm : 0 ≤ m) (W : World)
    (p : Int) (hp0 : 0 ≤ p) (hp1 : p < E.NET_PRESETS_MAX) (j : Int) :
    ((net_remove_op_presets E f g n m W).presets p).ins j =
      ((net_remove_op_preset f g n m p W).presets p).ins j ∧
    ((net_remove_op_presets E f g n m W).presets p).outs j =
      ((net_remove_op_preset f g n m p W).presets p).outs j := by
  have h := (net_remove_op_presets_loop f g n m hn hm W E.NET_PRESETS_MAX.toNat).2 p j
  have c : 0 ≤ p ∧ p < (E.NET_PRESETS_MAX.toNat : Int) := ⟨hp0, by omega⟩
  rw [if_pos c] at h
  exact h

/-- The adjustment of a preset output entry by the third preset loop of
`net_remove_op`, with the first input as the code finds it (`f2`) and as it
is (`f`). -/
theorem net_remove_op_preset_adjust (f f2 n : Int) (e : preset_onode)
    (hr : -32768 ≤ e.target ∧ e.target < 32768) (hf0 : 0 ≤ f)
    (hff : (1 ≤ n ∧ f2 = f) ∨ (n = 0 ∧ f2 = 0)) :
    (if e.enabled ≠ 0 then
      if e.target ≥ f2 + n then { e with target := s16 (e.target - n) }
      else if e.target ≥ f2 then { e with enabled := 0 }
      else e
    else e) =
    (if e.enabled ≠ 0 then
      if e.target ≥ f + n then { e with target := e.target - n }
      else if e.target ≥ f then { e with enabled := 0 }
      else e
    else e) := by
  by_cases he : e.enabled ≠ 0
  · rw [if_pos he, if_pos he]
    rcases hff with ⟨h1, h2⟩ | ⟨h1, h2⟩
    · rw [h2]
      by_cases h3 : e.target ≥ f + n
      · rw [if_pos h3, if_pos h3, s16_of_range (by omega) (by omega)]
      · rw [if_neg h3, if_neg h3]
    · rw [h2, h1]
      have e0 : e.target - 0 = e.target := by omega
      by_cases h3 : e.target ≥ 0 + 0
      · rw [if_pos h3, e0, s16_of_range hr.1 hr.2]
        by_cases h4 : e.target ≥ f + 0
        · rw [if_pos h4]
        · rw [if_neg h4, if_neg (by omega)]
      · rw [if_neg h3, if_neg (by omega), if_neg (by omega), if_neg (by omega)]
  · rw [if_neg he, if_neg he]

/-- C14: `net_remove_op` of operator `k`, whose `n` inputs start at `f` and
whose `m` outputs start at `g`, moves in every preset `p` the input pair at index
`j + n` down to `j` for every `j >= f` below the new `numIns + numParams` (and
keeps the pairs below `f`), and the output entry at index `j + m` down to `j`
for every `j >= g` below the new `numOuts`; of the output entries then below the
new `numOuts`, every enabled one whose target was `>= f + n` has its target
lowered by `n`, and every enabled one whose target was inside `[f, f + n)` is
disabled; the other entries are as they were. -/
theorem net_remove_op_shifts_presets (E : Env) (k f g : Int) (w : World) (p : Int)
    (hp0 : 0 ≤ p) (hp1 : p < E.NET_PRESETS_MAX)
    (hk0 : 0 ≤ k) (hk1 : k < w.net.numOps) (hops : w.net.numOps < 65536)
    (hflag : (w.net.ops k).flags.testBit E.eOpFlagSys = false)
    (hn : 0 ≤ (w.net.ops k).numInputs) (hm : 0 ≤ (w.net.ops k).numOutputs)
    (hf0 : 0 ≤ f) (hf1 : f + (w.net.ops k).numInputs ≤ w.net.numIns)
    (hI : w.net.numIns < 65536)
    (hg0 : 0 ≤ g) (hg1 : g + (w.net.ops k).numOutputs ≤ w.net.numOuts)
    (hO : w.net.numOuts < 65536)
    (hin : ∀ j, 0 ≤ j → j < w.net.numIns →
      ((w.net.ins j).opIdx = k ↔ (f ≤ j ∧ j < f + (w.net.ops k).numInputs)))
    (hout : ∀ j, 0 ≤ j → j < w.net.numOuts →
      ((w.net.outs j).opIdx = k ↔ (g ≤ j ∧ j < g + (w.net.ops k).numOutputs)))
    (hpt : ∀ j, 0 ≤ j → j < w.net.numOuts →
      -32768 ≤ ((w.presets p).outs j).target ∧ ((w.presets p).outs j).target < 32768) :
      (∀ j, f ≤ j → j < w.net.numIns - (w.net.ops k).numInputs + w.net.numParams →
        ((net_remove_op E k w).2.presets p).ins j =
          (w.presets p).ins (j + (w.net.ops k).numInputs)) ∧
      (∀ j, j < f → ((net_remove_op E k w).2.presets p).ins j = (w.presets p).ins j) ∧
      (∀ j, 0 ≤ j → j < w.net.numOuts - (w.net.ops k).numOutputs →
        ((net_remove_op E k w).2.presets p).outs j =
          if ((w.presets p).outs
              (if g ≤ j then j + (w.net.ops k).numOutputs else j)).enabled ≠ 0 then
            if ((w.presets p).outs
                (if g ≤ j then j + (w.net.ops k).numOutputs else j)).target ≥
                f + (w.net.ops k).numInputs then
              { (w.presets p).outs (if g ≤ j then j + (w.net.ops k).numOutputs else j) with
                target := ((w.presets p).outs
                  (if g ≤ j then j + (w.net.ops k).numOutputs else j)).target -
                  (w.net.ops k).numInputs }
            else if ((w.presets p).outs
                (if g ≤ j then j + (w.net.ops k).numOutputs else j)).target ≥ f then
              { (w.presets p).outs (if g ≤ j then j + (w.net.ops k).numOutputs else j) with
                enabled := 0 }
            else (w.presets p).outs (if g ≤ j then j + (w.net.ops k).numOutputs else j)
          else (w.presets p).outs (if g ≤ j then j + (w.net.ops k).numOutputs else j)) := by
  rw [net_remove_op_success E k w hk0 hk1 hops hflag]
  generalize hnd : (w.net.ops k).numInputs = n at *
  generalize hmd : (w.net.ops k).numOutputs = m at *
  have hff : (1 ≤ n ∧ net_op_in_idx k 0 w = f) ∨ (n = 0 ∧ net_op_in_idx k 0 w = 0) := by
    by_cases hn1 : 1 ≤ n
    · exact Or.inl ⟨hn1, net_op_in_idx_first k f w hk0 (by omega) hf0 (by omega) hI
        (fun j hj0 hj1 hc => by
          have := (hin j hj0 (by omega)).1 hc
          omega)
        ((hin f hf0 (by omega)).2 ⟨le_refl _, by omega⟩)⟩
    · exact Or.inr ⟨by omega, net_op_in_idx_none k w hk0 (by omega) (fun j hj0 hj1 hc => by
        have := (hin j hj0 hj1).1 hc
        omega)⟩
  have hgg : (1 ≤ m ∧ net_op_out_idx k 0 w = g) ∨ (m = 0 ∧ net_op_out_idx k 0 w = 0) := by
    by_cases hm1 : 1 ≤ m
    · exact Or.inl ⟨hm1, net_op_out_idx_first k g w hk0 (by omega) hg0 (by omega) hO
        (fun j hj0 hj1 hc => by
          have := (hout j hj0 (by omega)).1 hc
          omega)
        ((hout g hg0 (by omega)).2 ⟨le_refl _, by omega⟩)⟩
    · exact Or.inr ⟨by omega, net_op_out_idx_none k w hk0 (by omega) (fun j hj0 hj1 hc => by
        have := (hout j hj0 hj1).1 hc
        omega)⟩
  generalize net_op_in_idx k 0 w = f2 at *
  generalize net_op_out_idx k 0 w = g2 at *
  obtain ⟨b1, b2, b3, b4⟩ := net_remove_op_before_presets k f2 n m
    { w with pools := (freeOp (w.net.ops k).addr w.pools).2 } hn hm
    (show 1 ≤ w.net.numOps by omega) (show n ≤ w.net.numIns by omega)
    (show m ≤ w.net.numOuts by omega) hops hI hO
  obtain ⟨W3, hW3⟩ : ∃ W3, W3 = net_remove_op_reindex_all
    (net_remove_op_shuffle k f2 n m (net_remove_op_targets f2 n
      { w with pools := (freeOp (w.net.ops k).addr w.pools).2 })) := ⟨_, rfl⟩
  rw [← hW3] at b1 b2 b3 b4 ⊢
  have b1 : W3.presets = w.presets := b1
  have b2 : W3.net.numIns = w.net.numIns - n := b2
  have b3 : W3.net.numOuts = w.net.numOuts - m := b3
  have b4 : W3.net.numParams = w.net.numParams := b4
  refine ⟨?_, ?_, ?_⟩
  · intro j hj0 hj1
    show ((net_remove_op_presets E f2 g2 n m W3).presets p).ins j = _
    rw [(net_remove_op_presets_eq E f2 g2 n m hn hm W3 p hp0 hp1 j).1,
      net_remove_op_preset_ins f2 g2 n m p hn W3, b1, b2, b4]
    rcases hff with ⟨h1, h2⟩ | ⟨h1, h2⟩
    · rw [if_pos ⟨rfl, by omega, by omega⟩]
    · rw [h1]
      have e0 : j + 0 = j := by omega
      rw [e0]
      split_ifs <;> rfl
  · intro j hj
    show ((net_remove_op_presets E f2 g2 n m W3).presets p).ins j = _
    rw [(net_remove_op_presets_eq E f2 g2 n m hn hm W3 p hp0 hp1 j).1,
      net_remove_op_preset_ins f2 g2 n m p hn W3, b1, b2, b4]
    rcases hff with ⟨h1, h2⟩ | ⟨h1, h2⟩
    · rw [if_neg (fun h => by omega)]
    · rw [h1]
      have e0 : j + 0 = j := by omega
      rw [e0]
      split_ifs <;> rfl
  · intro j hj0 hj1
    show ((net_remove_op_presets E f2 g2 n m W3).presets p).outs j = _
    rw [(net_remove_op_presets_eq E f2 g2 n m hn hm W3 p hp0 hp1 j).2,
      net_remove_op_preset_outs f2 g2 n m p hm W3, b1, b3]
    have c : p = p ∧ 0 ≤ j ∧ j < w.net.numOuts - m := ⟨rfl, hj0, hj1⟩
    rw [if_pos c]
    have hidx : (if g2 ≤ j then j + m else j) = (if g ≤ j then j + m else j) := by
      rcases hgg with ⟨h1, h2⟩ | ⟨h1, h2⟩
      · rw [h2]
      · rw [h1]
        have e0 : j + 0 = j := by omega
        rw [e0]
        split_ifs <;> rfl
    rw [hidx]
    have hrange : 0 ≤ (if g ≤ j then j + m else j) ∧ (if g ≤ j then j + m else j) < w.net.numOuts := by
      split_ifs <;> omega
    exact net_remove_op_preset_adjust f f2 n _
      (hpt _ hrange.1 hrange.2) hf0 hff

theorem exStored_ins (j : Int) (h0 : 0 ≤ j) (h1 : j < exStored.net.numIns) :
    (exStored.net.ins j).opIdx = 0 ↔ (0 ≤ j ∧ j < 0 + (exStored.net.ops 0).numInputs) := by
  have e : exStored.net.numIns = 3 := by decide!
  rw [e] at h1
  have h : j = 0 ∨ j = 1 ∨ j = 2 := by omega
  rcases h with h | h | h <;> subst h <;> decide!

theorem exStored_outs (j : Int) (h0 : 0 ≤ j) (h1 : j < exStored.net.numOuts) :
    (exStored.net.outs j).opIdx = 0 ↔ (0 ≤ j ∧ j < 0 + (exStored.net.ops 0).numOutputs) := by
  have e : exStored.net.numOuts = 3 := by decide!
  rw [e] at h1
  have h : j = 0 ∨ j = 1 ∨ j = 2 := by omega
  rcases h with h | h | h <;> subst h <;> decide!

theorem exStored_targets (j : Int) (h0 : 0 ≤ j) (h1 : j < exStored.net.numOuts) :
    -32768 ≤ ((exStored.presets 0).outs j).target ∧
      ((exStored.presets 0).outs j).target < 32768 := by
  have e : exStored.net.numOuts = 3 := by decide!
  rw [e] at h1
  have h : j = 0 ∨ j = 1 ∨ j = 2 := by omega
  rcases h with h | h | h <;> subst h <;> decide!

/-- Witness of C14: in `exStored` preset 0 holds for output 2 (the output of the
Add) the target 2, enabled.  Removing the Split (operator 0: one input at 0, two
outputs at 0) moves the entry down to index 0 and lowers its target to 1. -/
theorem net_remove_op_shifts_presets_witness :
    (((net_remove_op exEnv 0 exStored).2.presets 0).outs 0).target = 1 ∧
    (((net_remove_op exEnv 0 exStored).2.presets 0).outs 0).enabled = 1 := by
  have h := (net_remove_op_shifts_presets exEnv 0 0 0 exStored 0 (by decide) (by decide)
    (by decide) (by decide!) (by decide!)
    (by decide!) (by decide!) (by decide!) (by decide) (by decide!) (by decide!)
    (by decide) (by decide!) (by decide!) exStored_ins exStored_outs exStored_targets).2.2 0
    (by decide) (by decide!)
  rw [h]
  decide!

/-! ### Splitting an output -/

/-- A failing `net_add_op_at` leaves the state as it was. -/
theorem net_add_op_at_fails (E : Env) (B : Bases) (w : World) (g : List (Int × Int))
    (ls lb : List Int) (id k : Int) (hP : PoolsInv E B w.pools g ls lb)
    (hn0 : 0 ≤ (E.op_registry id).numInputs) (hn1 : (E.op_registry id).numInputs < 256)
    (hm0 : 0 ≤ (E.op_registry id).numOutputs) (hm1 : (E.op_registry id).numOutputs < 256)
    (hfail : w.net.numOps ≥ E.NET_OPS_MAX ∨
      (net_alloc_op (E.op_registry id).size w.pools).1 = none ∨
      (E.op_registry id).numInputs > E.NET_INS_MAX - w.net.numIns ∨
      (E.op_registry id).numOutputs > E.NET_OUTS_MAX - w.net.numOuts) :
    net_add_op_at E id k w = (-1, w) := by
  have hun : u16 (E.op_registry id).numInputs = (E.op_registry id).numInputs :=
    u16_of_range hn0 (by omega)
  have hum : u16 (E.op_registry id).numOutputs = (E.op_registry id).numOutputs :=
    u16_of_range hm0 (by omega)
  have hw : ∀ ps, ps = w.pools → ({ w with pools := ps } : World) = w := by
    intro ps h; rw [h]
  unfold net_add_op_at
  dsimp only
  by_cases hcap : w.net.numOps ≥ E.NET_OPS_MAX
  · rw [if_pos hcap]
  rw [if_neg hcap]
  cases hal : (net_alloc_op (E.op_registry id).size w.pools).1 with
  | none =>
    dsimp only
    rw [hw _ (net_alloc_op_none _ _ hal)]
  | some addr =>
    dsimp only
    have hfree := freeOp_net_alloc_op hP (E.op_registry id).size addr hal
    have hfit : (E.op_registry id).numInputs > E.NET_INS_MAX - w.net.numIns ∨
        (E.op_registry id).numOutputs > E.NET_OUTS_MAX - w.net.numOuts := by
      rcases hfail with h | h | h | h
      · omega
      · rw [hal] at h; cases h
      · exact Or.inl h
      · exact Or.inr h
    simp only [op_init, hun, hum]
    rcases hfit with h | h
    · rw [if_pos h, hw _ hfree]
    · by_cases h2 : (E.op_registry id).numInputs > E.NET_INS_MAX - w.net.numIns
      · rw [if_pos h2, hw _ hfree]
      · rw [if_neg h2, if_pos h, hw _ hfree]

theorem net_op_out_idx_block (k g i : Int) (w : World)
    (hk0 : 0 ≤ k) (hk1 : k < 65536) (hg0 : 0 ≤ g) (hg1 : g < w.net.numOuts)
    (hi0 : 0 ≤ i) (hi1 : g + i < 65536)
    (hbelow : ∀ j, 0 ≤ j → j < g → (w.net.outs j).opIdx ≠ k)
    (hat : (w.net.outs g).opIdx = k) :
    net_op_out_idx k i w = g + i := by
  unfold net_op_out_idx
  rw [u16_of_range hk0 hk1]
  rw [net_op_out_idx_loop_found w k (u16 i) g w.net.numOuts.toNat 0 hg0 (by omega) hbelow hat]
  rw [u16_of_range hi0 (by omega), u16_of_range (by omega) hi1]

/-- C18: `net_split_out(o)` for a live output `o` of operator `k`.  The splitter
(class `eOpSplit`, one input and two outputs) is inserted at
`p = net_add_op_at_pos k`, with its input at `F` and its outputs at `G`, `G + 1`,
the summed input and output counts of the operators below `p`.  If the
insertion fails (no operator slot, no block from the pool, or no room for the
nodes) the call returns `o` and the state is as before.  Otherwise the call
returns an output of the new splitter whose target is -1 (`G` when `o` was
unconnected, `G + 1` when it was connected), output `o` targets the input `F` of
the splitter, and when `o` had a target `t` the first output `G` of the splitter
targets `t`, raised by 1 if `t >= F`.  Assumed of the network: the nodes below
`F` and `G` are those of the operators below `p`, targets and capacities fit
`s16`, and the pools are in good order. -/
theorem net_split_out_splits (E : Env) (B : Bases) (g : List (Int × Int)) (ls lb : List Int)
    (o : Int) (w : World)
    (ho0 : 0 ≤ o) (ho1 : o < w.net.numOuts)
    (hk0 : 0 ≤ (w.net.outs o).opIdx) (hk1 : (w.net.outs o).opIdx < w.net.numOps)
    (hops : w.net.numOps ≤ E.NET_OPS_MAX)
    (hsplitI : (E.op_registry eOpSplit).numInputs = 1)
    (hsplitO : (E.op_registry eOpSplit).numOutputs = 2)
    (hlimO : E.NET_OPS_MAX ≤ 32767) (hlimI : E.NET_INS_MAX ≤ 32767)
    (hlimU : E.NET_OUTS_MAX ≤ 32767) (h1 : 0 ≤ w.net.numIns)
    (hcnt : ∀ i : Nat, (i : Int) < w.net.numOps → 0 ≤ (w.net.ops i).numInputs)
    (hF : insBelow w (net_add_op_at_pos (w.net.outs o).opIdx w).toNat ≤ w.net.numIns)
    (hG : outsBelow w (net_add_op_at_pos (w.net.outs o).opIdx w).toNat ≤ w.net.numOuts)
    (hin : ∀ j, 0 ≤ j → j < insBelow w (net_add_op_at_pos (w.net.outs o).opIdx w).toNat →
      (w.net.ins j).opIdx < net_add_op_at_pos (w.net.outs o).opIdx w)
    (hout : ∀ j, 0 ≤ j → j < w.net.numOuts →
      ((w.net.outs j).opIdx < net_add_op_at_pos (w.net.outs o).opIdx w ↔
        j < outsBelow w (net_add_op_at_pos (w.net.outs o).opIdx w).toNat))
    (htar : ∀ j, 0 ≤ j → j < w.net.numOuts → -32768 ≤ (w.net.outs j).target ∧
      (w.net.outs j).target + 1 < 32768)
    (hP : PoolsInv E B w.pools g ls lb) :
    ((w.net.numOps ≥ E.NET_OPS_MAX ∨
        (net_alloc_op (E.op_registry eOpSplit).size w.pools).1 = none ∨
        1 > E.NET_INS_MAX - w.net.numIns ∨ 2 > E.NET_OUTS_MAX - w.net.numOuts) →
      net_split_out E o w = (o, w)) ∧
    (¬ (w.net.numOps ≥ E.NET_OPS_MAX ∨
        (net_alloc_op (E.op_registry eOpSplit).size w.pools).1 = none ∨
        1 > E.NET_INS_MAX - w.net.numIns ∨ 2 > E.NET_OUTS_MAX - w.net.numOuts) →
      (net_split_out E o w).1 =
        outsBelow w (net_add_op_at_pos (w.net.outs o).opIdx w).toNat +
          (if (w.net.outs o).target < 0 then 0 else 1) ∧
      (net_split_out E o w).2.net.numOps = w.net.numOps + 1 ∧
      ((net_split_out E o w).2.net.ops (net_add_op_at_pos (w.net.outs o).opIdx w)).type =
        eOpSplit ∧
      ((net_split_out E o w).2.net.outs (net_split_out E o w).1).opIdx =
        net_add_op_at_pos (w.net.outs o).opIdx w ∧
      ((net_split_out E o w).2.net.outs (net_split_out E o w).1).target = -1 ∧
      ((net_split_out E o w).2.net.ins
        (insBelow w (net_add_op_at_pos (w.net.outs o).opIdx w).toNat)).opIdx =
        net_add_op_at_pos (w.net.outs o).opIdx w ∧
      ((net_split_out E o w).2.net.outs o).target =
        insBelow w (net_add_op_at_pos (w.net.outs o).opIdx w).toNat ∧
      ((w.net.outs o).target ≥ 0 →
        ((net_split_out E o w).2.net.outs
          (outsBelow w (net_add_op_at_pos (w.net.outs o).opIdx w).toNat)).opIdx =
          net_add_op_at_pos (w.net.outs o).opIdx w ∧
        ((net_split_out E o w).2.net.outs
          (outsBelow w (net_add_op_at_pos (w.net.outs o).opIdx w).toNat)).opOutIdx = 0 ∧
        ((net_split_out E o w).2.net.outs
          (outsBelow w (net_add_op_at_pos (w.net.outs o).opIdx w).toNat)).target =
          if (w.net.outs o).target ≥
              insBelow w (net_add_op_at_pos (w.net.outs o).opIdx w).toNat then
            (w.net.outs o).target + 1
          else (w.net.outs o).target)) := by
  have hks : s16 (w.net.outs o).opIdx = (w.net.outs o).opIdx :=
    s16_of_range (by omega) (by omega)
  have hn0 : 0 ≤ (E.op_registry eOpSplit).numInputs := by omega
  have hn1 : (E.op_registry eOpSplit).numInputs < 256 := by omega
  have hm0 : 0 ≤ (E.op_registry eOpSplit).numOutputs := by omega
  have hm1 : (E.op_registry eOpSplit).numOutputs < 256 := by omega
  constructor
  · intro hfail
    have hf := net_add_op_at_fails E B w g ls lb eOpSplit (w.net.outs o).opIdx hP hn0 hn1 hm0 hm1
      (by rw [hsplitI, hsplitO]; exact hfail)
    unfold net_split_out
    dsimp only
    rw [hks, hf]
    dsimp only
    by_cases htn : (w.net.outs o).target < 0
    · rw [if_pos htn, if_pos (show (-1 : Int) < 0 by decide)]
    · rw [if_neg htn, if_pos (show (-1 : Int) < 0 by decide)]
  · intro hok
    have hcap : w.net.numOps < E.NET_OPS_MAX := by omega
    have hfitI : (E.op_registry eOpSplit).numInputs ≤ E.NET_INS_MAX - w.net.numIns := by omega
    have hfitO : (E.op_registry eOpSplit).numOutputs ≤ E.NET_OUTS_MAX - w.net.numOuts := by
      omega
    obtain ⟨addr, hmem⟩ : ∃ addr, (net_alloc_op (E.op_registry eOpSplit).size w.pools).1 =
        some addr := by
      cases hal : (net_alloc_op (E.op_registry eOpSplit).size w.pools).1 with
      | none => exact absurd (Or.inr (Or.inl hal)) hok
      | some a => exact ⟨a, rfl⟩
    obtain ⟨w3, W, heq, hshape, htg, e1, e2, e3, -, e5, e6, e7⟩ :=
      net_add_op_at_stages E eOpSplit (w.net.outs o).opIdx w addr hcap hmem hn0 hn1 hm0 hm1
        hfitI hfitO hlimO (by omega) (by omega) (by omega) h1 (by omega)
    have hpe := net_add_op_at_pos_eq (w.net.outs o).opIdx w
    generalize net_add_op_at_pos (w.net.outs o).opIdx w = p at *
    have hF0 : 0 ≤ insBelow w p.toNat :=
      insBelow_nonneg w _ (fun i hi => hcnt i (by omega))
    generalize insBelow w p.toNat = F at *
    generalize outsBelow w p.toNat = G at *
    generalize htd : (w.net.outs o).target = t at *
    generalize hkd : (w.net.outs o).opIdx = k at *
    rw [hsplitI] at htg e2 e6
    rw [hsplitO] at e3 e7
    have hp0 : 0 ≤ p := by omega
    have hp1 : p ≤ w.net.numOps := by omega
    have hkp : k < p := by omega
    have hoG : o < G := (hout o ho0 ho1).1 (by rw [hkd]; exact hkp)
    -- the state after the insertion
    have hWins : ∀ j, W.net.ins j = w3.net.ins j := congrFun (congrArg Shape.ins hshape)
    have hWown : ∀ j, ((W.net.outs j).opIdx, (W.net.outs j).opOutIdx) =
        ((w3.net.outs j).opIdx, (w3.net.outs j).opOutIdx) :=
      congrFun (congrArg Shape.outOwner hshape)
    have hWnI : W.net.numIns = w.net.numIns + 1 := (congrArg Shape.numIns hshape).trans e2
    have hWnO : W.net.numOuts = w.net.numOuts + 2 := (congrArg Shape.numOuts hshape).trans e3
    have hWnP : W.net.numOps = w.net.numOps + 1 := (congrArg Shape.numOps hshape).trans e1
    have hWtype : (W.net.ops p).type = eOpSplit := by
      have h := congrArg (fun x => x.2.1) (congrFun (congrArg Shape.opFixed hshape) p)
      have h2 : (W.net.ops p).type = (w3.net.ops p).type := h
      rw [h2, e5, if_pos rfl]
      rfl
    have hinsF : (W.net.ins F).opIdx = p := by
      rw [hWins, e6, if_pos ⟨le_refl _, by omega⟩]
    have hinsB : ∀ j, 0 ≤ j → j < F → (W.net.ins j).opIdx ≠ p := by
      intro j hj0 hj1
      rw [hWins, e6, if_neg (by omega), if_neg (by omega)]
      have := hin j hj0 hj1
      omega
    have houtN : ∀ j, G ≤ j → j < G + 2 → w3.net.outs j =
        { opOutIdx := u8 (j - G), target := -1, opIdx := p } := by
      intro j hj0 hj1
      rw [e7, if_pos ⟨hj0, hj1⟩]
    have houtB : ∀ j, 0 ≤ j → j < G → w3.net.outs j = w.net.outs j := by
      intro j hj0 hj1
      rw [e7, if_neg (by omega), if_neg (by omega)]
    have hownN : ∀ j, G ≤ j → j < G + 2 → (W.net.outs j).opIdx = p ∧
        (W.net.outs j).opOutIdx = u8 (j - G) := by
      intro j hj0 hj1
      have h := hWown j
      rw [houtN j hj0 hj1] at h
      exact ⟨congrArg Prod.fst h, congrArg Prod.snd h⟩
    have hownB : ∀ j, 0 ≤ j → j < G → (W.net.outs j).opIdx ≠ p := by
      intro j hj0 hj1
      have h := congrArg Prod.fst (hWown j)
      rw [houtB j hj0 hj1] at h
      have h2 : (W.net.outs j).opIdx = (w.net.outs j).opIdx := h
      rw [h2]
      have := (hout j hj0 (by omega)).2 hj1
      omega
    have htN : ∀ j, G ≤ j → j < G + 2 → W.target j = -1 := by
      intro j hj0 hj1
      rw [htg]
      have h3 : w3.target j = -1 := by
        show (w3.net.outs j).target = -1
        rw [houtN j hj0 hj1]
      rw [h3, if_neg (by omega)]
    have hto : W.target o = if t ≥ F then t + 1 else t := by
      rw [htg]
      have h3 : w3.target o = t := by
        show (w3.net.outs o).target = t
        rw [houtB o ho0 hoG, htd]
      have hr := htar o ho0 ho1
      rw [htd] at hr
      rw [h3]
      by_cases hc : t ≥ F
      · rw [if_pos ⟨ho0, by omega, hc⟩, if_pos hc, s16_of_range (by omega) (by omega)]
      · rw [if_neg (fun h => hc h.2.2), if_neg hc]
    -- the indices found in the new state
    have hfindI : net_op_in_idx p 0 W = F :=
      net_op_in_idx_first p F W hp0 (by omega) hF0 (by omega) (by omega) hinsB
        hinsF
    have hfindO : ∀ X : World, X.shape = W.shape → ∀ i, 0 ≤ i → i ≤ 1 →
        net_op_out_idx p i X = G + i := by
      intro X hX i hi0 hi1
      have hXown : ∀ j, (X.net.outs j).opIdx = (W.net.outs j).opIdx := fun j =>
        congrArg Prod.fst (congrFun (congrArg Shape.outOwner hX) j)
      have hXn : X.net.numOuts = W.net.numOuts := congrArg Shape.numOuts hX
      exact net_op_out_idx_block p G i X hp0 (by omega) (by omega) (by omega) hi0 (by omega)
        (fun j hj0 hj1 => by rw [hXown]; exact hownB j hj0 hj1)
        (by rw [hXown]; exact (hownN G (le_refl _) (by omega)).1)
    have huo : u32 o = o := u32_of_range ho0 (by omega)
    have hsF : s16 F = F := s16_of_range (by omega) (by omega)
    obtain ⟨W1, hW1⟩ : ∃ W1, W1 = net_connect o F W := ⟨_, rfl⟩
    have hs1 : W1.shape = W.shape := by rw [hW1]; exact net_connect_shape _ _ _
    have ht1 : ∀ j, W1.target j = if j = o then F else W.target j := by
      intro j; rw [hW1, net_connect_target, hsF]
    unfold net_split_out
    dsimp only
    rw [hkd, htd, hks, heq]
    dsimp only
    have hpneg : ¬ p < 0 := by omega
    by_cases htneg : t < 0
    · rw [if_pos htneg, if_pos htneg, if_neg hpneg, hfindI, huo, ← hW1,
        hfindO W1 hs1 0 (le_refl _) (by omega)]
      have e0 : G + 0 = G := by omega
      rw [e0, s16_of_range (by omega) (by omega)]
      have hown1 : ∀ j, (W1.net.outs j).opIdx = (W.net.outs j).opIdx := fun j =>
        congrArg Prod.fst (congrFun (congrArg Shape.outOwner hs1) j)
      refine ⟨rfl, ?_, ?_, ?_, ?_, ?_, ?_, ?_⟩
      · exact (congrArg Shape.numOps hs1).trans hWnP
      · have h := congrArg (fun x => x.2.1) (congrFun (congrArg Shape.opFixed hs1) p)
        exact h.trans hWtype
      · rw [hown1]; exact (hownN G (le_refl _) (by omega)).1
      · show W1.target G = -1
        rw [ht1, if_neg (by omega)]
        exact htN G (le_refl _) (by omega)
      · have h : W1.net.ins F = W.net.ins F := congrFun (congrArg Shape.ins hs1) F
        rw [h, hinsF]
      · show W1.target o = F
        rw [ht1, if_pos rfl]
      · intro hc; omega
    · rw [if_neg htneg, if_neg htneg, if_neg hpneg, hfindI, huo, ← hW1,
        hfindO W1 hs1 0 (le_refl _) (by omega)]
      have htW : (W.net.outs o).target = if t ≥ F then t + 1 else t := hto
      have hr := htar o ho0 ho1
      rw [htd] at hr
      have ht2 : 0 ≤ (if t ≥ F then t + 1 else t) ∧ (if t ≥ F then t + 1 else t) < 32768 := by
        split_ifs <;> omega
      have e0 : G + 0 = G := by omega
      rw [htW, e0, u32_of_range ht2.1 (by omega)]
      obtain ⟨W2, hW2⟩ : ∃ W2, W2 = net_connect G (if t ≥ F then t + 1 else t) W1 := ⟨_, rfl⟩
      have hs2 : W2.shape = W.shape := by
        rw [hW2]; exact (net_connect_shape _ _ _).trans hs1
      have ht2b : ∀ j, W2.target j = if j = G then (if t ≥ F then t + 1 else t)
          else W1.target j := by
        intro j; rw [hW2, net_connect_target, s16_of_range (by omega) ht2.2]
      rw [← hW2, hfindO W2 hs2 1 (by omega) (le_refl _), s16_of_range (by omega) (by omega)]
      have hown2 : ∀ j, (W2.net.outs j).opIdx = (W.net.outs j).opIdx ∧
          (W2.net.outs j).opOutIdx = (W.net.outs j).opOutIdx := fun j =>
        ⟨congrArg Prod.fst (congrFun (congrArg Shape.outOwner hs2) j),
          congrArg Prod.snd (congrFun (congrArg Shape.outOwner hs2) j)⟩
      refine ⟨rfl, ?_, ?_, ?_, ?_, ?_, ?_, ?_⟩
      · exact (congrArg Shape.numOps hs2).trans hWnP
      · have h := congrArg (fun x => x.2.1) (congrFun (congrArg Shape.opFixed hs2) p)
        exact h.trans hWtype
      · rw [(hown2 _).1]; exact (hownN (G + 1) (by omega) (by omega)).1
      · show W2.target (G + 1) = -1
        rw [ht2b, if_neg (by omega), ht1, if_neg (by omega)]
        exact htN (G + 1) (by omega) (by omega)
      · have h : W2.net.ins F = W.net.ins F := congrFun (congrArg Shape.ins hs2) F
        rw [h, hinsF]
      · show W2.target o = F
        rw [ht2b, if_neg (by omega), ht1, if_pos rfl]
      · intro _
        refine ⟨?_, ?_, ?_⟩
        · rw [(hown2 _).1]; exact (hownN G (le_refl _) (by omega)).1
        · rw [(hown2 _).2, (hownN G (le_refl _) (by omega)).2]
          have : G - G = 0 := by omega
          rw [this]; rfl
        · show W2.target G = _
          rw [ht2b, if_pos rfl]

set_option maxRecDepth 100000 in
theorem exWired_pools :
    PoolsInv exEnv ⟨1000000, 2000000, 3000000⟩ exWired.pools [(eOpSplit, 0), (2, 1)]
      (cells 2 498) (cells 0 50) := by
  have h0 := PoolsInv.fresh exEnv 1000000 2000000 3000000 exPool exPool exPool
    ⟨by decide, by decide, by decide⟩
  have h1 := (PoolsInv.alloc_small (h := 0) (t := cells 1 499) h0 eOpSplit (by decide)).2
  have h2 := (PoolsInv.alloc_small (h := 1) (t := cells 2 498) h1 2 (by decide)).2
  exact h2

theorem exWired_counts (i : Nat) (hi : (i : Int) < exWired.net.numOps) :
    0 ≤ (exWired.net.ops i).numInputs := by
  have e : exWired.net.numOps = 2 := by decide!
  rw [e] at hi
  have : i < 2 := by omega
  interval_cases i <;> decide!

theorem exWired_ins_below (j : Int) (h0 : 0 ≤ j)
    (h1 : j < insBelow exWired (net_add_op_at_pos (exWired.net.outs 2).opIdx exWired).toNat) :
    (exWired.net.ins j).opIdx < net_add_op_at_pos (exWired.net.outs 2).opIdx exWired := by
  have e : insBelow exWired (net_add_op_at_pos (exWired.net.outs 2).opIdx exWired).toNat = 3 := by
    decide!
  rw [e] at h1
  have : j = 0 ∨ j = 1 ∨ j = 2 := by omega
  rcases this with rfl | rfl | rfl <;> decide!

theorem exWired_outs_below (j : Int) (h0 : 0 ≤ j) (h1 : j < exWired.net.numOuts) :
    (exWired.net.outs j).opIdx < net_add_op_at_pos (exWired.net.outs 2).opIdx exWired ↔
      j < outsBelow exWired (net_add_op_at_pos (exWired.net.outs 2).opIdx exWired).toNat := by
  have e : exWired.net.numOuts = 3 := by decide!
  rw [e] at h1
  have : j = 0 ∨ j = 1 ∨ j = 2 := by omega
  rcases this with rfl | rfl | rfl <;> decide!

theorem exWired_targets_room (j : Int) (h0 : 0 ≤ j) (h1 : j < exWired.net.numOuts) :
    -32768 ≤ (exWired.net.outs j).target ∧ (exWired.net.outs j).target + 1 < 32768 := by
  have e : exWired.net.numOuts = 3 := by decide!
  rw [e] at h1
  have : j = 0 ∨ j = 1 ∨ j = 2 := by omega
  rcases this with rfl | rfl | rfl <;> decide!

/-- Witness of C18: in `exWired` output 2 (the output of the Add) targets input
0.  Splitting it appends the splitter as operator 2 with input 3 and outputs 3
and 4: the call returns output 4, output 2 targets input 3 and output 3 targets
input 0. -/
theorem net_split_out_splits_witness :
    (net_split_out exEnv 2 exWired).1 = 4 ∧
    ((net_split_out exEnv 2 exWired).2.net.outs 4).target = -1 ∧
    ((net_split_out exEnv 2 exWired).2.net.outs 2).target = 3 ∧
    ((net_split_out exEnv 2 exWired).2.net.outs 3).target = 0 := by
  have h := (net_split_out_splits exEnv ⟨1000000, 2000000, 3000000⟩ [(eOpSplit, 0), (2, 1)]
    (cells 2 498) (cells 0 50) 2 exWired (by decide) (by decide!) (by decide!) (by decide!)
    (by decide!) (by decide) (by decide) (by decide) (by decide) (by decide) (by decide!)
    exWired_counts (by decide!) (by decide!) exWired_ins_below exWired_outs_below
    exWired_targets_room exWired_pools).2 (by decide!)
  have e1 : (net_split_out exEnv 2 exWired).1 = 4 := h.1.trans (by decide!)
  have eF : insBelow exWired (net_add_op_at_pos (exWired.net.outs 2).opIdx exWired).toNat = 3 := by
    decide!
  have eG : outsBelow exWired (net_add_op_at_pos (exWired.net.outs 2).opIdx exWired).toNat = 3 := by
    decide!
  have h5 := h.2.2.2.2.1
  have h7 := h.2.2.2.2.2.2.1
  have h8 := (h.2.2.2.2.2.2.2 (by decide!)).2.2
  rw [e1] at h5
  rw [eF] at h7
  rw [eG] at h8
  exact ⟨e1, h5, h7, h8.trans (by decide!)⟩

/-! ### `net_pop_op` and the preset outputs -/

/-- C16: `net_pop_op` leaves the targets of the preset outputs as they are.  In
`exPresetOut` preset 0 holds for output 0 the enabled target 43, parameter 0 of a
network with 43 inputs.  `net_add_op` of an Add (two inputs) raises `numIns` to 45
and the preset target to 45.  `net_pop_op` then returns 0 and lowers `numIns`
back to 43, but the preset target is still 45, not 43: it no longer denotes
parameter 0, and the pair of calls has changed it. -/
theorem net_pop_op_keeps_preset_targets :
    exPresetOut.net.numIns = 43 ∧ exPresetOut.net.numParams = 1 ∧
    (((net_add_op exEnv 2 exPresetOut).2.presets 0).outs 0).target = 45 ∧
    (net_add_op exEnv 2 exPresetOut).2.net.numIns = 45 ∧
    (net_pop_op exEnv (net_add_op exEnv 2 exPresetOut).2).1 = 0 ∧
    (net_pop_op exEnv (net_add_op exEnv 2 exPresetOut).2).2.net.numIns = 43 ∧
    (net_pop_op exEnv (net_add_op exEnv 2 exPresetOut).2).2.net.numParams = 1 ∧
    (((net_pop_op exEnv (net_add_op exEnv 2 exPresetOut).2).2.presets 0).outs 0).target = 45 ∧
    (((net_pop_op exEnv (net_add_op exEnv 2 exPresetOut).2).2.presets 0).outs 0).enabled = 1 := by
  decide!

/-! ### Operators without inputs and the presets -/

/-- C11: the owner labels do not survive `net_remove_op` of an operator without
inputs.  `exDangling` is the state after `net_remove_op 14` on a network of 15
operators whose operator 14 has no inputs.  It has 14 operators and 48 inputs;
input 0, the first input of operator 0, is labelled -1, and input 47, the only
input of operator 13 (the inputs of the operators below 13 are 0 to 46), is
labelled 12. -/
theorem net_remove_op_breaks_owner_labels :
    exDangling.net.numOps = 14 ∧ exDangling.net.numIns = 48 ∧
    (exDangling.net.ins 0).opIdx = -1 ∧
    insBelow exDangling 13 = 47 ∧ (exDangling.net.ops 13).numInputs = 1 ∧
    (exDangling.net.ins 47).opIdx = 12 := by
  decide!

/-- C12: `net_add_op` of an operator without inputs clears the preset rows of
the parameters.  In `exPresetIn` (43 inputs, one parameter) preset 0 holds the
enabled value 5 in row 43, the row of parameter 0.  Adding an operator of class 6
(no inputs) succeeds as operator 12 and leaves `numIns` at 43, so parameter 0
keeps row 43; but the row is now value 0, not enabled. -/
theorem net_add_op_clears_preset_rows :
    exPresetIn.net.numIns = 43 ∧ exPresetIn.net.numParams = 1 ∧
    (exEnv.op_registry 6).numInputs = 0 ∧
    ((exPresetIn.presets 0).ins 43).value = 5 ∧ ((exPresetIn.presets 0).ins 43).enabled = 1 ∧
    (net_add_op exEnv 6 exPresetIn).1 = 12 ∧
    (net_add_op exEnv 6 exPresetIn).2.net.numIns = 43 ∧
    (((net_add_op exEnv 6 exPresetIn).2.presets 0).ins 43).value = 0 ∧
    (((net_add_op exEnv 6 exPresetIn).2.presets 0).ins 43).enabled = 0 := by
  decide!

/-- C13: `net_add_op_at` of an operator without inputs disables the preset
entries from its insertion point on.  In `exPresetMid` (45 inputs, one parameter)
preset 0 holds the enabled value 7 for input 43 and the enabled value 5 for
parameter 0 (row 45).  Inserting an operator of class 6 (no inputs) after
operator 11 succeeds at index 12, with `f = 43` and `N = 0`; `numIns` stays 45,
the two values stay in their rows, but both rows are no longer enabled. -/
theorem net_add_op_at_disables_preset_rows :
    exPresetMid.net.numIns = 45 ∧ exPresetMid.net.numParams = 1 ∧
    insBelow exPresetMid 12 = 43 ∧ (exEnv.op_registry 6).numInputs = 0 ∧
    ((exPresetMid.presets 0).ins 43).enabled = 1 ∧
    ((exPresetMid.presets 0).ins 45).enabled = 1 ∧
    (net_add_op_at exEnv 6 11 exPresetMid).1 = 12 ∧
    (net_add_op_at exEnv 6 11 exPresetMid).2.net.numIns = 45 ∧
    (((net_add_op_at exEnv 6 11 exPresetMid).2.presets 0).ins 43).value = 7 ∧
    (((net_add_op_at exEnv 6 11 exPresetMid).2.presets 0).ins 43).enabled = 0 ∧
    (((net_add_op_at exEnv 6 11 exPresetMid).2.presets 0).ins 45).value = 5 ∧
    (((net_add_op_at exEnv 6 11 exPresetMid).2.presets 0).ins 45).enabled = 0 := by
  decide!

/-- C15: `net_pop_op` of an operator without inputs clears the preset rows of
the parameters.  In `exPoppable` (13 operators, 43 inputs, one parameter) the last
operator has no inputs and is no system operator, and preset 0 holds the enabled
value 5 in row 43, the row of parameter 0.  `net_pop_op` returns 0 and leaves
`numIns` at 43, so the rows are to move down by 0; but row 43 is now value 0, not
enabled. -/
theorem net_pop_op_clears_preset_rows :
    exPoppable.net.numOps = 13 ∧ exPoppable.net.numIns = 43 ∧
    exPoppable.net.numParams = 1 ∧ (exPoppable.net.ops 12).numInputs = 0 ∧
    net_op_flag 12 exEnv.eOpFlagSys exPoppable = 0 ∧
    ((exPoppable.presets 0).ins 43).value = 5 ∧ ((exPoppable.presets 0).ins 43).enabled = 1 ∧
    (net_pop_op exEnv exPoppable).1 = 0 ∧
    (net_pop_op exEnv exPoppable).2.net.numOps = 12 ∧
    (net_pop_op exEnv exPoppable).2.net.numIns = 43 ∧
    (((net_pop_op exEnv exPoppable).2.presets 0).ins 43).value = 0 ∧
    (((net_pop_op exEnv exPoppable).2.presets 0).ins 43).enabled = 0 := by
  decide!

/-! ### The pools: freeing -/

/-- The body shared by the three free functions accepts the address of block
`k` of the pool. -/
theorem freeOpIn_block (size max : Int) (p : OpPool) (k : Int) (hs : 0 < size)
    (hk0 : 0 ≤ k) (hk1 : k < max) :
    freeOpIn size max (p.data + k * size) p = (0, p.push k) := by
  unfold freeOpIn OpPool.push
  have e1 : p.data + k * size - p.data = k * size := by ring
  have e2 : (k * size).tmod size = 0 := Int.mul_tmod_left _ _
  have e3 : (k * size).tdiv size = k := Int.mul_tdiv_cancel _ (by omega)
  dsimp only
  rw [e1, if_neg (by rw [e2]; exact fun h => h rfl), e3, if_neg (by omega)]

/-- The body shared by the three free functions either turns the address down
and leaves the pool alone, or the address is that of a block of the pool. -/
theorem freeOpIn_cases (size max : Int) (p : OpPool) (x : Int) :
    freeOpIn size max x p = (-1, p) ∨
      ∃ k, 0 ≤ k ∧ k < max ∧ x = p.data + k * size := by
  by_cases h : ∃ k, 0 ≤ k ∧ k < max ∧ x = p.data + k * size
  · exact Or.inr h
  · left
    apply freeOpIn_reject
    intro j hj0 hj1 hx
    exact h ⟨j, hj0, hj1, hx⟩

/-- C21: `freeSmallOp`, `freeMediumOp` and `freeBigOp` accept a pointer only if
it is the address `base + k * SIZE` of a block `k` of the pool, `0 <= k < MAX`
(the offset from the base is a multiple of the block size and the block index is
in range).  A pointer that is no such address (misaligned, below the base, at or
beyond the end of the region) gets -1 and the pools stay as they are; the
address of block `k` gets 0 and block `k` becomes the new head of the free list
of that pool, in front of the former head. -/
theorem free_functions_validate (region : Int) (ps : Pools) :
    ((¬ ∃ k, 0 ≤ k ∧ k < MAX_SMALL_OPS ∧ region = ps.small.data + k * SMALL_OP_SIZE) →
      freeSmallOp region ps = (-1, ps)) ∧
    (∀ k, 0 ≤ k → k < MAX_SMALL_OPS → region = ps.small.data + k * SMALL_OP_SIZE →
      freeSmallOp region ps = (0, { ps with small := ps.small.push k })) ∧
    ((¬ ∃ k, 0 ≤ k ∧ k < MAX_MEDIUM_OPS ∧ region = ps.medium.data + k * MEDIUM_OP_SIZE) →
      freeMediumOp region ps = (-1, ps)) ∧
    (∀ k, 0 ≤ k → k < MAX_MEDIUM_OPS → region = ps.medium.data + k * MEDIUM_OP_SIZE →
      freeMediumOp region ps = (0, { ps with medium := ps.medium.push k })) ∧
    ((¬ ∃ k, 0 ≤ k ∧ k < MAX_BIG_OPS ∧ region = ps.big.data + k * BIG_OP_SIZE) →
      freeBigOp region ps = (-1, ps)) ∧
    (∀ k, 0 ≤ k → k < MAX_BIG_OPS → region = ps.big.data + k * BIG_OP_SIZE →
      freeBigOp region ps = (0, { ps with big := ps.big.push k })) := by
  refine ⟨?_, ?_, ?_, ?_, ?_, ?_⟩
  · intro h
    unfold freeSmallOp
    rcases freeOpIn_cases SMALL_OP_SIZE MAX_SMALL_OPS ps.small region with e | e
    · rw [e]
    · exact absurd e h
  · intro k hk0 hk1 hr
    unfold freeSmallOp
    rw [hr, freeOpIn_block SMALL_OP_SIZE MAX_SMALL_OPS ps.small k (by decide) hk0 hk1]
  · intro h
    unfold freeMediumOp
    rcases freeOpIn_cases MEDIUM_OP_SIZE MAX_MEDIUM_OPS ps.medium region with e | e
    · rw [e]
    · exact absurd e h
  · intro k hk0 hk1 hr
    unfold freeMediumOp
    rw [hr, freeOpIn_block MEDIUM_OP_SIZE MAX_MEDIUM_OPS ps.medium k (by decide) hk0 hk1]
  · intro h
    unfold freeBigOp
    rcases freeOpIn_cases BIG_OP_SIZE MAX_BIG_OPS ps.big region with e | e
    · rw [e]
    · exact absurd e h
  · intro k hk0 hk1 hr
    unfold freeBigOp
    rw [hr, freeOpIn_block BIG_OP_SIZE MAX_BIG_OPS ps.big k (by decide) hk0 hk1]

/-- Witness of C21: in the example memory the address of block 1 of the small
pool is accepted by `freeSmallOp`. -/
theorem free_functions_validate_witness :
    freeSmallOp 1000128 exBlank.pools =
      (0, { exBlank.pools with small := exBlank.pools.small.push 1 }) :=
  (free_functions_validate 1000128 exBlank.pools).2.1 1 (by decide) (by decide) (by decide!)

/-- A block address of the medium pool is no block address of the small pool. -/
theorem freeOp_rejects_small_of_medium (ps : Pools) (k : Int)
    (hd : Bases.Disjoint ⟨ps.small.data, ps.medium.data, ps.big.data⟩)
    (hk0 : 0 ≤ k) (hk1 : k < MAX_MEDIUM_OPS) :
    freeOpIn SMALL_OP_SIZE MAX_SMALL_OPS (ps.medium.data + k * MEDIUM_OP_SIZE) ps.small =
      (-1, ps.small) := by
  apply freeOpIn_reject
  intro j hj0 hj1
  have hab := hd.ab
  simp only [SMALL_OP_SIZE, MAX_SMALL_OPS, MEDIUM_OP_SIZE, MAX_MEDIUM_OPS] at hab hk1 hj1 ⊢
  omega

theorem freeOp_rejects_small_of_big (ps : Pools) (k : Int)
    (hd : Bases.Disjoint ⟨ps.small.data, ps.medium.data, ps.big.data⟩)
    (hk0 : 0 ≤ k) (hk1 : k < MAX_BIG_OPS) :
    freeOpIn SMALL_OP_SIZE MAX_SMALL_OPS (ps.big.data + k * BIG_OP_SIZE) ps.small =
      (-1, ps.small) := by
  apply freeOpIn_reject
  intro j hj0 hj1
  have hac := hd.ac
  simp only [SMALL_OP_SIZE, MAX_SMALL_OPS, BIG_OP_SIZE, MAX_BIG_OPS] at hac hk1 hj1 ⊢
  omega

theorem freeOp_rejects_medium_of_big (ps : Pools) (k : Int)
    (hd : Bases.Disjoint ⟨ps.small.data, ps.medium.data, ps.big.data⟩)
    (hk0 : 0 ≤ k) (hk1 : k < MAX_BIG_OPS) :
    freeOpIn MEDIUM_OP_SIZE MAX_MEDIUM_OPS (ps.big.data + k * BIG_OP_SIZE) ps.medium =
      (-1, ps.medium) := by
  apply freeOpIn_reject
  intro j hj0 hj1
  have hbc := hd.bc
  simp only [MEDIUM_OP_SIZE, MAX_MEDIUM_OPS, BIG_OP_SIZE, MAX_BIG_OPS] at hbc hk1 hj1 ⊢
  omega

/-- The generic `freeOp` on a block address of the small pool. -/
theorem freeOp_small_block (ps : Pools) (k : Int) (hk0 : 0 ≤ k) (hk1 : k < MAX_SMALL_OPS) :
    freeOp (ps.small.data + k * SMALL_OP_SIZE) ps =
      (0, { ps with small := ps.small.push k }) := by
  unfold freeOp freeSmallOp
  dsimp only
  rw [freeOpIn_block SMALL_OP_SIZE MAX_SMALL_OPS ps.small k (by decide) hk0 hk1]
  rw [if_pos (by show (0 : Int) ≠ -1; decide)]

/-- The generic `freeOp` on a block address of the medium pool. -/
theorem freeOp_medium_block (ps : Pools) (k : Int)
    (hd : Bases.Disjoint ⟨ps.small.data, ps.medium.data, ps.big.data⟩)
    (hk0 : 0 ≤ k) (hk1 : k < MAX_MEDIUM_OPS) :
    freeOp (ps.medium.data + k * MEDIUM_OP_SIZE) ps =
      (0, { ps with medium := ps.medium.push k }) := by
  unfold freeOp freeSmallOp freeMediumOp
  dsimp only
  rw [freeOp_rejects_small_of_medium ps k hd hk0 hk1]
  dsimp only
  rw [if_neg (by decide),
    freeOpIn_block MEDIUM_OP_SIZE MAX_MEDIUM_OPS ps.medium k (by decide) hk0 hk1]
  rw [if_pos (by show (0 : Int) ≠ -1; decide)]

/-- The generic `freeOp` on a block address of the big pool. -/
theorem freeOp_big_block (ps : Pools) (k : Int)
    (hd : Bases.Disjoint ⟨ps.small.data, ps.medium.data, ps.big.data⟩)
    (hk0 : 0 ≤ k) (hk1 : k < MAX_BIG_OPS) :
    freeOp (ps.big.data + k * BIG_OP_SIZE) ps =
      (0, { ps with big := ps.big.push k }) := by
  unfold freeOp freeSmallOp freeMediumOp freeBigOp
  dsimp only
  rw [freeOp_rejects_small_of_big ps k hd hk0 hk1]
  dsimp only
  rw [if_neg (by decide), freeOp_rejects_medium_of_big ps k hd hk0 hk1]
  dsimp only
  rw [if_neg (by decide), freeOpIn_block BIG_OP_SIZE MAX_BIG_OPS ps.big k (by decide) hk0 hk1]
  rw [if_pos (by show (0 : Int) ≠ -1; decide)]

/-- C23: when the three pool regions are pairwise disjoint, `freeOp` called
with the address of block `k` of one pool returns 0 and pushes block `k` onto the
free list of the pool that owns it; the other two pools are as before. -/
theorem freeOp_frees_in_owner (ps : Pools) (k : Int)
    (hd : Bases.Disjoint ⟨ps.small.data, ps.medium.data, ps.big.data⟩) (hk0 : 0 ≤ k) :
    (k < MAX_SMALL_OPS →
      freeOp (ps.small.data + k * SMALL_OP_SIZE) ps =
        (0, { ps with small := ps.small.push k })) ∧
    (k < MAX_MEDIUM_OPS →
      freeOp (ps.medium.data + k * MEDIUM_OP_SIZE) ps =
        (0, { ps with medium := ps.medium.push k })) ∧
    (k < MAX_BIG_OPS →
      freeOp (ps.big.data + k * BIG_OP_SIZE) ps =
        (0, { ps with big := ps.big.push k })) :=
  ⟨freeOp_small_block ps k hk0, freeOp_medium_block ps k hd hk0, freeOp_big_block ps k hd hk0⟩

/-- Witness of C23: in the example memory block 3 of the medium pool is freed
by `freeOp` into the medium pool. -/
theorem freeOp_frees_in_owner_witness :
    freeOp (exBlank.pools.medium.data + 3 * MEDIUM_OP_SIZE) exBlank.pools =
      (0, { exBlank.pools with medium := exBlank.pools.medium.push 3 }) :=
  (freeOp_frees_in_owner exBlank.pools 3 ⟨by decide!, by decide!, by decide!⟩ (by decide)).2.1
    (by decide)

/-- What `freeOp` does with an address that all three pools turn down: it
returns 0 and leaves the pools alone. -/
theorem freeOp_all_reject (x : Int) (ps : Pools)
    (h1 : (freeSmallOp x ps).1 = -1) (h2 : (freeMediumOp x ps).1 = -1)
    (h3 : (freeBigOp x ps).1 = -1) : freeOp x ps = (0, ps) := by
  have e1 : freeOpIn SMALL_OP_SIZE MAX_SMALL_OPS x ps.small = (-1, ps.small) := by
    rcases freeOpIn_cases SMALL_OP_SIZE MAX_SMALL_OPS ps.small x with e | ⟨k, hk0, hk1, hx⟩
    · exact e
    · exfalso
      unfold freeSmallOp at h1
      rw [hx, freeOpIn_block _ _ _ k (by decide) hk0 hk1] at h1
      exact absurd h1 (by show ¬ ((0 : Int) = -1); decide)
  have e2 : freeOpIn MEDIUM_OP_SIZE MAX_MEDIUM_OPS x ps.medium = (-1, ps.medium) := by
    rcases freeOpIn_cases MEDIUM_OP_SIZE MAX_MEDIUM_OPS ps.medium x with e | ⟨k, hk0, hk1, hx⟩
    · exact e
    · exfalso
      unfold freeMediumOp at h2
      rw [hx, freeOpIn_block _ _ _ k (by decide) hk0 hk1] at h2
      exact absurd h2 (by show ¬ ((0 : Int) = -1); decide)
  have e3 : freeOpIn BIG_OP_SIZE MAX_BIG_OPS x ps.big = (-1, ps.big) := by
    rcases freeOpIn_cases BIG_OP_SIZE MAX_BIG_OPS ps.big x with e | ⟨k, hk0, hk1, hx⟩
    · exact e
    · exfalso
      unfold freeBigOp at h3
      rw [hx, freeOpIn_block _ _ _ k (by decide) hk0 hk1] at h3
      exact absurd h3 (by show ¬ ((0 : Int) = -1); decide)
  unfold freeOp freeSmallOp freeMediumOp freeBigOp
  dsimp only
  rw [e1]
  dsimp only
  rw [if_neg (by decide), e2]
  dsimp only
  rw [if_neg (by decide), e3]
  dsimp only
  rw [if_neg (by decide)]

/-- C22: `freeOp` does not report an address that belongs to no pool.  In the
example memory (pools at 1000000, 2000000 and 3000000) the address 1000001 is no
block address: `freeSmallOp`, `freeMediumOp` and `freeBigOp` each return -1 for
it.  `freeOp` leaves the pools as they are but returns 0, the value it returns
for a block it has freed. -/
theorem freeOp_hides_rejection :
    (freeSmallOp 1000001 exBlank.pools).1 = -1 ∧
    (freeMediumOp 1000001 exBlank.pools).1 = -1 ∧
    (freeBigOp 1000001 exBlank.pools).1 = -1 ∧
    freeOp 1000001 exBlank.pools = (0, exBlank.pools) := by
  have h1 : (freeSmallOp 1000001 exBlank.pools).1 = -1 := by decide!
  have h2 : (freeMediumOp 1000001 exBlank.pools).1 = -1 := by decide!
  have h3 : (freeBigOp 1000001 exBlank.pools).1 = -1 := by decide!
  exact ⟨h1, h2, h3, freeOp_all_reject _ _ h1 h2 h3⟩

/-! ### The pools: statistics -/

theorem getPoolStats_count_chain (pool : Int → OpCons) :
    ∀ (l : List Int) (fuel : Nat) (h : Option Int) (acc : Int), Chain pool h l →
      l.length ≤ fuel → 0 ≤ acc → acc + l.length < 4294967296 →
      getPoolStats_count pool fuel h acc = some (acc + l.length)
  | [], fuel, h, acc, hc, _, _, _ => by
    rw [hc.nil_inv]
    cases fuel <;> simp [getPoolStats_count]
  | x :: t, fuel, h, acc, hc, hf, ha, hb => by
    obtain ⟨e, ht⟩ := hc.cons_inv
    rw [e]
    cases fuel with
    | zero => simp at hf
    | succ n =>
      simp only [List.length_cons] at hf hb
      push_cast at hb
      rw [getPoolStats_count, u32_of_range (by omega) (by omega),
        getPoolStats_count_chain pool t n _ _ ht (by omega) (by omega) (by omega)]
      simp only [List.length_cons]
      push_cast
      congr 1
      ring

theorem PoolAcc.at_init (size : Int) (max : Nat) (region : Int) (p : OpPool) (hm : 1 ≤ max) :
    PoolAcc size max (initMemPool size max region p) [] [] (cells 0 max) := by
  obtain ⟨h1, h2⟩ := initMemPool_ok size max region p hm
  exact
    { ok := h2, addrs := rfl, nodup := cells_nodup _ _,
      range := fun i hi => by
        have h : i ∈ cells 0 max := hi
        rw [cells_mem] at h
        omega
      length := cells_length _ _ }

theorem PoolAcc.alloc {size : Int} {max : Nat} {p : OpPool} {A ca l : List Int}
    (h : PoolAcc size max p A ca l) (x : Int) (hx : (allocOp p).1 = some x) :
    ∃ i t, l = i :: t ∧ PoolAcc size max (allocOp p).2 (x :: A) (i :: ca) t := by
  cases l with
  | nil =>
    rw [allocOp_nil _ _ _ h.ok] at hx
    cases hx
  | cons i t =>
    have hr := h.range i (List.mem_append_right _ (List.mem_cons_self _ _))
    obtain ⟨a1, a2, a3⟩ := allocOp_cons size max p i t h.ok hr
    rw [a1] at hx
    have hxe : x = p.data + i * size := (Option.some.inj hx).symm
    have hP : ((i :: ca) ++ t).Perm (ca ++ i :: t) := List.perm_middle.symm
    refine ⟨i, t, rfl, ?_⟩
    exact
      { ok := a3
        addrs := by rw [List.map_cons, a2, hxe, h.addrs]
        nodup := hP.nodup_iff.2 h.nodup
        range := fun j hj => h.range j (hP.mem_iff.1 hj)
        length := by rw [hP.length_eq]; exact h.length }

theorem PoolAcc.release {size : Int} {max : Nat} {p : OpPool} {A ca l : List Int}
    (h : PoolAcc size max p A ca l) (hs : 0 < size) (x : Int) (hx : x ∈ A) :
    ∃ i, i ∈ ca ∧ x = p.data + i * size ∧ 0 ≤ i ∧ i < (max : Int) ∧
      freeOpIn size max x p = (0, p.push i) ∧
      PoolAcc size max (p.push i) (A.erase x) (ca.erase i) (i :: l) := by
  rw [h.addrs, List.mem_map] at hx
  obtain ⟨i, hi, hxi⟩ := hx
  have hr := h.range i (List.mem_append_left _ hi)
  have hnl : i ∉ l := fun hc => (List.nodup_append.1 h.nodup).2.2 hi hc
  obtain ⟨f1, f2, f3⟩ := freeOpIn_accept size max p i l hs h.ok hr.1 hr.2 hnl
  have hfe := freeOpIn_block size max p i hs hr.1 hr.2
  rw [hfe] at f2 f3
  have hinj : Function.Injective (fun j : Int => p.data + j * size) := by
    intro a b hab
    have h2 : a * size = b * size := by
      have h3 : p.data + a * size = p.data + b * size := hab
      omega
    exact Int.eq_of_mul_eq_mul_right (by omega) h2
  have hP1 : (ca ++ l).Perm ((i :: ca.erase i) ++ l) :=
    (List.perm_cons_erase hi).append_right l
  have hP2 : ((i :: ca.erase i) ++ l).Perm (ca.erase i ++ i :: l) := List.perm_middle.symm
  have hP := hP1.trans hP2
  refine ⟨i, hi, hxi.symm, hr.1, hr.2, by rw [← hxi]; exact hfe, ?_⟩
  exact
    { ok := f3
      addrs := by
        rw [h.addrs, ← hxi, ← List.map_erase hinj]
        rfl
      nodup := hP.nodup_iff.1 h.nodup
      range := fun j hj => h.range j (hP.mem_iff.2 hj)
      length := by rw [← hP.length_eq]; exact h.length }

theorem allocOp_data (p : OpPool) : (allocOp p).2.data = p.data := by
  unfold allocOp
  cases p.head <;> rfl

/-- What holds of every state of the pools reached by initialisation,
allocations and frees of allocated blocks. -/
theorem PoolsReach.acc {ps : Pools} {S M B : List Int} (h : PoolsReach ps S M B) :
    ∃ cs ls cm lm cb lb,
      PoolAcc SMALL_OP_SIZE 500 ps.small S cs ls ∧
      PoolAcc MEDIUM_OP_SIZE 200 ps.medium M cm lm ∧
      PoolAcc BIG_OP_SIZE 50 ps.big B cb lb ∧
      Bases.Disjoint ⟨ps.small.data, ps.medium.data, ps.big.data⟩ := by
  induction h with
  | init a b c p q r hd =>
    refine ⟨[], _, [], _, [], _, PoolAcc.at_init SMALL_OP_SIZE 500 a p (by decide),
      PoolAcc.at_init MEDIUM_OP_SIZE 200 b q (by decide),
      PoolAcc.at_init BIG_OP_SIZE 50 c r (by decide), ?_⟩
    have e1 := (initMemPool_ok SMALL_OP_SIZE 500 a p (by decide)).1
    have e2 := (initMemPool_ok MEDIUM_OP_SIZE 200 b q (by decide)).1
    have e3 := (initMemPool_ok BIG_OP_SIZE 50 c r (by decide)).1
    have e1b : (initSmallMemPool a p).data = a := e1
    have e2b : (initMediumMemPool (some b) q).data = b := e2
    have e3b : (initBigMemPool c r).data = c := e3
    show Bases.Disjoint ⟨(initSmallMemPool a p).data, (initMediumMemPool (some b) q).data,
      (initBigMemPool c r).data⟩
    rw [e1b, e2b, e3b]
    exact hd
  | allocSmall ps S M B x _ hx ih =>
    obtain ⟨cs, ls, cm, lm, cb, lb, h1, h2, h3, hd⟩ := ih
    obtain ⟨i, t, -, h4⟩ := h1.alloc x hx
    refine ⟨_, _, cm, lm, cb, lb, h4, h2, h3, ?_⟩
    show Bases.Disjoint ⟨(allocOp ps.small).2.data, ps.medium.data, ps.big.data⟩
    rw [allocOp_data]
    exact hd
  | allocMedium ps S M B x _ hx ih =>
    obtain ⟨cs, ls, cm, lm, cb, lb, h1, h2, h3, hd⟩ := ih
    obtain ⟨i, t, -, h4⟩ := h2.alloc x hx
    refine ⟨cs, ls, _, _, cb, lb, h1, h4, h3, ?_⟩
    show Bases.Disjoint ⟨ps.small.data, (allocOp ps.medium).2.data, ps.big.data⟩
    rw [allocOp_data]
    exact hd
  | allocBig ps S M B x _ hx ih =>
    obtain ⟨cs, ls, cm, lm, cb, lb, h1, h2, h3, hd⟩ := ih
    obtain ⟨i, t, -, h4⟩ := h3.alloc x hx
    refine ⟨cs, ls, cm, lm, _, _, h1, h2, h4, ?_⟩
    show Bases.Disjoint ⟨ps.small.data, ps.medium.data, (allocOp ps.big).2.data⟩
    rw [allocOp_data]
    exact hd
  | freeSmall ps S M B x _ hx ih =>
    obtain ⟨cs, ls, cm, lm, cb, lb, h1, h2, h3, hd⟩ := ih
    obtain ⟨i, -, -, -, -, hf, h4⟩ := h1.release (by decide) x hx
    have e : (freeSmallOp x ps).2 = { ps with small := ps.small.push i } := by
      unfold freeSmallOp
      have hf2 : freeOpIn SMALL_OP_SIZE MAX_SMALL_OPS x ps.small = (0, ps.small.push i) := hf
      rw [hf2]
    rw [e]
    exact ⟨_, _, cm, lm, cb, lb, h4, h2, h3, hd⟩
  | freeMedium ps S M B x _ hx ih =>
    obtain ⟨cs, ls, cm, lm, cb, lb, h1, h2, h3, hd⟩ := ih
    obtain ⟨i, -, -, -, -, hf, h4⟩ := h2.release (by decide) x hx
    have e : (freeMediumOp x ps).2 = { ps with medium := ps.medium.push i } := by
      unfold freeMediumOp
      have hf2 : freeOpIn MEDIUM_OP_SIZE MAX_MEDIUM_OPS x ps.medium = (0, ps.medium.push i) := hf
      rw [hf2]
    rw [e]
    exact ⟨cs, ls, _, _, cb, lb, h1, h4, h3, hd⟩
  | freeBig ps S M B x _ hx ih =>
    obtain ⟨cs, ls, cm, lm, cb, lb, h1, h2, h3, hd⟩ := ih
    obtain ⟨i, -, -, -, -, hf, h4⟩ := h3.release (by decide) x hx
    have e : (freeBigOp x ps).2 = { ps with big := ps.big.push i } := by
      unfold freeBigOp
      have hf2 : freeOpIn BIG_OP_SIZE MAX_BIG_OPS x ps.big = (0, ps.big.push i) := hf
      rw [hf2]
    rw [e]
    exact ⟨cs, ls, cm, lm, _, _, h1, h2, h4, hd⟩
  | freeOfSmall ps S M B x _ hx ih =>
    obtain ⟨cs, ls, cm, lm, cb, lb, h1, h2, h3, hd⟩ := ih
    obtain ⟨i, -, hxi, hi0, hi1, -, h4⟩ := h1.release (by decide) x hx
    rw [hxi, freeOp_small_block ps i hi0 hi1]
    rw [hxi] at h4
    exact ⟨_, _, cm, lm, cb, lb, h4, h2, h3, hd⟩
  | freeOfMedium ps S M B x _ hx ih =>
    obtain ⟨cs, ls, cm, lm, cb, lb, h1, h2, h3, hd⟩ := ih
    obtain ⟨i, -, hxi, hi0, hi1, -, h4⟩ := h2.release (by decide) x hx
    rw [hxi, freeOp_medium_block ps i hd hi0 hi1]
    rw [hxi] at h4
    exact ⟨cs, ls, _, _, cb, lb, h1, h4, h3, hd⟩
  | freeOfBig ps S M B x _ hx ih =>
    obtain ⟨cs, ls, cm, lm, cb, lb, h1, h2, h3, hd⟩ := ih
    obtain ⟨i, -, hxi, hi0, hi1, -, h4⟩ := h3.release (by decide) x hx
    rw [hxi, freeOp_big_block ps i hd hi0 hi1]
    rw [hxi] at h4
    exact ⟨cs, ls, cm, lm, _, _, h1, h2, h4, hd⟩

/-- The count of one pool: with enough iterations the loop ends, and the
capacity less the count is the number of allocated blocks. -/
theorem PoolAcc.count {size : Int} {max : Nat} {p : OpPool} {A ca l : List Int}
    (h : PoolAcc size max p A ca l) (fuel : Nat) (hf : max ≤ fuel) (hm : max < 4294967296) :
    ∃ n : Int, getPoolStats_count p.pool fuel p.head 0 = some n ∧
      u32 ((max : Int) - n) = A.length := by
  have hl := h.length
  rw [List.length_append] at hl
  refine ⟨(0 : Int) + l.length, getPoolStats_count_chain p.pool l fuel p.head 0 h.ok.chain
    (by omega) (le_refl _) (by omega), ?_⟩
  rw [h.addrs, List.length_map]
  rw [u32_of_range (by omega) (by omega)]
  omega

/-- C25: in every state of the pools reached by initialisation, successful
allocations and frees of blocks allocated at the time, where `S`, `M` and `B` are
the blocks of the small, medium and big pool allocated and not yet freed,
`getPoolStats` ends (500 iterations per loop are enough) and reports the three
numbers of those blocks; it only reads the pools. -/
theorem getPoolStats_counts_allocated (ps : Pools) (S M B : List Int) (fuel : Nat)
    (h : PoolsReach ps S M B) (hf : 500 ≤ fuel) :
    getPoolStats fuel ps = some ((S.length : Int), (M.length : Int), (B.length : Int)) := by
  obtain ⟨cs, ls, cm, lm, cb, lb, h1, h2, h3, -⟩ := h.acc
  obtain ⟨n1, e1, u1⟩ := h1.count fuel (by omega) (by decide)
  obtain ⟨n2, e2, u2⟩ := h2.count fuel (by omega) (by decide)
  obtain ⟨n3, e3, u3⟩ := h3.count fuel (by omega) (by decide)
  unfold getPoolStats
  rw [e1, e2, e3]
  dsimp only
  have v1 : u32 (MAX_SMALL_OPS - n1) = S.length := u1
  have v2 : u32 (MAX_MEDIUM_OPS - n2) = M.length := u2
  have v3 : u32 (MAX_BIG_OPS - n3) = B.length := u3
  rw [v1, v2, v3]

/-- Witness of C25: after the initialisation of the example memory and one
allocation from the small pool, one block of the small pool is in use. -/
theorem getPoolStats_counts_allocated_witness :
    getPoolStats 500 (allocSmallOp exBlank.pools).2 = some (1, 0, 0) :=
  getPoolStats_counts_allocated (allocSmallOp exBlank.pools).2 [1000000] [] [] 500
    (PoolsReach.allocSmall _ [] [] [] 1000000
      (PoolsReach.init 1000000 2000000 3000000 exPool exPool exPool
        ⟨by decide, by decide, by decide⟩) (by decide!))
    (le_refl _)

/-! ### Pool selection -/

/-- C24: `net_add_op` takes an instance of 129 bytes from the big pool.  In the
example environment with a class of size 129 (above `SMALL_OP_SIZE` = 128, not
above `MEDIUM_OP_SIZE` = 2048), on the initialised network with all 200 blocks of
the medium pool and all 50 blocks of the big pool free, `net_add_op` of that class
succeeds as operator 12; the instance is block 0 of the big pool (address
3000000), the free list of the big pool now starts at block 1, and the free list
of the medium pool still starts at block 0. -/
theorem net_add_op_skips_medium_pool :
    (exEnvMid.op_registry 20).size = 129 ∧
    (net_init exEnvMid exBlank).pools.medium.head = some 0 ∧
    (net_init exEnvMid exBlank).pools.big.head = some 0 ∧
    (net_init exEnvMid exBlank).pools.big.data = 3000000 ∧
    (net_add_op exEnvMid 20 (net_init exEnvMid exBlank)).1 = 12 ∧
    ((net_add_op exEnvMid 20 (net_init exEnvMid exBlank)).2.net.ops 12).addr = 3000000 ∧
    (net_add_op exEnvMid 20 (net_init exEnvMid exBlank)).2.pools.big.head = some 1 ∧
    (net_add_op exEnvMid 20 (net_init exEnvMid exBlank)).2.pools.medium.head = some 0 := by
  decide!

/-! ### The layout of a pickled network -/

theorem pickle_32_length (v : Int) : (pickle_32 v []).length = 4 := rfl

theorem opsBytes_length (E : Env) (w : World) :
    ∀ (n : Nat) (lo : Int), ((opsBytes E w n lo).length : Int) =
      sumFrom (fun i => 4 + ((opState E (w.net.ops i)).length : Int)) n lo
  | 0, _ => rfl
  | n + 1, lo => by
    rw [opsBytes, sumFrom, List.length_append, Nat.cast_add, opsBytes_length E w n (lo + 1)]
    unfold opBytes
    rw [List.length_append, pickle_32_length]
    push_cast
    ring

theorem insBytes_length (w : World) :
    ∀ (n : Nat) (lo : Int), (insBytes w n lo).length = 4 * n
  | 0, _ => rfl
  | n + 1, lo => by
    rw [insBytes, List.length_append, insBytes_length w n (lo + 1)]
    unfold inode_pickle
    simp only [List.nil_append, List.length_cons, List.length_nil]
    omega

theorem outsBytes_length (w : World) :
    ∀ (n : Nat) (lo : Int), (outsBytes w n lo).length = 4 * n
  | 0, _ => rfl
  | n + 1, lo => by
    rw [outsBytes, List.length_append, outsBytes_length w n (lo + 1)]
    unfold onode_pickle
    rw [pickle_32_length]
    omega

theorem paramsBytes_length (E : Env) (w : World) :
    ∀ (n : Nat) (lo : Int), ((paramsBytes E w n lo).length : Int) =
      sumFrom (fun j => ((E.param_pickle (w.net.params j)).length : Int)) n lo
  | 0, _ => rfl
  | n + 1, lo => by
    rw [paramsBytes, sumFrom, List.length_append, Nat.cast_add,
      paramsBytes_length E w n (lo + 1)]

/-- C26: what `net_pickle` writes behind `dst`, in this order and nothing else:
the operator count as a 32-bit word; for each operator in list order its class
id as a 32-bit word and then the payload of its class; `NET_INS_MAX` input
records, each the play flag and three zero bytes; `NET_OUTS_MAX` output targets
as 32-bit words; the parameter count as a 32-bit word; the payload of each
parameter.  A 32-bit word takes 4 bytes, so the result is
`4 + sum (4 + payload_i) + 4 * NET_INS_MAX + 4 * NET_OUTS_MAX + 4 + sum param_j`
bytes longer than `dst`. -/
theorem net_pickle_layout (E : Env) (w : World) (dst : List Int)
    (hI : 0 ≤ E.NET_INS_MAX) (hO : 0 ≤ E.NET_OUTS_MAX) :
    net_pickle E w dst =
      dst ++ (pickle_32 (u32 w.net.numOps) [] ++ (opsBytes E w w.net.numOps.toNat 0 ++
        (insBytes w E.NET_INS_MAX.toNat 0 ++ (outsBytes w E.NET_OUTS_MAX.toNat 0 ++
          (pickle_32 (u32 w.net.numParams) [] ++
            paramsBytes E w w.net.numParams.toNat 0))))) ∧
    (∀ v, (pickle_32 v []).length = 4) ∧
    (∀ i, opBytes E (w.net.ops i) =
      pickle_32 (w.net.ops i).type [] ++ opState E (w.net.ops i)) ∧
    (∀ i, inode_pickle (w.net.ins i) [] = [(w.net.ins i).play, 0, 0, 0]) ∧
    (∀ i, onode_pickle (w.net.outs i) [] = pickle_32 (u32 (w.net.outs i).target) []) ∧
    ((insBytes w E.NET_INS_MAX.toNat 0).length : Int) = 4 * E.NET_INS_MAX ∧
    ((outsBytes w E.NET_OUTS_MAX.toNat 0).length : Int) = 4 * E.NET_OUTS_MAX ∧
    ((net_pickle E w dst).length : Int) =
      dst.length +
        (4 + sumFrom (fun i => 4 + ((opState E (w.net.ops i)).length : Int))
            w.net.numOps.toNat 0 +
          4 * E.NET_INS_MAX + 4 * E.NET_OUTS_MAX + 4 +
          sumFrom (fun j => ((E.param_pickle (w.net.params j)).length : Int))
            w.net.numParams.toNat 0) := by
  have hmain : net_pickle E w dst =
      dst ++ (pickle_32 (u32 w.net.numOps) [] ++ (opsBytes E w w.net.numOps.toNat 0 ++
        (insBytes w E.NET_INS_MAX.toNat 0 ++ (outsBytes w E.NET_OUTS_MAX.toNat 0 ++
          (pickle_32 (u32 w.net.numParams) [] ++
            paramsBytes E w w.net.numParams.toNat 0))))) := by
    unfold net_pickle
    dsimp only
    rw [net_pickle_params_eq, pickle_32_append (u32 w.net.numParams), net_pickle_outs_eq,
      net_pickle_ins_eq, net_pickle_ops_eq, pickle_32_append (u32 w.net.numOps)]
    simp only [List.append_assoc]
  have hi : ((insBytes w E.NET_INS_MAX.toNat 0).length : Int) = 4 * E.NET_INS_MAX := by
    rw [insBytes_length]
    push_cast
    omega
  have ho : ((outsBytes w E.NET_OUTS_MAX.toNat 0).length : Int) = 4 * E.NET_OUTS_MAX := by
    rw [outsBytes_length]
    push_cast
    omega
  refine ⟨hmain, pickle_32_length, fun i => rfl, fun i => rfl, fun i => rfl, hi, ho, ?_⟩
  rw [hmain]
  simp only [List.length_append, Nat.cast_add, pickle_32_length]
  rw [hi, ho, opsBytes_length, paramsBytes_length]
  push_cast
  ring

/-- Witness of C26: the pickled example network of two operators without state
and without parameters takes 4 + 2 * 4 + 4 * 64 + 4 * 32 + 4 bytes. -/
theorem net_pickle_layout_witness : ((net_pickle exEnv exTwo []).length : Int) = 400 :=
  (net_pickle_layout exEnv exTwo [] (by decide) (by decide)).2.2.2.2.2.2.2.trans (by decide!)

/-! ### A failing net_unpickle -/

theorem net_unpickle_ops_zero (E : Env) (src : List Int) (W : World) :
    net_unpickle_ops E 0 src W = (some src, W) := rfl

/-- An operator that cannot be added ends the operator loop of `net_unpickle`. -/
theorem net_unpickle_ops_fail (E : Env) (n : Nat) (src : List Int) (W : World)
    (h : (net_add_op E (s32 (unpickle_32 src).2) W).1 < 0) :
    net_unpickle_ops E (n + 1) src W = (none, (net_add_op E (s32 (unpickle_32 src).2) W).2) := by
  rw [net_unpickle_ops]
  simp only [if_pos h]

/-- A failing operator loop makes `net_unpickle` return `NULL` with
`recallingScene` lowered. -/
theorem net_unpickle_of_ops_fail (E : Env) (src : List Int) (w W : World)
    (h : net_unpickle_ops E (unpickle_32 src).2.toNat (unpickle_32 src).1
      (net_unpickle_start E src w) = (none, W)) :
    net_unpickle E src w = (none, { W with recallingScene := 0 }) := by
  unfold net_unpickle_start at h
  unfold net_unpickle
  simp only [h]

/-- The two outcomes of `net_add_op` in a state that satisfies the bookkeeping
invariant: it returns -1 and changes nothing, or it appends an operator of the
class asked for and touches no other operator slot. -/
theorem Inv.add_op_cases {E : Env} {B : Bases} {w : World} {g : List (Int × Int)}
    {ls lb : List Int} (hE : EnvOK E) (hI : Inv E B w g ls lb) (id : Int) :
    net_add_op E id w = (-1, w) ∨
    ((net_add_op E id w).1 = g.length ∧
      ∃ idx ls2 lb2, Inv E B (net_add_op E id w).2 (g ++ [(id, idx)]) ls2 lb2 ∧
        ((net_add_op E id w).2.net.ops g.length).type = id ∧
        ∀ j, j ≠ (g.length : Int) →
          (net_add_op E id w).2.shape.opFixed j = w.shape.opFixed j) := by
  have hnP : w.net.numOps = g.length := hI.numOps
  have hnI : w.net.numIns = insSum E g := hI.numIns
  have hnO : w.net.numOuts = outsSum E g := hI.numOuts
  have hpool : PoolsInv E B w.pools g ls lb := hI.pools
  by_cases hfail : id < 0 ∨ id ≥ E.numOpClasses ∨ w.net.numOps ≥ E.NET_OPS_MAX ∨
      ((E.op_registry id).size ≤ SMALL_OP_SIZE ∧ w.pools.small.head = none) ∨
      (SMALL_OP_SIZE < (E.op_registry id).size ∧ (E.op_registry id).size ≤ BIG_OP_SIZE ∧
        w.pools.big.head = none) ∨
      BIG_OP_SIZE < (E.op_registry id).size ∨
      (E.op_registry id).numInputs > E.NET_INS_MAX - w.net.numIns ∨
      (E.op_registry id).numOutputs > E.NET_OUTS_MAX - w.net.numOuts
  · exact Or.inl (net_add_op_fails E B w g ls lb id hE hpool hfail)
  right
  simp only [not_or, not_and, not_lt, ge_iff_le, gt_iff_lt, not_le] at hfail
  obtain ⟨hid0, hid1, hcap, hsm, hbg, hsz, hfI, hfO⟩ := hfail
  by_cases hs : (E.op_registry id).size ≤ SMALL_OP_SIZE
  · cases hls : ls with
    | nil =>
      have hc := hpool.small.chain
      rw [hls] at hc
      exact absurd hc.nil_inv (hsm hs)
    | cons idx t =>
      obtain ⟨a1, a2, a3, -, a5, -, -⟩ := hI.add_op_ok hE id idx t lb hid0 hid1 (by omega)
        (by omega) (by omega) (Or.inl ⟨hs, hls, rfl⟩)
      exact ⟨a1, idx, t, lb, a2, a3, a5⟩
  · cases hlb : lb with
    | nil =>
      have hc := hpool.big.chain
      rw [hlb] at hc
      exact absurd hc.nil_inv (hbg (by omega) hsz)
    | cons idx t =>
      obtain ⟨a1, a2, a3, -, a5, -, -⟩ := hI.add_op_ok hE id idx ls t hid0 hid1 (by omega)
        (by omega) (by omega) (Or.inr ⟨hs, hsz, hlb, rfl⟩)
      exact ⟨a1, idx, ls, t, a2, a3, a5⟩

/-- One successful round of the operator loop of `net_unpickle`, in a state
that satisfies the bookkeeping invariant: the loop goes on from a state with one
more operator, of the class read, and with the other operators' classes as they
were. -/
theorem net_unpickle_ops_round {E : Env} {B : Bases} (hE : EnvOK E) (src : List Int) (W : World)
    (g : List (Int × Int)) (ls lb : List Int) (hI : Inv E B W g ls lb)
    (hadd : ¬ (net_add_op E (s32 (unpickle_32 src).2) W).1 < 0) :
    ∃ (src1 : List Int) (W1 : World) (idx : Int) (ls2 lb2 : List Int),
      (∀ n, net_unpickle_ops E (n + 1) src W = net_unpickle_ops E n src1 W1) ∧
      Inv E B W1 (g ++ [(s32 (unpickle_32 src).2, idx)]) ls2 lb2 ∧
      (W1.net.ops g.length).type = s32 (unpickle_32 src).2 ∧
      ∀ i, i ≠ (g.length : Int) → (W1.net.ops i).type = (W.net.ops i).type := by
  obtain ⟨id, hid⟩ : ∃ id, id = s32 (unpickle_32 src).2 := ⟨_, rfl⟩
  rw [← hid] at hadd ⊢
  rcases hI.add_op_cases hE id with h | ⟨h1, idx, ls2, lb2, h2, h3, h4⟩
  · rw [h] at hadd
    exact absurd (by decide : (-1 : Int) < 0) hadd
  have hn : (net_add_op E id W).2.net.numOps - 1 = g.length := by
    have := h2.numOps
    have e : (net_add_op E id W).2.shape.numOps = (net_add_op E id W).2.net.numOps := rfl
    rw [e, List.length_append] at this
    simp only [List.length_singleton] at this
    push_cast at this
    omega
  have hty : ∀ i, i ≠ (g.length : Int) →
      ((net_add_op E id W).2.net.ops i).type = (W.net.ops i).type := by
    intro i hi
    have := congrArg (fun t => t.2.1) (h4 i hi)
    exact this
  cases hu : (E.op_registry ((net_add_op E id W).2.net.ops
      ((net_add_op E id W).2.net.numOps - 1)).type).unpickle with
  | none =>
    refine ⟨(unpickle_32 src).1, (net_add_op E id W).2, idx, ls2, lb2, ?_, h2, h3, hty⟩
    intro n
    rw [net_unpickle_ops]
    simp only [← hid, if_neg hadd, hu]
  | some f =>
    refine ⟨(f (net_add_op E id W).2.legacyRandomFormat
        ((net_add_op E id W).2.net.ops ((net_add_op E id W).2.net.numOps - 1)).data
        (unpickle_32 src).1).2,
      setOp (net_add_op E id W).2 ((net_add_op E id W).2.net.numOps - 1)
        { (net_add_op E id W).2.net.ops ((net_add_op E id W).2.net.numOps - 1) with
          data := (f (net_add_op E id W).2.legacyRandomFormat
            ((net_add_op E id W).2.net.ops ((net_add_op E id W).2.net.numOps - 1)).data
            (unpickle_32 src).1).1 }, idx, ls2, lb2, ?_, h2.set_data _ _, ?_, ?_⟩
    · intro n
      rw [net_unpickle_ops]
      simp only [← hid, if_neg hadd, hu]
    · rw [hn]
      simp only [setOp, upd, if_true]
      exact h3
    · intro i hi
      rw [← hty i hi]
      simp only [setOp, upd]
      split_ifs with hc
      · rw [hc]
      · rfl

/-- The operator loop of `net_unpickle` started in a state that satisfies the
bookkeeping invariant: while it succeeds, every round appends one operator, of
the class read in that round, and leaves the classes of the operators before it
as they were. -/
theorem net_unpickle_ops_appends {E : Env} {B : Bases} (hE : EnvOK E) :
    ∀ (k : Nat) (src srck : List Int) (W Wk : World) (g : List (Int × Int)) (ls lb : List Int),
      Inv E B W g ls lb →
      net_unpickle_ops E k src W = (some srck, Wk) →
      (∃ g2 ls2 lb2, Inv E B Wk (g ++ g2) ls2 lb2 ∧ g2.length = k) ∧
      (∀ i, i < (g.length : Int) → (Wk.net.ops i).type = (W.net.ops i).type) ∧
      (∀ (j : Nat) (srcj : List Int) (Wj : World), j < k →
        net_unpickle_ops E j src W = (some srcj, Wj) →
        (Wk.net.ops ((g.length : Int) + j)).type = s32 (unpickle_32 srcj).2)
  | 0, src, srck, W, Wk, g, ls, lb, hI, h => by
    rw [net_unpickle_ops] at h
    cases h
    refine ⟨⟨[], ls, lb, by rw [List.append_nil]; exact hI, rfl⟩, fun _ _ => rfl, ?_⟩
    intro j _ _ hj
    exact absurd hj (Nat.not_lt_zero _)
  | k + 1, src, srck, W, Wk, g, ls, lb, hI, h => by
    by_cases hadd : (net_add_op E (s32 (unpickle_32 src).2) W).1 < 0
    · rw [net_unpickle_ops_fail E k src W hadd] at h
      cases h
    obtain ⟨src1, W1, idx, ls1, lb1, hstep, hI1, hty1, hoth⟩ :=
      net_unpickle_ops_round hE src W g ls lb hI hadd
    rw [hstep k] at h
    obtain ⟨⟨g2, ls2, lb2, hI2, hlen⟩, hkeep, hread⟩ :=
      net_unpickle_ops_appends hE k src1 srck W1 Wk _ ls1 lb1 hI1 h
    have hl : ((g ++ [(s32 (unpickle_32 src).2, idx)]).length : Int) = g.length + 1 := by
      rw [List.length_append]
      simp
    rw [hl] at hkeep hread
    refine ⟨⟨(s32 (unpickle_32 src).2, idx) :: g2, ls2, lb2, ?_, by simp [hlen]⟩, ?_, ?_⟩
    · rw [List.append_assoc] at hI2
      exact hI2
    · intro i hi
      rw [hkeep i (by omega), hoth i (by omega)]
    · intro j srcj Wj hj hdj
      cases j with
      | zero =>
        rw [net_unpickle_ops] at hdj
        cases hdj
        rw [Nat.cast_zero, add_zero, hkeep _ (by omega), hty1]
      | succ j2 =>
        rw [hstep j2] at hdj
        have := hread j2 srcj Wj (by omega) hdj
        rw [← this]
        congr 2
        push_cast
        omega

/-- A longer run of the operator loop of `net_unpickle` goes through the state
of a shorter successful one. -/
theorem net_unpickle_ops_split (E : Env) :
    ∀ (k r : Nat) (src srck : List Int) (W Wk : World),
      net_unpickle_ops E k src W = (some srck, Wk) →
      net_unpickle_ops E (k + r) src W = net_unpickle_ops E r srck Wk
  | 0, r, src, srck, W, Wk, h => by
    rw [net_unpickle_ops] at h
    cases h
    rw [Nat.zero_add]
  | k + 1, r, src, srck, W, Wk, h => by
    have e : k + 1 + r = (k + r) + 1 := by omega
    rw [e]
    rw [net_unpickle_ops] at h ⊢
    dsimp only at h ⊢
    by_cases hadd : (net_add_op E (s32 (unpickle_32 src).2) W).1 < 0
    · rw [if_pos hadd] at h
      cases h
    rw [if_neg hadd] at h ⊢
    cases hu : (E.op_registry ((net_add_op E (s32 (unpickle_32 src).2) W).2.net.ops
        ((net_add_op E (s32 (unpickle_32 src).2) W).2.net.numOps - 1)).type).unpickle with
    | none =>
      simp only [hu] at h ⊢
      exact net_unpickle_ops_split E k r _ _ _ _ h
    | some f =>
      simp only [hu] at h ⊢
      exact net_unpickle_ops_split E k r _ _ _ _ h

/-- C27: `net_unpickle` called in a reachable state on a stream whose first `k`
operators decode (leaving the state `Wk` and the bytes `srck`) and whose next
operator, one of those the stream announces, has a class id outside
`[0, numOpClasses)` or cannot be added: the function returns `NULL` with
`recallingScene` at 0; the operator loop had started from an emptied network, and
the network left behind is the one built from the `k` decoded operators: it holds
`k` operators, the `j`-th of the class read in round `j`. -/
theorem net_unpickle_failure (E : Env) (w : World) (src srck : List Int) (Wk : World) (k : Nat)
    (hE : EnvOK E) (hw : Reachable E w)
    (hk : (k : Int) < (unpickle_32 src).2)
    (hdec : net_unpickle_ops E k (unpickle_32 src).1 (net_unpickle_start E src w) =
      (some srck, Wk))
    (hbad : s32 (unpickle_32 srck).2 < 0 ∨ s32 (unpickle_32 srck).2 ≥ E.numOpClasses ∨
      (net_add_op E (s32 (unpickle_32 srck).2) Wk).1 < 0) :
    net_unpickle E src w = (none, { Wk with recallingScene := 0 }) ∧
    (net_unpickle E src w).2.recallingScene = 0 ∧
    (net_unpickle_start E src w).net.numOps = 0 ∧
    (net_unpickle E src w).2.net.numOps = k ∧
    (∀ (j : Nat) (srcj : List Int) (Wj : World), j < k →
      net_unpickle_ops E j (unpickle_32 src).1 (net_unpickle_start E src w) = (some srcj, Wj) →
      ((net_unpickle E src w).2.net.ops j).type = s32 (unpickle_32 srcj).2) := by
  obtain ⟨B, g, ls, lb, hI⟩ := hw.inv hE
  have hIa : Inv E B { w with legacyRandomFormat := net_detect_legacy_format E src } g ls lb :=
    hI.of_shape rfl hI.targets
  obtain ⟨lsd, lbd, hId, -, -, -⟩ := hIa.deinit hE
  have hIc : Inv E B (net_unpickle_start E src w) [] lsd lbd :=
    hId.of_shape rfl hId.targets
  obtain ⟨⟨g2, ls2, lb2, hI2, hlen⟩, -, hread⟩ :=
    net_unpickle_ops_appends hE k _ srck _ Wk [] lsd lbd hIc hdec
  have hfail : (net_add_op E (s32 (unpickle_32 srck).2) Wk).1 < 0 := by
    rcases hbad with h | h | h
    · rw [net_add_op_rejects_id E _ Wk (Or.inl h)]
      show (-1 : Int) < 0
      decide
    · rw [net_add_op_rejects_id E _ Wk (Or.inr h)]
      show (-1 : Int) < 0
      decide
    · exact h
  have hsame : (net_add_op E (s32 (unpickle_32 srck).2) Wk).2 = Wk := by
    rcases hI2.add_op_cases hE (s32 (unpickle_32 srck).2) with h | ⟨h1, -⟩
    · rw [h]
    · rw [h1] at hfail
      exact absurd hfail (by omega)
  obtain ⟨r, hr⟩ : ∃ r : Nat, (unpickle_32 src).2.toNat = k + (r + 1) :=
    ⟨(unpickle_32 src).2.toNat - k - 1, by omega⟩
  have hrun : net_unpickle_ops E (unpickle_32 src).2.toNat (unpickle_32 src).1
      (net_unpickle_start E src w) = (none, Wk) := by
    rw [hr, net_unpickle_ops_split E k (r + 1) _ srck _ Wk hdec,
      net_unpickle_ops_fail E r srck Wk hfail, hsame]
  have hres := net_unpickle_of_ops_fail E src w Wk hrun
  have hnum : Wk.net.numOps = k := by
    have := hI2.numOps
    rw [List.nil_append, hlen] at this
    exact this
  refine ⟨hres, by rw [hres], hIc.numOps, by rw [hres]; exact hnum, ?_⟩
  intro j srcj Wj hj hdj
  have := hread j srcj Wj hj hdj
  rw [hres]
  simpa using this

theorem pair_of_fst {α β : Type} (p : α × β) (a : α) (h : p.1 = a) : p = (a, p.2) := by
  subst h
  rfl

set_option maxRecDepth 100000 in
theorem exBadStream_count : ((1 : Nat) : Int) < (unpickle_32 exBadStream).2 := by
  decide

set_option maxRecDepth 100000 in
theorem exBadStream_decodes :
    net_unpickle_ops exEnv 1 (unpickle_32 exBadStream).1
      (net_unpickle_start exEnv exBadStream exInit) =
    (some [99, 0, 0, 0], (net_unpickle_ops exEnv 1 (unpickle_32 exBadStream).1
      (net_unpickle_start exEnv exBadStream exInit)).2) :=
  pair_of_fst _ _ (by decide!)

set_option maxRecDepth 100000 in
theorem exBadStream_first : s32 (unpickle_32 (unpickle_32 exBadStream).1).2 = 12 := by
  decide

set_option maxRecDepth 100000 in
theorem exBadStream_second : s32 (unpickle_32 [99, 0, 0, 0]).2 ≥ exEnv.numOpClasses := by
  decide

/-- Witness of C27: the example stream read into the initialised example
network: the Split decodes, class 99 is turned down, and the network is left
with the Split alone. -/
theorem net_unpickle_failure_witness :
    (net_unpickle exEnv exBadStream exInit).1 = none ∧
    (net_unpickle exEnv exBadStream exInit).2.recallingScene = 0 ∧
    (net_unpickle exEnv exBadStream exInit).2.net.numOps = 1 ∧
    ((net_unpickle exEnv exBadStream exInit).2.net.ops 0).type = 12 := by
  have h := net_unpickle_failure exEnv exInit exBadStream [99, 0, 0, 0]
    (net_unpickle_ops exEnv 1 (unpickle_32 exBadStream).1
      (net_unpickle_start exEnv exBadStream exInit)).2 1
    exEnv_ok exInit_reachable exBadStream_count
    exBadStream_decodes (Or.inr (Or.inl exBadStream_second))
  obtain ⟨h1, h2, -, h3, h4⟩ := h
  have h5 := h4 0 (unpickle_32 exBadStream).1 (net_unpickle_start exEnv exBadStream exInit)
    Nat.zero_lt_one (net_unpickle_ops_zero _ _ _)
  have e0 : ((0 : Nat) : Int) = 0 := rfl
  have e1 : ((1 : Nat) : Int) = 1 := rfl
  rw [e1] at h3
  rw [e0] at h5
  exact ⟨by rw [h1], h2, h3, h5.trans exBadStream_first⟩

/-! ### The legacy format probe -/

theorem list_drop_append_length {α : Type} (a b : List α) (n : Nat) (h : a.length = n) :
    (a ++ b).drop n = b := by
  rw [← h]
  exact List.drop_left a b

/-- Among the capacities `c * 2 ^ k` of a positive `c` there is a first that
reaches `needed`. -/
theorem exists_least_doubling (c needed : Int) (hc : 0 < c) :
    ∃ k : Nat, needed ≤ c * 2 ^ k ∧ ∀ j : Nat, j < k → c * 2 ^ j < needed := by
  have hex : ∃ k : Nat, needed ≤ c * 2 ^ k := by
    refine ⟨needed.toNat, ?_⟩
    have h1 : (needed.toNat : Int) < 2 ^ needed.toNat := by
      have := Nat.lt_two_pow needed.toNat
      exact_mod_cast this
    have h2 : (2 : Int) ^ needed.toNat ≤ c * 2 ^ needed.toNat := by
      have h3 : (0 : Int) ≤ 2 ^ needed.toNat := by positivity
      nlinarith
    omega
  classical
  refine ⟨Nat.find hex, Nat.find_spec hex, ?_⟩
  intro j hj
  have := Nat.find_min hex hj
  omega

/-- The doublings of a positive capacity that stay below 512 are fewer than
10. -/
theorem doublings_bounded (c : Int) (k : Nat) (hc : 0 < c)
    (h : ∀ j : Nat, j < k → c * 2 ^ j < 512) : k < 10 := by
  by_contra hk
  have h9 := h 9 (by omega)
  have : (2 : Int) ^ 9 = 512 := by norm_num
  rw [this] at h9
  nlinarith

/-- The growth loop doubles the capacity until it reaches `needed` or the
limit: `k` doublings, if `k` is the first at which the loop condition fails. -/
theorem dynamic_network_grow_run (limit needed : Int) (hl : limit ≤ 32768) :
    ∀ (k : Nat) (x : Int) (fuel : Nat), 0 < x → k < fuel →
      (∀ j : Nat, j < k → x * 2 ^ j < needed ∧ x * 2 ^ j < limit) →
      ¬ (x * 2 ^ k < needed ∧ x * 2 ^ k < limit) →
      dynamic_network_grow limit needed fuel x = some (x * 2 ^ k)
  | _, _, 0, _, hf, _, _ => absurd hf (Nat.not_lt_zero _)
  | 0, x, fuel + 1, _, _, _, hstop => by
    rw [pow_zero, mul_one] at hstop
    rw [dynamic_network_grow, if_neg hstop, pow_zero, mul_one]
  | k + 1, x, fuel + 1, hx, hf, hgo, hstop => by
    have h0 := hgo 0 (by omega)
    rw [pow_zero, mul_one] at h0
    have hu : u16 (x * GROWTH_FACTOR) = x * 2 := by
      unfold u16 GROWTH_FACTOR
      omega
    have e : ∀ j : Nat, x * 2 * 2 ^ j = x * 2 ^ (j + 1) := by
      intro j
      rw [pow_succ]
      ring
    rw [dynamic_network_grow, if_pos h0, hu,
      dynamic_network_grow_run limit needed hl k (x * 2) fuel (by omega) (by omega)
        (fun j hj => by rw [e j]; exact hgo (j + 1) (by omega))
        (by rw [e k]; exact hstop), e k]

/-- The growth loop in the three cases of a capacity `0 < c ≤ 512` and the
limit 512: nothing to do, growth to the first doubling that reaches `needed`,
and growth up to the limit when `needed` is beyond it. -/
theorem dynamic_network_grow_cases (c needed : Int) (fuel : Nat) (hc : 0 < c) (hc2 : c ≤ 512)
    (hf : 10 ≤ fuel) :
    (needed ≤ c → dynamic_network_grow 512 needed fuel c = some c) ∧
    (c < needed → needed ≤ 512 → ∀ k : Nat, needed ≤ c * 2 ^ k →
      (∀ j : Nat, j < k → c * 2 ^ j < needed) →
      dynamic_network_grow 512 needed fuel c = some (c * 2 ^ k)) ∧
    (512 < needed → ∃ g, dynamic_network_grow 512 needed fuel c = some g ∧ 512 ≤ g) := by
  refine ⟨?_, ?_, ?_⟩
  · intro h
    have := dynamic_network_grow_run 512 needed (by omega) 0 c fuel hc (by omega)
      (fun j hj => absurd hj (Nat.not_lt_zero _)) (by rw [pow_zero, mul_one]; omega)
    rw [pow_zero, mul_one] at this
    exact this
  · intro _ h2 k hk hmin
    have hk10 : k < 10 := doublings_bounded c k hc (fun j hj => by have := hmin j hj; omega)
    exact dynamic_network_grow_run 512 needed (by omega) k c fuel hc (by omega)
      (fun j hj => by have := hmin j hj; omega) (by omega)
  · intro h
    obtain ⟨k, hk, hmin⟩ := exists_least_doubling c 512 hc
    have hk10 : k < 10 := doublings_bounded c k hc hmin
    exact ⟨c * 2 ^ k, dynamic_network_grow_run 512 needed (by omega) k c fuel hc (by omega)
      (fun j hj => by have := hmin j hj; omega) (by omega), hk⟩

/-- The three cases of `dynamic_network_expand_ins` on a capacity `0 < c ≤ 512`. -/
theorem dynamic_network_expand_ins_cases (net : ctlnet_dyn) (needed : Int) (fuel : Nat)
    (hc : 0 < net.insCapacity) (hc2 : net.insCapacity ≤ 512) (hf : 10 ≤ fuel) :
    ((needed ≤ net.insCapacity → ∀ mem, dynamic_network_expand_ins fuel mem (some net) needed = some (0, some net)) ∧
     (net.insCapacity < needed → needed ≤ 512 →
       ∃ k : Nat, needed ≤ net.insCapacity * 2 ^ k ∧
         (∀ j : Nat, j < k → net.insCapacity * 2 ^ j < needed) ∧
         ∀ fresh, ∃ n2,
           dynamic_network_expand_ins fuel (some fresh) (some net) needed = some (0, some n2) ∧
           n2.insCapacity = min 512 (net.insCapacity * 2 ^ k) ∧ needed ≤ n2.insCapacity ∧
           (∀ i, 0 ≤ i → i < net.insCapacity → n2.ins i = net.ins i) ∧
           (∀ i, net.insCapacity ≤ i → i < n2.insCapacity → n2.ins i = inode_zero) ∧
           { n2 with ins := net.ins, insCapacity := net.insCapacity } = net) ∧
     (512 < needed → ∀ mem, dynamic_network_expand_ins fuel mem (some net) needed = some (-1, some net))) := by
  obtain ⟨g1, g2, g3⟩ := dynamic_network_grow_cases net.insCapacity needed fuel hc hc2 hf
  refine ⟨?_, ?_, ?_⟩
  · intro h mem
    have hn : (if net.insCapacity > 512 then 512 else net.insCapacity) = net.insCapacity :=
      if_neg (by omega)
    have c1 : net.insCapacity < needed ∨ net.insCapacity ≤ net.insCapacity := Or.inr le_rfl
    have c2 : ¬ net.insCapacity < needed := by omega
    unfold dynamic_network_expand_ins
    simp only [MAX_INS_LIMIT, g1 h, hn]
    rw [if_pos c1, if_neg c2]
  · intro h1 h2
    obtain ⟨k, hk, hmin⟩ := exists_least_doubling net.insCapacity needed hc
    refine ⟨k, hk, hmin, ?_⟩
    intro fresh
    have hg := g2 h1 h2 k hk hmin
    obtain ⟨G, hG⟩ : ∃ G, G = net.insCapacity * 2 ^ k := ⟨_, rfl⟩
    rw [← hG] at hg hk ⊢
    have hn : (if G > 512 then 512 else G) = min 512 G := by
      split_ifs <;> omega
    refine ⟨{ net with
        ins := memset inode_zero (memcpy fresh net.ins net.insCapacity) net.insCapacity
          (min 512 G - net.insCapacity),
        insCapacity := min 512 G }, ?_, rfl, ?_, ?_, ?_, rfl⟩
    · have c1 : ¬ (min 512 G < needed ∨ min 512 G ≤ net.insCapacity) := by omega
      unfold dynamic_network_expand_ins
      simp only [MAX_INS_LIMIT, hg, hn]
      rw [if_neg c1]
    · show needed ≤ min 512 G
      omega
    · intro i hi0 hi1
      show memset inode_zero (memcpy fresh net.ins net.insCapacity) net.insCapacity
        (min 512 G - net.insCapacity) i = net.ins i
      unfold memset memcpy
      rw [if_neg (by omega), if_pos ⟨hi0, hi1⟩]
    · intro i hi0 hi1
      have hi2 : i < min 512 G := hi1
      show memset inode_zero (memcpy fresh net.ins net.insCapacity) net.insCapacity
        (min 512 G - net.insCapacity) i = inode_zero
      unfold memset
      rw [if_pos (by omega)]
  · intro h mem
    obtain ⟨g, hg, hg2⟩ := g3 h
    unfold dynamic_network_expand_ins
    simp only [MAX_INS_LIMIT, hg]
    have hn : (if g > 512 then 512 else g) = 512 := by
      split_ifs <;> omega
    rw [hn, if_pos (Or.inl h), if_pos h]

/-- The three cases of `dynamic_network_expand_outs` on a capacity `0 < c ≤ 512`. -/
theorem dynamic_network_expand_outs_cases (net : ctlnet_dyn) (needed : Int) (fuel : Nat)
    (hc : 0 < net.outsCapacity) (hc2 : net.outsCapacity ≤ 512) (hf : 10 ≤ fuel) :
    ((needed ≤ net.outsCapacity → ∀ mem, dynamic_network_expand_outs fuel mem (some net) needed = some (0, some net)) ∧
     (net.outsCapacity < needed → needed ≤ 512 →
       ∃ k : Nat, needed ≤ net.outsCapacity * 2 ^ k ∧
         (∀ j : Nat, j < k → net.outsCapacity * 2 ^ j < needed) ∧
         ∀ fresh, ∃ n2,
           dynamic_network_expand_outs fuel (some fresh) (some net) needed = some (0, some n2) ∧
           n2.outsCapacity = min 512 (net.outsCapacity * 2 ^ k) ∧ needed ≤ n2.outsCapacity ∧
           (∀ i, 0 ≤ i → i < net.outsCapacity → n2.outs i = net.outs i) ∧
           (∀ i, net.outsCapacity ≤ i → i < n2.outsCapacity → n2.outs i = onode_zero) ∧
           { n2 with outs := net.outs, outsCapacity := net.outsCapacity } = net) ∧
     (512 < needed → ∀ mem, dynamic_network_expand_outs fuel mem (some net) needed = some (-1, some net))) := by
  obtain ⟨g1, g2, g3⟩ := dynamic_network_grow_cases net.outsCapacity needed fuel hc hc2 hf
  refine ⟨?_, ?_, ?_⟩
  · intro h mem
    have hn : (if net.outsCapacity > 512 then 512 else net.outsCapacity) = net.outsCapacity :=
      if_neg (by omega)
    have c1 : net.outsCapacity < needed ∨ net.outsCapacity ≤ net.outsCapacity := Or.inr le_rfl
    have c2 : ¬ net.outsCapacity < needed := by omega
    unfold dynamic_network_expand_outs
    simp only [MAX_OUTS_LIMIT, g1 h, hn]
    rw [if_pos c1, if_neg c2]
  · intro h1 h2
    obtain ⟨k, hk, hmin⟩ := exists_least_doubling net.outsCapacity needed hc
    refine ⟨k, hk, hmin, ?_⟩
    intro fresh
    have hg := g2 h1 h2 k hk hmin
    obtain ⟨G, hG⟩ : ∃ G, G = net.outsCapacity * 2 ^ k := ⟨_, rfl⟩
    rw [← hG] at hg hk ⊢
    have hn : (if G > 512 then 512 else G) = min 512 G := by
      split_ifs <;> omega
    refine ⟨{ net with
        outs := memset onode_zero (memcpy fresh net.outs net.outsCapacity) net.outsCapacity
          (min 512 G - net.outsCapacity),
        outsCapacity := min 512 G }, ?_, rfl, ?_, ?_, ?_, rfl⟩
    · have c1 : ¬ (min 512 G < needed ∨ min 512 G ≤ net.outsCapacity) := by omega
      unfold dynamic_network_expand_outs
      simp only [MAX_OUTS_LIMIT, hg, hn]
      rw [if_neg c1]
    · show needed ≤ min 512 G
      omega
    · intro i hi0 hi1
      show memset onode_zero (memcpy fresh net.outs net.outsCapacity) net.outsCapacity
        (min 512 G - net.outsCapacity) i = net.outs i
      unfold memset memcpy
      rw [if_neg (by omega), if_pos ⟨hi0, hi1⟩]
    · intro i hi0 hi1
      have hi2 : i < min 512 G := hi1
      show memset onode_zero (memcpy fresh net.outs net.outsCapacity) net.outsCapacity
        (min 512 G - net.outsCapacity) i = onode_zero
      unfold memset
      rw [if_pos (by omega)]
  · intro h mem
    obtain ⟨g, hg, hg2⟩ := g3 h
    unfold dynamic_network_expand_outs
    simp only [MAX_OUTS_LIMIT, hg]
    have hn : (if g > 512 then 512 else g) = 512 := by
      split_ifs <;> omega
    rw [hn, if_pos (Or.inl h), if_pos h]

/-- The three cases of `dynamic_network_expand_params` on a capacity `0 < c ≤ 512`. -/
theorem dynamic_network_expand_params_cases (net : ctlnet_dyn) (zeroDesc : ParamDesc) (needed : Int) (fuel : Nat)
    (hc : 0 < net.paramsCapacity) (hc2 : net.paramsCapacity ≤ 512) (hf : 10 ≤ fuel) :
    ((needed ≤ net.paramsCapacity → ∀ mem, dynamic_network_expand_params zeroDesc fuel mem (some net) needed = some (0, some net)) ∧
     (net.paramsCapacity < needed → needed ≤ 512 →
       ∃ k : Nat, needed ≤ net.paramsCapacity * 2 ^ k ∧
         (∀ j : Nat, j < k → net.paramsCapacity * 2 ^ j < needed) ∧
         ∀ fresh, ∃ n2,
           dynamic_network_expand_params zeroDesc fuel (some fresh) (some net) needed = some (0, some n2) ∧
           n2.paramsCapacity = min 512 (net.paramsCapacity * 2 ^ k) ∧ needed ≤ n2.paramsCapacity ∧
           (∀ i, 0 ≤ i → i < net.paramsCapacity → n2.params i = net.params i) ∧
           (∀ i, net.paramsCapacity ≤ i → i < n2.paramsCapacity → n2.params i = (pnode_zero zeroDesc)) ∧
           { n2 with params := net.params, paramsCapacity := net.paramsCapacity } = net) ∧
     (512 < needed → ∀ mem, dynamic_network_expand_params zeroDesc fuel mem (some net) needed = some (-1, some net))) := by
  obtain ⟨g1, g2, g3⟩ := dynamic_network_grow_cases net.paramsCapacity needed fuel hc hc2 hf
  refine ⟨?_, ?_, ?_⟩
  · intro h mem
    have hn : (if net.paramsCapacity > 512 then 512 else net.paramsCapacity) = net.paramsCapacity :=
      if_neg (by omega)
    have c1 : net.paramsCapacity < needed ∨ net.paramsCapacity ≤ net.paramsCapacity := Or.inr le_rfl
    have c2 : ¬ net.paramsCapacity < needed := by omega
    unfold dynamic_network_expand_params
    simp only [MAX_PARAMS_LIMIT, g1 h, hn]
    rw [if_pos c1, if_neg c2]
  · intro h1 h2
    obtain ⟨k, hk, hmin⟩ := exists_least_doubling net.paramsCapacity needed hc
    refine ⟨k, hk, hmin, ?_⟩
    intro fresh
    have hg := g2 h1 h2 k hk hmin
    obtain ⟨G, hG⟩ : ∃ G, G = net.paramsCapacity * 2 ^ k := ⟨_, rfl⟩
    rw [← hG] at hg hk ⊢
    have hn : (if G > 512 then 512 else G) = min 512 G := by
      split_ifs <;> omega
    refine ⟨{ net with
        params := memset (pnode_zero zeroDesc) (memcpy fresh net.params net.paramsCapacity) net.paramsCapacity
          (min 512 G - net.paramsCapacity),
        paramsCapacity := min 512 G }, ?_, rfl, ?_, ?_, ?_, rfl⟩
    · have c1 : ¬ (min 512 G < needed ∨ min 512 G ≤ net.paramsCapacity) := by omega
      unfold dynamic_network_expand_params
      simp only [MAX_PARAMS_LIMIT, hg, hn]
      rw [if_neg c1]
    · show needed ≤ min 512 G
      omega
    · intro i hi0 hi1
      show memset (pnode_zero zeroDesc) (memcpy fresh net.params net.paramsCapacity) net.paramsCapacity
        (min 512 G - net.paramsCapacity) i = net.params i
      unfold memset memcpy
      rw [if_neg (by omega), if_pos ⟨hi0, hi1⟩]
    · intro i hi0 hi1
      have hi2 : i < min 512 G := hi1
      show memset (pnode_zero zeroDesc) (memcpy fresh net.params net.paramsCapacity) net.paramsCapacity
        (min 512 G - net.paramsCapacity) i = (pnode_zero zeroDesc)
      unfold memset
      rw [if_pos (by omega)]
  · intro h mem
    obtain ⟨g, hg, hg2⟩ := g3 h
    unfold dynamic_network_expand_params
    simp only [MAX_PARAMS_LIMIT, hg]
    have hn : (if g > 512 then 512 else g) = 512 := by
      split_ifs <;> omega
    rw [hn, if_pos (Or.inl h), if_pos h]

/-- C30, counterexample: the example network has the input capacity 64 and 100
nodes are needed, but `alloc_mem` returns `NULL`: `dynamic_network_expand_ins`
returns -1, not 0. -/
theorem dynamic_network_expand_ins_out_of_memory :
    (0 < (exDyn 64).insCapacity ∧ (exDyn 64).insCapacity < 100 ∧ (100 : Int) ≤ 512) ∧
    (dynamic_network_expand_ins 10 none (some (exDyn 64)) 100).map Prod.fst = some (-1) := by
  decide

/-- C30, amended: `dynamic_network_expand_ins`, `dynamic_network_expand_outs` and
`dynamic_network_expand_params` on a network whose capacity `c` of the array in
question is `0 < c ≤ 512`, with fuel for 10 rounds of the growth loop: if
`needed ≤ c` the function returns 0 and changes nothing; if `c < needed ≤ 512`
and the allocation succeeds it terminates, returns 0 and sets the capacity to
`min 512 (c * 2 ^ k)` for the least `k` with `c * 2 ^ k ≥ needed`, so the new
capacity is at least `needed`, keeps the first `c` nodes, zero-fills the rest and
leaves the rest of the network as it was; if `needed > 512` it returns -1 and
changes nothing. -/
theorem dynamic_network_expand_nodes (net : ctlnet_dyn) (zeroDesc : ParamDesc) (needed : Int)
    (fuel : Nat) (hf : 10 ≤ fuel) :
    (0 < net.insCapacity → net.insCapacity ≤ 512 →
    ((needed ≤ net.insCapacity → ∀ mem, dynamic_network_expand_ins fuel mem (some net) needed = some (0, some net)) ∧
     (net.insCapacity < needed → needed ≤ 512 →
       ∃ k : Nat, needed ≤ net.insCapacity * 2 ^ k ∧
         (∀ j : Nat, j < k → net.insCapacity * 2 ^ j < needed) ∧
         ∀ fresh, ∃ n2,
           dynamic_network_expand_ins fuel (some fresh) (some net) needed = some (0, some n2) ∧
           n2.insCapacity = min 512 (net.insCapacity * 2 ^ k) ∧ needed ≤ n2.insCapacity ∧
           (∀ i, 0 ≤ i → i < net.insCapacity → n2.ins i = net.ins i) ∧
           (∀ i, net.insCapacity ≤ i → i < n2.insCapacity → n2.ins i = inode_zero) ∧
           { n2 with ins := net.ins, insCapacity := net.insCapacity } = net) ∧
     (512 < needed → ∀ mem, dynamic_network_expand_ins fuel mem (some net) needed = some (-1, some net)))) ∧
    (0 < net.outsCapacity → net.outsCapacity ≤ 512 →
    ((needed ≤ net.outsCapacity → ∀ mem, dynamic_network_expand_outs fuel mem (some net) needed = some (0, some net)) ∧
     (net.outsCapacity < needed → needed ≤ 512 →
       ∃ k : Nat, needed ≤ net.outsCapacity * 2 ^ k ∧
         (∀ j : Nat, j < k → net.outsCapacity * 2 ^ j < needed) ∧
         ∀ fresh, ∃ n2,
           dynamic_network_expand_outs fuel (some fresh) (some net) needed = some (0, some n2) ∧
           n2.outsCapacity = min 512 (net.outsCapacity * 2 ^ k) ∧ needed ≤ n2.outsCapacity ∧
           (∀ i, 0 ≤ i → i < net.outsCapacity → n2.outs i = net.outs i) ∧
           (∀ i, net.outsCapacity ≤ i → i < n2.outsCapacity → n2.outs i = onode_zero) ∧
           { n2 with outs := net.outs, outsCapacity := net.outsCapacity } = net) ∧
     (512 < needed → ∀ mem, dynamic_network_expand_outs fuel mem (some net) needed = some (-1, some net)))) ∧
    (0 < net.paramsCapacity → net.paramsCapacity ≤ 512 →
    ((needed ≤ net.paramsCapacity → ∀ mem, dynamic_network_expand_params zeroDesc fuel mem (some net) needed = some (0, some net)) ∧
     (net.paramsCapacity < needed → needed ≤ 512 →
       ∃ k : Nat, needed ≤ net.paramsCapacity * 2 ^ k ∧
         (∀ j : Nat, j < k → net.paramsCapacity * 2 ^ j < needed) ∧
         ∀ fresh, ∃ n2,
           dynamic_network_expand_params zeroDesc fuel (some fresh) (some net) needed = some (0, some n2) ∧
           n2.paramsCapacity = min 512 (net.paramsCapacity * 2 ^ k) ∧ needed ≤ n2.paramsCapacity ∧
           (∀ i, 0 ≤ i → i < net.paramsCapacity → n2.params i = net.params i) ∧
           (∀ i, net.paramsCapacity ≤ i → i < n2.paramsCapacity → n2.params i = (pnode_zero zeroDesc)) ∧
           { n2 with params := net.params, paramsCapacity := net.paramsCapacity } = net) ∧
     (512 < needed → ∀ mem, dynamic_network_expand_params zeroDesc fuel mem (some net) needed = some (-1, some net)))) :=
  ⟨fun h1 h2 => dynamic_network_expand_ins_cases net needed fuel h1 h2 hf,
   fun h1 h2 => dynamic_network_expand_outs_cases net needed fuel h1 h2 hf,
   fun h1 h2 => dynamic_network_expand_params_cases net zeroDesc needed fuel h1 h2 hf⟩

/-- Witness of the amended C30: with memory at hand the input array of the
example network grows from 64 to a capacity that holds the 100 nodes needed,
and a call for 600 nodes is turned down. -/
theorem dynamic_network_expand_nodes_witness :
    (10 ≤ 10 ∧ 0 < (exDyn 64).insCapacity ∧ (exDyn 64).insCapacity ≤ 512) ∧
    (∃ n2, dynamic_network_expand_ins 10 (some exFreshIns) (some (exDyn 64)) 100 =
        some (0, some n2) ∧ 100 ≤ n2.insCapacity ∧ n2.ins 63 = (exDyn 64).ins 63 ∧
        n2.ins 64 = inode_zero) ∧
    dynamic_network_expand_ins 10 (some exFreshIns) (some (exDyn 64)) 600 =
      some (-1, some (exDyn 64)) := by
  refine ⟨by decide, ?_, ?_⟩
  · obtain ⟨k, -, -, h⟩ :=
      ((dynamic_network_expand_nodes (exDyn 64) ⟨[]⟩ 100 10 (by decide)).1
        (by decide) (by decide)).2.1 (by decide) (by decide)
    obtain ⟨n2, e1, -, e3, e4, e5, -⟩ := h exFreshIns
    exact ⟨n2, e1, e3, e4 63 (by decide) (by decide),
      e5 64 (by decide) (lt_of_lt_of_le (by decide) e3)⟩
  · exact ((dynamic_network_expand_nodes (exDyn 64) ⟨[]⟩ 600 10 (by decide)).1
      (by decide) (by decide)).2.2 (by decide) _

/-! ### Pools: an allocation undone -/

/-- Allocating from a pool in good order and freeing the block at once gives
the pool back as it was. -/
theorem freeOpIn_after_allocOp {size : Int} {max : Nat} {p : OpPool} {A ca l : List Int}
    (h : PoolAcc size max p A ca l) (hs : 0 < size) (x : Int) (hx : (allocOp p).1 = some x) :
    freeOpIn size max x (allocOp p).2 = (0, p) := by
  cases l with
  | nil =>
    rw [allocOp_nil _ _ _ h.ok] at hx
    cases hx
  | cons i t =>
    have hr := h.range i (List.mem_append_right _ (List.mem_cons_self _ _))
    obtain ⟨a1, -, -⟩ := allocOp_cons size max p i t h.ok hr
    rw [a1] at hx
    rw [← Option.some.inj hx]
    exact freeOpIn_allocOp size max p i t hs h.ok hr

/-- C37: in every state of the pools reached by initialisation, allocations
and frees of allocated blocks, for each of the three pools: if the allocation
returns a block `x` (not `NULL`), then freeing `x` at once returns 0 and gives
back the pools exactly as they were before the allocation (head and every link
of the free list), so that the next allocation returns `x` again. -/
theorem alloc_then_free_is_identity (ps : Pools) (S M B : List Int) (x : Int)
    (h : PoolsReach ps S M B) :
    ((allocSmallOp ps).1 = some x →
      freeSmallOp x (allocSmallOp ps).2 = (0, ps) ∧
      (allocSmallOp (freeSmallOp x (allocSmallOp ps).2).2).1 = some x) ∧
    ((allocMediumOp ps).1 = some x →
      freeMediumOp x (allocMediumOp ps).2 = (0, ps) ∧
      (allocMediumOp (freeMediumOp x (allocMediumOp ps).2).2).1 = some x) ∧
    ((allocBigOp ps).1 = some x →
      freeBigOp x (allocBigOp ps).2 = (0, ps) ∧
      (allocBigOp (freeBigOp x (allocBigOp ps).2).2).1 = some x) := by
  obtain ⟨cs, ls, cm, lm, cb, lb, h1, h2, h3, -⟩ := h.acc
  refine ⟨?_, ?_, ?_⟩
  · intro hx
    have e : freeSmallOp x (allocSmallOp ps).2 = (0, ps) := by
      have : freeOpIn SMALL_OP_SIZE MAX_SMALL_OPS x (allocOp ps.small).2 = (0, ps.small) :=
        freeOpIn_after_allocOp h1 (by decide) x hx
      unfold freeSmallOp allocSmallOp
      dsimp only
      rw [this]
    rw [e]
    exact ⟨rfl, hx⟩
  · intro hx
    have e : freeMediumOp x (allocMediumOp ps).2 = (0, ps) := by
      have : freeOpIn MEDIUM_OP_SIZE MAX_MEDIUM_OPS x (allocOp ps.medium).2 = (0, ps.medium) :=
        freeOpIn_after_allocOp h2 (by decide) x hx
      unfold freeMediumOp allocMediumOp
      dsimp only
      rw [this]
    rw [e]
    exact ⟨rfl, hx⟩
  · intro hx
    have e : freeBigOp x (allocBigOp ps).2 = (0, ps) := by
      have : freeOpIn BIG_OP_SIZE MAX_BIG_OPS x (allocOp ps.big).2 = (0, ps.big) :=
        freeOpIn_after_allocOp h3 (by decide) x hx
      unfold freeBigOp allocBigOp
      dsimp only
      rw [this]
    rw [e]
    exact ⟨rfl, hx⟩

/-- Witness of C37: the first block of the small pool of the example memory,
allocated and freed at once. -/
theorem alloc_then_free_is_identity_witness :
    (allocSmallOp exBlank.pools).1 = some 1000000 ∧
    freeSmallOp 1000000 (allocSmallOp exBlank.pools).2 = (0, exBlank.pools) :=
  have hx : (allocSmallOp exBlank.pools).1 = some 1000000 := by decide!
  ⟨hx, ((alloc_then_free_is_identity exBlank.pools [] [] [] 1000000
    (PoolsReach.init 1000000 2000000 3000000 exPool exPool exPool
      ⟨by decide, by decide, by decide⟩)).1 hx).1⟩

/-! ### Legacy detection on scenes in the new format -/

/-- The probe loop of `net_detect_legacy_format` over operators of static size
in the new format, when the operators left in the stream are those the count
announces: it returns 0. -/
theorem net_detect_loop_new_format (E : Env) (count : Int) (rest : List Int)
    (hc : E.numOpClasses ≤ 4294967296) :
    ∀ (ops : List (Int × List Int)) (n : Nat) (i : Int),
      n ≤ ops.length → i + ops.length = count → StaticSized E ops →
      net_detect_loop E count n i (opStream ops rest) = 0
  | _, 0, _, _, _, _ => by rw [net_detect_loop]
  | [], n + 1, _, hn, _, _ => absurd hn (by simp)
  | e :: t, n + 1, i, hn, hi, hp => by
    obtain ⟨⟨h0, h1, hk, hsz⟩, hrest⟩ := hp
    have hu : u32 e.1 = e.1 := u32_of_range h0 (by omega)
    have c1 : ¬ e.1 ≥ E.numOpClasses := by omega
    have hn2 : n ≤ t.length := by
      simp only [List.length_cons] at hn
      omega
    have hi2 : (i + 1) + t.length = count := by
      simp only [List.length_cons] at hi
      push_cast at hi
      omega
    have ih := net_detect_loop_new_format E count rest hc t n (i + 1) hn2 hi2 hrest
    rw [opStream, net_detect_loop]
    simp only [unpickle_32_pickle_32, hu, if_neg c1]
    by_cases hr : e.1 = eOpRandom
    · have h8 : e.2.length = 8 := by
        rw [hr] at hsz
        have e16 : pickle_sizes.getD eOpRandom.toNat 0 = 8 := by decide
        rw [e16] at hsz
        exact_mod_cast hsz
      have hd : (e.2 ++ opStream t rest).drop 8 = opStream t rest :=
        list_drop_append_length _ _ 8 h8
      rw [if_pos hr, hd]
      have hno : ¬ (i + 1 < count ∧ (unpickle_32 (opStream t rest)).2 ≥ E.numOpClasses ∧
          (unpickle_32 ((e.2 ++ opStream t rest).drop 6)).2 < E.numOpClasses) := by
        rintro ⟨g1, g2, -⟩
        cases t with
        | nil =>
          simp only [List.length_nil, Nat.cast_zero, add_zero] at hi2
          omega
        | cons e2 t2 =>
          obtain ⟨⟨k0, k1, -, -⟩, -⟩ := hrest
          rw [opStream, unpickle_32_pickle_32, u32_of_range k0 (by omega)] at g2
          exact absurd g2 (by show ¬ e2.1 ≥ E.numOpClasses; omega)
      rw [if_neg hno]
      exact ih
    · rw [if_neg hr, if_pos hk, list_drop_append_length _ _ _ (by omega)]
      exact ih

/-- C36: `net_detect_legacy_format` never reports legacy for a well-formed
stream in the new format: for a stream that announces its operators, at least
one, each with a valid class id, a static size in the table `pickle_sizes` and a
state of exactly that length (Random included, at 8 bytes), followed by anything,
the function returns 0. -/
theorem net_detect_legacy_format_new_format (E : Env) (ops : List (Int × List Int))
    (rest : List Int) (hc : E.numOpClasses ≤ 4294967296)
    (h1 : 1 ≤ ops.length) (hlen : (ops.length : Int) < 4294967296)
    (hops : StaticSized E ops) :
    net_detect_legacy_format E (pickle_32 ops.length [] ++ opStream ops rest) = 0 := by
  have hu : u32 (ops.length : Int) = ops.length := u32_of_range (by omega) hlen
  unfold net_detect_legacy_format
  simp only [unpickle_32_pickle_32, hu]
  exact net_detect_loop_new_format E ops.length rest hc ops _ 0 (by omega) (by omega) hops

theorem exNewFormat_static :
    StaticSized exEnv
      [(eOpSplit, []), (eOpRandom, [1, 0, 2, 0, 3, 0, 4, 0]), (2, [5, 0, 6, 0, 7, 0])] :=
  ⟨⟨by decide, by decide, by decide, by decide⟩, ⟨by decide, by decide, by decide, by decide⟩,
    ⟨by decide, by decide, by decide, by decide⟩, trivial⟩

/-- Witness of C36: the example scene in the new format is not taken for a
legacy scene. -/
theorem net_detect_legacy_format_new_format_witness :
    net_detect_legacy_format exEnv exNewFormat = 0 :=
  net_detect_legacy_format_new_format exEnv
    [(eOpSplit, []), (eOpRandom, [1, 0, 2, 0, 3, 0, 4, 0]), (2, [5, 0, 6, 0, 7, 0])]
    [1, 0, 0, 0] (by decide) (by decide) (by decide) exNewFormat_static

/-! ### Scaler of the filter cutoff: the search -/

/-- A round of the binary search that lowers the upper bound. -/
theorem scaler_svf_fc_in_loop_down (tabVal : Int → Int) (x : Int) (n : Nat)
    (jl ju jm it jm2 it2 : Int) (e : (ju + jl) / 2 = jm2) (e2 : it + 1 = it2)
    (h1 : ju - jl > 1) (h2 : it2 ≤ 20) (h3 : jm2 < tabSize) (h4 : x < tabVal jm2) :
    scaler_svf_fc_in_loop tabVal x (n + 1) jl ju jm it =
      scaler_svf_fc_in_loop tabVal x n jl jm2 jm2 it2 := by
  have c2 : ¬ it2 > 20 := by omega
  have c3 : ¬ jm2 ≥ tabSize := by omega
  have c4 : ¬ x ≥ tabVal jm2 := by omega
  rw [scaler_svf_fc_in_loop, e, e2, if_pos h1, if_neg c2, if_neg c3, if_neg c4]

/-- A round of the binary search that raises the lower bound. -/
theorem scaler_svf_fc_in_loop_up (tabVal : Int → Int) (x : Int) (n : Nat)
    (jl ju jm it jm2 it2 : Int) (e : (ju + jl) / 2 = jm2) (e2 : it + 1 = it2)
    (h1 : ju - jl > 1) (h2 : it2 ≤ 20) (h3 : jm2 < tabSize) (h4 : x ≥ tabVal jm2) :
    scaler_svf_fc_in_loop tabVal x (n + 1) jl ju jm it =
      scaler_svf_fc_in_loop tabVal x n jm2 ju jm2 it2 := by
  have c2 : ¬ it2 > 20 := by omega
  have c3 : ¬ jm2 ≥ tabSize := by omega
  rw [scaler_svf_fc_in_loop, e, e2, if_pos h1, if_neg c2, if_neg c3, if_pos h4]

/-- The end of the binary search: the last midpoint is returned. -/
theorem scaler_svf_fc_in_loop_end (tabVal : Int → Int) (x : Int) (n : Nat)
    (jl ju jm it : Int) (h1 : ¬ ju - jl > 1) :
    scaler_svf_fc_in_loop tabVal x (n + 1) jl ju jm it = s16 (u16 jm * 2 ^ inRshift) := by
  rw [scaler_svf_fc_in_loop, if_neg h1]

/-- C40: `scaler_svf_fc_in` does not invert `scaler_svf_fc_val` at the ends of
the table.  For every strictly ascending table, the search for the value of
entry 0 returns `1 << 5` (and never `0 << 5`), an input whose value is entry 1;
the search for the value of entry 1023 returns `1022 << 5`, an input whose value
is entry 1022. -/
theorem scaler_svf_fc_in_returns_last_midpoint (tabVal : Int → Int)
    (hasc : ∀ i j, 0 ≤ i → i < j → j < tabSize → tabVal i < tabVal j) :
    scaler_svf_fc_in (some tabVal) (tabVal 0) = 32 ∧
    scaler_svf_fc_val tabVal 32 = tabVal 1 ∧ tabVal 1 ≠ tabVal 0 ∧
    scaler_svf_fc_in (some tabVal) (tabVal 1023) = 32704 ∧
    scaler_svf_fc_val tabVal 32704 = tabVal 1022 ∧ tabVal 1022 ≠ tabVal 1023 := by
  have lo : ∀ j, 1 ≤ j → j < 1024 → tabVal 0 < tabVal j :=
    fun j h1 h2 => hasc 0 j le_rfl (by omega) h2
  have hi : ∀ j, 0 ≤ j → j < 1023 → tabVal 1023 ≥ tabVal j :=
    fun j h1 h2 => le_of_lt (hasc j 1023 h1 h2 (by decide))
  refine ⟨?_, ?_, ?_, ?_, ?_, ?_⟩
  · show scaler_svf_fc_in_loop tabVal (tabVal 0) 21 0 1023 0 0 = 32
    rw [scaler_svf_fc_in_loop_down _ _ _ 0 1023 0 0 511 1 (by decide) (by decide) (by decide)
        (by decide) (by decide) (lo 511 (by decide) (by decide)),
      scaler_svf_fc_in_loop_down _ _ _ 0 511 511 1 255 2 (by decide) (by decide) (by decide)
        (by decide) (by decide) (lo 255 (by decide) (by decide)),
      scaler_svf_fc_in_loop_down _ _ _ 0 255 255 2 127 3 (by decide) (by decide) (by decide)
        (by decide) (by decide) (lo 127 (by decide) (by decide)),
      scaler_svf_fc_in_loop_down _ _ _ 0 127 127 3 63 4 (by decide) (by decide) (by decide)
        (by decide) (by decide) (lo 63 (by decide) (by decide)),
      scaler_svf_fc_in_loop_down _ _ _ 0 63 63 4 31 5 (by decide) (by decide) (by decide)
        (by decide) (by decide) (lo 31 (by decide) (by decide)),
      scaler_svf_fc_in_loop_down _ _ _ 0 31 31 5 15 6 (by decide) (by decide) (by decide)
        (by decide) (by decide) (lo 15 (by decide) (by decide)),
      scaler_svf_fc_in_loop_down _ _ _ 0 15 15 6 7 7 (by decide) (by decide) (by decide)
        (by decide) (by decide) (lo 7 (by decide) (by decide)),
      scaler_svf_fc_in_loop_down _ _ _ 0 7 7 7 3 8 (by decide) (by decide) (by decide)
        (by decide) (by decide) (lo 3 (by decide) (by decide)),
      scaler_svf_fc_in_loop_down _ _ _ 0 3 3 8 1 9 (by decide) (by decide) (by decide)
        (by decide) (by decide) (lo 1 (by decide) (by decide)),
      scaler_svf_fc_in_loop_end _ _ _ 0 1 1 9 (by decide)]
    decide
  · have e : u16 (u16 (if (32 : Int) < 0 then 0 else 32) / 2 ^ inRshift) = 1 := by decide
    unfold scaler_svf_fc_val
    dsimp only
    rw [e]
  · exact ne_of_gt (lo 1 (by decide) (by decide))
  · show scaler_svf_fc_in_loop tabVal (tabVal 1023) 21 0 1023 0 0 = 32704
    rw [scaler_svf_fc_in_loop_up _ _ _ 0 1023 0 0 511 1 (by decide) (by decide) (by decide)
        (by decide) (by decide) (hi 511 (by decide) (by decide)),
      scaler_svf_fc_in_loop_up _ _ _ 511 1023 511 1 767 2 (by decide) (by decide) (by decide)
        (by decide) (by decide) (hi 767 (by decide) (by decide)),
      scaler_svf_fc_in_loop_up _ _ _ 767 1023 767 2 895 3 (by decide) (by decide) (by decide)
        (by decide) (by decide) (hi 895 (by decide) (by decide)),
      scaler_svf_fc_in_loop_up _ _ _ 895 1023 895 3 959 4 (by decide) (by decide) (by decide)
        (by decide) (by decide) (hi 959 (by decide) (by decide)),
      scaler_svf_fc_in_loop_up _ _ _ 959 1023 959 4 991 5 (by decide) (by decide) (by decide)
        (by decide) (by decide) (hi 991 (by decide) (by decide)),
      scaler_svf_fc_in_loop_up _ _ _ 991 1023 991 5 1007 6 (by decide) (by decide) (by decide)
        (by decide) (by decide) (hi 1007 (by decide) (by decide)),
      scaler_svf_fc_in_loop_up _ _ _ 1007 1023 1007 6 1015 7 (by decide) (by decide) (by decide)
        (by decide) (by decide) (hi 1015 (by decide) (by decide)),
      scaler_svf_fc_in_loop_up _ _ _ 1015 1023 1015 7 1019 8 (by decide) (by decide) (by decide)
        (by decide) (by decide) (hi 1019 (by decide) (by decide)),
      scaler_svf_fc_in_loop_up _ _ _ 1019 1023 1019 8 1021 9 (by decide) (by decide) (by decide)
        (by decide) (by decide) (hi 1021 (by decide) (by decide)),
      scaler_svf_fc_in_loop_up _ _ _ 1021 1023 1021 9 1022 10 (by decide) (by decide) (by decide)
        (by decide) (by decide) (hi 1022 (by decide) (by decide)),
      scaler_svf_fc_in_loop_end _ _ _ 1022 1023 1022 10 (by decide)]
    decide
  · have e : u16 (u16 (if (32704 : Int) < 0 then 0 else 32704) / 2 ^ inRshift) = 1022 := by
      decide
    unfold scaler_svf_fc_val
    dsimp only
    rw [e]
  · exact ne_of_lt (hasc 1022 1023 (by decide) (by decide) (by decide))

/-- The failing input of C40 on the example table: the value of entry 0 is 7,
and the input found for it is 32, whose value is 107. -/
theorem scaler_svf_fc_in_returns_last_midpoint_witness :
    scaler_svf_fc_in (some exTabVal) (exTabVal 0) = 32 ∧
    scaler_svf_fc_val exTabVal 32 = 107 ∧ exTabVal 0 = 7 :=
  have h := scaler_svf_fc_in_returns_last_midpoint exTabVal
    (fun i j _ hij _ => by unfold exTabVal; omega)
  ⟨h.1, h.2.1.trans (by decide), by decide⟩

/-! ### Dynamic flash buffer: single calls -/

theorem FlashOK.in_use_zero {s : FlashState} {b : Option (Int × Int)} (h : FlashOK s b)
    (h0 : s.flash_buffer_system_initialized = 0) : s.flash_buffer.in_use = 0 := by
  cases b with
  | none => exact h
  | some pn => exact absurd h0 h.1

theorem FlashOK.data_some {s : FlashState} {b : Option (Int × Int)} (h : FlashOK s b)
    (h1 : s.flash_buffer.in_use ≠ 0) : s.flash_buffer.data ≠ none := by
  cases b with
  | none => exact absurd h h1
  | some pn =>
    rw [h.2.2.1]
    exact fun e => Option.noConfusion e

/-- After `dynamic_flash_buffer_free` the flag `in_use` is down. -/
theorem dynamic_flash_buffer_free_ok {s : FlashState} {b : Option (Int × Int)}
    (h : FlashOK s b) : FlashOK (dynamic_flash_buffer_free s) none := by
  show (dynamic_flash_buffer_free s).flash_buffer.in_use = 0
  unfold dynamic_flash_buffer_free
  by_cases h0 : s.flash_buffer_system_initialized = 0
  · rw [if_pos h0]
    exact h.in_use_zero h0
  rw [if_neg h0]
  by_cases h1 : s.flash_buffer.in_use = 0
  · rw [if_pos (Or.inl h1)]
    exact h1
  have h2 := h.data_some h1
  rw [if_neg (by rintro (c | c); exact h1 c; exact h2 c)]

theorem dynamic_flash_buffer_free_initialized (s : FlashState) :
    (dynamic_flash_buffer_free s).flash_buffer_system_initialized =
      s.flash_buffer_system_initialized := by
  unfold dynamic_flash_buffer_free
  split_ifs <;> rfl

theorem dynamic_flash_buffer_free_heap (s : FlashState) :
    (dynamic_flash_buffer_free s).heap = s.heap := by
  unfold dynamic_flash_buffer_free
  split_ifs <;> rfl

theorem dynamic_flash_buffer_alloc_cleared_ok {s : FlashState} {b : Option (Int × Int)}
    (h : FlashOK s b) : (dynamic_flash_buffer_alloc_cleared s).flash_buffer.in_use = 0 := by
  unfold dynamic_flash_buffer_alloc_cleared
  by_cases h1 : s.flash_buffer.in_use = 0
  · rw [if_neg (by rw [h1]; exact fun c => c rfl)]
    exact h1
  · rw [if_pos h1]
    exact dynamic_flash_buffer_free_ok h

/-- The outcomes of `dynamic_flash_buffer_alloc`: `NULL` before initialisation,
`NULL` for too many elements or when `alloc_mem` fails, with the buffer in use
released in both cases, and else the fresh block, zero-filled and entered in the
record. -/
theorem dynamic_flash_buffer_alloc_cases (fresh : Option Int) (n : Int) (s : FlashState)
    (hn0 : 0 ≤ n) (hn1 : n < 4294967296) :
    (s.flash_buffer_system_initialized = 0 → dynamic_flash_buffer_alloc fresh n s = (none, s)) ∧
    (s.flash_buffer_system_initialized ≠ 0 →
      (if n = 0 then FLASH_BUFFER_DEFAULT_SIZE else n) > FLASH_BUFFER_MAX_SIZE →
      dynamic_flash_buffer_alloc fresh n s = (none, dynamic_flash_buffer_alloc_cleared s)) ∧
    (s.flash_buffer_system_initialized ≠ 0 →
      (if n = 0 then FLASH_BUFFER_DEFAULT_SIZE else n) ≤ FLASH_BUFFER_MAX_SIZE →
      fresh = none →
      (dynamic_flash_buffer_alloc fresh n s).1 = none ∧
      (dynamic_flash_buffer_alloc fresh n s).2.flash_buffer.in_use =
        (dynamic_flash_buffer_alloc_cleared s).flash_buffer.in_use ∧
      (dynamic_flash_buffer_alloc fresh n s).2.flash_buffer_system_initialized =
        s.flash_buffer_system_initialized) ∧
    (∀ p, s.flash_buffer_system_initialized ≠ 0 →
      (if n = 0 then FLASH_BUFFER_DEFAULT_SIZE else n) ≤ FLASH_BUFFER_MAX_SIZE →
      fresh = some p →
      (dynamic_flash_buffer_alloc fresh n s).1 = some p ∧
      (dynamic_flash_buffer_alloc fresh n s).2.flash_buffer_system_initialized =
        s.flash_buffer_system_initialized ∧
      (dynamic_flash_buffer_alloc fresh n s).2.flash_buffer.in_use = 1 ∧
      (dynamic_flash_buffer_alloc fresh n s).2.flash_buffer.data = some p ∧
      (dynamic_flash_buffer_alloc fresh n s).2.flash_buffer.size =
        (if n = 0 then FLASH_BUFFER_DEFAULT_SIZE else n) ∧
      (dynamic_flash_buffer_alloc fresh n s).2.flash_buffer.allocated_bytes =
        4 * (if n = 0 then FLASH_BUFFER_DEFAULT_SIZE else n) ∧
      ∀ off, 0 ≤ off → off < 4 * (if n = 0 then FLASH_BUFFER_DEFAULT_SIZE else n) →
        (dynamic_flash_buffer_alloc fresh n s).2.heap p off = 0) := by
  obtain ⟨m, hm⟩ : ∃ m, m = (if n = 0 then FLASH_BUFFER_DEFAULT_SIZE else n) := ⟨_, rfl⟩
  rw [← hm]
  have hm1 : 1 ≤ m := by
    rw [hm]
    unfold FLASH_BUFFER_DEFAULT_SIZE
    split_ifs <;> omega
  refine ⟨?_, ?_, ?_, ?_⟩
  · intro h0
    unfold dynamic_flash_buffer_alloc
    rw [if_pos h0]
  · intro h0 hbig
    unfold dynamic_flash_buffer_alloc dynamic_flash_buffer_alloc_cleared
    rw [if_neg h0]
    dsimp only
    rw [← hm, if_pos hbig]
  · intro h0 hfit hf
    have c : ¬ m > FLASH_BUFFER_MAX_SIZE := by omega
    subst hf
    unfold dynamic_flash_buffer_alloc dynamic_flash_buffer_alloc_cleared
    rw [if_neg h0]
    dsimp only
    rw [← hm, if_neg c]
    refine ⟨rfl, rfl, ?_⟩
    show (if s.flash_buffer.in_use ≠ 0 then dynamic_flash_buffer_free s
      else s).flash_buffer_system_initialized = _
    split_ifs
    · exact dynamic_flash_buffer_free_initialized s
    · rfl
  · intro p h0 hfit hf
    have c : ¬ m > FLASH_BUFFER_MAX_SIZE := by omega
    have hu : u32 (m * 4) = 4 * m := by
      unfold FLASH_BUFFER_MAX_SIZE at hfit
      unfold u32
      omega
    subst hf
    unfold dynamic_flash_buffer_alloc
    rw [if_neg h0]
    dsimp only
    rw [← hm, if_neg c, hu]
    refine ⟨?_, ?_, ?_, ?_, ?_, ?_, ?_⟩
    · split_ifs <;> rfl
    · split_ifs <;> first | rfl | exact dynamic_flash_buffer_free_initialized s
    · split_ifs <;> rfl
    · split_ifs <;> rfl
    · split_ifs <;> rfl
    · split_ifs <;> rfl
    · intro off ho0 ho1
      have e : ∀ h : Int → Int → Int, upd h p (memset 0 (h p) 0 (4 * m)) p off = 0 := by
        intro h
        unfold upd memset
        rw [if_pos rfl, if_pos ⟨ho0, by omega⟩]
      split_ifs <;> exact e _

/-! ### Dynamic flash buffer: reachable states -/

theorem dynamic_flash_buffer_init_ok {s : FlashState} {b : Option (Int × Int)}
    (h : FlashOK s b) :
    (s.flash_buffer_system_initialized = 0 → FlashOK (dynamic_flash_buffer_init s) none) ∧
    (s.flash_buffer_system_initialized ≠ 0 → FlashOK (dynamic_flash_buffer_init s) b) := by
  refine ⟨?_, ?_⟩
  · intro h0
    show (dynamic_flash_buffer_init s).flash_buffer.in_use = 0
    unfold dynamic_flash_buffer_init
    rw [if_neg (by rw [h0]; exact fun c => c rfl)]
  · intro h0
    unfold dynamic_flash_buffer_init
    rw [if_pos h0]
    exact h

theorem dynamic_flash_buffer_deinit_ok {s : FlashState} {b : Option (Int × Int)}
    (h : FlashOK s b) : FlashOK (dynamic_flash_buffer_deinit s) none := by
  show (dynamic_flash_buffer_deinit s).flash_buffer.in_use = 0
  unfold dynamic_flash_buffer_deinit
  by_cases h0 : s.flash_buffer_system_initialized = 0
  · rw [if_pos h0]
    exact h.in_use_zero h0
  rw [if_neg h0]
  dsimp only
  by_cases h1 : s.flash_buffer.in_use = 0
  · rw [if_neg (by rintro ⟨c, -⟩; exact c h1)]
    exact h1
  · rw [if_pos ⟨h1, h.data_some h1⟩]
    exact dynamic_flash_buffer_free_ok h

theorem dynamic_flash_buffer_alloc_ok {s : FlashState} {b : Option (Int × Int)}
    (h : FlashOK s b) (fresh : Option Int) (n : Int) (hn0 : 0 ≤ n) (hn1 : n < 4294967296) :
    (∀ p, (dynamic_flash_buffer_alloc fresh n s).1 = some p →
      FlashOK (dynamic_flash_buffer_alloc fresh n s).2
        (some (p, if n = 0 then FLASH_BUFFER_DEFAULT_SIZE else n))) ∧
    ((dynamic_flash_buffer_alloc fresh n s).1 = none →
      FlashOK (dynamic_flash_buffer_alloc fresh n s).2 none) := by
  obtain ⟨a1, a2, a3, a4⟩ := dynamic_flash_buffer_alloc_cases fresh n s hn0 hn1
  have hm1 : 1 ≤ (if n = 0 then FLASH_BUFFER_DEFAULT_SIZE else n) := by
    unfold FLASH_BUFFER_DEFAULT_SIZE
    split_ifs <;> omega
  by_cases h0 : s.flash_buffer_system_initialized = 0
  · rw [a1 h0]
    exact ⟨fun p hp => Option.noConfusion hp, fun _ => h.in_use_zero h0⟩
  by_cases hbig : (if n = 0 then FLASH_BUFFER_DEFAULT_SIZE else n) > FLASH_BUFFER_MAX_SIZE
  · rw [a2 h0 hbig]
    exact ⟨fun p hp => Option.noConfusion hp, fun _ => dynamic_flash_buffer_alloc_cleared_ok h⟩
  have hfit : (if n = 0 then FLASH_BUFFER_DEFAULT_SIZE else n) ≤ FLASH_BUFFER_MAX_SIZE := by
    omega
  cases hf : fresh with
  | none =>
    obtain ⟨b1, b2, -⟩ := a3 h0 hfit hf
    rw [hf] at b1 b2
    refine ⟨fun p hp => ?_, fun _ => ?_⟩
    · rw [b1] at hp
      exact Option.noConfusion hp
    · show (dynamic_flash_buffer_alloc none n s).2.flash_buffer.in_use = 0
      rw [b2]
      exact dynamic_flash_buffer_alloc_cleared_ok h
  | some q =>
    obtain ⟨b1, b2, b3, b4, b5, b6, -⟩ := a4 q h0 hfit hf
    rw [hf] at b1 b2 b3 b4 b5 b6
    refine ⟨fun p hp => ?_, fun hp => ?_⟩
    · rw [b1] at hp
      have e : q = p := Option.some.inj hp
      rw [← e]
      exact ⟨by rw [b2]; exact h0, by rw [b3]; decide, b4, b5, hm1, hfit, b6⟩
    · rw [b1] at hp
      exact Option.noConfusion hp

theorem dynamic_flash_buffer_resize_ok {s : FlashState} (fresh : Option Int) (n : Int)
    (hn0 : 0 ≤ n) (hn1 : n < 4294967296) :
    (∀ q m p, FlashOK s (some (q, m)) → (dynamic_flash_buffer_resize fresh n s).1 = some p →
      FlashOK (dynamic_flash_buffer_resize fresh n s).2 (some (p, max n m))) ∧
    (∀ b, FlashOK s b → (dynamic_flash_buffer_resize fresh n s).1 = none →
      FlashOK (dynamic_flash_buffer_resize fresh n s).2 b) := by
  refine ⟨?_, ?_⟩
  · intro q m p h hp
    obtain ⟨k1, k2, k3, k4, k5, k6, k7⟩ := h
    have c0 : ¬ (s.flash_buffer_system_initialized = 0 ∨ s.flash_buffer.in_use = 0) := by
      rintro (c | c)
      · exact k1 c
      · exact k2 c
    unfold dynamic_flash_buffer_resize at hp ⊢
    rw [if_neg c0] at hp ⊢
    by_cases c1 : n ≤ s.flash_buffer.size
    · rw [if_pos c1] at hp ⊢
      have e : q = p := by
        rw [k3] at hp
        exact Option.some.inj hp
      have e2 : max n m = m := by
        rw [k4] at c1
        exact max_eq_right c1
      rw [e2, ← e]
      exact ⟨k1, k2, k3, k4, k5, k6, k7⟩
    rw [if_neg c1] at hp ⊢
    by_cases c2 : n > FLASH_BUFFER_MAX_SIZE
    · rw [if_pos c2] at hp
      exact Option.noConfusion hp
    rw [if_neg c2] at hp ⊢
    cases fresh with
    | none => exact Option.noConfusion hp
    | some r =>
      have hu : u32 (n * 4) = 4 * n := by
        unfold FLASH_BUFFER_MAX_SIZE at c2
        unfold u32
        omega
      have e2 : max n m = n := by
        rw [k4] at c1
        exact max_eq_left (by omega)
      dsimp only at hp ⊢
      rw [hu] at hp ⊢
      have e : r = p := by
        split_ifs at hp <;> exact Option.some.inj hp
      rw [e2, ← e]
      rw [k4] at c1
      split_ifs <;> exact ⟨k1, k2, rfl, rfl, by omega, by omega, rfl⟩
  · intro b h hp
    unfold dynamic_flash_buffer_resize at hp ⊢
    by_cases c0 : s.flash_buffer_system_initialized = 0 ∨ s.flash_buffer.in_use = 0
    · rw [if_pos c0]
      exact h
    rw [if_neg c0] at hp ⊢
    by_cases c1 : n ≤ s.flash_buffer.size
    · rw [if_pos c1]
      exact h
    rw [if_neg c1] at hp ⊢
    by_cases c2 : n > FLASH_BUFFER_MAX_SIZE
    · rw [if_pos c2]
      exact h
    rw [if_neg c2] at hp ⊢
    cases fresh with
    | none => exact h
    | some r =>
      dsimp only at hp
      split_ifs at hp

/-- In every reachable state the variables of the module agree with the buffer
it holds. -/
theorem FlashReach.flash_ok {s : FlashState} {b : Option (Int × Int)} (h : FlashReach s b) :
    FlashOK s b := by
  induction h with
  | start heap => exact rfl
  | init_first s b _ h0 ih => exact (dynamic_flash_buffer_init_ok ih).1 h0
  | init_again s b _ h0 ih => exact (dynamic_flash_buffer_init_ok ih).2 h0
  | deinit s b _ ih => exact dynamic_flash_buffer_deinit_ok ih
  | free s b _ ih => exact dynamic_flash_buffer_free_ok ih
  | alloc_ok s b fresh n p _ hn0 hn1 hp ih =>
    exact (dynamic_flash_buffer_alloc_ok ih fresh n hn0 hn1).1 p hp
  | alloc_null s b fresh n _ hn0 hn1 hp ih =>
    exact (dynamic_flash_buffer_alloc_ok ih fresh n hn0 hn1).2 hp
  | resize_ok s q m fresh n p _ hn0 hn1 hp ih =>
    exact (dynamic_flash_buffer_resize_ok fresh n hn0 hn1).1 q m p ih hp
  | resize_null s b fresh n _ hn0 hn1 hp ih =>
    exact (dynamic_flash_buffer_resize_ok fresh n hn0 hn1).2 b ih hp
  | write s b heap _ ih =>
    cases b with
    | none => exact ih
    | some pn => exact ih

/-- C32: `dynamic_flash_buffer_alloc(n)` for a `u32` `n`.  On an initialised
system with a working allocator (`alloc_mem` returns the block `p`): for
`n ≤ FLASH_BUFFER_MAX_SIZE` it returns `p`, the buffer is reported allocated with
the size `FLASH_BUFFER_DEFAULT_SIZE` (1024) when `n = 0` and `n` otherwise, and all
bytes of the buffer are 0; for `n > FLASH_BUFFER_MAX_SIZE` it returns `NULL`
whatever `alloc_mem` would return.  Before initialisation it returns `NULL` for
every `n`. -/
theorem dynamic_flash_buffer_alloc_sizes (s : FlashState) (n p : Int)
    (hn0 : 0 ≤ n) (hn1 : n < 4294967296) :
    (s.flash_buffer_system_initialized ≠ 0 →
      (n ≤ FLASH_BUFFER_MAX_SIZE →
        (dynamic_flash_buffer_alloc (some p) n s).1 = some p ∧
        dynamic_flash_buffer_is_allocated (dynamic_flash_buffer_alloc (some p) n s).2 = 1 ∧
        dynamic_flash_buffer_get (dynamic_flash_buffer_alloc (some p) n s).2 = some p ∧
        dynamic_flash_buffer_get_size (dynamic_flash_buffer_alloc (some p) n s).2 =
          (if n = 0 then FLASH_BUFFER_DEFAULT_SIZE else n) ∧
        ∀ off, 0 ≤ off →
          off < 4 * dynamic_flash_buffer_get_size (dynamic_flash_buffer_alloc (some p) n s).2 →
          (dynamic_flash_buffer_alloc (some p) n s).2.heap p off = 0) ∧
      (n > FLASH_BUFFER_MAX_SIZE → ∀ fresh, (dynamic_flash_buffer_alloc fresh n s).1 = none)) ∧
    (s.flash_buffer_system_initialized = 0 →
      ∀ fresh, (dynamic_flash_buffer_alloc fresh n s).1 = none) := by
  refine ⟨fun h0 => ⟨fun hfit => ?_, fun hbig fresh => ?_⟩, fun h0 fresh => ?_⟩
  · obtain ⟨-, -, -, a4⟩ := dynamic_flash_buffer_alloc_cases (some p) n s hn0 hn1
    have hfit2 : (if n = 0 then FLASH_BUFFER_DEFAULT_SIZE else n) ≤ FLASH_BUFFER_MAX_SIZE := by
      unfold FLASH_BUFFER_DEFAULT_SIZE FLASH_BUFFER_MAX_SIZE at *
      split_ifs <;> omega
    obtain ⟨b1, b2, b3, b4, b5, -, b7⟩ := a4 p h0 hfit2 rfl
    have c : ¬ ((dynamic_flash_buffer_alloc (some p) n s).2.flash_buffer_system_initialized = 0 ∨
        (dynamic_flash_buffer_alloc (some p) n s).2.flash_buffer.in_use = 0) := by
      rw [b2, b3]
      rintro (c | c)
      · exact h0 c
      · exact absurd c (by decide)
    have e : dynamic_flash_buffer_get_size (dynamic_flash_buffer_alloc (some p) n s).2 =
        (if n = 0 then FLASH_BUFFER_DEFAULT_SIZE else n) := by
      unfold dynamic_flash_buffer_get_size
      rw [if_neg c, b5]
    refine ⟨b1, ?_, ?_, e, ?_⟩
    · unfold dynamic_flash_buffer_is_allocated
      rw [if_pos ⟨by rw [b2]; exact h0, by rw [b3]; decide⟩]
    · unfold dynamic_flash_buffer_get
      rw [if_neg c, b4]
    · intro off ho0 ho1
      rw [e] at ho1
      exact b7 off ho0 ho1
  · obtain ⟨-, a2, -, -⟩ := dynamic_flash_buffer_alloc_cases fresh n s hn0 hn1
    have hbig2 : (if n = 0 then FLASH_BUFFER_DEFAULT_SIZE else n) > FLASH_BUFFER_MAX_SIZE := by
      unfold FLASH_BUFFER_MAX_SIZE at hbig
      rw [if_neg (by omega)]
      exact hbig
    rw [a2 h0 hbig2]
  · obtain ⟨a1, -, -, -⟩ := dynamic_flash_buffer_alloc_cases fresh n s hn0 hn1
    rw [a1 h0]

/-- Witness of C32: on the initialised example system a request for 2048
elements is served with the block at 5000. -/
theorem dynamic_flash_buffer_alloc_sizes_witness :
    (dynamic_flash_buffer_alloc (some 5000) 2048
      (dynamic_flash_buffer_init (flash_start (fun _ _ => 7)))).1 = some 5000 ∧
    dynamic_flash_buffer_get_size (dynamic_flash_buffer_alloc (some 5000) 2048
      (dynamic_flash_buffer_init (flash_start (fun _ _ => 7)))).2 = 2048 :=
  have h := ((dynamic_flash_buffer_alloc_sizes
    (dynamic_flash_buffer_init (flash_start (fun _ _ => 7))) 2048 5000 (by decide)
    (by decide)).1 (by decide)).1 (by decide)
  ⟨h.1, h.2.2.2.1⟩

/-- C33: in every state reached from program start through
`dynamic_flash_buffer_init`, `_alloc`, `_free`, `_resize` and `_deinit` (and
writes of the caller into the heap): if the module holds no buffer, which is so
right after an initialisation, a free, a de-initialisation and an allocation
that returned `NULL`, then `is_allocated` is false, `get` returns `NULL`,
`get_size` is 0 and `get_allocated_bytes` is 0; if it holds the buffer `p` of `n`
elements, then `is_allocated` is true, `get` returns `p`, `get_size` is `n` with
`1 ≤ n ≤ FLASH_BUFFER_MAX_SIZE`, and `get_allocated_bytes` is `4 * get_size`. -/
theorem dynamic_flash_buffer_accessors (s : FlashState) (b : Option (Int × Int))
    (h : FlashReach s b) :
    (b = none →
      dynamic_flash_buffer_is_allocated s = 0 ∧ dynamic_flash_buffer_get s = none ∧
      dynamic_flash_buffer_get_size s = 0 ∧ dynamic_flash_buffer_get_allocated_bytes s = 0) ∧
    (∀ p n, b = some (p, n) →
      dynamic_flash_buffer_is_allocated s = 1 ∧ dynamic_flash_buffer_get s = some p ∧
      dynamic_flash_buffer_get_size s = n ∧ 1 ≤ dynamic_flash_buffer_get_size s ∧
      dynamic_flash_buffer_get_size s ≤ FLASH_BUFFER_MAX_SIZE ∧
      dynamic_flash_buffer_get_allocated_bytes s = 4 * dynamic_flash_buffer_get_size s) := by
  have hok := h.flash_ok
  refine ⟨fun hb => ?_, fun p n hb => ?_⟩
  · rw [hb] at hok
    have h0 : s.flash_buffer.in_use = 0 := hok
    unfold dynamic_flash_buffer_is_allocated dynamic_flash_buffer_get
      dynamic_flash_buffer_get_size dynamic_flash_buffer_get_allocated_bytes
    rw [if_neg (by rintro ⟨-, c⟩; exact c h0), if_pos (Or.inr h0), if_pos (Or.inr h0),
      if_pos (Or.inr h0)]
    exact ⟨rfl, rfl, rfl, rfl⟩
  · rw [hb] at hok
    obtain ⟨k1, k2, k3, k4, k5, k6, k7⟩ := hok
    have c0 : ¬ (s.flash_buffer_system_initialized = 0 ∨ s.flash_buffer.in_use = 0) := by
      rintro (c | c)
      · exact k1 c
      · exact k2 c
    unfold dynamic_flash_buffer_is_allocated dynamic_flash_buffer_get
      dynamic_flash_buffer_get_size dynamic_flash_buffer_get_allocated_bytes
    rw [if_pos ⟨k1, k2⟩, if_neg c0, if_neg c0, if_neg c0, k3, k4, k7]
    exact ⟨rfl, rfl, rfl, k5, k6, rfl⟩

theorem exFlash_reach : FlashReach exFlash (some (5000, 1024)) :=
  FlashReach.alloc_ok _ none (some 5000) 0 5000
    (FlashReach.init_first _ none (FlashReach.start _) rfl) (by decide) (by decide) rfl

/-- Witness of C33: in the example run the buffer of 1024 elements at 5000 is
reported with 4096 bytes. -/
theorem dynamic_flash_buffer_accessors_witness :
    dynamic_flash_buffer_is_allocated exFlash = 1 ∧
    dynamic_flash_buffer_get exFlash = some 5000 ∧
    dynamic_flash_buffer_get_size exFlash = 1024 ∧
    dynamic_flash_buffer_get_allocated_bytes exFlash = 4 * dynamic_flash_buffer_get_size exFlash :=
  have h := (dynamic_flash_buffer_accessors exFlash (some (5000, 1024)) exFlash_reach).2
    5000 1024 rfl
  ⟨h.1, h.2.1, h.2.2.1, h.2.2.2.2.2⟩

/-- Among the indices below `n` that satisfy `P` there is a first. -/
theorem exists_first_index (P : Int → Prop) (n : Int)
    (h : ∃ i, 0 ≤ i ∧ i < n ∧ P i) :
    ∃ p, 0 ≤ p ∧ p < n ∧ P p ∧ ∀ i, 0 ≤ i → i < p → ¬ P i := by
  classical
  have hex : ∃ m : Nat, (m : Int) < n ∧ P m := by
    obtain ⟨i, h0, h1, h2⟩ := h
    refine ⟨i.toNat, ?_, ?_⟩
    · omega
    · rw [Int.toNat_of_nonneg h0]
      exact h2
  refine ⟨(Nat.find hex : Nat), by omega, (Nat.find_spec hex).1, (Nat.find_spec hex).2, ?_⟩
  intro i hi0 hi1 hP
  have hm : i.toNat < Nat.find hex := by omega
  apply Nat.find_min hex hm
  rw [Int.toNat_of_nonneg hi0]
  have := (Nat.find_spec hex).1
  exact ⟨by omega, hP⟩

/-- The first loop of `net_optimize_init_lookup_table` sets the entries below
`n` to -1. -/
theorem net_optimize_init_clear_loop (t : Int → Int) :
    ∀ (n : Nat) (j : Int), 0 ≤ j → j < n →
      forUp 0 n net_optimize_init_clear t j = -1
  | 0, j, h0, h1 => by
    exfalso
    simp only [Nat.cast_zero] at h1
    omega
  | n + 1, j, h0, h1 => by
    rw [forUp_succ_last]
    unfold net_optimize_init_clear upd
    by_cases c : j = 0 + (n : Int)
    · rw [if_pos c]
    · rw [if_neg c]
      exact net_optimize_init_clear_loop t n j h0 (by push_cast at h1; omega)

/-- The second loop of `net_optimize_init_lookup_table`, after `n` inputs: the
entry of an operator is -1 if none of these inputs is labelled with it, and else
the index of the first that is. -/
theorem net_optimize_init_scan_loop (w : World) (t : Int → Int) (M : Int)
    (hM : M ≤ 65536) (ht : ∀ j, 0 ≤ j → j < M → t j = -1) :
    ∀ (n : Nat), (n : Int) ≤ 65535 →
      (∀ i : Int, 0 ≤ i → i < (n : Int) →
        0 ≤ (w.net.ins i).opIdx ∧ (w.net.ins i).opIdx < M) →
      ∀ op, 0 ≤ op → op < M →
        ((∀ i : Int, 0 ≤ i → i < (n : Int) → (w.net.ins i).opIdx ≠ op) →
          forUp 0 n (net_optimize_init_scan w) t op = -1) ∧
        (∀ p : Int, 0 ≤ p → p < (n : Int) → (w.net.ins p).opIdx = op →
          (∀ i : Int, 0 ≤ i → i < p → (w.net.ins i).opIdx ≠ op) →
          forUp 0 n (net_optimize_init_scan w) t op = s16 p)
  | 0, _, _, op, h0, h1 => by
    refine ⟨fun _ => ht op h0 h1, fun p hp0 hp1 _ _ => ?_⟩
    exfalso
    simp only [Nat.cast_zero] at hp1
    omega
  | n + 1, hn, hown, op, h0, h1 => by
    have ih := net_optimize_init_scan_loop w t M hM ht n (by push_cast at hn; omega)
      (fun i hi0 hi1 => hown i hi0 (by push_cast; omega))
    obtain ⟨k0, k1⟩ := hown n (by omega) (by push_cast; omega)
    have hu : u16 (w.net.ins n).opIdx = (w.net.ins n).opIdx := by
      unfold u16
      omega
    have hstep : ∀ j, forUp 0 (n + 1) (net_optimize_init_scan w) t j =
        if forUp 0 n (net_optimize_init_scan w) t (w.net.ins n).opIdx = -1 then
          (if j = (w.net.ins n).opIdx then s16 n
            else forUp 0 n (net_optimize_init_scan w) t j)
        else forUp 0 n (net_optimize_init_scan w) t j := by
      intro j
      rw [forUp_succ_last]
      unfold net_optimize_init_scan
      rw [zero_add]
      dsimp only
      rw [hu]
      split_ifs with c1 c2
      · unfold upd
        rw [if_pos c2]
      · unfold upd
        rw [if_neg c2]
      · rfl
    by_cases ck : (w.net.ins n).opIdx = op
    · refine ⟨fun hnone => absurd ck (hnone n (by omega) (by push_cast; omega)), ?_⟩
      intro p hp0 hp1 hp hfirst
      rw [hstep op, ck]
      by_cases cp : p = n
      · have hnone : ∀ i : Int, 0 ≤ i → i < (n : Int) → (w.net.ins i).opIdx ≠ op :=
          fun i hi0 hi1 => hfirst i hi0 (by omega)
        rw [if_pos ((ih op h0 h1).1 hnone), if_pos rfl, cp]
      · have hpn : p < n := by
          push_cast at hp1
          omega
        have e := (ih op h0 h1).2 p hp0 hpn hp hfirst
        have hne : s16 p ≠ -1 := by
          unfold s16
          omega
        rw [e, if_neg hne]
    · have hsame : forUp 0 (n + 1) (net_optimize_init_scan w) t op =
          forUp 0 n (net_optimize_init_scan w) t op := by
        rw [hstep op]
        split_ifs with c1 c2
        · exact absurd c2.symm ck
        · rfl
        · rfl
      rw [hsame]
      refine ⟨fun hnone => (ih op h0 h1).1 (fun i hi0 hi1 => hnone i hi0 (by push_cast; omega)),
        ?_⟩
      intro p hp0 hp1 hp hfirst
      have hpn : p < n := by
        by_cases cp : p = n
        · rw [cp] at hp
          exact absurd hp ck
        · push_cast at hp1
          omega
      exact (ih op h0 h1).2 p hp0 hpn hp hfirst

/-- C34: for a network whose live input nodes all carry an operator index in
`[0, NET_OPS_MAX)`, with the table built by `net_optimize_init_lookup_table` from
the current input list, `net_op_in_idx_optimized(op, in)` returns what the
reference linear search `net_op_in_idx_reference(op, in)` returns, for all 16-bit
`op` and `in`.  (`numIns` is a `u16` and the table has `NET_OPS_MAX` entries,
indexed by a `uint16_t`.) -/
theorem net_op_in_idx_optimized_eq_reference (E : Env) (w : World) (o : NetOpt)
    (op_idx in_idx : Int)
    (hM0 : 0 ≤ E.NET_OPS_MAX) (hM : E.NET_OPS_MAX ≤ 65535)
    (hn0 : 0 ≤ w.net.numIns) (hn1 : w.net.numIns ≤ 65535)
    (hown : ∀ i, 0 ≤ i → i < w.net.numIns →
      0 ≤ (w.net.ins i).opIdx ∧ (w.net.ins i).opIdx < E.NET_OPS_MAX)
    (hop0 : 0 ≤ op_idx) (hop1 : op_idx < 65536) :
    (net_op_in_idx_optimized E w op_idx in_idx (net_optimize_init_lookup_table E w o)).1 =
      net_op_in_idx_reference w op_idx in_idx := by
  have hu : u16 op_idx = op_idx := by
    unfold u16
    omega
  have hnn : ((w.net.numIns.toNat : Nat) : Int) = w.net.numIns := Int.toNat_of_nonneg hn0
  have hMM : ((E.NET_OPS_MAX.toNat : Nat) : Int) = E.NET_OPS_MAX := Int.toNat_of_nonneg hM0
  have hflag : ¬ (net_optimize_init_lookup_table E w o).lookup_table_initialized = 0 := by
    show ¬ ((1 : Int) = 0)
    decide
  unfold net_op_in_idx_optimized net_op_in_idx_reference
  rw [if_neg hflag, hu]
  dsimp only
  by_cases cbig : op_idx ≥ E.NET_OPS_MAX
  · rw [if_pos cbig]
    symm
    apply net_op_in_idx_loop_none
    intro i hi0 hi1
    have := hown i (by omega) (by omega)
    omega
  rw [if_neg cbig]
  have hscan := net_optimize_init_scan_loop w
    (forUp 0 E.NET_OPS_MAX.toNat net_optimize_init_clear o.op_first_input_idx) E.NET_OPS_MAX
    (by omega)
    (fun j hj0 hj1 => net_optimize_init_clear_loop _ _ j hj0 (by omega))
    w.net.numIns.toNat (by omega) (fun i hi0 hi1 => hown i hi0 (by omega)) op_idx hop0 (by omega)
  have htab : (net_optimize_init_lookup_table E w o).op_first_input_idx op_idx =
      forUp 0 w.net.numIns.toNat (net_optimize_init_scan w)
        (forUp 0 E.NET_OPS_MAX.toNat net_optimize_init_clear o.op_first_input_idx) op_idx := rfl
  rw [htab]
  by_cases hex : ∃ i, 0 ≤ i ∧ i < w.net.numIns ∧ (w.net.ins i).opIdx = op_idx
  · obtain ⟨p, hp0, hp1, hp, hfirst⟩ := exists_first_index _ _ hex
    rw [hscan.2 p hp0 (by omega) hp hfirst]
    have hne : s16 p ≠ -1 := by
      unfold s16
      omega
    rw [if_neg hne,
      net_op_in_idx_loop_found w op_idx (u16 in_idx) p _ 0 hp0 (by omega)
        (fun i hi0 hi1 => hfirst i hi0 hi1) hp]
    unfold s16 u16
    omega
  · have hnone : ∀ i, 0 ≤ i → i < w.net.numIns → (w.net.ins i).opIdx ≠ op_idx :=
      fun i hi0 hi1 hc => hex ⟨i, hi0, hi1, hc⟩
    rw [hscan.1 (fun i hi0 hi1 => hnone i hi0 (by omega)), if_pos rfl]
    symm
    apply net_op_in_idx_loop_none
    intro i hi0 hi1
    exact hnone i (by omega) (by omega)

set_option maxRecDepth 100000 in
theorem exTwo_numIns : exTwo.net.numIns = 3 := by
  decide!

set_option maxRecDepth 100000 in
theorem exTwo_owners : ∀ i, 0 ≤ i → i < exTwo.net.numIns →
    0 ≤ (exTwo.net.ins i).opIdx ∧ (exTwo.net.ins i).opIdx < exEnv.NET_OPS_MAX := by
  intro i h0 h1
  rw [exTwo_numIns] at h1
  interval_cases i <;> decide!

set_option maxRecDepth 100000 in
theorem exTwo_reference : net_op_in_idx_reference exTwo 1 1 = 2 := by
  decide!

/-- Witness of C34: in the example network of a Split and an Add, the second
input of the Add (operator 1) is input 2 for both functions. -/
theorem net_op_in_idx_optimized_eq_reference_witness :
    (net_op_in_idx_optimized exEnv exTwo 1 1
      (net_optimize_init_lookup_table exEnv exTwo ⟨fun _ => 0, 0⟩)).1 = 2 :=
  (net_op_in_idx_optimized_eq_reference exEnv exTwo ⟨fun _ => 0, 0⟩ 1 1 (by decide) (by decide)
    (by rw [exTwo_numIns]; decide) (by rw [exTwo_numIns]; decide) exTwo_owners
    (by decide) (by decide)).trans exTwo_reference

/-! ### Node indices on grouped networks -/

theorem sumFrom_succ_last (f : Int → Int) :
    ∀ (n : Nat) (lo : Int), sumFrom f (n + 1) lo = sumFrom f n lo + f (lo + n)
  | 0, lo => by simp [sumFrom]
  | n + 1, lo => by
    rw [sumFrom, sumFrom_succ_last f n (lo + 1), sumFrom]
    push_cast
    ring_nf

theorem sumFrom_mono (f : Int → Int) (N : Int) (hf : ∀ k, 0 ≤ k → k < N → 0 ≤ f k) :
    ∀ (b a : Nat), a ≤ b → (b : Int) ≤ N → sumFrom f a 0 ≤ sumFrom f b 0
  | 0, a, h, _ => by
    have : a = 0 := by omega
    rw [this]
  | b + 1, a, h, hb => by
    by_cases c : a = b + 1
    · rw [c]
    · have ih := sumFrom_mono f N hf b a (by omega) (by push_cast at hb; omega)
      rw [sumFrom_succ_last, zero_add]
      have := hf b (by omega) (by push_cast at hb; omega)
      omega

theorem sumFrom_nonneg (f : Int → Int) (N : Int) (hf : ∀ k, 0 ≤ k → k < N → 0 ≤ f k)
    (a : Nat) (ha : (a : Int) ≤ N) : 0 ≤ sumFrom f a 0 :=
  sumFrom_mono f N hf a 0 (by omega) ha

/-- In a grouped list every node below the nodes of operator `m` belongs to an
operator below `m` that has nodes. -/
theorem grouped_owner (f own : Int → Int) (N : Int)
    (hf : ∀ k, 0 ≤ k → k < N → 0 ≤ f k)
    (hg : ∀ k j, 0 ≤ k → k < N → 0 ≤ j → j < f k → own (sumFrom f k.toNat 0 + j) = k) :
    ∀ (m : Nat), (m : Int) ≤ N → ∀ i, 0 ≤ i → i < sumFrom f m 0 →
      ∃ k, 0 ≤ k ∧ k < (m : Int) ∧ 1 ≤ f k ∧ own i = k
  | 0, _, i, h0, h1 => by
    exfalso
    rw [sumFrom] at h1
    omega
  | m + 1, hm, i, h0, h1 => by
    by_cases c : i < sumFrom f m 0
    · obtain ⟨k, k0, k1, k2, k3⟩ :=
        grouped_owner f own N hf hg m (by push_cast at hm; omega) i h0 c
      exact ⟨k, k0, by push_cast; omega, k2, k3⟩
    · rw [sumFrom_succ_last, zero_add] at h1
      have e := hg m (i - sumFrom f m 0) (by omega) (by push_cast at hm; omega) (by omega)
        (by omega)
      rw [Int.toNat_ofNat] at e
      have e2 : sumFrom f m 0 + (i - sumFrom f m 0) = i := by ring
      rw [e2] at e
      exact ⟨m, by omega, by push_cast; omega, by omega, e⟩

/-- In a grouped list the first node of an operator with nodes comes right
after the nodes of the operators below it, and an operator without nodes labels
no node. -/
theorem grouped_first (f own : Int → Int) (N : Int) (hN : 0 ≤ N)
    (hf : ∀ k, 0 ≤ k → k < N → 0 ≤ f k)
    (hg : ∀ k j, 0 ≤ k → k < N → 0 ≤ j → j < f k → own (sumFrom f k.toNat 0 + j) = k)
    (op : Int) (h0 : 0 ≤ op) (h1 : op < N) :
    (1 ≤ f op →
      own (sumFrom f op.toNat 0) = op ∧ 0 ≤ sumFrom f op.toNat 0 ∧
      sumFrom f op.toNat 0 + f op ≤ sumFrom f N.toNat 0 ∧
      ∀ i, 0 ≤ i → i < sumFrom f op.toNat 0 → own i ≠ op) ∧
    (f op = 0 → ∀ i, 0 ≤ i → i < sumFrom f N.toNat 0 → own i ≠ op) := by
  have hopn : ((op.toNat : Nat) : Int) = op := Int.toNat_of_nonneg h0
  have hNn : ((N.toNat : Nat) : Int) = N := Int.toNat_of_nonneg hN
  refine ⟨fun hpos => ⟨?_, ?_, ?_, ?_⟩, fun hzero i hi0 hi1 => ?_⟩
  · have := hg op 0 h0 h1 le_rfl (by omega)
    rw [add_zero] at this
    exact this
  · exact sumFrom_nonneg f N hf op.toNat (by omega)
  · have h2 := sumFrom_mono f N hf N.toNat (op.toNat + 1) (by omega) (by omega)
    rw [sumFrom_succ_last, zero_add, hopn] at h2
    omega
  · intro i hi0 hi1
    obtain ⟨k, -, k1, -, k3⟩ := grouped_owner f own N hf hg op.toNat (by omega) i hi0 hi1
    rw [k3]
    omega
  · obtain ⟨k, -, -, k2, k3⟩ := grouped_owner f own N hf hg N.toNat (by omega) i hi0 hi1
    rw [k3]
    intro c
    rw [c] at k2
    omega

/-- C35: on a well-formed network, whose input nodes and output nodes are
grouped in operator order, `net_op_in_idx(op, in)` (arguments and result `u16`)
returns, when operator `op` has at least one input, the sum of the input counts
of all operators below `op` plus `in`: as a `u16` in general, and exactly this
sum whenever it is below 65536, in particular for every input `in` of the
operator; it returns 0, whatever `in` is, when operator `op` has no inputs; and
`net_op_out_idx` does the same over the output nodes. -/
theorem net_op_idx_grouped (w : World) (op idx : Int)
    (hins : InsGrouped w) (houts : OutsGrouped w)
    (hI : w.net.numIns < 65536) (hO : w.net.numOuts < 65536)
    (hop0 : 0 ≤ op) (hop1 : op < w.net.numOps) (hops : w.net.numOps ≤ 65536)
    (hidx0 : 0 ≤ idx) (hidx1 : idx < 65536) :
    ((1 ≤ (w.net.ops op).numInputs →
        net_op_in_idx op idx w =
          u16 (sumFrom (fun k => (w.net.ops k).numInputs) op.toNat 0 + idx) ∧
        (sumFrom (fun k => (w.net.ops k).numInputs) op.toNat 0 + idx < 65536 →
          net_op_in_idx op idx w =
            sumFrom (fun k => (w.net.ops k).numInputs) op.toNat 0 + idx) ∧
        (idx < (w.net.ops op).numInputs →
          net_op_in_idx op idx w =
            sumFrom (fun k => (w.net.ops k).numInputs) op.toNat 0 + idx)) ∧
      ((w.net.ops op).numInputs = 0 → net_op_in_idx op idx w = 0)) ∧
    ((1 ≤ (w.net.ops op).numOutputs →
        net_op_out_idx op idx w =
          u16 (sumFrom (fun k => (w.net.ops k).numOutputs) op.toNat 0 + idx) ∧
        (sumFrom (fun k => (w.net.ops k).numOutputs) op.toNat 0 + idx < 65536 →
          net_op_out_idx op idx w =
            sumFrom (fun k => (w.net.ops k).numOutputs) op.toNat 0 + idx) ∧
        (idx < (w.net.ops op).numOutputs →
          net_op_out_idx op idx w =
            sumFrom (fun k => (w.net.ops k).numOutputs) op.toNat 0 + idx)) ∧
      ((w.net.ops op).numOutputs = 0 → net_op_out_idx op idx w = 0)) := by
  have hu : u16 op = op := u16_of_range hop0 (by omega)
  have hv : u16 idx = idx := u16_of_range hidx0 hidx1
  have hN : 0 ≤ w.net.numOps := by omega
  refine ⟨?_, ?_⟩
  · obtain ⟨hf, hsum, hg⟩ := hins
    obtain ⟨g1, g2⟩ := grouped_first (fun k => (w.net.ops k).numInputs)
      (fun i => (w.net.ins i).opIdx) w.net.numOps hN hf hg op hop0 hop1
    refine ⟨fun hpos => ?_, fun hzero => ?_⟩
    · obtain ⟨a1, a2, a3, a4⟩ := g1 hpos
      rw [← hsum] at a3
      have a5 : sumFrom (fun k => (w.net.ops k).numInputs) op.toNat 0 +
          (w.net.ops op).numInputs ≤ w.net.numIns := a3
      have e : net_op_in_idx op idx w =
          u16 (sumFrom (fun k => (w.net.ops k).numInputs) op.toNat 0 + idx) := by
        unfold net_op_in_idx
        rw [hu, hv]
        exact net_op_in_idx_loop_found w op idx _ _ 0 a2 (by omega) a4 a1
      refine ⟨e, fun hfit => ?_, fun hfit => ?_⟩
      · rw [e]
        exact u16_of_range (by omega) hfit
      · rw [e]
        exact u16_of_range (by omega) (by omega)
    · unfold net_op_in_idx
      rw [hu, hv]
      apply net_op_in_idx_loop_none
      intro i hi0 hi1
      exact g2 hzero i (by omega) (by rw [← hsum]; omega)
  · obtain ⟨hf, hsum, hg⟩ := houts
    obtain ⟨g1, g2⟩ := grouped_first (fun k => (w.net.ops k).numOutputs)
      (fun i => (w.net.outs i).opIdx) w.net.numOps hN hf hg op hop0 hop1
    refine ⟨fun hpos => ?_, fun hzero => ?_⟩
    · obtain ⟨a1, a2, a3, a4⟩ := g1 hpos
      rw [← hsum] at a3
      have a5 : sumFrom (fun k => (w.net.ops k).numOutputs) op.toNat 0 +
          (w.net.ops op).numOutputs ≤ w.net.numOuts := a3
      have e : net_op_out_idx op idx w =
          u16 (sumFrom (fun k => (w.net.ops k).numOutputs) op.toNat 0 + idx) := by
        unfold net_op_out_idx
        rw [hu, hv]
        exact net_op_out_idx_loop_found w op idx _ _ 0 a2 (by omega) a4 a1
      refine ⟨e, fun hfit => ?_, fun hfit => ?_⟩
      · rw [e]
        exact u16_of_range (by omega) hfit
      · rw [e]
        exact u16_of_range (by omega) (by omega)
    · unfold net_op_out_idx
      rw [hu, hv]
      apply net_op_out_idx_loop_none
      intro i hi0 hi1
      exact g2 hzero i (by omega) (by rw [← hsum]; omega)

set_option maxRecDepth 100000 in
theorem exTwo_node_counts :
    (exTwo.net.ops 0).numInputs = 1 ∧ (exTwo.net.ops 1).numInputs = 2 ∧
    (exTwo.net.ops 0).numOutputs = 2 ∧ (exTwo.net.ops 1).numOutputs = 1 := by
  decide!

set_option maxRecDepth 100000 in
theorem exTwo_ins_grouped : InsGrouped exTwo := by
  refine ⟨?_, by decide!, ?_⟩
  · intro k h0 h1
    rw [exTwo_numOps] at h1
    interval_cases k <;> decide!
  · intro k j h0 h1 h2 h3
    rw [exTwo_numOps] at h1
    interval_cases k
    · rw [exTwo_node_counts.1] at h3
      interval_cases j
      decide!
    · rw [exTwo_node_counts.2.1] at h3
      interval_cases j <;> decide!

set_option maxRecDepth 100000 in
theorem exTwo_outs_grouped : OutsGrouped exTwo := by
  refine ⟨?_, by decide!, ?_⟩
  · intro k h0 h1
    rw [exTwo_numOps] at h1
    interval_cases k <;> decide!
  · intro k j h0 h1 h2 h3
    rw [exTwo_numOps] at h1
    interval_cases k
    · rw [exTwo_node_counts.2.2.1] at h3
      interval_cases j <;> decide!
    · rw [exTwo_node_counts.2.2.2] at h3
      interval_cases j
      decide!

set_option maxRecDepth 100000 in
theorem exTwo_sums :
    sumFrom (fun k => (exTwo.net.ops k).numInputs) (1 : Int).toNat 0 + 1 = 2 ∧
    sumFrom (fun k => (exTwo.net.ops k).numOutputs) (1 : Int).toNat 0 + 0 = 2 := by
  decide!

/-- Witness of C35: in the example network of a Split (one input, two outputs)
and an Add (two inputs, one output), the second input of the Add is input 2 and
its output is output 2. -/
theorem net_op_idx_grouped_witness :
    net_op_in_idx 1 1 exTwo = 2 ∧ net_op_out_idx 1 0 exTwo = 2 :=
  have h := net_op_idx_grouped exTwo 1 1 exTwo_ins_grouped exTwo_outs_grouped
    (by rw [exTwo_numIns]; decide) (by rw [exTwo_numOuts]; decide) (by decide)
    (by rw [exTwo_numOps]; decide) (by rw [exTwo_numOps]; decide) (by decide) (by decide)
  have g := net_op_idx_grouped exTwo 1 0 exTwo_ins_grouped exTwo_outs_grouped
    (by rw [exTwo_numIns]; decide) (by rw [exTwo_numOuts]; decide) (by decide)
    (by rw [exTwo_numOps]; decide) (by rw [exTwo_numOps]; decide) (by decide) (by decide)
  ⟨((h.1.1 (by rw [exTwo_node_counts.2.1]; decide)).2.2
      (by rw [exTwo_node_counts.2.1]; decide)).trans exTwo_sums.1,
    ((g.2.1 (le_of_eq exTwo_node_counts.2.2.2.symm)).2.2
      (by rw [exTwo_node_counts.2.2.2]; decide)).trans exTwo_sums.2⟩

/-! ### Stale output slots -/

/-- C38: `net_gather` reports an output slot above `numOuts` after
`net_remove_op`.  In `exLastWired`, built from the initialised network by two
`net_add_op` and a `net_connect`, output 22, the last one, targets input 0 and no
other output does.  Removing operator 12 moves that output down to slot 21 and
lowers `numOuts` to 22, but slot 22 keeps its contents.  Afterwards one live
output targets input 0 and `net_in_connected` says so, while `net_gather` counts
2 and reports the slots 21 and 22. -/
theorem net_gather_reports_stale_slot :
    (net_add_op exEnv 2 exInit).1 = 12 ∧
    (net_add_op exEnv eOpSplit (net_add_op exEnv 2 exInit).2).1 = 13 ∧
    exLastWired.net.numOuts = 23 ∧
    (net_gather exEnv 0 (fun _ => 0) exLastWired).1 = 1 ∧
    (net_gather exEnv 0 (fun _ => 0) exLastWired).2 0 = 22 ∧
    (net_remove_op exEnv 12 exLastWired).1 = 0 ∧
    exStale.net.numOuts = 22 ∧
    (List.range 22).filter (fun j => decide ((exStale.net.outs j).target = 0)) = [21] ∧
    net_in_connected 0 exStale = 1 ∧
    (net_gather exEnv 0 (fun _ => 0) exStale).1 = 2 ∧
    (net_gather exEnv 0 (fun _ => 0) exStale).2 0 = 21 ∧
    (net_gather exEnv 0 (fun _ => 0) exStale).2 1 = 22 := by
  decide!

end Bees
